import Mathlib

/-!
# SFF sprite container decoder (`src/main.cpp`)

A shallow embedding of the `SffFile` loader and of its pixel codecs, followed by
theorems about them.

Conventions of the embedding.

* A byte buffer (a file, a compressed block, a pixel buffer) is a `List Nat`
  whose elements are byte values.
* `uint16_t`/`uint32_t` values are `Nat` with an explicit `% 2^16`, `% 2^32`
  where the source can wrap; `int`/`int16_t` values are `Int`.
* `long` is taken to be 64 bits wide and `char` to be signed, as on the
  x86-64 targets the program is built for; every file offset handed to
  `fseek` is then a non-negative number, except one that is guarded at its
  call site (`ReadSpriteDataV1`).
* Memory allocation succeeds.
* A call ends in one of `Res.ok` (normal return of a value), or in a `Fault`:
  `fail` (the function returned `false`/`nullptr`), `thrown` (a C++ exception
  left the function), `undefined` (signed `int` overflow), `hang` (a loop
  that never exits).
* raylib and lodepng are not part of the repository.  The GPU is a store of
  the buffers uploaded by `rlLoadTexture`; the PNG codec is a parameter.
* A definition whose name ends in `T` (`rle8LoopT`, `Lz5DecodeT`, ...) is the
  function of the same name with a ghost record (`Access`) of the indices at
  which it reads `srcPx` and writes `dstPx`; the `_erase` theorems show that it
  computes the same result.
-/

namespace Sff

/-! ## Outcomes -/

/-- Ways in which a call does not deliver its normal result. -/
inductive Fault where
  | fail
  | thrown
  | undefined
  | hang
  deriving DecidableEq

/-- Outcome of a call: a value, or a fault. -/
inductive Res (α : Type) where
  | ok (a : α)
  | err (e : Fault)
  deriving DecidableEq

/-! ## Data model -/

/-- The raylib texture handle: `id` names the GPU resource. -/
structure Texture2D where
  id : Nat
  width : Nat
  height : Nat
  mipmaps : Nat
  format : Nat
  deriving DecidableEq

/-- Zero handle, the value of `Texture2D t = {0}`. -/
def Texture2D.zero : Texture2D := ⟨0, 0, 0, 0, 0⟩

/-- Class `SffHeader`. -/
structure SffHeader where
  Ver3 : Nat
  Ver2 : Nat
  Ver1 : Nat
  Ver0 : Nat
  FirstSpriteHeaderOffset : Nat
  FirstPaletteHeaderOffset : Nat
  NumberOfSprites : Nat
  NumberOfPalettes : Nat
  deriving DecidableEq

/-- Constructor `SffHeader()`. -/
def SffHeader.init : SffHeader := ⟨0, 0, 0, 0, 0, 0, 0, 0⟩

/-- Class `Sprite`; `Size0`, `Size1` are `Size[0]`, `Size[1]`, likewise `Offset`. -/
structure Sprite where
  Group : Nat
  Number : Nat
  Size0 : Nat
  Size1 : Nat
  Offset0 : Int
  Offset1 : Int
  palidx : Int
  rle : Int
  coldepth : Nat
  texture : Texture2D
  deriving DecidableEq

/-- Constructor `Sprite()`. -/
def Sprite.init : Sprite := ⟨0, 0, 0, 0, 0, 0, 0, 0, 0, Texture2D.zero⟩

/-- Method `Sprite::CopyFrom`: field by field, the texture handle included. -/
def Sprite.CopyFrom (_self other : Sprite) : Sprite :=
  { Group := other.Group
    Number := other.Number
    Size0 := other.Size0
    Size1 := other.Size1
    Offset0 := other.Offset0
    Offset1 := other.Offset1
    palidx := other.palidx
    rle := other.rle
    coldepth := other.coldepth
    texture := other.texture }

/-- Method `Sprite::IsPaletted`. -/
def Sprite.IsPaletted (s : Sprite) : Bool :=
  s.rle == -1 || s.rle == -2 || s.rle == -3 || s.rle == -4 || s.rle == -10

/-- Method `Sprite::IsRGBA`. -/
def Sprite.IsRGBA (s : Sprite) : Bool :=
  s.rle == -11 || s.rle == -12

/-- Class `Palette`. -/
structure Palette where
  texture : Texture2D
  deriving DecidableEq

/-- Class `SffFile` (the container); the two usage maps are association lists. -/
structure SffFile where
  header_ : SffHeader
  sprites_ : List Sprite
  palettes_ : List Palette
  palette_usage_ : List (Int × Nat)
  compression_format_usage_ : List (Int × Nat)
  numLinkedSprites_ : Nat
  deriving DecidableEq

/-- Constructor `SffFile()`: the empty container. -/
def SffFile.init : SffFile := ⟨SffHeader.init, [], [], [], [], 0⟩

/-- The statement `m[k]++` on a `std::map<int, int>`. -/
def mapIncr : List (Int × Nat) → Int → List (Int × Nat)
  | [], k => [(k, 1)]
  | (k', v) :: m, k => if k' = k then (k', v + 1) :: m else (k', v) :: mapIncr m k

/-! ## The GPU store (raylib, external) -/

/-- What one `rlLoadTexture` call handed over. -/
structure Upload where
  data : List Nat
  width : Nat
  height : Nat
  format : Nat
  mipmaps : Nat
  deriving DecidableEq

/-- GPU store: slot `k` holds the upload named by texture id `k + 1`, or
nothing once it has been released. -/
structure Gpu where
  slots : List (Option Upload)
  deriving DecidableEq

/-- The store with no texture. -/
def Gpu.empty : Gpu := ⟨[]⟩

/-- The upload a texture id names, if it is live. -/
def Gpu.lookup (g : Gpu) (id : Nat) : Option Upload :=
  if id = 0 then none else (g.slots.getD (id - 1) none)

/-- Enum value `PIXELFORMAT_UNCOMPRESSED_GRAYSCALE` of raylib. -/
def PIXELFORMAT_UNCOMPRESSED_GRAYSCALE : Nat := 1

/-- Enum value `PIXELFORMAT_UNCOMPRESSED_R8G8B8A8` of raylib. -/
def PIXELFORMAT_UNCOMPRESSED_R8G8B8A8 : Nat := 7

/-- Call `rlLoadTexture(data, width, height, format, mipmaps)`: records the
upload under a fresh id and returns the id. -/
def rlLoadTexture (g : Gpu) (data : List Nat) (width height format mipmaps : Nat) : Gpu × Nat :=
  (⟨g.slots ++ [some ⟨data, width, height, format, mipmaps⟩]⟩, g.slots.length + 1)

/-- Call `UnloadTexture(texture)`: releases the resource named by a non-zero id. -/
def UnloadTexture (g : Gpu) (t : Texture2D) : Gpu :=
  if t.id > 0 then ⟨g.slots.set (t.id - 1) none⟩ else g

/-! ## The byte stream -/

/-- A `FILE*` opened for reading: the bytes of the file and the position. -/
structure FILE where
  data : List Nat
  pos : Nat
  deriving DecidableEq

/-- Call `fopen(name, "rb")` on an existing file with these bytes. -/
def fopen (data : List Nat) : FILE := ⟨data, 0⟩

/-- Call `fseek(file, off, SEEK_SET)` with a non-negative offset. -/
def fseek (f : FILE) (off : Nat) : FILE := { f with pos := off }

/-- A read of exactly `n` bytes at the position: the bytes and the advanced
stream, or `none` when fewer than `n` bytes remain. -/
def readBytes (f : FILE) (n : Nat) : Option (List Nat × FILE) :=
  let bs := (f.data.drop f.pos).take n
  if bs.length = n then some (bs, { f with pos := f.pos + n }) else none

/-- Test `fread(buf, size, 1, file) == 1`: one item of `size` bytes; an item of
size 0 is never counted as read. -/
def fread1 (f : FILE) (size : Nat) : Option (List Nat × FILE) :=
  if size = 0 then none else readBytes f size

/-- Test `fread(buf, size, count, file) == count` for `size`, `count` not 0. -/
def freadN (f : FILE) (size count : Nat) : Option (List Nat × FILE) :=
  readBytes f (size * count)

/-- Little-endian value of two bytes, `(bytes[1] << 8) | bytes[0]`. -/
def le16 (bs : List Nat) : Nat :=
  ((bs.getD 1 0 <<< 8) ||| bs.getD 0 0) % 2 ^ 16

/-- Little-endian value of four bytes,
`(bytes[3] << 24) | (bytes[2] << 16) | (bytes[1] << 8) | bytes[0]`. -/
def le32 (bs : List Nat) : Nat :=
  ((bs.getD 3 0 <<< 24) ||| (bs.getD 2 0 <<< 16) ||| (bs.getD 1 0 <<< 8) ||| bs.getD 0 0) % 2 ^ 32

/-- Reinterpretation of a `uint8_t` as `char` (signed). -/
def toI8 (v : Nat) : Int := if v % 256 < 128 then (v % 256 : Nat) else ((v % 256 : Nat) : Int) - 256

/-- Reinterpretation of a `uint16_t` as `int16_t`. -/
def toI16 (v : Nat) : Int :=
  if v % 65536 < 32768 then (v % 65536 : Nat) else ((v % 65536 : Nat) : Int) - 65536

/-- Reinterpretation of a `uint32_t` as `int32_t`. -/
def toI32 (v : Nat) : Int :=
  if v % 2 ^ 32 < 2 ^ 31 then (v % 2 ^ 32 : Nat) else ((v % 2 ^ 32 : Nat) : Int) - 2 ^ 32

/-- Helper `ReadU16LE`; `none` stands for the `std::runtime_error` it throws. -/
def ReadU16LE (f : FILE) : Option (Nat × FILE) :=
  match readBytes f 2 with
  | none => none
  | some (bs, f) => some (le16 bs, f)

/-- Helper `ReadI16LE`. -/
def ReadI16LE (f : FILE) : Option (Int × FILE) :=
  match ReadU16LE f with
  | none => none
  | some (v, f) => some (toI16 v, f)

/-- Helper `ReadU32LE`; `none` stands for the `std::runtime_error` it throws. -/
def ReadU32LE (f : FILE) : Option (Nat × FILE) :=
  match readBytes f 4 with
  | none => none
  | some (bs, f) => some (le32 bs, f)

/-- Helper `ReadI32LE`. -/
def ReadI32LE (f : FILE) : Option (Int × FILE) :=
  match ReadU32LE f with
  | none => none
  | some (v, f) => some (toI32 v, f)

/-- A `fread` of one byte into a `uint8_t`. -/
def readU8 (f : FILE) : Option (Nat × FILE) :=
  match fread1 f 1 with
  | none => none
  | some (bs, f) => some (bs.getD 0 0, f)

/-- A `fread` of one `uint32_t` (the host is little-endian). -/
def readU32 (f : FILE) : Option (Nat × FILE) :=
  match fread1 f 4 with
  | none => none
  | some (bs, f) => some (le32 bs, f)

/-- The 12 bytes of the string `"ElecbyteSpr"` and its terminating NUL. -/
def sffMagic : List Nat := [69, 108, 101, 99, 98, 121, 116, 101, 83, 112, 114, 0]

/-! ## Header -/

/-- Method `SffFile::ReadHeader`.  Gives the header as the call leaves it and,
when the call returns `true`, `lofs`, `tofs` and the advanced stream. -/
def ReadHeader (h : SffHeader) (f : FILE) : SffHeader × Option (Nat × Nat × FILE) :=
  match fread1 f 12 with
  | none => (h, none)
  | some (headerCheck, f) =>
  if headerCheck ≠ sffMagic then (h, none) else
  match readU8 f with
  | none => (h, none)
  | some (v3, f) =>
  let h := { h with Ver3 := v3 }
  match readU8 f with
  | none => (h, none)
  | some (v2, f) =>
  let h := { h with Ver2 := v2 }
  match readU8 f with
  | none => (h, none)
  | some (v1, f) =>
  let h := { h with Ver1 := v1 }
  match readU8 f with
  | none => (h, none)
  | some (v0, f) =>
  let h := { h with Ver0 := v0 }
  match readU32 f with
  | none => (h, none)
  | some (_, f) =>
  if h.Ver0 = 2 then
    match readU32 f with
    | none => (h, none)
    | some (_, f) =>
    match readU32 f with
    | none => (h, none)
    | some (_, f) =>
    match readU32 f with
    | none => (h, none)
    | some (_, f) =>
    match readU32 f with
    | none => (h, none)
    | some (_, f) =>
    match readU32 f with
    | none => (h, none)
    | some (fso, f) =>
    let h := { h with FirstSpriteHeaderOffset := fso }
    match readU32 f with
    | none => (h, none)
    | some (ns, f) =>
    let h := { h with NumberOfSprites := ns }
    match readU32 f with
    | none => (h, none)
    | some (fpo, f) =>
    let h := { h with FirstPaletteHeaderOffset := fpo }
    match readU32 f with
    | none => (h, none)
    | some (np, f) =>
    let h := { h with NumberOfPalettes := np }
    match readU32 f with
    | none => (h, none)
    | some (lofs, f) =>
    match readU32 f with
    | none => (h, none)
    | some (_, f) =>
    match readU32 f with
    | none => (h, none)
    | some (tofs, f) => (h, some (lofs, tofs, f))
  else if h.Ver0 = 1 then
    match readU32 f with
    | none => (h, none)
    | some (ns, f) =>
    let h := { h with NumberOfSprites := ns }
    match readU32 f with
    | none => (h, none)
    | some (fso, f) =>
    let h := { h with FirstSpriteHeaderOffset := fso }
    let h := { h with FirstPaletteHeaderOffset := 0, NumberOfPalettes := 0 }
    (h, some (0, 0, f))
  else (h, none)

/-! ## Sprite directory entries -/

/-- Method `SffFile::ReadSpriteHeaderV1`.  Gives the sprite as the call leaves
it and, on normal return, `ofs`, `size`, `link` and the advanced stream; the
fault is the exception of a truncated read. -/
def ReadSpriteHeaderV1 (sprite : Sprite) (f : FILE) : Sprite × Res (Nat × Nat × Nat × FILE) :=
  match ReadU32LE f with
  | none => (sprite, .err .thrown)
  | some (ofs, f) =>
  match ReadU32LE f with
  | none => (sprite, .err .thrown)
  | some (size, f) =>
  match ReadI16LE f with
  | none => (sprite, .err .thrown)
  | some (x, f) =>
  let sprite := { sprite with Offset0 := x }
  match ReadI16LE f with
  | none => (sprite, .err .thrown)
  | some (y, f) =>
  let sprite := { sprite with Offset1 := y }
  match ReadU16LE f with
  | none => (sprite, .err .thrown)
  | some (g, f) =>
  let sprite := { sprite with Group := g }
  match ReadU16LE f with
  | none => (sprite, .err .thrown)
  | some (n, f) =>
  let sprite := { sprite with Number := n }
  match ReadU16LE f with
  | none => (sprite, .err .thrown)
  | some (link, f) =>
  let sprite := { sprite with rle := -1, coldepth := 8, palidx := 0 }
  (sprite, .ok (ofs, size, link, f))

/-- Method `SffFile::ReadSpriteHeaderV2`.  Gives the sprite as the call leaves
it and, on normal return, `ofs` (resolved), `size`, `link` and the advanced
stream. -/
def ReadSpriteHeaderV2 (sprite : Sprite) (f : FILE) (lofs tofs : Nat) :
    Sprite × Res (Nat × Nat × Nat × FILE) :=
  match ReadU16LE f with
  | none => (sprite, .err .thrown)
  | some (g, f) =>
  let sprite := { sprite with Group := g }
  match ReadU16LE f with
  | none => (sprite, .err .thrown)
  | some (n, f) =>
  let sprite := { sprite with Number := n }
  match ReadU16LE f with
  | none => (sprite, .err .thrown)
  | some (w, f) =>
  let sprite := { sprite with Size0 := w }
  match ReadU16LE f with
  | none => (sprite, .err .thrown)
  | some (ht, f) =>
  let sprite := { sprite with Size1 := ht }
  match ReadI16LE f with
  | none => (sprite, .err .thrown)
  | some (x, f) =>
  let sprite := { sprite with Offset0 := x }
  match ReadI16LE f with
  | none => (sprite, .err .thrown)
  | some (y, f) =>
  let sprite := { sprite with Offset1 := y }
  match ReadU16LE f with
  | none => (sprite, .err .thrown)
  | some (link, f) =>
  match readU8 f with
  | none => (sprite, .err .fail)
  | some (format, f) =>
  let sprite := { sprite with rle := -(toI8 format) }
  match readU8 f with
  | none => (sprite, .err .fail)
  | some (cd, f) =>
  let sprite := { sprite with coldepth := cd }
  match ReadU32LE f with
  | none => (sprite, .err .thrown)
  | some (ofs, f) =>
  match ReadU32LE f with
  | none => (sprite, .err .thrown)
  | some (size, f) =>
  match ReadU16LE f with
  | none => (sprite, .err .thrown)
  | some (tmp, f) =>
  let sprite := { sprite with palidx := (tmp : Int) }
  match ReadU16LE f with
  | none => (sprite, .err .thrown)
  | some (tmp, f) =>
  let ofs := if tmp &&& 1 = 0 then (ofs + lofs) % 2 ^ 32 else (ofs + tofs) % 2 ^ 32
  (sprite, .ok (ofs, size, link, f))

/-- Method `SffFile::ReadPcxHeader`.  The sprite as the call leaves it and the
advanced stream on `true`; `fail` is the return of `false`, `thrown` a
truncated 16-bit read. -/
def ReadPcxHeader (sprite : Sprite) (f : FILE) (offset : Nat) : Sprite × Res FILE :=
  let f := fseek f offset
  match ReadU16LE f with
  | none => (sprite, .err .thrown)
  | some (_, f) =>
  match readU8 f with
  | none => (sprite, .err .fail)
  | some (_, f) =>
  match readU8 f with
  | none => (sprite, .err .fail)
  | some (bpp, f) =>
  if bpp ≠ 8 then (sprite, .err .fail) else
  match ReadU16LE f with
  | none => (sprite, .err .thrown)
  | some (rect0, f) =>
  match ReadU16LE f with
  | none => (sprite, .err .thrown)
  | some (rect1, f) =>
  match ReadU16LE f with
  | none => (sprite, .err .thrown)
  | some (rect2, f) =>
  match ReadU16LE f with
  | none => (sprite, .err .thrown)
  | some (rect3, f) =>
  let f := fseek f (offset + 66)
  match ReadU16LE f with
  | none => (sprite, .err .thrown)
  | some (_, f) =>
  let sprite := { sprite with
    Size0 := (rect2 + 65536 - rect0 + 1) % 65536
    Size1 := (rect3 + 65536 - rect1 + 1) % 65536
    rle := -1 }
  (sprite, .ok f)

/-! ## Pixel codecs -/

/-- The expression `s.Size[0] * s.Size[1]` converted to `size_t`: the product
is an `int` product of two promoted `uint16_t`, defined only below `2^31`. -/
def dstLenOf (s : Sprite) : Option Nat :=
  if s.Size0 * s.Size1 < 2 ^ 31 then some (s.Size0 * s.Size1) else none

/-- The statement `if (i < srcLen - 1) i++`. -/
def adv (srcLen i : Nat) : Nat := if i < srcLen - 1 then i + 1 else i

/-- The clipped run `while (n-- > 0 && j < dstLen) dst[j++] = v` (in `Rle8Decode`
written `for (; n > 0; n--) if (j < dstLen) ...`): gives `j` and the buffer. -/
def fillRun (dstLen v : Nat) : Nat → Nat → List Nat → Nat × List Nat
  | 0, j, dst => (j, dst)
  | n + 1, j, dst =>
    if j < dstLen then fillRun dstLen v n (j + 1) (dst.set j v) else fillRun dstLen v n j dst

/-- The outer loop of `SffFile::RlePcxDecode` from cursor `i`, output position
`j`; `none` when the iteration budget is used up with the loop still live. -/
def pcxLoop (src : List Nat) (srcLen dstLen : Nat) : Nat → Nat → Nat → List Nat → Option (Nat × List Nat)
  | 0, i, j, dst => if i < srcLen ∧ j < dstLen then none else some (j, dst)
  | fuel + 1, i, j, dst =>
    if i < srcLen ∧ j < dstLen then
      let byte := src.getD i 0
      let i := i + 1
      if byte &&& 0xC0 = 0xC0 then
        let count := byte &&& 0x3F
        if i < srcLen then
          let byte := src.getD i 0
          let i := i + 1
          let r := fillRun dstLen byte count j dst
          pcxLoop src srcLen dstLen fuel i r.1 r.2
        else some (j, dst)
      else
        let r := fillRun dstLen byte 1 j dst
        pcxLoop src srcLen dstLen fuel i r.1 r.2
    else some (j, dst)

/-- Method `SffFile::RlePcxDecode` on a source of `srcLen = src.length` bytes. -/
def RlePcxDecode (s : Sprite) (src : List Nat) : Res (List Nat) :=
  if src.length = 0 then .err .fail else
  match dstLenOf s with
  | none => .err .undefined
  | some dstLen =>
    match pcxLoop src src.length dstLen src.length 0 0 (List.replicate dstLen 0) with
    | none => .err .hang
    | some (j, dst) =>
      .ok (if j < dstLen then dst.take j ++ List.replicate (dstLen - j) 0 else dst)

/-- The loop of `SffFile::Rle8Decode`; `none` when the iteration budget is used
up with `j < dstLen`. -/
def rle8Loop (src : List Nat) (srcLen dstLen : Nat) : Nat → Nat → Nat → List Nat → Option (List Nat)
  | 0, _, j, dst => if j < dstLen then none else some dst
  | fuel + 1, i, j, dst =>
    if j < dstLen then
      let d := src.getD i 0
      let i := adv srcLen i
      if d &&& 0xc0 = 0x40 then
        let n := d &&& 0x3f
        let d := src.getD i 0
        let i := adv srcLen i
        let r := fillRun dstLen d n j dst
        rle8Loop src srcLen dstLen fuel i r.1 r.2
      else
        let r := fillRun dstLen d 1 j dst
        rle8Loop src srcLen dstLen fuel i r.1 r.2
    else some dst

/-- Method `SffFile::Rle8Decode`.  An iteration that moves neither the cursor
nor the output position repeats for ever, so `srcLen + dstLen` iterations
decide whether the loop exits. -/
def Rle8Decode (s : Sprite) (src : List Nat) : Res (List Nat) :=
  if src.length = 0 then .err .fail else
  match dstLenOf s with
  | none => .err .undefined
  | some dstLen =>
    match rle8Loop src src.length dstLen (src.length + dstLen) 0 0 (List.replicate dstLen 0) with
    | none => .err .hang
    | some dst => .ok dst

/-- The inner `while (true)` of `SffFile::Rle5Decode`: gives `i`, `j` and the
buffer at the `break`. -/
def rle5Inner (src : List Nat) (srcLen dstLen : Nat) :
    Nat → Int → Int → Nat → Nat → Nat → List Nat → Option (Nat × Nat × List Nat)
  | 0, _, _, _, _, _, _ => none
  | fuel + 1, rl, dl, c, i, j, dst =>
    let r := if j < dstLen then (j + 1, dst.set j c) else (j, dst)
    let rl := rl - 1
    if rl < 0 then
      let dl := dl - 1
      if dl < 0 then some (i, r.1, r.2)
      else
        let c := src.getD i 0 &&& 0x1f
        let rl := ((src.getD i 0 >>> 5 : Nat) : Int)
        let i := adv srcLen i
        rle5Inner src srcLen dstLen fuel rl dl c i r.1 r.2
    else rle5Inner src srcLen dstLen fuel rl dl c i r.1 r.2

/-- The outer loop of `SffFile::Rle5Decode`. -/
def rle5Loop (src : List Nat) (srcLen dstLen : Nat) : Nat → Nat → Nat → List Nat → Option (List Nat)
  | 0, _, j, dst => if j < dstLen then none else some dst
  | fuel + 1, i, j, dst =>
    if j < dstLen then
      let rl := ((src.getD i 0 : Nat) : Int)
      let i := adv srcLen i
      let dl := ((src.getD i 0 &&& 0x7f : Nat) : Int)
      let hasColor := src.getD i 0 >>> 7 ≠ 0
      let i := if hasColor then adv srcLen i else i
      let c := if hasColor then src.getD i 0 else 0
      let i := adv srcLen i
      match rle5Inner src srcLen dstLen (rl.toNat + 8 * dl.toNat + 2) rl dl c i j dst with
      | none => none
      | some (i, j, dst) => rle5Loop src srcLen dstLen fuel i j dst
    else some dst

/-- Method `SffFile::Rle5Decode`. -/
def Rle5Decode (s : Sprite) (src : List Nat) : Res (List Nat) :=
  if src.length = 0 then .err .fail else
  match dstLenOf s with
  | none => .err .undefined
  | some dstLen =>
    match rle5Loop src src.length dstLen dstLen 0 0 (List.replicate dstLen 0) with
    | none => .err .hang
    | some dst => .ok dst

/-- One copy step of an LZ5 back-reference, recorded by the decoder: the
output position and the offset. -/
structure CopyStep where
  j : Nat
  d : Nat
  deriving DecidableEq

/-- The `for (;;)` of a back-reference in `SffFile::Lz5Decode`, run `count = n + 1`
times with offset `d`: gives `j`, the buffer and the copy steps that wrote. -/
def lz5Copy (dstLen d : Nat) : Nat → Nat → List Nat → List CopyStep → Nat × List Nat × List CopyStep
  | 0, j, dst, tr => (j, dst, tr)
  | count + 1, j, dst, tr =>
    if j < dstLen ∧ j ≥ d then
      lz5Copy dstLen d count (j + 1) (dst.set j (dst.getD (j - d) 0)) (tr ++ [⟨j, d⟩])
    else if j < dstLen then
      lz5Copy dstLen d count (j + 1) (dst.set j 0) (tr ++ [⟨j, d⟩])
    else lz5Copy dstLen d count j dst tr

/-- The registers of the `Lz5Decode` loop. -/
structure Lz5State where
  i : Nat
  j : Nat
  ct : Nat
  cts : Nat
  rb : Nat
  rbc : Nat
  dst : List Nat
  trace : List CopyStep
  deriving DecidableEq

/-- One iteration of the `while (j < dstLen)` of `SffFile::Lz5Decode`. -/
def lz5Step (src : List Nat) (srcLen dstLen : Nat) (st : Lz5State) : Lz5State :=
  let d := src.getD st.i 0
  let i := adv srcLen st.i
  let st1 : Lz5State :=
    if st.ct &&& (1 <<< st.cts) ≠ 0 then
      if d &&& 0x3f = 0 then
        let d := ((d <<< 2) ||| src.getD i 0) + 1
        let i := adv srcLen i
        let n := src.getD i 0 + 2
        let i := adv srcLen i
        let r := lz5Copy dstLen d (n + 1) st.j st.dst st.trace
        { st with i := i, j := r.1, dst := r.2.1, trace := r.2.2 }
      else
        let rb := (st.rb ||| ((d &&& 0xc0) >>> st.rbc)) % 256
        let rbc := (st.rbc + 2) % 256
        let n := d &&& 0x3f
        if rbc < 8 then
          let d := src.getD i 0 + 1
          let i := adv srcLen i
          let r := lz5Copy dstLen d (n + 1) st.j st.dst st.trace
          { st with i := i, j := r.1, rb := rb, rbc := rbc, dst := r.2.1, trace := r.2.2 }
        else
          let d := rb + 1
          let r := lz5Copy dstLen d (n + 1) st.j st.dst st.trace
          { st with i := i, j := r.1, rb := 0, rbc := 0, dst := r.2.1, trace := r.2.2 }
    else
      if d &&& 0xe0 = 0 then
        let n := src.getD i 0 + 8
        let i := adv srcLen i
        let r := fillRun dstLen (d % 256) n st.j st.dst
        { st with i := i, j := r.1, dst := r.2 }
      else
        let n := d >>> 5
        let d := d &&& 0x1f
        let r := fillRun dstLen (d % 256) n st.j st.dst
        { st with i := i, j := r.1, dst := r.2 }
  let cts := (st1.cts + 1) % 256
  if cts ≥ 8 then
    { st1 with ct := src.getD st1.i 0, cts := 0, i := adv srcLen st1.i }
  else { st1 with cts := cts }

/-- The `while (j < dstLen)` of `SffFile::Lz5Decode`. -/
def lz5Loop (src : List Nat) (srcLen dstLen : Nat) : Nat → Lz5State → Option Lz5State
  | 0, st => if st.j < dstLen then none else some st
  | fuel + 1, st =>
    if st.j < dstLen then lz5Loop src srcLen dstLen fuel (lz5Step src srcLen dstLen st)
    else some st

/-- The state in which `SffFile::Lz5Decode` enters its loop. -/
def lz5Init (src : List Nat) (dstLen : Nat) : Lz5State :=
  { i := adv src.length 0, j := 0, ct := src.getD 0 0, cts := 0, rb := 0, rbc := 0,
    dst := List.replicate dstLen 0, trace := [] }

/-- The run of `SffFile::Lz5Decode` with the record of its copy steps. -/
def Lz5Run (s : Sprite) (src : List Nat) : Res Lz5State :=
  if src.length = 0 then .err .fail else
  match dstLenOf s with
  | none => .err .undefined
  | some dstLen =>
    match lz5Loop src src.length dstLen dstLen (lz5Init src dstLen) with
    | none => .err .hang
    | some st => .ok st

/-- Method `SffFile::Lz5Decode`. -/
def Lz5Decode (s : Sprite) (src : List Nat) : Res (List Nat) :=
  match Lz5Run s src with
  | .ok st => .ok st.dst
  | .err e => .err e

/-- Method `SffFile::PngDecode` over the external codec `lodepng`, which gives
the width, the height and the pixels of a PNG stream decoded for the colour
type of tag `rle`, or `none` when inspection or decoding fails. -/
def PngDecode (lodepng : Int → List Nat → Option (Nat × Nat × List Nat))
    (s : Sprite) (src : List Nat) : Sprite × Res (List Nat) :=
  match lodepng s.rle src with
  | none => (s, .err .fail)
  | some (width, height, px) =>
    let s := { s with Size0 := width % 65536, Size1 := height % 65536 }
    let pixelSize := if s.rle = -10 then 1 else 4
    let imageSize := (width * height) % 2 ^ 32 * pixelSize
    (s, .ok (px.take imageSize))

/-! ## Palette textures -/

/-- An `RGB` triple of the legacy palette table. -/
structure RGB where
  r : Nat
  g : Nat
  b : Nat
  deriving DecidableEq

/-- The `uint32_t` values of a block read into `std::array<uint32_t, 256>`. -/
def u32sOf : List Nat → List Nat
  | b0 :: b1 :: b2 :: b3 :: rest => le32 [b0, b1, b2, b3] :: u32sOf rest
  | _ => []

/-- The triples of a block read into `std::array<RGB, 256>`. -/
def rgbsOf : List Nat → List RGB
  | r :: g :: b :: rest => ⟨r, g, b⟩ :: rgbsOf rest
  | _ => []

/-- The `pal_byte` table of `GeneratePaletteTexture(const std::array<uint32_t, 256>&)`. -/
def palBytesRGBA (pal_rgba : List Nat) : List Nat :=
  ((List.range 256).map (fun i =>
    [(pal_rgba.getD i 0 >>> 0) &&& 0xFF, (pal_rgba.getD i 0 >>> 8) &&& 0xFF,
     (pal_rgba.getD i 0 >>> 16) &&& 0xFF, (pal_rgba.getD i 0 >>> 24) &&& 0xFF])).flatten

/-- The `pal_byte` table of `GeneratePaletteTexture(const std::array<RGB, 256>&)`. -/
def palBytesRGB (pal_rgb : List RGB) : List Nat :=
  ((List.range 256).map (fun i =>
    [(pal_rgb.getD (255 - i) ⟨0, 0, 0⟩).r, (pal_rgb.getD (255 - i) ⟨0, 0, 0⟩).g,
     (pal_rgb.getD (255 - i) ⟨0, 0, 0⟩).b, if i ≠ 0 then 255 else 0])).flatten

/-- The texture both `GeneratePaletteTexture` overloads build from `pal_byte`. -/
def paletteTexture (g : Gpu) (pal_byte : List Nat) : Gpu × Texture2D :=
  let r := rlLoadTexture g pal_byte 256 1 PIXELFORMAT_UNCOMPRESSED_R8G8B8A8 1
  (r.1, ⟨r.2, 256, 1, 1, PIXELFORMAT_UNCOMPRESSED_R8G8B8A8⟩)

/-- Method `SffFile::GeneratePaletteTexture(const std::array<uint32_t, 256>&)`. -/
def GeneratePaletteTextureRGBA (g : Gpu) (pal_rgba : List Nat) : Gpu × Texture2D :=
  paletteTexture g (palBytesRGBA pal_rgba)

/-- Method `SffFile::GeneratePaletteTexture(const std::array<RGB, 256>&)`. -/
def GeneratePaletteTextureRGB (g : Gpu) (pal_rgb : List RGB) : Gpu × Texture2D :=
  paletteTexture g (palBytesRGB pal_rgb)

/-! ## Sprite data -/

/-- Method `SffFile::ReadSpriteDataV1`; `prev` is the sprite `prev` points to,
if the pointer is not null.  Gives the sprite, the palette list and the GPU
as the call leaves them, and the pixel buffer (`fail` for `nullptr`). -/
def ReadSpriteDataV1 (sprite : Sprite) (palettes : List Palette) (g : Gpu) (f : FILE)
    (offset datasize nextSubheader : Nat) (prev : Option Sprite) (c00 : Bool) :
    Sprite × List Palette × Gpu × Res (List Nat) :=
  let datasize := if nextSubheader > offset then (nextSubheader - offset) % 2 ^ 32 else datasize
  match readU8 f with
  | none => (sprite, palettes, g, .err .fail)
  | some (ps, f) =>
  let paletteSame : Bool := ps ≠ 0 && prev.isSome
  match ReadPcxHeader sprite f offset with
  | (sprite, .err e) => (sprite, palettes, g, .err e)
  | (sprite, .ok f) =>
  let f := fseek f (offset + 128)
  let palSize := if c00 || paletteSame then 0 else 768
  let datasize := if datasize < 128 + palSize then 128 + palSize else datasize
  let srcLen := datasize - (128 + palSize)
  match fread1 f srcLen with
  | none => (sprite, palettes, g, .err .fail)
  | some (srcPx, f) =>
  if paletteSame then
    let sprite := match prev with
      | some p => { sprite with palidx := p.palidx }
      | none => sprite
    if sprite.palidx < 0 then (sprite, palettes, g, .err .fail)
    else (sprite, palettes, g, RlePcxDecode sprite srcPx)
  else
    if c00 && offset + datasize < 768 then (sprite, palettes, g, .err .fail) else
    let f := if c00 then fseek f (offset + datasize - 768) else f
    match freadN f 3 256 with
    | none => (sprite, palettes, g, .err .fail)
    | some (pal, _) =>
    let r := GeneratePaletteTextureRGB g (rgbsOf pal)
    let palettes := palettes ++ [⟨r.2⟩]
    let sprite := { sprite with palidx := ((palettes.length - 1 : Nat) : Int) }
    (sprite, palettes, r.1, RlePcxDecode sprite srcPx)

/-- Method `SffFile::ReadSpriteDataV2`. -/
def ReadSpriteDataV2 (lodepng : Int → List Nat → Option (Nat × Nat × List Nat))
    (sprite : Sprite) (f : FILE) (offset datasize : Nat) : Sprite × Res (List Nat) :=
  if sprite.rle > 0 then (sprite, .err .fail) else
  if sprite.rle = 0 then
    let f := fseek f offset
    match fread1 f datasize with
    | none => (sprite, .err .fail)
    | some (px, _) => (sprite, .ok px)
  else
    let datasize := if datasize < 4 then 4 else datasize
    let srcLen := datasize - 4
    let f := fseek f (offset + 4)
    match fread1 f srcLen with
    | none => (sprite, .err .fail)
    | some (srcPx, _) =>
    let format := -sprite.rle
    if format = 2 then (sprite, Rle8Decode sprite srcPx)
    else if format = 3 then (sprite, Rle5Decode sprite srcPx)
    else if format = 4 then (sprite, Lz5Decode sprite srcPx)
    else if format = 10 ∨ format = 11 ∨ format = 12 then PngDecode lodepng sprite srcPx
    else (sprite, .err .fail)

/-! ## Load -/

/-- The part of the state of `SffFile::Load` its loops work on: the container,
the GPU, and the locals `prev` (as an index into `sprites_`) and `shofs`. -/
structure LoadState where
  sff : SffFile
  gpu : Gpu
  prev : Option Nat
  shofs : Nat
  deriving DecidableEq

/-- The palette loop of `SffFile::Load` (variant 2) over the file bytes `data`:
`n` entries are left, `i` is the index of the next, `uniquePals` the map of the
keys seen.  Gives the palette list, the GPU and the fault that ended the loop,
if one did. -/
def paletteLoop (data : List Nat) (hdr : SffHeader) (lofs : Nat) :
    Nat → Nat → List ((Int × Int) × Nat) → List Palette → Gpu → List Palette × Gpu × Option Fault
  | 0, _, _, palettes, g => (palettes, g, none)
  | n + 1, i, uniquePals, palettes, g =>
    let f := fseek (fopen data) ((hdr.FirstPaletteHeaderOffset + i * 16) % 2 ^ 32)
    match ReadU16LE f with
    | none => (palettes, g, some .thrown)
    | some (gn0, f) =>
    match ReadU16LE f with
    | none => (palettes, g, some .thrown)
    | some (gn1, f) =>
    match ReadU16LE f with
    | none => (palettes, g, some .thrown)
    | some (_, f) =>
    match ReadU16LE f with
    | none => (palettes, g, some .thrown)
    | some (_, f) =>
    match ReadU32LE f with
    | none => (palettes, g, some .thrown)
    | some (ofs, f) =>
    match ReadU32LE f with
    | none => (palettes, g, some .thrown)
    | some (_, f) =>
    let key : Int × Int := (toI16 gn0, toI16 gn1)
    match uniquePals.lookup key with
    | none =>
      let f := fseek f ((lofs + ofs) % 2 ^ 32)
      match freadN f 4 256 with
      | none => (palettes, g, some .fail)
      | some (rgba, _) =>
        let r := GeneratePaletteTextureRGBA g (u32sOf rgba)
        paletteLoop data hdr lofs n (i + 1) ((key, i) :: uniquePals) (palettes ++ [⟨r.2⟩]) r.1
    | some k =>
      paletteLoop data hdr lofs n (i + 1) uniquePals
        (palettes ++ [⟨(palettes.getD k ⟨Texture2D.zero⟩).texture⟩]) g

/-- Statement `sprites_[i] = s`. -/
def LoadState.setSprite (st : LoadState) (i : Nat) (s : Sprite) : LoadState :=
  { st with sff := { st.sff with sprites_ := st.sff.sprites_.set i s } }

/-- The first `switch (header_.Ver0)` of the sprite loop (cases 1 and 2). -/
def readEntry (ver0 : Nat) (sprite : Sprite) (f : FILE) (lofs tofs : Nat) :
    Sprite × Res (Nat × Nat × Nat × FILE) :=
  if ver0 = 1 then ReadSpriteHeaderV1 sprite f else ReadSpriteHeaderV2 sprite f lofs tofs

/-- The second `switch (header_.Ver0)` of the sprite loop (cases 1 and 2), with
`character = true`. -/
def readData (lodepng : Int → List Nat → Option (Nat × Nat × List Nat)) (ver0 : Nat)
    (sprite : Sprite) (palettes : List Palette) (g : Gpu) (f : FILE) (shofs size xofs : Nat)
    (prev : Option Sprite) : Sprite × List Palette × Gpu × Res (List Nat) :=
  if ver0 = 1 then
    ReadSpriteDataV1 sprite palettes g f (shofs + 32) size xofs prev true
  else
    let r := ReadSpriteDataV2 lodepng sprite f xofs size
    (r.1, palettes, g, r.2)

/-- The branch `if (size == 0)` of the sprite loop, for index `i`. -/
def linkSprite (i indexOfPrevious : Nat) (st : LoadState) : LoadState :=
  let st := { st with sff := { st.sff with numLinkedSprites_ := st.sff.numLinkedSprites_ + 1 } }
  if indexOfPrevious < i then
    st.setSprite i ((st.sff.sprites_.getD i Sprite.init).CopyFrom
      (st.sff.sprites_.getD indexOfPrevious Sprite.init))
  else
    st.setSprite i { st.sff.sprites_.getD i Sprite.init with palidx := 0 }

/-- The statements of the sprite loop that follow a successful data read for
index `i`: the usage statistics, the texture built from the pixel buffer `px`,
the update of `prev`. -/
def storeSprite (i : Nat) (px : List Nat) (st : LoadState) : LoadState :=
  let s := st.sff.sprites_.getD i Sprite.init
  let st := if s.IsPaletted then
    { st with sff := { st.sff with palette_usage_ := mapIncr st.sff.palette_usage_ s.palidx } }
    else st
  let st := { st with sff := { st.sff with
    compression_format_usage_ := mapIncr st.sff.compression_format_usage_ s.rle } }
  let format := if s.IsRGBA then PIXELFORMAT_UNCOMPRESSED_R8G8B8A8
    else PIXELFORMAT_UNCOMPRESSED_GRAYSCALE
  let r := rlLoadTexture st.gpu px s.Size0 s.Size1 format 1
  let s := { s with texture := ⟨r.2, s.Size0, s.Size1, 1, format⟩ }
  let st := { st.setSprite i s with gpu := r.1 }
  if s.Group = 9000 then (if s.Number = 0 then { st with prev := some i } else st)
  else { st with prev := some i }

/-- One iteration of the sprite loop of `SffFile::Load`, for index `i`, over
the file bytes `data` (the iteration starts with an absolute seek to `shofs`).
Gives the state the iteration leaves and the fault that ended the loop in it,
if one did. -/
def spriteStep (lodepng : Int → List Nat → Option (Nat × Nat × List Nat)) (data : List Nat)
    (lofs tofs : Nat) (i : Nat) (st : LoadState) : LoadState × Option Fault :=
  let f := fseek (fopen data) st.shofs
  let ver0 := st.sff.header_.Ver0
  if ver0 ≠ 1 ∧ ver0 ≠ 2 then (st, some .fail) else
  let hd := readEntry ver0 (st.sff.sprites_.getD i Sprite.init) f lofs tofs
  let st := st.setSprite i hd.1
  match hd.2 with
  | .err e => (st, some e)
  | .ok (xofs, size, indexOfPrevious, f) =>
  let next := if ver0 = 1 then xofs else st.shofs + 28
  if size = 0 then
    ({ linkSprite i indexOfPrevious st with shofs := next }, none)
  else
    let rd := readData lodepng ver0 hd.1 st.sff.palettes_ st.gpu f st.shofs size xofs
      (st.prev.map (fun k => st.sff.sprites_.getD k Sprite.init))
    let st := st.setSprite i rd.1
    let st := { st with sff := { st.sff with palettes_ := rd.2.1 }, gpu := rd.2.2.1 }
    match rd.2.2.2 with
    | .err e => (st, some e)
    | .ok px => ({ storeSprite i px st with shofs := next }, none)

/-- The sprite loop of `SffFile::Load`: `n` entries are left, `i` is the index
of the next. -/
def spriteLoop (lodepng : Int → List Nat → Option (Nat × Nat × List Nat)) (data : List Nat)
    (lofs tofs : Nat) : Nat → Nat → LoadState → LoadState × Option Fault
  | 0, _, st => (st, none)
  | n + 1, i, st =>
    match spriteStep lodepng data lofs tofs i st with
    | (st, some e) => (st, some e)
    | (st, none) => spriteLoop lodepng data lofs tofs n (i + 1) st

/-- Method `SffFile::Load` on a file that exists and holds the bytes `data`,
called on container `c` with GPU store `g`.  Gives the container and the store
as the call leaves them and its outcome: `ok ()` is the return of `true`,
`err fail` the return of `false`. -/
def Load (lodepng : Int → List Nat → Option (Nat × Nat × List Nat)) (c : SffFile) (g : Gpu)
    (data : List Nat) : SffFile × Gpu × Res Unit :=
  let file := fopen data
  match ReadHeader c.header_ file with
  | (h, none) => ({ c with header_ := h }, g, .err .fail)
  | (h, some (lofs, tofs, _)) =>
  let c := { c with header_ := h }
  let pl : List Palette × Gpu × Option Fault :=
    if c.header_.Ver0 ≠ 1 then paletteLoop data c.header_ lofs c.header_.NumberOfPalettes 0 [] [] g
    else (c.palettes_, g, none)
  let c := { c with palettes_ := pl.1 }
  match pl.2.2 with
  | some e => (c, pl.2.1, .err e)
  | none =>
  let c := { c with sprites_ := List.replicate c.header_.NumberOfSprites Sprite.init,
                    numLinkedSprites_ := 0 }
  let r := spriteLoop lodepng data lofs tofs c.header_.NumberOfSprites 0
    ⟨c, pl.2.1, none, c.header_.FirstSpriteHeaderOffset⟩
  match r.2 with
  | some e => (r.1.sff, r.1.gpu, .err e)
  | none =>
  let c := r.1.sff
  let c := if c.header_.Ver0 = 1 then
    { c with header_ := { c.header_ with NumberOfPalettes := c.palettes_.length % 2 ^ 32 } }
    else c
  (c, r.1.gpu, .ok ())

/-- Method `SffFile::Clear`. -/
def Clear (c : SffFile) (g : Gpu) : SffFile × Gpu :=
  let g := c.palettes_.foldl (fun g p => UnloadTexture g p.texture) g
  let g := c.sprites_.foldl (fun g s => UnloadTexture g s.texture) g
  ({ c with sprites_ := [], palettes_ := [], palette_usage_ := [],
            compression_format_usage_ := [], numLinkedSprites_ := 0 }, g)

/-! ## Fields of a file -/

/-- The byte of the file at offset `p`. -/
def byteAt (data : List Nat) (p : Nat) : Nat := data.getD p 0
/-- The little-endian 16-bit field of the file at offset `p`. -/
def le16At (data : List Nat) (p : Nat) : Nat := le16 ((data.drop p).take 2)
/-- The little-endian 32-bit field of the file at offset `p`. -/
def le32At (data : List Nat) (p : Nat) : Nat := le32 ((data.drop p).take 4)

/-- The sprite record a variant-2 directory entry at offset `p` describes,
on top of
sprite `s`, whose texture handle it keeps. -/
def entryV2 (s : Sprite) (data : List Nat) (p : Nat) : Sprite :=
  { Group := le16At data p
    Number := le16At data (p + 2)
    Size0 := le16At data (p + 4)
    Size1 := le16At data (p + 6)
    Offset0 := toI16 (le16At data (p + 8))
    Offset1 := toI16 (le16At data (p + 10))
    palidx := (le16At data (p + 24) : Nat)
    rle := -(toI8 (byteAt data (p + 14)))
    coldepth := byteAt data (p + 15)
    texture := s.texture }

/-- The resolved data offset of the variant-2 directory entry at offset `p`. -/
def entryV2Ofs (data : List Nat) (p lofs tofs : Nat) : Nat :=
  if le16At data (p + 26) &&& 1 = 0 then (le32At data (p + 16) + lofs) % 2 ^ 32
  else (le32At data (p + 16) + tofs) % 2 ^ 32

/-- The sprite record `ReadSpriteHeaderV1` leaves for the variant-1 directory
entry at offset `p`, on top of sprite `s`. -/
def entryV1 (s : Sprite) (data : List Nat) (p : Nat) : Sprite :=
  { Group := le16At data (p + 12)
    Number := le16At data (p + 14)
    Size0 := s.Size0
    Size1 := s.Size1
    Offset0 := toI16 (le16At data (p + 8))
    Offset1 := toI16 (le16At data (p + 10))
    palidx := 0
    rle := -1
    coldepth := 8
    texture := s.texture }

/-- A PNG codec that rejects every stream (used for concrete runs without PNG sprites). -/
def noPng : Int → List Nat → Option (Nat × Nat × List Nat) := fun _ _ => none

/-- A chunk of the RLE8 encoding rule: a run of `count` equal bytes `v`, or a
single byte emitted as itself. -/
inductive Chunk where
  | run (count v : Nat)
  | lit (v : Nat)
  deriving DecidableEq

/-- The rule's side conditions: a run counts 1 to 63 bytes; a byte emitted as
itself does not have `01` as its top two bits. -/
def Chunk.valid : Chunk → Bool
  | .run count _ => 1 ≤ count && count ≤ 63
  | .lit v => v &&& 0xc0 != 0x40

/-- The bytes a chunk is emitted as. -/
def Chunk.encode : Chunk → List Nat
  | .run count v => [0x40 ||| count, v]
  | .lit v => [v]

/-- The pixels a chunk stands for. -/
def Chunk.pixels : Chunk → List Nat
  | .run count v => List.replicate count v
  | .lit v => [v]

/-- The RLE8 encoding of a chunked pixel buffer. -/
def rle8Encode : List Chunk → List Nat
  | [] => []
  | c :: cs => c.encode ++ rle8Encode cs

/-- The pixel buffer a list of chunks splits. -/
def rle8Pixels : List Chunk → List Nat
  | [] => []
  | c :: cs => c.pixels ++ rle8Pixels cs

/-- What holds of the output position `j`, the buffer and the recorded copy
steps while `Lz5Decode` runs: every recorded step lies below `j`, has a
positive offset, and its byte is the byte `d` positions back, or 0 when the
offset reaches before the buffer. -/
def CopyInv (dstLen j : Nat) (dst : List Nat) (tr : List CopyStep) : Prop :=
  dst.length = dstLen ∧ j ≤ dstLen ∧
  ∀ e ∈ tr, e.j < j ∧ 1 ≤ e.d ∧
    (e.d ≤ e.j → dst.getD e.j 0 = dst.getD (e.j - e.d) 0) ∧
    (e.j < e.d → dst.getD e.j 0 = 0)

/-- The pixel format `Load` uploads a sprite with. -/
def uploadFormat (s : Sprite) : Nat :=
  if s.IsRGBA then PIXELFORMAT_UNCOMPRESSED_R8G8B8A8 else PIXELFORMAT_UNCOMPRESSED_GRAYSCALE

/-- File position of the directory entry that follows the one at `shofs`. -/
def nextEntry (ver0 shofs xofs : Nat) : Nat := if ver0 = 1 then xofs else shofs + 28

/-- A variant-2 file without palettes: the 64-byte header (local base offset
148), three sprite directory entries at offset 64 (a raw 2x2 sprite with
anchor (1, -1), a 9x9 entry linked to sprite 0, a 5x5 entry with data size 0
and link index 7) and the four pixel bytes 0, 1, 2, 3 at offset 148. -/
def sampleV2 : List Nat :=
  sffMagic ++ [0, 1, 0, 2] ++ [0, 0, 0, 0] ++ List.replicate 16 0 ++
  [64, 0, 0, 0] ++ [3, 0, 0, 0] ++ [0, 0, 0, 0] ++ [0, 0, 0, 0] ++
  [148, 0, 0, 0] ++ [0, 0, 0, 0] ++ [0, 0, 0, 0] ++
  [0, 0, 0, 0, 2, 0, 2, 0, 1, 0, 255, 255, 0, 0, 0, 8, 0, 0, 0, 0, 4, 0, 0, 0, 0, 0, 0, 0] ++
  [0, 0, 1, 0, 9, 0, 9, 0, 0, 0, 0, 0, 0, 0, 0, 8, 0, 0, 0, 0, 0, 0, 0, 0, 1, 0, 0, 0] ++
  [0, 0, 2, 0, 5, 0, 5, 0, 0, 0, 0, 0, 7, 0, 0, 8, 0, 0, 0, 0, 0, 0, 0, 0, 1, 0, 0, 0] ++
  [0, 1, 2, 3]

/-- The state in which `Load` on `sampleV2` enters its sprite loop. -/
def sampleStart : LoadState :=
  ⟨{ SffFile.init with header_ := ⟨0, 1, 0, 2, 64, 0, 3, 0⟩,
                       sprites_ := List.replicate 3 Sprite.init }, Gpu.empty, none, 64⟩

/-- The state in which `Load` enters its sprite loop, given the header it
read, the palette list and GPU the palette phase left. -/
def loopStart (c : SffFile) (hdr : SffHeader) (pals : List Palette) (gp : Gpu) : LoadState :=
  ⟨{ c with header_ := hdr, palettes_ := pals,
            sprites_ := List.replicate hdr.NumberOfSprites Sprite.init,
            numLinkedSprites_ := 0 }, gp, none, hdr.FirstSpriteHeaderOffset⟩

/-- The palette phase of `Load`: the palette loop for variants other than 1. -/
def palettePhase (c : SffFile) (g : Gpu) (data : List Nat) (hdr : SffHeader) (lofs : Nat) :
    List Palette × Gpu × Option Fault :=
  if hdr.Ver0 ≠ 1 then paletteLoop data hdr lofs hdr.NumberOfPalettes 0 [] [] g
  else (c.palettes_, g, none)

/-- The key (group, number) of palette directory entry `j`, as `Load` forms it. -/
def palKey (data : List Nat) (hdr : SffHeader) (j : Nat) : Int × Int :=
  (toI16 (le16At data ((hdr.FirstPaletteHeaderOffset + j * 16) % 2 ^ 32)),
   toI16 (le16At data ((hdr.FirstPaletteHeaderOffset + j * 16) % 2 ^ 32 + 2)))

/-- Whether palette directory entry `j` is the first occurrence of its key. -/
def isFirst (data : List Nat) (hdr : SffHeader) (j : Nat) : Bool :=
  (List.range j).all (fun a => decide (palKey data hdr a ≠ palKey data hdr j))

/-- The number of first occurrences among palette directory entries `0 .. n-1`,
that is the number of distinct keys among them. -/
def firstCount (data : List Nat) (hdr : SffHeader) : Nat → Nat
  | 0 => 0
  | n + 1 => firstCount data hdr n + (if isFirst data hdr n then 1 else 0)

/-- What holds when the palette loop of `Load`, started with GPU `g0`, is about
to read entry `i`. -/
def PalInv (data : List Nat) (hdr : SffHeader) (g0 : Gpu) (i : Nat)
    (up : List ((Int × Int) × Nat)) (pals : List Palette) (g : Gpu) : Prop :=
  pals.length = i ∧
  (∀ key idx, up.lookup key = some idx →
    idx < i ∧ palKey data hdr idx = key ∧ ∀ a, a < idx → palKey data hdr a ≠ key) ∧
  (∀ key, up.lookup key = none → ∀ a, a < i → palKey data hdr a ≠ key) ∧
  (∀ a b, a < b → b < i → palKey data hdr a = palKey data hdr b → pals[b]? = pals[a]?) ∧
  (∀ j, j < i → isFirst data hdr j = true →
    ∃ p, pals[j]? = some p ∧ p.texture.id = g0.slots.length + firstCount data hdr (j + 1)) ∧
  g.slots.length = g0.slots.length + firstCount data hdr i

/-- A variant-2 file without sprites: the 64-byte header (local base offset
112), three palette directory entries at offset 64 with the keys (1, 1),
(1, 2), (1, 1), and 1024 bytes of palette data at offset 112. -/
def samplePalV2 : List Nat :=
  sffMagic ++ [0, 1, 0, 2] ++ [0, 0, 0, 0] ++ List.replicate 16 0 ++
  [112, 0, 0, 0] ++ [0, 0, 0, 0] ++ [64, 0, 0, 0] ++ [3, 0, 0, 0] ++
  [112, 0, 0, 0] ++ [0, 0, 0, 0] ++ [0, 0, 0, 0] ++
  [1, 0, 1, 0, 0, 1, 0, 0, 0, 0, 0, 0, 0, 4, 0, 0] ++
  [1, 0, 2, 0, 0, 1, 0, 0, 0, 0, 0, 0, 0, 4, 0, 0] ++
  [1, 0, 1, 0, 0, 1, 0, 0, 0, 0, 0, 0, 0, 4, 0, 0] ++
  List.replicate 1024 128

/-- Whether the variant-1 directory entry that `Load` reads in state `st`
materializes a palette of its own: its data size is not 0 and it does not reuse
the previous palette (flag byte 0, or no previous sprite). -/
def ownsPalette (data : List Nat) (st : LoadState) : Bool :=
  decide (le32At data (st.shofs + 4) ≠ 0) &&
    !(decide (byteAt data (st.shofs + 18) ≠ 0) && st.prev.isSome)

/-- The state in which the sprite loop started from `st0` reaches entry `i`. -/
def entryState (lodepng : Int → List Nat → Option (Nat × Nat × List Nat)) (data : List Nat)
    (lofs tofs : Nat) (st0 : LoadState) (i : Nat) : LoadState :=
  (spriteLoop lodepng data lofs tofs i 0 st0).1

/-- The number of entries among `0 .. n-1` that materialize a palette of their own. -/
def ownCount (lodepng : Int → List Nat → Option (Nat × Nat × List Nat)) (data : List Nat)
    (lofs tofs : Nat) (st0 : LoadState) : Nat → Nat
  | 0 => 0
  | n + 1 => ownCount lodepng data lofs tofs st0 n +
      (if ownsPalette data (entryState lodepng data lofs tofs st0 n) then 1 else 0)

/-- A variant-1 file with three sprites: the 28-byte header, then at offset 28
a 2x2 sprite with its own palette, at offset 960 a 1x1 sprite that reuses the
previous palette (flag byte 1), at offset 1121 a 2x2 sprite with its own
palette.  Each block is the 32-byte sub-header, the 128-byte PCX header, the
pixel bytes and, for the first and third, 768 palette bytes. -/
def sampleV1 : List Nat :=
  sffMagic ++ [0, 1, 0, 1] ++ [0, 0, 0, 0] ++ [3, 0, 0, 0] ++ [28, 0, 0, 0] ++
  [192, 3, 0, 0] ++ [132, 3, 0, 0] ++ [0, 0, 0, 0] ++ [0, 0] ++ [0, 0] ++ [0, 0] ++ [0] ++
  List.replicate 13 0 ++
  [10, 5, 1, 8, 0, 0, 0, 0, 1, 0, 1, 0] ++ List.replicate 116 0 ++ [1, 2, 3, 4] ++
  List.replicate 768 50 ++
  [97, 4, 0, 0] ++ [129, 0, 0, 0] ++ [0, 0, 0, 0] ++ [0, 0] ++ [1, 0] ++ [0, 0] ++ [1] ++
  List.replicate 13 0 ++
  [10, 5, 1, 8, 0, 0, 0, 0, 0, 0, 0, 0] ++ List.replicate 116 0 ++ [7] ++
  [0, 0, 0, 0] ++ [132, 3, 0, 0] ++ [0, 0, 0, 0] ++ [0, 0] ++ [2, 0] ++ [0, 0] ++ [0] ++
  List.replicate 13 0 ++
  [10, 5, 1, 8, 0, 0, 0, 0, 1, 0, 1, 0] ++ List.replicate 116 0 ++ [1, 2, 3, 4] ++
  List.replicate 768 60

/-! ## Further samples and predicates -/

/-- The signed value of the `w`-bit pattern `v` in two-s complement: `v` below
`2^(w-1)`, and `v - 2^w` from there on. -/
def twosComplement (w v : Nat) : Int :=
  if v < 2 ^ (w - 1) then (v : Int) else (v : Int) - 2 ^ w

/-- A 64-byte variant-2 header whose bytes 32..35 hold 7 and whose bytes
36..39 hold 64; the words that follow hold 3, 100, 2, 148, 9 and 200. -/
def sampleHeaderV2 : List Nat :=
  sffMagic ++ [0, 1, 0, 2] ++ [0, 0, 0, 0] ++ List.replicate 12 0 ++ [7, 0, 0, 0] ++
  [64, 0, 0, 0] ++ [3, 0, 0, 0] ++ [100, 0, 0, 0] ++ [2, 0, 0, 0] ++
  [148, 0, 0, 0] ++ [9, 0, 0, 0] ++ [200, 0, 0, 0]

/-- A variant-2 file with one sprite: the 64-byte header (local base offset
92), one directory entry at offset 64 for a 2x2 sprite with format code 1 and
data size 4, and four data bytes at offset 92. -/
def sampleBadFormat : List Nat :=
  sffMagic ++ [0, 1, 0, 2] ++ [0, 0, 0, 0] ++ List.replicate 16 0 ++
  [64, 0, 0, 0] ++ [1, 0, 0, 0] ++ [0, 0, 0, 0] ++ [0, 0, 0, 0] ++
  [92, 0, 0, 0] ++ [0, 0, 0, 0] ++ [0, 0, 0, 0] ++
  [0, 0, 0, 0, 2, 0, 2, 0, 0, 0, 0, 0, 0, 0, 1, 8, 0, 0, 0, 0, 4, 0, 0, 0, 0, 0, 0, 0] ++
  [0, 1, 2, 3]

/-- The file offset the palette loop of `Load` seeks to for the colour table
of palette directory entry `j`: the local base offset plus the entry's relative
offset (bytes 8..11 of the entry), as a `uint32_t`. -/
def palDataOfs (data : List Nat) (hdr : SffHeader) (lofs j : Nat) : Nat :=
  (lofs + le32At data ((hdr.FirstPaletteHeaderOffset + j * 16) % 2 ^ 32 + 8)) % 2 ^ 32

/-- The texture table made of the 1024 file bytes at offset `ofs`. -/
def palTableAt (data : List Nat) (ofs : Nat) : List Nat :=
  palBytesRGBA (u32sOf ((data.drop ofs).take 1024))

/-- What holds of the palettes built when the palette loop is about to read
entry `i`: the palette of each first occurrence `j` names the upload of the
table read at `palDataOfs j`. -/
def PalData (data : List Nat) (hdr : SffHeader) (lofs i : Nat) (pals : List Palette)
    (g : Gpu) : Prop :=
  ∀ j, j < i → isFirst data hdr j = true →
    ∃ p, pals[j]? = some p ∧
      g.lookup p.texture.id =
        some ⟨palTableAt data (palDataOfs data hdr lofs j), 256, 1,
          PIXELFORMAT_UNCOMPRESSED_R8G8B8A8, 1⟩

/-- A variant-2 file without sprites and with one palette directory entry at
offset 64, every 16-bit word of which is odd (relative offset 0xffffffff); the
local base offset is 81, the global base offset 82; byte 80 is 1 and the 1024
bytes from offset 81 on are 2. -/
def samplePalFlag : List Nat :=
  sffMagic ++ [0, 1, 0, 2] ++ [0, 0, 0, 0] ++ List.replicate 16 0 ++
  [0, 0, 0, 0] ++ [0, 0, 0, 0] ++ [64, 0, 0, 0] ++ [1, 0, 0, 0] ++
  [81, 0, 0, 0] ++ [0, 0, 0, 0] ++ [82, 0, 0, 0] ++
  [1, 0, 1, 0, 1, 0, 1, 0, 255, 255, 255, 255, 1, 4, 1, 4] ++
  [1] ++ List.replicate 1024 2

/-- A variant-2 file with one sprite: the 64-byte header (local base offset
92), one directory entry at offset 64 for a raw (format code 0) 2x2 sprite
with declared data size 1, and the data byte 7 at offset 92. -/
def sampleRawShort : List Nat :=
  sffMagic ++ [0, 1, 0, 2] ++ [0, 0, 0, 0] ++ List.replicate 16 0 ++
  [64, 0, 0, 0] ++ [1, 0, 0, 0] ++ [0, 0, 0, 0] ++ [0, 0, 0, 0] ++
  [92, 0, 0, 0] ++ [0, 0, 0, 0] ++ [0, 0, 0, 0] ++
  [0, 0, 0, 0, 2, 0, 2, 0, 0, 0, 0, 0, 0, 0, 0, 8, 0, 0, 0, 0, 1, 0, 0, 0, 0, 0, 0, 0] ++
  [7]

/-! ## Decoders with a record of their buffer accesses -/

/-- A record of the buffer accesses of a decoder run, in program order: the
indices at which the source `srcPx` was read and the indices at which the
destination `dstPx` was written. -/
structure Access where
  reads : List Nat
  writes : List Nat
  deriving DecidableEq

/-- The record after a read `srcPx[i]`. -/
def Access.rd (lg : Access) (i : Nat) : Access := { lg with reads := lg.reads ++ [i] }

/-- The record after a write `dstPx[j] = ..`. -/
def Access.wr (lg : Access) (j : Nat) : Access := { lg with writes := lg.writes ++ [j] }

/-- The clipped run `fillRun` with the record of its writes. -/
def fillRunT (dstLen v : Nat) : Nat → Nat → List Nat → Access → Nat × List Nat × Access
  | 0, j, dst, lg => (j, dst, lg)
  | n + 1, j, dst, lg =>
    if j < dstLen then fillRunT dstLen v n (j + 1) (dst.set j v) (lg.wr j)
    else fillRunT dstLen v n j dst lg

/-- The loop `pcxLoop` of `SffFile::RlePcxDecode` with the record of its accesses. -/
def pcxLoopT (src : List Nat) (srcLen dstLen : Nat) :
    Nat → Nat → Nat → List Nat → Access → Option (Nat × List Nat) × Access
  | 0, i, j, dst, lg => (if i < srcLen ∧ j < dstLen then none else some (j, dst), lg)
  | fuel + 1, i, j, dst, lg =>
    if i < srcLen ∧ j < dstLen then
      let lg := lg.rd i
      let byte := src.getD i 0
      let i := i + 1
      if byte &&& 0xC0 = 0xC0 then
        let count := byte &&& 0x3F
        if i < srcLen then
          let lg := lg.rd i
          let byte := src.getD i 0
          let i := i + 1
          let r := fillRunT dstLen byte count j dst lg
          pcxLoopT src srcLen dstLen fuel i r.1 r.2.1 r.2.2
        else (some (j, dst), lg)
      else
        let r := fillRunT dstLen byte 1 j dst lg
        pcxLoopT src srcLen dstLen fuel i r.1 r.2.1 r.2.2
    else (some (j, dst), lg)

/-- Method `SffFile::RlePcxDecode` with the record of its accesses; the closing
`memset(dstPx + j, 0, dstLen - j)` writes the indices `j .. dstLen - 1`. -/
def RlePcxDecodeT (s : Sprite) (src : List Nat) : Res (List Nat) × Access :=
  if src.length = 0 then (.err .fail, ⟨[], []⟩) else
  match dstLenOf s with
  | none => (.err .undefined, ⟨[], []⟩)
  | some dstLen =>
    match pcxLoopT src src.length dstLen src.length 0 0 (List.replicate dstLen 0) ⟨[], []⟩ with
    | (none, lg) => (.err .hang, lg)
    | (some (j, dst), lg) =>
      if j < dstLen then
        (.ok (dst.take j ++ List.replicate (dstLen - j) 0),
         { lg with writes := lg.writes ++ List.range' j (dstLen - j) })
      else (.ok dst, lg)

/-- The loop `rle8Loop` of `SffFile::Rle8Decode` with the record of its accesses. -/
def rle8LoopT (src : List Nat) (srcLen dstLen : Nat) :
    Nat → Nat → Nat → List Nat → Access → Option (List Nat) × Access
  | 0, _, j, dst, lg => (if j < dstLen then none else some dst, lg)
  | fuel + 1, i, j, dst, lg =>
    if j < dstLen then
      let lg := lg.rd i
      let d := src.getD i 0
      let i := adv srcLen i
      if d &&& 0xc0 = 0x40 then
        let n := d &&& 0x3f
        let lg := lg.rd i
        let d := src.getD i 0
        let i := adv srcLen i
        let r := fillRunT dstLen d n j dst lg
        rle8LoopT src srcLen dstLen fuel i r.1 r.2.1 r.2.2
      else
        let r := fillRunT dstLen d 1 j dst lg
        rle8LoopT src srcLen dstLen fuel i r.1 r.2.1 r.2.2
    else (some dst, lg)

/-- Method `SffFile::Rle8Decode` with the record of its accesses. -/
def Rle8DecodeT (s : Sprite) (src : List Nat) : Res (List Nat) × Access :=
  if src.length = 0 then (.err .fail, ⟨[], []⟩) else
  match dstLenOf s with
  | none => (.err .undefined, ⟨[], []⟩)
  | some dstLen =>
    match rle8LoopT src src.length dstLen (src.length + dstLen) 0 0
      (List.replicate dstLen 0) ⟨[], []⟩ with
    | (none, lg) => (.err .hang, lg)
    | (some dst, lg) => (.ok dst, lg)

/-- The inner loop `rle5Inner` of `SffFile::Rle5Decode` with the record of its
accesses (`srcPx[i] & 0x1f` and `srcPx[i] >> 5` are two reads). -/
def rle5InnerT (src : List Nat) (srcLen dstLen : Nat) :
    Nat → Int → Int → Nat → Nat → Nat → List Nat → Access →
      Option (Nat × Nat × List Nat) × Access
  | 0, _, _, _, _, _, _, lg => (none, lg)
  | fuel + 1, rl, dl, c, i, j, dst, lg =>
    let r := if j < dstLen then (j + 1, dst.set j c, lg.wr j) else (j, dst, lg)
    let rl := rl - 1
    if rl < 0 then
      let dl := dl - 1
      if dl < 0 then (some (i, r.1, r.2.1), r.2.2)
      else
        let lg := (r.2.2.rd i).rd i
        let c := src.getD i 0 &&& 0x1f
        let rl := ((src.getD i 0 >>> 5 : Nat) : Int)
        let i := adv srcLen i
        rle5InnerT src srcLen dstLen fuel rl dl c i r.1 r.2.1 lg
    else rle5InnerT src srcLen dstLen fuel rl dl c i r.1 r.2.1 r.2.2

/-- The outer loop `rle5Loop` of `SffFile::Rle5Decode` with the record of its
accesses (`srcPx[i] & 0x7f` and `srcPx[i] >> 7` are two reads). -/
def rle5LoopT (src : List Nat) (srcLen dstLen : Nat) :
    Nat → Nat → Nat → List Nat → Access → Option (List Nat) × Access
  | 0, _, j, dst, lg => (if j < dstLen then none else some dst, lg)
  | fuel + 1, i, j, dst, lg =>
    if j < dstLen then
      let lg := lg.rd i
      let rl := ((src.getD i 0 : Nat) : Int)
      let i := adv srcLen i
      let lg := (lg.rd i).rd i
      let dl := ((src.getD i 0 &&& 0x7f : Nat) : Int)
      let hasColor := src.getD i 0 >>> 7 ≠ 0
      let lg := if hasColor then lg.rd (adv srcLen i) else lg
      let i := if hasColor then adv srcLen i else i
      let c := if hasColor then src.getD i 0 else 0
      let i := adv srcLen i
      match rle5InnerT src srcLen dstLen (rl.toNat + 8 * dl.toNat + 2) rl dl c i j dst lg with
      | (none, lg) => (none, lg)
      | (some (i, j, dst), lg) => rle5LoopT src srcLen dstLen fuel i j dst lg
    else (some dst, lg)

/-- Method `SffFile::Rle5Decode` with the record of its accesses. -/
def Rle5DecodeT (s : Sprite) (src : List Nat) : Res (List Nat) × Access :=
  if src.length = 0 then (.err .fail, ⟨[], []⟩) else
  match dstLenOf s with
  | none => (.err .undefined, ⟨[], []⟩)
  | some dstLen =>
    match rle5LoopT src src.length dstLen dstLen 0 0 (List.replicate dstLen 0) ⟨[], []⟩ with
    | (none, lg) => (.err .hang, lg)
    | (some dst, lg) => (.ok dst, lg)

/-- The back-reference loop `lz5Copy` with the record of its writes. -/
def lz5CopyT (dstLen d : Nat) :
    Nat → Nat → List Nat → List CopyStep → Access → Nat × List Nat × List CopyStep × Access
  | 0, j, dst, tr, lg => (j, dst, tr, lg)
  | count + 1, j, dst, tr, lg =>
    if j < dstLen ∧ j ≥ d then
      lz5CopyT dstLen d count (j + 1) (dst.set j (dst.getD (j - d) 0)) (tr ++ [⟨j, d⟩]) (lg.wr j)
    else if j < dstLen then
      lz5CopyT dstLen d count (j + 1) (dst.set j 0) (tr ++ [⟨j, d⟩]) (lg.wr j)
    else lz5CopyT dstLen d count j dst tr lg

/-- The part of one iteration `lz5Step` that comes before `cts++` (a
back-reference or a literal run), with the record of its accesses. -/
def lz5TokenT (src : List Nat) (srcLen dstLen : Nat) (st : Lz5State) (lg : Access) :
    Lz5State × Access :=
  let lg := lg.rd st.i
  let d := src.getD st.i 0
  let i := adv srcLen st.i
  if st.ct &&& (1 <<< st.cts) ≠ 0 then
    if d &&& 0x3f = 0 then
      let lg := lg.rd i
      let d := ((d <<< 2) ||| src.getD i 0) + 1
      let i := adv srcLen i
      let lg := lg.rd i
      let n := src.getD i 0 + 2
      let i := adv srcLen i
      let r := lz5CopyT dstLen d (n + 1) st.j st.dst st.trace lg
      ({ st with i := i, j := r.1, dst := r.2.1, trace := r.2.2.1 }, r.2.2.2)
    else
      let rb := (st.rb ||| ((d &&& 0xc0) >>> st.rbc)) % 256
      let rbc := (st.rbc + 2) % 256
      let n := d &&& 0x3f
      if rbc < 8 then
        let lg := lg.rd i
        let d := src.getD i 0 + 1
        let i := adv srcLen i
        let r := lz5CopyT dstLen d (n + 1) st.j st.dst st.trace lg
        ({ st with i := i, j := r.1, rb := rb, rbc := rbc, dst := r.2.1, trace := r.2.2.1 },
         r.2.2.2)
      else
        let d := rb + 1
        let r := lz5CopyT dstLen d (n + 1) st.j st.dst st.trace lg
        ({ st with i := i, j := r.1, rb := 0, rbc := 0, dst := r.2.1, trace := r.2.2.1 },
         r.2.2.2)
  else
    if d &&& 0xe0 = 0 then
      let lg := lg.rd i
      let n := src.getD i 0 + 8
      let i := adv srcLen i
      let r := fillRunT dstLen (d % 256) n st.j st.dst lg
      ({ st with i := i, j := r.1, dst := r.2.1 }, r.2.2)
    else
      let n := d >>> 5
      let d := d &&& 0x1f
      let r := fillRunT dstLen (d % 256) n st.j st.dst lg
      ({ st with i := i, j := r.1, dst := r.2.1 }, r.2.2)

/-- One iteration `lz5Step` of the loop of `SffFile::Lz5Decode` with the record
of its accesses. -/
def lz5StepT (src : List Nat) (srcLen dstLen : Nat) (st : Lz5State) (lg : Access) :
    Lz5State × Access :=
  let st1 := lz5TokenT src srcLen dstLen st lg
  let cts := (st1.1.cts + 1) % 256
  if cts ≥ 8 then
    ({ st1.1 with ct := src.getD st1.1.i 0, cts := 0, i := adv srcLen st1.1.i },
     st1.2.rd st1.1.i)
  else ({ st1.1 with cts := cts }, st1.2)

/-- The loop `lz5Loop` of `SffFile::Lz5Decode` with the record of its accesses. -/
def lz5LoopT (src : List Nat) (srcLen dstLen : Nat) :
    Nat → Lz5State → Access → Option Lz5State × Access
  | 0, st, lg => (if st.j < dstLen then none else some st, lg)
  | fuel + 1, st, lg =>
    if st.j < dstLen then
      lz5LoopT src srcLen dstLen fuel (lz5StepT src srcLen dstLen st lg).1
        (lz5StepT src srcLen dstLen st lg).2
    else (some st, lg)

/-- Method `SffFile::Lz5Decode` with the record of its accesses: the
`memset(dstPx, 0, dstLen)` writes the indices `0 .. dstLen - 1`, the
initialisation of `ct` reads `srcPx[0]`. -/
def Lz5DecodeT (s : Sprite) (src : List Nat) : Res (List Nat) × Access :=
  if src.length = 0 then (.err .fail, ⟨[], []⟩) else
  match dstLenOf s with
  | none => (.err .undefined, ⟨[], []⟩)
  | some dstLen =>
    match lz5LoopT src src.length dstLen dstLen (lz5Init src dstLen)
      ⟨[0], List.range dstLen⟩ with
    | (none, lg) => (.err .hang, lg)
    | (some st, lg) => (.ok st.dst, lg)

/-- One move of the read cursor: it stays, or it goes up by one from a
position strictly below `srcLen - 1`. -/
def cursorStep (srcLen a b : Nat) : Prop := b = a ∨ (b = a + 1 ∧ a < srcLen - 1)

/-- What holds of the reads recorded so far and of the read cursor `i`: the
cursor and every read index are at most `srcLen - 1`, consecutive reads are one
cursor move apart, and so are the last read and the cursor. -/
def ReadsOk (srcLen : Nat) (reads : List Nat) (i : Nat) : Prop :=
  i ≤ srcLen - 1 ∧ (∀ r ∈ reads, r ≤ srcLen - 1) ∧ List.Chain' (cursorStep srcLen) reads ∧
  ∀ r, reads.getLast? = some r → cursorStep srcLen r i

/-- What holds of the output position `j`, the buffer and the writes recorded
so far. -/
def WritesOk (dstLen j : Nat) (dst : List Nat) (lg : Access) : Prop :=
  dst.length = dstLen ∧ j ≤ dstLen ∧ ∀ w ∈ lg.writes, w < dstLen

/-- Every recorded write is at an index strictly below `n`. -/
def Access.writesBelow (lg : Access) (n : Nat) : Prop := ∀ w ∈ lg.writes, w < n

/-- Every recorded read is at an index below `srcLen`, and from one read to
the next the cursor stays or goes up by one from a position strictly below
`srcLen - 1`. -/
def Access.readsClamped (lg : Access) (srcLen : Nat) : Prop :=
  (∀ r ∈ lg.reads, r < srcLen) ∧ List.Chain' (cursorStep srcLen) lg.reads

/-- A 2x2 sprite record. -/
def sprite2x2 : Sprite := { Sprite.init with Size0 := 2, Size1 := 2 }

/-- A variant-2 file with one palette and one sprite: the 64-byte header
(local base offset 108), the palette directory entry at offset 64, the sprite
directory entry at offset 80 for a 2x2 RLE8 sprite (format code 2) with
palette index 3, 1024 bytes of palette data at offset 108 and the sprite data
(four bytes that are skipped, then the RLE8 run 0x44 0x07) at offset 1132. -/
def samplePalidx : List Nat :=
  sffMagic ++ [0, 1, 0, 2] ++ [0, 0, 0, 0] ++ List.replicate 16 0 ++
  [80, 0, 0, 0] ++ [1, 0, 0, 0] ++ [64, 0, 0, 0] ++ [1, 0, 0, 0] ++
  [108, 0, 0, 0] ++ [0, 0, 0, 0] ++ [0, 0, 0, 0] ++
  [1, 0, 1, 0, 0, 1, 0, 0, 0, 0, 0, 0, 0, 4, 0, 0] ++
  [0, 0, 0, 0, 2, 0, 2, 0, 0, 0, 0, 0, 0, 0, 2, 8, 0, 4, 0, 0, 6, 0, 0, 0, 3, 0, 0, 0] ++
  List.replicate 1024 128 ++ [0, 0, 0, 0, 68, 7]

/-- A 1x1 sprite record. -/
def sprite1x1 : Sprite := { Sprite.init with Size0 := 1, Size1 := 1 }

/-- The branch `(d & 0x3f) == 0` of a set control bit in `SffFile::Lz5Decode`
(the long back-reference): the offset is made of the token and the byte after
it, the length variable `n` of the byte after that plus 2, the copy loop runs
`n + 1` times. -/
def lz5LongRef (src : List Nat) (srcLen dstLen : Nat) (st : Lz5State) : Lz5State :=
  let d := src.getD st.i 0
  let i := adv srcLen st.i
  let d := ((d <<< 2) ||| src.getD i 0) + 1
  let i := adv srcLen i
  let n := src.getD i 0 + 2
  let i := adv srcLen i
  let r := lz5Copy dstLen d (n + 1) st.j st.dst st.trace
  { st with i := i, j := r.1, dst := r.2.1, trace := r.2.2 }

/-- The branch `(d & 0x3f) != 0` of a set control bit in `SffFile::Lz5Decode`
(the short back-reference). -/
def lz5ShortRef (src : List Nat) (srcLen dstLen : Nat) (st : Lz5State) : Lz5State :=
  let d := src.getD st.i 0
  let i := adv srcLen st.i
  let rb := (st.rb ||| ((d &&& 0xc0) >>> st.rbc)) % 256
  let rbc := (st.rbc + 2) % 256
  let n := d &&& 0x3f
  if rbc < 8 then
    let d := src.getD i 0 + 1
    let i := adv srcLen i
    let r := lz5Copy dstLen d (n + 1) st.j st.dst st.trace
    { st with i := i, j := r.1, rb := rb, rbc := rbc, dst := r.2.1, trace := r.2.2 }
  else
    let d := rb + 1
    let r := lz5Copy dstLen d (n + 1) st.j st.dst st.trace
    { st with i := i, j := r.1, rb := 0, rbc := 0, dst := r.2.1, trace := r.2.2 }

/-- The branch `(d & 0xe0) == 0` of a clear control bit in `SffFile::Lz5Decode`
(the extended literal run). -/
def lz5LongRun (src : List Nat) (srcLen dstLen : Nat) (st : Lz5State) : Lz5State :=
  let d := src.getD st.i 0
  let i := adv srcLen st.i
  let n := src.getD i 0 + 8
  let i := adv srcLen i
  let r := fillRun dstLen (d % 256) n st.j st.dst
  { st with i := i, j := r.1, dst := r.2 }

/-- The branch `(d & 0xe0) != 0` of a clear control bit in `SffFile::Lz5Decode`
(the short literal run). -/
def lz5ShortRun (src : List Nat) (srcLen dstLen : Nat) (st : Lz5State) : Lz5State :=
  let d := src.getD st.i 0
  let i := adv srcLen st.i
  let n := d >>> 5
  let d := d &&& 0x1f
  let r := fillRun dstLen (d % 256) n st.j st.dst
  { st with i := i, j := r.1, dst := r.2 }

/-- The statements `cts++; if (cts >= 8) { ct = srcPx[i]; cts = 0; ... }` that
end an iteration of the loop of `SffFile::Lz5Decode`. -/
def lz5Next (src : List Nat) (srcLen : Nat) (st1 : Lz5State) : Lz5State :=
  let cts := (st1.cts + 1) % 256
  if cts ≥ 8 then
    { st1 with ct := src.getD st1.i 0, cts := 0, i := adv srcLen st1.i }
  else { st1 with cts := cts }

/-- One iteration of the outer loop of `SffFile::RlePcxDecode` from cursor `i`
and output position `j` (the body of `pcxLoop`): the new cursor, output
position and buffer, or `none` at the `break` of a marker that ends the data. -/
def pcxIter (src : List Nat) (srcLen dstLen : Nat) (i j : Nat) (dst : List Nat) :
    Option (Nat × Nat × List Nat) :=
  let byte := src.getD i 0
  let i := i + 1
  if byte &&& 0xC0 = 0xC0 then
    let count := byte &&& 0x3F
    if i < srcLen then
      let byte := src.getD i 0
      let i := i + 1
      let r := fillRun dstLen byte count j dst
      some (i, r.1, r.2)
    else none
  else
    let r := fillRun dstLen byte 1 j dst
    some (i, r.1, r.2)

/-- One iteration of the outer loop of `SffFile::Rle5Decode` from cursor `i` and
output position `j` (the body of `rle5Loop`, one packet): the run length, the
data length with the colour flag, the colour if flagged, then the inner loop. -/
def rle5Packet (src : List Nat) (srcLen dstLen : Nat) (i j : Nat) (dst : List Nat) :
    Option (Nat × Nat × List Nat) :=
  let rl := ((src.getD i 0 : Nat) : Int)
  let i := adv srcLen i
  let dl := ((src.getD i 0 &&& 0x7f : Nat) : Int)
  let hasColor := src.getD i 0 >>> 7 ≠ 0
  let i := if hasColor then adv srcLen i else i
  let c := if hasColor then src.getD i 0 else 0
  let i := adv srcLen i
  rle5Inner src srcLen dstLen (rl.toNat + 8 * dl.toNat + 2) rl dl c i j dst

/-- The expansion of a PCX run-length stream, following the rule's words: a
byte `b` with `(b & 0xC0) == 0xC0` and the value byte `v` after it stand for
`b & 0x3F` copies of `v`; any other byte stands for itself; a marker byte at
the end, with no value byte after it, stands for nothing. -/
def pcxExpand : List Nat → List Nat
  | [] => []
  | [b] => if b &&& 0xC0 = 0xC0 then [] else [b]
  | b :: v :: rest =>
    if b &&& 0xC0 = 0xC0 then List.replicate (b &&& 0x3F) v ++ pcxExpand rest
    else b :: pcxExpand (v :: rest)

/-- The header of a packet as `SffFile::Rle5Decode` reads it at cursor `i` (the
statements of `rle5Packet` before the inner loop): the run length `rl`, the
data length `dl`, the colour `c` and the cursor after the header. -/
def rle5Header (src : List Nat) (srcLen i : Nat) : Int × Int × Nat × Nat :=
  let rl := ((src.getD i 0 : Nat) : Int)
  let i := adv srcLen i
  let dl := ((src.getD i 0 &&& 0x7f : Nat) : Int)
  let hasColor := src.getD i 0 >>> 7 ≠ 0
  let i := if hasColor then adv srcLen i else i
  let c := if hasColor then src.getD i 0 else 0
  let i := adv srcLen i
  (rl, dl, c, i)

/-- A packet of an RLE5 stream, following the rule's words: a run byte `r`, a
colour byte `v` that may be absent, and the data bytes `ds`. -/
structure Rle5Pkt where
  r : Nat
  v : Option Nat
  ds : List Nat
  deriving DecidableEq

/-- The parts of a packet are bytes, and the number of data bytes fits the low
7 bits of the control byte. -/
def Rle5Pkt.valid (p : Rle5Pkt) : Bool :=
  decide (p.r < 256) && decide (p.v.getD 0 < 256) && decide (p.ds.length < 128) &&
    p.ds.all (fun d => decide (d < 256))

/-- The bytes of a packet: the run byte, the control byte (0x80 when the colour
byte is present, plus the number of data bytes), the colour byte if present, the
data bytes. -/
def Rle5Pkt.encode (p : Rle5Pkt) : List Nat :=
  [p.r, (if p.v.isSome then 0x80 else 0) + p.ds.length] ++ p.v.toList ++ p.ds

/-- The pixels a data byte `d` stands for: `(d >> 5) + 1` pixels of colour `d & 0x1F`. -/
def rle5Run (d : Nat) : List Nat := List.replicate ((d >>> 5) + 1) (d &&& 0x1f)

/-- The pixels a packet stands for: `r + 1` pixels of colour `v` (0 when
absent), then the pixels of each data byte in order. -/
def Rle5Pkt.pixels (p : Rle5Pkt) : List Nat :=
  List.replicate (p.r + 1) (p.v.getD 0) ++ (p.ds.map rle5Run).flatten

/-- The bytes of a list of packets. -/
def rle5Encode : List Rle5Pkt → List Nat
  | [] => []
  | p :: ps => p.encode ++ rle5Encode ps

/-- The pixels of a list of packets: the concatenation of the packets' pixels. -/
def rle5Pixels : List Rle5Pkt → List Nat
  | [] => []
  | p :: ps => p.pixels ++ rle5Pixels ps

/-- The bytes `out` written from output position `j` on, clipped to a buffer of
`dstLen` bytes: the new output position and the buffer. -/
def clipPut (dstLen j : Nat) (dst out : List Nat) : Nat × List Nat :=
  (min (j + out.length) dstLen,
   dst.take j ++ out.take (dstLen - j) ++ dst.drop (min (j + out.length) dstLen))

/-- A sprite record of width 5 and height 1. -/
def sprite5x1 : Sprite := { Sprite.init with Size0 := 5, Size1 := 1 }

/-- The registers of the loop of `Lz5Decode` after `k` iterations from the start. -/
def lz5After (src : List Nat) (dstLen : Nat) : Nat → Lz5State
  | 0 => lz5Init src dstLen
  | k + 1 => lz5Step src src.length dstLen (lz5After src dstLen k)

/-- Whether the iteration that starts in state `st` decodes a short
back-reference: the control bit is set and the low 6 bits of the token are
not zero. -/
def lz5IsShort (src : List Nat) (st : Lz5State) : Bool :=
  decide (st.ct &&& (1 <<< st.cts) ≠ 0) && decide (src.getD st.i 0 &&& 0x3f ≠ 0)

/-- The number of short back-references among the first `k` iterations. -/
def shortCount (src : List Nat) (dstLen : Nat) : Nat → Nat
  | 0 => 0
  | k + 1 => shortCount src dstLen k +
      (if lz5IsShort src (lz5After src dstLen k) then 1 else 0)

/-- The token bytes of the short back-references of the group of four that is
open after `k` iterations (at most three tokens). -/
def shortGroup (src : List Nat) (dstLen : Nat) : Nat → List Nat
  | 0 => []
  | k + 1 =>
    if lz5IsShort src (lz5After src dstLen k) then
      (if (shortGroup src dstLen k).length = 3 then []
       else shortGroup src dstLen k ++ [src.getD (lz5After src dstLen k).i 0])
    else shortGroup src dstLen k

/-- The top two bits of up to three tokens `t1, t2, t3`, packed as
`(t1>>6)<<6 | (t2>>6)<<4 | (t3>>6)<<2`. -/
def packBits (ts : List Nat) : Nat :=
  ((ts.getD 0 0 >>> 6) <<< 6) ||| ((ts.getD 1 0 >>> 6) <<< 4) ||| ((ts.getD 2 0 >>> 6) <<< 2)

/-- The copy loop of a back-reference with offset `d`, run `count` times from
state `st`. -/
def lz5Ref (dstLen d count : Nat) (st : Lz5State) : Lz5State :=
  { st with
    j := (lz5Copy dstLen d count st.j st.dst st.trace).1
    dst := (lz5Copy dstLen d count st.j st.dst st.trace).2.1
    trace := (lz5Copy dstLen d count st.j st.dst st.trace).2.2 }

/-- What holds of the registers `rb`, `rbc` and the open group `g`. -/
def ShortInv (g : List Nat) (st : Lz5State) : Prop :=
  g.length ≤ 3 ∧ st.rbc = 2 * g.length ∧ st.rb = packBits g ∧ ∀ t ∈ g, t < 256

/-- An LZ5 source whose first four tokens are short back-references: control
byte 0x0f, then the tokens 0x41, 0x81, 0xc1, each followed by the offset byte
0, then the token 0x41 and three more bytes. -/
def sampleLz5Short : List Nat := [0x0f, 0x41, 0, 0x81, 0, 0xc1, 0, 0x41, 0, 0, 0]

/-- Whether a fault-free iteration of the sprite loop on the variant-1 entry at
`st.shofs` makes `prev` point to that entry: the entry has data and is not in
group 9000 with a number other than 0. -/
def keepsPrev (data : List Nat) (st : LoadState) : Bool :=
  decide (le32At data (st.shofs + 4) ≠ 0) &&
    !(decide (le16At data (st.shofs + 12) = 9000) && decide (le16At data (st.shofs + 14) ≠ 0))

/-- The entry `prev` points to when the sprite loop started from `st0` reaches
entry `n`: the last of the entries `0 .. n-1` for which `keepsPrev` holds. -/
def prevAt (lodepng : Int → List Nat → Option (Nat × Nat × List Nat)) (data : List Nat)
    (lofs tofs : Nat) (st0 : LoadState) : Nat → Option Nat
  | 0 => none
  | n + 1 =>
    if keepsPrev data (entryState lodepng data lofs tofs st0 n) then some n
    else prevAt lodepng data lofs tofs st0 n

/-- A variant-1 file with three sprites: at offset 28 a 2x2 sprite of group 0
with its own palette, at offset 960 a 2x2 sprite of group 9000 and number 1
with its own palette, at offset 1892 a 1x1 sprite whose reuse flag byte is 1. -/
def sampleV1Prev : List Nat :=
  sffMagic ++ [0, 1, 0, 1] ++ [0, 0, 0, 0] ++ [3, 0, 0, 0] ++ [28, 0, 0, 0] ++
  [192, 3, 0, 0] ++ [132, 3, 0, 0] ++ [0, 0, 0, 0] ++ [0, 0] ++ [0, 0] ++ [0, 0] ++ [0] ++
  List.replicate 13 0 ++
  [10, 5, 1, 8, 0, 0, 0, 0, 1, 0, 1, 0] ++ List.replicate 116 0 ++ [1, 2, 3, 4] ++
  List.replicate 768 50 ++
  [100, 7, 0, 0] ++ [132, 3, 0, 0] ++ [0, 0, 0, 0] ++ [40, 35] ++ [1, 0] ++ [0, 0] ++ [0] ++
  List.replicate 13 0 ++
  [10, 5, 1, 8, 0, 0, 0, 0, 1, 0, 1, 0] ++ List.replicate 116 0 ++ [1, 2, 3, 4] ++
  List.replicate 768 60 ++
  [0, 0, 0, 0] ++ [129, 0, 0, 0] ++ [0, 0, 0, 0] ++ [0, 0] ++ [2, 0] ++ [0, 0] ++ [1] ++
  List.replicate 13 0 ++
  [10, 5, 1, 8, 0, 0, 0, 0, 0, 0, 0, 0] ++ List.replicate 116 0 ++ [7]

/-- A variant-1 file with three entries that are not at a fixed stride: at
offset 28 a 2x2 sprite with its own palette (next entry at 960), at offset 960
a linked entry (data size 0, link 0, next entry at 1000), at offset 1000 a 1x1
sprite that reuses the previous palette. -/
def sampleV1Link : List Nat :=
  sffMagic ++ [0, 1, 0, 1] ++ [0, 0, 0, 0] ++ [3, 0, 0, 0] ++ [28, 0, 0, 0] ++
  [192, 3, 0, 0] ++ [132, 3, 0, 0] ++ [0, 0, 0, 0] ++ [0, 0] ++ [0, 0] ++ [0, 0] ++ [0] ++
  List.replicate 13 0 ++
  [10, 5, 1, 8, 0, 0, 0, 0, 1, 0, 1, 0] ++ List.replicate 116 0 ++ [1, 2, 3, 4] ++
  List.replicate 768 50 ++
  [232, 3, 0, 0] ++ [0, 0, 0, 0] ++ [0, 0, 0, 0] ++ [0, 0] ++ [1, 0] ++ [0, 0] ++ [0] ++
  List.replicate 13 0 ++ List.replicate 8 0 ++
  [0, 0, 0, 0] ++ [129, 0, 0, 0] ++ [3, 0, 255, 255] ++ [5, 0] ++ [2, 0] ++ [0, 0] ++ [1] ++
  List.replicate 13 0 ++
  [10, 5, 1, 8, 0, 0, 0, 0, 0, 0, 0, 0] ++ List.replicate 116 0 ++ [7]

/-- A file of 68 bytes that is one PCX sub-header at offset 0: bit depth 8,
rectangle x 2..5, y 1..7. -/
def samplePcxHeader : List Nat :=
  [10, 5, 1, 8, 2, 0, 1, 0, 5, 0, 7, 0] ++ List.replicate 56 0

/-- The data size `ReadSpriteDataV1` works with when `c00` is set: the distance
to the next sub-header when that lies after `offset`, the declared size
otherwise, and at least 128. -/
def v1DataSize (offset datasize nextSubheader : Nat) : Nat :=
  if (if nextSubheader > offset then (nextSubheader - offset) % 2 ^ 32 else datasize) < 128 + 0
  then 128 + 0
  else (if nextSubheader > offset then (nextSubheader - offset) % 2 ^ 32 else datasize)

/-- The file offset of the 768-byte colour table `ReadSpriteDataV1` reads when
`c00` is set: the last 768 bytes of the sprite block. -/
def v1PalOfs (offset datasize nextSubheader : Nat) : Nat :=
  offset + v1DataSize offset datasize nextSubheader - 768

/-- A legacy sprite block at offset 32 of a file: 32 bytes of sub-header (flag
byte 0), the 128-byte PCX header of a 2x2 sprite, the pixel bytes 1, 2, 3, 4
and a colour table whose byte `k` is `k mod 256`. -/
def sampleLegacyBlock : List Nat :=
  List.replicate 32 0 ++
  [10, 5, 1, 8, 0, 0, 0, 0, 1, 0, 1, 0] ++ List.replicate 116 0 ++ [1, 2, 3, 4] ++
  (List.range 768).map (fun k => k % 256)

/-! # Theorems -/

/-! ## The binary reader -/

theorem readBytes_eq (f : FILE) (n : Nat) (hn : 0 < n) :
    readBytes f n = if f.pos + n ≤ f.data.length
      then some ((f.data.drop f.pos).take n, ⟨f.data, f.pos + n⟩) else none := by
  unfold readBytes
  simp only [List.length_take, List.length_drop]
  by_cases h : f.pos + n ≤ f.data.length
  · rw [if_pos h, if_pos (by omega)]
  · rw [if_neg h, if_neg (by omega)]

theorem ReadU16LE_eq (f : FILE) :
    ReadU16LE f = if f.pos + 2 ≤ f.data.length
      then some (le16At f.data f.pos, ⟨f.data, f.pos + 2⟩) else none := by
  unfold ReadU16LE
  rw [readBytes_eq f 2 (by omega)]
  split_ifs <;> rfl

theorem ReadI16LE_eq (f : FILE) :
    ReadI16LE f = if f.pos + 2 ≤ f.data.length
      then some (toI16 (le16At f.data f.pos), ⟨f.data, f.pos + 2⟩) else none := by
  unfold ReadI16LE
  rw [ReadU16LE_eq]
  split_ifs <;> rfl

theorem ReadU32LE_eq (f : FILE) :
    ReadU32LE f = if f.pos + 4 ≤ f.data.length
      then some (le32At f.data f.pos, ⟨f.data, f.pos + 4⟩) else none := by
  unfold ReadU32LE
  rw [readBytes_eq f 4 (by omega)]
  split_ifs <;> rfl

theorem readU32_eq (f : FILE) :
    readU32 f = if f.pos + 4 ≤ f.data.length
      then some (le32At f.data f.pos, ⟨f.data, f.pos + 4⟩) else none := by
  unfold readU32 fread1
  rw [if_neg (by omega), readBytes_eq f 4 (by omega)]
  split_ifs <;> rfl

theorem readU8_eq (f : FILE) :
    readU8 f = if f.pos + 1 ≤ f.data.length
      then some (byteAt f.data f.pos, ⟨f.data, f.pos + 1⟩) else none := by
  unfold readU8 fread1
  rw [if_neg (by omega), readBytes_eq f 1 (by omega)]
  split_ifs with h
  · simp only [byteAt]
    congr 2
    simp [List.getD_eq_getElem?_getD, List.getElem?_take, List.getElem?_drop]
  · rfl

theorem fread1_eq (f : FILE) (n : Nat) :
    fread1 f n = if 0 < n ∧ f.pos + n ≤ f.data.length
      then some ((f.data.drop f.pos).take n, ⟨f.data, f.pos + n⟩) else none := by
  unfold fread1
  by_cases hn : n = 0
  · subst hn; simp
  · rw [if_neg hn, readBytes_eq f n (by omega)]
    have : 0 < n := by omega
    simp [this]


theorem ReadHeader_bad_magic (h : SffHeader) (data : List Nat) (hm : data.take 12 ≠ sffMagic) :
    ReadHeader h (fopen data) = (h, none) := by
  unfold ReadHeader
  rw [fread1_eq]
  split_ifs with h1
  · simp only [fopen, List.drop_zero]
    rw [if_pos hm]
  · rfl

theorem ReadU16LE_ok (data : List Nat) (p : Nat) (h : p + 2 ≤ data.length) :
    ReadU16LE ⟨data, p⟩ = some (le16At data p, ⟨data, p + 2⟩) := by
  rw [ReadU16LE_eq, if_pos h]

theorem ReadI16LE_ok (data : List Nat) (p : Nat) (h : p + 2 ≤ data.length) :
    ReadI16LE ⟨data, p⟩ = some (toI16 (le16At data p), ⟨data, p + 2⟩) := by
  rw [ReadI16LE_eq, if_pos h]

theorem ReadU32LE_ok (data : List Nat) (p : Nat) (h : p + 4 ≤ data.length) :
    ReadU32LE ⟨data, p⟩ = some (le32At data p, ⟨data, p + 4⟩) := by
  rw [ReadU32LE_eq, if_pos h]

theorem readU32_ok (data : List Nat) (p : Nat) (h : p + 4 ≤ data.length) :
    readU32 ⟨data, p⟩ = some (le32At data p, ⟨data, p + 4⟩) := by
  rw [readU32_eq, if_pos h]

theorem readU8_ok (data : List Nat) (p : Nat) (h : p + 1 ≤ data.length) :
    readU8 ⟨data, p⟩ = some (byteAt data p, ⟨data, p + 1⟩) := by
  rw [readU8_eq, if_pos h]

theorem ReadHeader_v2 (h : SffHeader) (data : List Nat) (hm : data.take 12 = sffMagic)
    (hv : byteAt data 15 = 2) (hl : 64 ≤ data.length) :
    ReadHeader h (fopen data) =
      ({ Ver3 := byteAt data 12, Ver2 := byteAt data 13, Ver1 := byteAt data 14, Ver0 := 2,
         FirstSpriteHeaderOffset := le32At data 36, FirstPaletteHeaderOffset := le32At data 44,
         NumberOfSprites := le32At data 40, NumberOfPalettes := le32At data 48 },
       some (le32At data 52, le32At data 60, ⟨data, 64⟩)) := by
  have e1 : fread1 (fopen data) 12 = some (sffMagic, ⟨data, 12⟩) := by
    rw [fread1_eq, if_pos ⟨by omega, by simp [fopen]; omega⟩]
    simp [fopen, hm]
  unfold ReadHeader
  rw [e1]
  simp (disch := omega) [readU8_ok, readU32_ok, hv]

theorem ReadHeader_v1 (h : SffHeader) (data : List Nat) (hm : data.take 12 = sffMagic)
    (hv : byteAt data 15 = 1) (hl : 28 ≤ data.length) :
    ReadHeader h (fopen data) =
      ({ Ver3 := byteAt data 12, Ver2 := byteAt data 13, Ver1 := byteAt data 14, Ver0 := 1,
         FirstSpriteHeaderOffset := le32At data 24, FirstPaletteHeaderOffset := 0,
         NumberOfSprites := le32At data 20, NumberOfPalettes := 0 },
       some (0, 0, ⟨data, 28⟩)) := by
  have e1 : fread1 (fopen data) 12 = some (sffMagic, ⟨data, 12⟩) := by
    rw [fread1_eq, if_pos ⟨by omega, by simp [fopen]; omega⟩]
    simp [fopen, hm]
  unfold ReadHeader
  rw [e1]
  simp (disch := omega) [readU8_ok, readU32_ok, hv]

theorem readU8_some {f f' : FILE} {v : Nat} (h : readU8 f = some (v, f')) :
    f.pos + 1 ≤ f.data.length ∧ v = byteAt f.data f.pos ∧ f' = ⟨f.data, f.pos + 1⟩ := by
  rw [readU8_eq] at h
  split_ifs at h with hc
  simp only [Option.some.injEq, Prod.mk.injEq] at h
  exact ⟨hc, h.1.symm, h.2.symm⟩

theorem readU32_some {f f' : FILE} {v : Nat} (h : readU32 f = some (v, f')) :
    f.pos + 4 ≤ f.data.length ∧ v = le32At f.data f.pos ∧ f' = ⟨f.data, f.pos + 4⟩ := by
  rw [readU32_eq] at h
  split_ifs at h with hc
  simp only [Option.some.injEq, Prod.mk.injEq] at h
  exact ⟨hc, h.1.symm, h.2.symm⟩

theorem ReadHeader_some (h h' : SffHeader) (data : List Nat) (r : Nat × Nat × FILE)
    (H : ReadHeader h (fopen data) = (h', some r)) :
    data.take 12 = sffMagic ∧
      ((byteAt data 15 = 2 ∧ 64 ≤ data.length) ∨ (byteAt data 15 = 1 ∧ 28 ≤ data.length)) := by
  by_cases hm : data.take 12 = sffMagic
  swap
  · rw [ReadHeader_bad_magic h data hm] at H
    simp at H
  refine ⟨hm, ?_⟩
  have e1 : fread1 (fopen data) 12 = some (sffMagic, ⟨data, 12⟩) := by
    have : 12 ≤ data.length := by
      have := congrArg List.length hm
      simp [sffMagic] at this
      omega
    rw [fread1_eq, if_pos ⟨by omega, by simp [fopen]; omega⟩]
    simp [fopen, hm]
  unfold ReadHeader at H
  rw [e1] at H
  simp only [ne_eq, not_true_eq_false, if_false] at H
  iterate 4
    split at H
    · simp at H
    rename_i heq
    obtain ⟨hl, rfl, rfl⟩ := readU8_some heq
    clear heq
    simp only [] at hl
  split at H
  · simp at H
  rename_i heq
  obtain ⟨hl, rfl, rfl⟩ := readU32_some heq
  clear heq
  simp only [] at hl
  split at H
  · left
    rename_i hv
    refine ⟨hv, ?_⟩
    iterate 11
      split at H
      · simp at H
      rename_i heq
      obtain ⟨hl, rfl, rfl⟩ := readU32_some heq
      clear heq
      simp only [] at hl
    omega
  · split at H
    · right
      rename_i hv
      refine ⟨hv, ?_⟩
      iterate 2
        split at H
        · simp at H
        rename_i heq
        obtain ⟨hl, rfl, rfl⟩ := readU32_some heq
        clear heq
        simp only [] at hl
      omega
    · simp at H

/-! ## Directory entries -/

theorem ReadU16LE_some {f f' : FILE} {v : Nat} (h : ReadU16LE f = some (v, f')) :
    f.pos + 2 ≤ f.data.length ∧ v = le16At f.data f.pos ∧ f' = ⟨f.data, f.pos + 2⟩ := by
  rw [ReadU16LE_eq] at h
  split_ifs at h with hc
  simp only [Option.some.injEq, Prod.mk.injEq] at h
  exact ⟨hc, h.1.symm, h.2.symm⟩

theorem ReadI16LE_some {f f' : FILE} {v : Int} (h : ReadI16LE f = some (v, f')) :
    f.pos + 2 ≤ f.data.length ∧ v = toI16 (le16At f.data f.pos) ∧ f' = ⟨f.data, f.pos + 2⟩ := by
  rw [ReadI16LE_eq] at h
  split_ifs at h with hc
  simp only [Option.some.injEq, Prod.mk.injEq] at h
  exact ⟨hc, h.1.symm, h.2.symm⟩

theorem ReadU32LE_some {f f' : FILE} {v : Nat} (h : ReadU32LE f = some (v, f')) :
    f.pos + 4 ≤ f.data.length ∧ v = le32At f.data f.pos ∧ f' = ⟨f.data, f.pos + 4⟩ := by
  rw [ReadU32LE_eq] at h
  split_ifs at h with hc
  simp only [Option.some.injEq, Prod.mk.injEq] at h
  exact ⟨hc, h.1.symm, h.2.symm⟩

theorem ReadSpriteHeaderV2_ok (s : Sprite) (data : List Nat) (p lofs tofs : Nat)
    (h : p + 28 ≤ data.length) :
    ReadSpriteHeaderV2 s ⟨data, p⟩ lofs tofs =
      (entryV2 s data p,
       .ok (entryV2Ofs data p lofs tofs, le32At data (p + 20), le16At data (p + 12), ⟨data, p + 28⟩)) := by
  unfold ReadSpriteHeaderV2
  simp (disch := omega) [readU8_ok, ReadU16LE_ok, ReadI16LE_ok, ReadU32LE_ok, entryV2, entryV2Ofs,
    Nat.add_assoc]

theorem ReadSpriteHeaderV2_inv (s s' : Sprite) (f : FILE) (lofs tofs : Nat)
    (r : Nat × Nat × Nat × FILE) (H : ReadSpriteHeaderV2 s f lofs tofs = (s', .ok r)) :
    f.pos + 28 ≤ f.data.length := by
  unfold ReadSpriteHeaderV2 at H
  iterate 4
    split at H
    · simp at H
    rename_i heq
    obtain ⟨hl, rfl, rfl⟩ := ReadU16LE_some heq
    clear heq
    try simp only [] at hl
  iterate 2
    split at H
    · simp at H
    rename_i heq
    obtain ⟨hl, rfl, rfl⟩ := ReadI16LE_some heq
    clear heq
    try simp only [] at hl
  split at H
  · simp at H
  rename_i heq
  obtain ⟨hl, rfl, rfl⟩ := ReadU16LE_some heq
  clear heq
  try simp only [] at hl
  iterate 2
    split at H
    · simp at H
    rename_i heq
    obtain ⟨hl, rfl, rfl⟩ := readU8_some heq
    clear heq
    try simp only [] at hl
  iterate 2
    split at H
    · simp at H
    rename_i heq
    obtain ⟨hl, rfl, rfl⟩ := ReadU32LE_some heq
    clear heq
    try simp only [] at hl
  iterate 2
    split at H
    · simp at H
    rename_i heq
    obtain ⟨hl, rfl, rfl⟩ := ReadU16LE_some heq
    clear heq
    try simp only [] at hl
  omega

theorem ReadSpriteHeaderV1_ok (s : Sprite) (data : List Nat) (p : Nat)
    (h : p + 18 ≤ data.length) :
    ReadSpriteHeaderV1 s ⟨data, p⟩ =
      (entryV1 s data p,
       .ok (le32At data p, le32At data (p + 4), le16At data (p + 16), ⟨data, p + 18⟩)) := by
  unfold ReadSpriteHeaderV1
  simp (disch := omega) [ReadU16LE_ok, ReadI16LE_ok, ReadU32LE_ok, entryV1, Nat.add_assoc]

theorem ReadSpriteHeaderV1_inv (s s' : Sprite) (f : FILE)
    (r : Nat × Nat × Nat × FILE) (H : ReadSpriteHeaderV1 s f = (s', .ok r)) :
    f.pos + 18 ≤ f.data.length := by
  unfold ReadSpriteHeaderV1 at H
  iterate 2
    split at H
    · simp at H
    rename_i heq
    obtain ⟨hl, rfl, rfl⟩ := ReadU32LE_some heq
    clear heq
    try simp only [] at hl
  iterate 2
    split at H
    · simp at H
    rename_i heq
    obtain ⟨hl, rfl, rfl⟩ := ReadI16LE_some heq
    clear heq
    try simp only [] at hl
  iterate 3
    split at H
    · simp at H
    rename_i heq
    obtain ⟨hl, rfl, rfl⟩ := ReadU16LE_some heq
    clear heq
    try simp only [] at hl
  omega

/-! ## Header validation (C7, C8) -/

/-- C7: a file whose first 12 bytes are not the magic (a file shorter than 12
bytes included) makes `Load` return `false` and leaves the container, hence its
sprite list, palette list and header, as it was; on the empty container they
stay empty and zero. -/
theorem Load_invalid_magic (lodepng : Int → List Nat → Option (Nat × Nat × List Nat))
    (c : SffFile) (g : Gpu) (data : List Nat) (hm : data.take 12 ≠ sffMagic) :
    Load lodepng c g data = (c, g, .err .fail) ∧
    Load lodepng SffFile.init g data = (SffFile.init, g, .err .fail) ∧
    (Load lodepng SffFile.init g data).1.sprites_ = [] ∧
    (Load lodepng SffFile.init g data).1.palettes_ = [] ∧
    (Load lodepng SffFile.init g data).1.header_ = SffHeader.init := by
  have key : ∀ c : SffFile, Load lodepng c g data = (c, g, .err .fail) := by
    intro c
    unfold Load
    simp only [ReadHeader_bad_magic _ data hm]
  refine ⟨key c, key _, ?_, ?_, ?_⟩ <;> rw [key] <;> rfl

/-- A three-byte file is rejected and the empty container stays empty. -/
theorem Load_invalid_magic_witness :
    [83, 70, 70].take 12 ≠ sffMagic ∧
    Load noPng SffFile.init Gpu.empty [83, 70, 70] = (SffFile.init, Gpu.empty, .err .fail) :=
  ⟨by decide, (Load_invalid_magic noPng SffFile.init Gpu.empty [83, 70, 70] (by decide)).1⟩

theorem Load_header_fail (lodepng : Int → List Nat → Option (Nat × Nat × List Nat))
    (c : SffFile) (g : Gpu) (data : List Nat) (h : (ReadHeader c.header_ (fopen data)).2 = none) :
    (Load lodepng c g data).2.2 = .err .fail := by
  rcases hr : ReadHeader c.header_ (fopen data) with ⟨h', o⟩
  rw [hr] at h
  simp only at h
  subst h
  unfold Load
  simp only [hr]

/-- C8: with a valid magic, a lowest version byte (file byte 15) other than 1
and 2 makes `ReadHeader` fail and `Load` return `false`; with that byte 2 and
the 64 header bytes present, or that byte 1 and the 28 header bytes present,
`ReadHeader` succeeds. -/
theorem ReadHeader_version (lodepng : Int → List Nat → Option (Nat × Nat × List Nat))
    (c : SffFile) (g : Gpu) (data : List Nat) (hm : data.take 12 = sffMagic) :
    ((byteAt data 15 ≠ 1 ∧ byteAt data 15 ≠ 2) →
      (ReadHeader c.header_ (fopen data)).2 = none ∧ (Load lodepng c g data).2.2 = .err .fail) ∧
    ((byteAt data 15 = 2 ∧ 64 ≤ data.length) →
      (ReadHeader c.header_ (fopen data)).2 = some (le32At data 52, le32At data 60, ⟨data, 64⟩)) ∧
    ((byteAt data 15 = 1 ∧ 28 ≤ data.length) →
      (ReadHeader c.header_ (fopen data)).2 = some (0, 0, ⟨data, 28⟩)) := by
  refine ⟨?_, ?_, ?_⟩
  · intro hv
    have h1 : (ReadHeader c.header_ (fopen data)).2 = none := by
      cases hr : (ReadHeader c.header_ (fopen data)).2 with
      | none => rfl
      | some r =>
        have := ReadHeader_some c.header_ (ReadHeader c.header_ (fopen data)).1 data r
          (by rw [← hr])
        omega
    exact ⟨h1, Load_header_fail lodepng c g data h1⟩
  · intro hv
    rw [ReadHeader_v2 c.header_ data hm hv.1 hv.2]
  · intro hv
    rw [ReadHeader_v1 c.header_ data hm hv.1 hv.2]

/-- Version byte 3 fails; version byte 2 with 64 bytes and version byte 1 with 28 bytes succeed. -/
theorem ReadHeader_version_witness :
    ((ReadHeader SffHeader.init (fopen (sffMagic ++ [0, 1, 0, 3] ++ List.replicate 48 0))).2 = none ∧
      (Load noPng SffFile.init Gpu.empty (sffMagic ++ [0, 1, 0, 3] ++ List.replicate 48 0)).2.2
        = .err .fail) ∧
    (ReadHeader SffHeader.init (fopen (sffMagic ++ [0, 1, 0, 2] ++ List.replicate 48 0))).2
      = some (0, 0, ⟨sffMagic ++ [0, 1, 0, 2] ++ List.replicate 48 0, 64⟩) ∧
    (ReadHeader SffHeader.init (fopen (sffMagic ++ [0, 1, 0, 1] ++ List.replicate 12 0))).2
      = some (0, 0, ⟨sffMagic ++ [0, 1, 0, 1] ++ List.replicate 12 0, 28⟩) :=
  ⟨(ReadHeader_version noPng SffFile.init Gpu.empty
      (sffMagic ++ [0, 1, 0, 3] ++ List.replicate 48 0) (by decide)).1 (by decide),
   (ReadHeader_version noPng SffFile.init Gpu.empty
      (sffMagic ++ [0, 1, 0, 2] ++ List.replicate 48 0) (by decide)).2.1 (by decide),
   (ReadHeader_version noPng SffFile.init Gpu.empty
      (sffMagic ++ [0, 1, 0, 1] ++ List.replicate 12 0) (by decide)).2.2 (by decide)⟩

/-! ## RLE8 round trip (C2) -/

theorem fillRun_append (dstLen v : Nat) (n : Nat) :
    ∀ (A Z : List Nat), n ≤ Z.length → dstLen = A.length + Z.length →
      fillRun dstLen v n A.length (A ++ Z) = (A.length + n, A ++ List.replicate n v ++ Z.drop n) := by
  induction n with
  | zero => intro A Z _ _; simp [fillRun]
  | succ n ih =>
    intro A Z hn hd
    cases Z with
    | nil => simp at hn
    | cons z Z =>
      simp only [List.length_cons] at hn hd
      have hj : A.length < dstLen := by omega
      simp only [fillRun, hj, if_true]
      have hset : (A ++ z :: Z).set A.length v = (A ++ [v]) ++ Z := by
        simp [List.set_append]
      rw [hset]
      have := ih (A ++ [v]) Z (by omega) (by simp; omega)
      simp only [List.length_append, List.length_singleton] at this
      rw [this]
      simp [List.replicate_succ, Nat.add_assoc, Nat.add_comm 1 n]

theorem rle8_control (count : Nat) (h1 : count ≤ 63) :
    (0x40 ||| count) &&& 0xc0 = 0x40 ∧ (0x40 ||| count) &&& 0x3f = count := by
  interval_cases count <;> exact ⟨rfl, rfl⟩

theorem rle8Encode_ne_nil (cs : List Chunk) (h : cs ≠ []) : 1 ≤ (rle8Encode cs).length := by
  cases cs with
  | nil => exact absurd rfl h
  | cons c cs => cases c <;> simp [rle8Encode, Chunk.encode]

theorem rle8Loop_chunks (cs : List Chunk) :
    ∀ (pre out : List Nat) (fuel i : Nat), (∀ c ∈ cs, c.valid = true) → cs.length ≤ fuel →
      (cs ≠ [] → i = pre.length) →
      rle8Loop (pre ++ rle8Encode cs) (pre ++ rle8Encode cs).length
          (out.length + (rle8Pixels cs).length) fuel i out.length
          (out ++ List.replicate (rle8Pixels cs).length 0)
        = some (out ++ rle8Pixels cs) := by
  induction cs with
  | nil =>
    intro pre out fuel i _ _ _
    cases fuel <;> simp [rle8Loop, rle8Pixels]
  | cons c cs ih =>
    intro pre out fuel i hv hf hi
    have hi := hi (by simp)
    subst hi
    cases fuel with
    | zero => simp at hf
    | succ fuel =>
      simp only [List.length_cons] at hf
      have hvc := hv c (by simp)
      have hvs : ∀ c ∈ cs, c.valid = true := fun c hc => hv c (by simp [hc])
      cases c with
      | lit v =>
        simp only [Chunk.valid, bne_iff_ne, ne_eq] at hvc
        have hj : out.length < out.length + (rle8Pixels (Chunk.lit v :: cs)).length := by
          simp [rle8Pixels, Chunk.pixels]
        have hd : (pre ++ rle8Encode (Chunk.lit v :: cs)).getD pre.length 0 = v := by
          rw [List.getD_eq_getElem?_getD, List.getElem?_append_right (le_refl _)]
          simp [rle8Encode, Chunk.encode]
        rw [rle8Loop]
        simp only [hj, if_true, hd, hvc, if_false]
        have hfill := fillRun_append (out.length + (rle8Pixels (Chunk.lit v :: cs)).length) v 1 out
          (List.replicate (rle8Pixels (Chunk.lit v :: cs)).length 0)
          (by simp [rle8Pixels, Chunk.pixels]) (by simp)
        rw [hfill]
        simp only []
        have key := ih (pre ++ [v]) (out ++ [v]) fuel
          (adv (pre ++ rle8Encode (Chunk.lit v :: cs)).length pre.length) hvs (by omega)
          (by
            intro hne
            have := rle8Encode_ne_nil cs hne
            unfold adv
            rw [if_pos (by simp [rle8Encode, Chunk.encode]; omega)]
            simp)
        simp only [rle8Encode, rle8Pixels, Chunk.encode, Chunk.pixels, List.length_append,
          List.length_singleton, List.append_assoc, List.singleton_append, List.length_cons,
          List.length_replicate, List.replicate_succ, List.drop_succ_cons, List.drop_zero,
          List.replicate_zero, List.nil_append] at key ⊢
        rw [show out.length + ((rle8Pixels cs).length + 1) = out.length + 1 + (rle8Pixels cs).length by omega]
        exact key
      | run count v =>
        simp only [Chunk.valid, Bool.and_eq_true, decide_eq_true_eq] at hvc
        obtain ⟨hc1, hc2⟩ := rle8_control count hvc.2
        have hj : out.length < out.length + (rle8Pixels (Chunk.run count v :: cs)).length := by
          simp [rle8Pixels, Chunk.pixels]; omega
        have hd : (pre ++ rle8Encode (Chunk.run count v :: cs)).getD pre.length 0 = 0x40 ||| count := by
          rw [List.getD_eq_getElem?_getD, List.getElem?_append_right (le_refl _)]
          simp [rle8Encode, Chunk.encode]
        have ha : adv (pre ++ rle8Encode (Chunk.run count v :: cs)).length pre.length
            = pre.length + 1 := by
          unfold adv
          rw [if_pos (by simp [rle8Encode, Chunk.encode])]
        have hd2 : (pre ++ rle8Encode (Chunk.run count v :: cs)).getD (pre.length + 1) 0 = v := by
          rw [List.getD_eq_getElem?_getD, List.getElem?_append_right (by omega)]
          simp [rle8Encode, Chunk.encode]
        rw [rle8Loop]
        simp only [hj, if_true, hd, ha, hd2, hc1, hc2]
        have hfill := fillRun_append (out.length + (rle8Pixels (Chunk.run count v :: cs)).length) v
          count out (List.replicate (rle8Pixels (Chunk.run count v :: cs)).length 0)
          (by simp [rle8Pixels, Chunk.pixels]) (by simp)
        rw [hfill]
        simp only []
        have key := ih (pre ++ [0x40 ||| count, v]) (out ++ List.replicate count v) fuel
          (adv (pre ++ rle8Encode (Chunk.run count v :: cs)).length (pre.length + 1)) hvs (by omega)
          (by
            intro hne
            have := rle8Encode_ne_nil cs hne
            unfold adv
            rw [if_pos (by simp [rle8Encode, Chunk.encode]; omega)]
            simp)
        simp only [rle8Encode, rle8Pixels, Chunk.encode, Chunk.pixels, List.length_append,
          List.length_singleton, List.append_assoc, List.singleton_append, List.length_cons,
          List.length_replicate, List.drop_replicate, List.cons_append,
          List.nil_append, Nat.add_sub_cancel_left, List.length_nil] at key ⊢
        rw [show out.length + (count + (rle8Pixels cs).length)
          = out.length + count + (rle8Pixels cs).length by omega]
        exact key

theorem dstLenOf_eq (s : Sprite) (h : s.Size0 * s.Size1 < 2 ^ 31) :
    dstLenOf s = some (s.Size0 * s.Size1) := by
  unfold dstLenOf
  rw [if_pos h]

/-- C2 (amended): RLE8 round trip.  For a sprite of `width * height` pixels with
`1 ≤ width * height < 2^31` and a pixel buffer of that length split into valid
chunks, `Rle8Decode` applied to the encoding of the chunks returns the buffer. -/
theorem Rle8Decode_roundtrip (s : Sprite) (cs : List Chunk)
    (hv : ∀ c ∈ cs, c.valid = true)
    (hlen : (rle8Pixels cs).length = s.Size0 * s.Size1)
    (h1 : 1 ≤ s.Size0 * s.Size1) (h2 : s.Size0 * s.Size1 < 2 ^ 31) :
    Rle8Decode s (rle8Encode cs) = .ok (rle8Pixels cs) := by
  have hne : cs ≠ [] := by
    rintro rfl
    simp only [rle8Pixels, List.length_nil] at hlen
    omega
  have hsrc := rle8Encode_ne_nil cs hne
  have hcs : cs.length ≤ (rle8Pixels cs).length := by
    clear hlen hne hsrc h1 h2
    induction cs with
    | nil => simp
    | cons c cs ih =>
      have hc := hv c (by simp)
      have := ih (fun c hc => hv c (by simp [hc]))
      cases c with
      | run count v =>
        simp only [Chunk.valid, Bool.and_eq_true, decide_eq_true_eq] at hc
        simp [rle8Pixels, Chunk.pixels]; omega
      | lit v => simp [rle8Pixels, Chunk.pixels]; omega
  unfold Rle8Decode
  rw [if_neg (by omega), dstLenOf_eq s h2]
  have key := rle8Loop_chunks cs [] [] ((rle8Encode cs).length + s.Size0 * s.Size1) 0 hv
    (by omega) (fun _ => rfl)
  simp only [List.nil_append, List.length_nil, Nat.zero_add] at key
  rw [hlen] at key
  simp only [key]

/-- A 3x2 buffer split into a run of 3, a single byte and a run of 2. -/
theorem Rle8Decode_roundtrip_witness :
    Rle8Decode { Sprite.init with Size0 := 3, Size1 := 2 }
      (rle8Encode [Chunk.run 3 200, Chunk.lit 5, Chunk.run 2 64])
      = .ok [200, 200, 200, 5, 64, 64] :=
  Rle8Decode_roundtrip { Sprite.init with Size0 := 3, Size1 := 2 }
    [Chunk.run 3 200, Chunk.lit 5, Chunk.run 2 64] (by decide) (by decide) (by decide) (by decide)

theorem rle8_lits (n v : Nat) :
    rle8Encode (List.replicate n (Chunk.lit v)) = List.replicate n v ∧
    rle8Pixels (List.replicate n (Chunk.lit v)) = List.replicate n v := by
  induction n with
  | zero => exact ⟨rfl, rfl⟩
  | succ n ih =>
    rw [List.replicate_succ, rle8Encode, rle8Pixels, ih.1, ih.2]
    exact ⟨rfl, rfl⟩

theorem Rle8Decode_overflow_general (w h : Nat) (hw : 2 ^ 31 ≤ w * h) :
    (∀ c ∈ List.replicate (w * h) (Chunk.lit 0), c.valid = true) ∧
    (rle8Pixels (List.replicate (w * h) (Chunk.lit 0))).length = w * h ∧
    Rle8Decode { Sprite.init with Size0 := w, Size1 := h }
      (rle8Encode (List.replicate (w * h) (Chunk.lit 0))) = .err .undefined := by
  refine ⟨?_, ?_, ?_⟩
  · intro c hc
    rw [List.eq_of_mem_replicate hc]
    rfl
  · rw [(rle8_lits _ _).2, List.length_replicate]
  · unfold Rle8Decode dstLenOf
    rw [(rle8_lits _ _).1, List.length_replicate, if_neg (by omega)]
    simp only []
    rw [if_neg (by omega)]

/-- C2 as stated fails for a sprite of 65535 x 65535 pixels: the buffer of
that many zero bytes, each emitted as itself, is a valid encoding of itself,
and `Rle8Decode` does not return it, because the `int` product of the two sizes
overflows. -/
theorem Rle8Decode_roundtrip_overflow :
    (∀ c ∈ List.replicate (65535 * 65535) (Chunk.lit 0), c.valid = true) ∧
    (rle8Pixels (List.replicate (65535 * 65535) (Chunk.lit 0))).length = 65535 * 65535 ∧
    1 ≤ 65535 * 65535 ∧
    Rle8Decode { Sprite.init with Size0 := 65535, Size1 := 65535 }
      (rle8Encode (List.replicate (65535 * 65535) (Chunk.lit 0)))
      ≠ .ok (rle8Pixels (List.replicate (65535 * 65535) (Chunk.lit 0))) := by
  obtain ⟨a, b, c⟩ := Rle8Decode_overflow_general 65535 65535 (by decide)
  refine ⟨a, b, by decide, ?_⟩
  rw [c]
  exact fun h => Res.noConfusion h

/-! ## LZ5 back-references (C6) -/

theorem getD_set_ne (l : List Nat) (i k v : Nat) (h : i ≠ k) :
    (l.set i v).getD k 0 = l.getD k 0 := by
  simp [List.getD_eq_getElem?_getD, List.getElem?_set_ne h]

theorem getD_set_eq (l : List Nat) (i v : Nat) (h : i < l.length) :
    (l.set i v).getD i 0 = v := by
  simp [List.getD_eq_getElem?_getD, List.getElem?_set_self, h]

theorem CopyInv_set (dstLen j : Nat) (dst : List Nat) (tr : List CopyStep) (v : Nat)
    (h : CopyInv dstLen j dst tr) (hj : j < dstLen) :
    CopyInv dstLen (j + 1) (dst.set j v) tr := by
  obtain ⟨hl, _, he⟩ := h
  refine ⟨by simp [hl], by omega, ?_⟩
  intro e hm
  obtain ⟨h1, h2, h3, h4⟩ := he e hm
  refine ⟨by omega, h2, ?_, ?_⟩
  · intro hd
    rw [getD_set_ne _ _ _ _ (by omega), getD_set_ne _ _ _ _ (by omega)]
    exact h3 hd
  · intro hd
    rw [getD_set_ne _ _ _ _ (by omega)]
    exact h4 hd

theorem fillRun_inv (dstLen v : Nat) (tr : List CopyStep) (n : Nat) :
    ∀ (j : Nat) (dst : List Nat), CopyInv dstLen j dst tr →
      CopyInv dstLen (fillRun dstLen v n j dst).1 (fillRun dstLen v n j dst).2 tr ∧
      j ≤ (fillRun dstLen v n j dst).1 ∧
      (1 ≤ n → j < dstLen → j < (fillRun dstLen v n j dst).1) := by
  induction n with
  | zero => intro j dst h; simp [fillRun, h]
  | succ n ih =>
    intro j dst h
    by_cases hj : j < dstLen
    · simp only [fillRun, hj, if_true]
      obtain ⟨a, b, _⟩ := ih (j + 1) (dst.set j v) (CopyInv_set dstLen j dst tr v h hj)
      exact ⟨a, by omega, fun _ _ => by omega⟩
    · simp only [fillRun, hj, if_false]
      obtain ⟨a, b, _⟩ := ih j dst h
      exact ⟨a, b, fun _ h' => False.elim h'⟩

theorem lz5Copy_inv (dstLen d : Nat) (hd : 1 ≤ d) (count : Nat) :
    ∀ (j : Nat) (dst : List Nat) (tr : List CopyStep), CopyInv dstLen j dst tr →
      CopyInv dstLen (lz5Copy dstLen d count j dst tr).1 (lz5Copy dstLen d count j dst tr).2.1
        (lz5Copy dstLen d count j dst tr).2.2 ∧
      j ≤ (lz5Copy dstLen d count j dst tr).1 ∧
      (1 ≤ count → j < dstLen → j < (lz5Copy dstLen d count j dst tr).1) := by
  induction count with
  | zero => intro j dst tr h; simp [lz5Copy, h]
  | succ n ih =>
    intro j dst tr h
    have hlen := h.1
    by_cases hj : j < dstLen
    · have step : ∀ v, (d ≤ j → v = dst.getD (j - d) 0) → (j < d → v = 0) →
          CopyInv dstLen (j + 1) (dst.set j v) (tr ++ [⟨j, d⟩]) := by
        intro v hv1 hv2
        obtain ⟨hl, hjl, he⟩ := CopyInv_set dstLen j dst tr v h hj
        refine ⟨hl, hjl, ?_⟩
        intro e hm
        rcases List.mem_append.1 hm with hm | hm
        · exact he e hm
        · simp only [List.mem_singleton] at hm
          subst hm
          refine ⟨by simp, hd, ?_, ?_⟩
          · intro hdj
            simp only at hdj ⊢
            rw [getD_set_eq _ _ _ (by omega), getD_set_ne _ _ _ _ (by omega)]
            exact hv1 hdj
          · intro hdj
            simp only at hdj ⊢
            rw [getD_set_eq _ _ _ (by omega)]
            exact hv2 hdj
      by_cases hjd : j ≥ d
      · simp only [lz5Copy, hj, hjd, and_self, if_true]
        obtain ⟨a, b, _⟩ := ih (j + 1) _ _ (step (dst.getD (j - d) 0) (fun _ => rfl)
          (fun h' => absurd hjd (by omega)))
        exact ⟨a, by omega, fun _ _ => by omega⟩
      · simp only [lz5Copy, hj, hjd, and_false, if_false, if_true]
        obtain ⟨a, b, _⟩ := ih (j + 1) _ _ (step 0 (fun h' => absurd h' hjd) (fun _ => rfl))
        exact ⟨a, by omega, fun _ _ => by omega⟩
    · simp only [lz5Copy, hj, false_and, if_false]
      obtain ⟨a, b, _⟩ := ih j dst tr h
      exact ⟨a, b, fun _ h' => False.elim h'⟩

theorem shift5_pos (d : Nat) (h : d &&& 0xe0 ≠ 0) : 1 ≤ d >>> 5 := by
  rw [Nat.shiftRight_eq_div_pow]
  by_contra hc
  have hd : d < 32 := by omega
  apply h
  interval_cases d <;> rfl

theorem lz5Step_inv (src : List Nat) (srcLen dstLen : Nat) (st : Lz5State)
    (h : CopyInv dstLen st.j st.dst st.trace) :
    CopyInv dstLen (lz5Step src srcLen dstLen st).j (lz5Step src srcLen dstLen st).dst
      (lz5Step src srcLen dstLen st).trace ∧
    (st.j < dstLen → st.j < (lz5Step src srcLen dstLen st).j) := by
  have hc := fun d hd count => lz5Copy_inv dstLen d hd count st.j st.dst st.trace h
  have hf := fun v n => fillRun_inv dstLen v st.trace n st.j st.dst h
  unfold lz5Step
  simp only []
  split_ifs
  all_goals simp only []
  all_goals first
    | exact ⟨(hc _ (by omega) _).1, fun hj => (hc _ (by omega) _).2.2 (by omega) hj⟩
    | exact ⟨(hf _ _).1, fun hj => (hf _ _).2.2 (by omega) hj⟩
    | exact ⟨(hf _ _).1, fun hj => (hf _ _).2.2 (shift5_pos _ (by assumption)) hj⟩

theorem lz5Loop_inv (src : List Nat) (srcLen dstLen : Nat) (fuel : Nat) :
    ∀ st : Lz5State, CopyInv dstLen st.j st.dst st.trace → dstLen ≤ st.j + fuel →
      ∃ st', lz5Loop src srcLen dstLen fuel st = some st' ∧
        CopyInv dstLen st'.j st'.dst st'.trace := by
  induction fuel with
  | zero =>
    intro st h hf
    exact ⟨st, by simp [lz5Loop]; omega, h⟩
  | succ fuel ih =>
    intro st h hf
    by_cases hj : st.j < dstLen
    · obtain ⟨h1, h2⟩ := lz5Step_inv src srcLen dstLen st h
      have := h2 hj
      obtain ⟨st', e, h'⟩ := ih _ h1 (by omega)
      exact ⟨st', by simp [lz5Loop, hj, e], h'⟩
    · exact ⟨st, by simp [lz5Loop, hj], h⟩

/-- C6: in `Lz5Decode`, for every source, width and height, each back-reference
copy step at output position `j` with offset `d` has `1 ≤ d` and `j` inside the
buffer, and the byte it leaves at `j` is the byte at `j - d` when `d ≤ j` and 0
when `d > j`; the buffer returned is the one these steps built, it has
`width * height` bytes, and a non-empty source with `width * height < 2^31`
always gets such a buffer. -/
theorem Lz5Decode_copy_steps (s : Sprite) (src : List Nat) :
    (∀ st, Lz5Run s src = .ok st →
      Lz5Decode s src = .ok st.dst ∧ st.dst.length = s.Size0 * s.Size1 ∧
      ∀ e ∈ st.trace, 1 ≤ e.d ∧ e.j < s.Size0 * s.Size1 ∧
        (e.d ≤ e.j → e.j - e.d < e.j ∧ st.dst.getD e.j 0 = st.dst.getD (e.j - e.d) 0) ∧
        (e.j < e.d → st.dst.getD e.j 0 = 0)) ∧
    (src ≠ [] → s.Size0 * s.Size1 < 2 ^ 31 → ∃ st, Lz5Run s src = .ok st) := by
  have hinit : ∀ dstLen, CopyInv dstLen (lz5Init src dstLen).j (lz5Init src dstLen).dst
      (lz5Init src dstLen).trace := by
    intro dstLen
    exact ⟨by simp [lz5Init], by simp [lz5Init], by simp [lz5Init]⟩
  constructor
  · intro st hrun
    unfold Lz5Run at hrun
    split_ifs at hrun with h0
    unfold dstLenOf at hrun
    split_ifs at hrun with h1
    simp only [] at hrun
    obtain ⟨st', e, hl, hjl, he⟩ := lz5Loop_inv src src.length (s.Size0 * s.Size1)
      (s.Size0 * s.Size1) _ (hinit _) (by simp [lz5Init])
    rw [e] at hrun
    simp only [Res.ok.injEq] at hrun
    subst hrun
    refine ⟨?_, hl, ?_⟩
    · unfold Lz5Decode Lz5Run dstLenOf
      simp only [h0, h1, if_true, if_false, e]
    · intro ev hm
      obtain ⟨a, b, c, d⟩ := he ev hm
      exact ⟨b, by omega, fun hd => ⟨by omega, c hd⟩, d⟩
  · intro hne h31
    obtain ⟨st', e, _⟩ := lz5Loop_inv src src.length (s.Size0 * s.Size1)
      (s.Size0 * s.Size1) _ (hinit _) (by simp [lz5Init])
    refine ⟨st', ?_⟩
    unfold Lz5Run dstLenOf
    have : src.length ≠ 0 := by
      intro h
      exact hne (List.length_eq_zero.1 h)
    simp only [this, h31, if_true, if_false, e]

/-- A 3x2 decode with two copy steps that reach before the buffer (zero fill) and two that copy. -/
theorem Lz5Decode_copy_steps_witness :
    Lz5Run { Sprite.init with Size0 := 3, Size1 := 2 } [0x05, 0x41, 0x05, 0x27, 0x41, 0x01]
      = .ok ⟨5, 6, 5, 4, 80, 4, [0, 0, 7, 0, 7, 1], [⟨0, 6⟩, ⟨1, 6⟩, ⟨3, 2⟩, ⟨4, 2⟩]⟩ ∧
    Lz5Decode { Sprite.init with Size0 := 3, Size1 := 2 } [0x05, 0x41, 0x05, 0x27, 0x41, 0x01]
      = .ok [0, 0, 7, 0, 7, 1] :=
  ⟨by decide,
   ((Lz5Decode_copy_steps { Sprite.init with Size0 := 3, Size1 := 2 }
      [0x05, 0x41, 0x05, 0x27, 0x41, 0x01]).1
      ⟨5, 6, 5, 4, 80, 4, [0, 0, 7, 0, 7, 1], [⟨0, 6⟩, ⟨1, 6⟩, ⟨3, 2⟩, ⟨4, 2⟩]⟩ (by decide)).1⟩

/-! ## The sprite loop of Load -/

theorem ReadSpriteDataV1_frame (sprite : Sprite) (palettes : List Palette) (g : Gpu) (f : FILE)
    (offset datasize nextSubheader : Nat) (prev : Option Sprite) (c00 : Bool) :
    palettes <+: (ReadSpriteDataV1 sprite palettes g f offset datasize nextSubheader prev c00).2.1 ∧
    g.slots <+: (ReadSpriteDataV1 sprite palettes g f offset datasize nextSubheader prev c00).2.2.1.slots := by
  unfold ReadSpriteDataV1
  simp only []
  repeat' split
  all_goals first
    | exact ⟨List.prefix_refl _, List.prefix_refl _⟩
    | exact ⟨List.prefix_append _ _, by simp [GeneratePaletteTextureRGB, paletteTexture, rlLoadTexture]⟩

theorem readData_frame (lodepng : Int → List Nat → Option (Nat × Nat × List Nat)) (ver0 : Nat)
    (sprite : Sprite) (palettes : List Palette) (g : Gpu) (f : FILE) (shofs size xofs : Nat)
    (prev : Option Sprite) :
    palettes <+: (readData lodepng ver0 sprite palettes g f shofs size xofs prev).2.1 ∧
    g.slots <+: (readData lodepng ver0 sprite palettes g f shofs size xofs prev).2.2.1.slots ∧
    (ver0 ≠ 1 → (readData lodepng ver0 sprite palettes g f shofs size xofs prev).2.1 = palettes ∧
      (readData lodepng ver0 sprite palettes g f shofs size xofs prev).2.2.1 = g) := by
  unfold readData
  split_ifs with h
  · exact ⟨(ReadSpriteDataV1_frame ..).1, (ReadSpriteDataV1_frame ..).2, fun h' => absurd h h'⟩
  · exact ⟨List.prefix_refl _, List.prefix_refl _, fun _ => ⟨rfl, rfl⟩⟩

theorem setSprite_header (st : LoadState) (i : Nat) (s : Sprite) :
    (st.setSprite i s).sff.header_ = st.sff.header_ := rfl

theorem setSprite_sprites (st : LoadState) (i : Nat) (s : Sprite) :
    (st.setSprite i s).sff.sprites_ = st.sff.sprites_.set i s := rfl

theorem setSprite_gpu (st : LoadState) (i : Nat) (s : Sprite) :
    (st.setSprite i s).gpu = st.gpu := rfl

theorem setSprite_palettes (st : LoadState) (i : Nat) (s : Sprite) :
    (st.setSprite i s).sff.palettes_ = st.sff.palettes_ := rfl

theorem setSprite_shofs (st : LoadState) (i : Nat) (s : Sprite) :
    (st.setSprite i s).shofs = st.shofs := rfl

theorem setSprite_prev (st : LoadState) (i : Nat) (s : Sprite) :
    (st.setSprite i s).prev = st.prev := rfl

theorem linkSprite_header (i k : Nat) (st : LoadState) :
    (linkSprite i k st).sff.header_ = st.sff.header_ := by
  unfold linkSprite
  simp only []
  split_ifs <;> rfl

theorem linkSprite_sprites (i k : Nat) (st : LoadState) :
    (linkSprite i k st).sff.sprites_ = st.sff.sprites_.set i
      (if k < i then (st.sff.sprites_.getD i Sprite.init).CopyFrom (st.sff.sprites_.getD k Sprite.init)
       else { st.sff.sprites_.getD i Sprite.init with palidx := 0 }) := by
  unfold linkSprite
  simp only []
  split_ifs <;> rfl

theorem linkSprite_gpu (i k : Nat) (st : LoadState) : (linkSprite i k st).gpu = st.gpu := by
  unfold linkSprite
  simp only []
  split_ifs <;> rfl

theorem linkSprite_palettes (i k : Nat) (st : LoadState) :
    (linkSprite i k st).sff.palettes_ = st.sff.palettes_ := by
  unfold linkSprite
  simp only []
  split_ifs <;> rfl

theorem linkSprite_prev (i k : Nat) (st : LoadState) : (linkSprite i k st).prev = st.prev := by
  unfold linkSprite
  simp only []
  split_ifs <;> rfl

theorem storeSprite_header (i : Nat) (px : List Nat) (st : LoadState) :
    (storeSprite i px st).sff.header_ = st.sff.header_ := by
  unfold storeSprite
  simp only [rlLoadTexture, LoadState.setSprite]
  split_ifs <;> rfl

theorem storeSprite_sprites (i : Nat) (px : List Nat) (st : LoadState) :
    (storeSprite i px st).sff.sprites_ = st.sff.sprites_.set i
      { st.sff.sprites_.getD i Sprite.init with
        texture := ⟨st.gpu.slots.length + 1, (st.sff.sprites_.getD i Sprite.init).Size0,
          (st.sff.sprites_.getD i Sprite.init).Size1, 1,
          uploadFormat (st.sff.sprites_.getD i Sprite.init)⟩ } := by
  unfold storeSprite uploadFormat
  simp only [rlLoadTexture, LoadState.setSprite]
  split_ifs <;> rfl

theorem storeSprite_gpu (i : Nat) (px : List Nat) (st : LoadState) :
    (storeSprite i px st).gpu = ⟨st.gpu.slots ++
      [some ⟨px, (st.sff.sprites_.getD i Sprite.init).Size0,
        (st.sff.sprites_.getD i Sprite.init).Size1,
        uploadFormat (st.sff.sprites_.getD i Sprite.init), 1⟩]⟩ := by
  unfold storeSprite uploadFormat
  simp only [rlLoadTexture, LoadState.setSprite]
  split_ifs <;> rfl

theorem storeSprite_palettes (i : Nat) (px : List Nat) (st : LoadState) :
    (storeSprite i px st).sff.palettes_ = st.sff.palettes_ := by
  unfold storeSprite
  simp only [rlLoadTexture, LoadState.setSprite]
  split_ifs <;> rfl

theorem spriteStep_link (lodepng : Int → List Nat → Option (Nat × Nat × List Nat))
    (data : List Nat) (lofs tofs i : Nat) (st : LoadState) (s' : Sprite) (xofs k : Nat) (f' : FILE)
    (hv : st.sff.header_.Ver0 = 1 ∨ st.sff.header_.Ver0 = 2)
    (hd : readEntry st.sff.header_.Ver0 (st.sff.sprites_.getD i Sprite.init)
      (fseek (fopen data) st.shofs) lofs tofs = (s', .ok (xofs, 0, k, f'))) :
    spriteStep lodepng data lofs tofs i st =
      ({ linkSprite i k (st.setSprite i s') with
          shofs := nextEntry st.sff.header_.Ver0 st.shofs xofs }, none) := by
  unfold spriteStep
  simp only [hd, nextEntry]
  rw [if_neg (by omega)]
  simp [LoadState.setSprite]

theorem spriteStep_data (lodepng : Int → List Nat → Option (Nat × Nat × List Nat))
    (data : List Nat) (lofs tofs i : Nat) (st : LoadState) (s' : Sprite) (xofs size k : Nat)
    (f' : FILE) (hv : st.sff.header_.Ver0 = 1 ∨ st.sff.header_.Ver0 = 2)
    (hd : readEntry st.sff.header_.Ver0 (st.sff.sprites_.getD i Sprite.init)
      (fseek (fopen data) st.shofs) lofs tofs = (s', .ok (xofs, size, k, f')))
    (hs : size ≠ 0) (s'' : Sprite) (pals : List Palette) (gp : Gpu) (px : List Nat)
    (hr : readData lodepng st.sff.header_.Ver0 s' st.sff.palettes_ st.gpu f' st.shofs size xofs
      (st.prev.map (fun k => (st.sff.sprites_.set i s').getD k Sprite.init))
      = (s'', pals, gp, .ok px)) :
    spriteStep lodepng data lofs tofs i st =
      ({ storeSprite i px
            { (st.setSprite i s').setSprite i s'' with
              sff := { ((st.setSprite i s').setSprite i s'').sff with palettes_ := pals },
              gpu := gp } with
          shofs := nextEntry st.sff.header_.Ver0 st.shofs xofs }, none) := by
  unfold spriteStep
  simp only [hd, nextEntry]
  rw [if_neg (by omega)]
  simp only [hs, if_false, LoadState.setSprite] at hr ⊢
  simp only [hr]

theorem spriteStep_version (lodepng : Int → List Nat → Option (Nat × Nat × List Nat))
    (data : List Nat) (lofs tofs i : Nat) (st : LoadState)
    (hv : ¬(st.sff.header_.Ver0 = 1 ∨ st.sff.header_.Ver0 = 2)) :
    spriteStep lodepng data lofs tofs i st = (st, some .fail) := by
  unfold spriteStep
  simp only []
  rw [if_pos (by omega)]

theorem spriteStep_entry_err (lodepng : Int → List Nat → Option (Nat × Nat × List Nat))
    (data : List Nat) (lofs tofs i : Nat) (st : LoadState) (s' : Sprite) (e : Fault)
    (hv : st.sff.header_.Ver0 = 1 ∨ st.sff.header_.Ver0 = 2)
    (hd : readEntry st.sff.header_.Ver0 (st.sff.sprites_.getD i Sprite.init)
      (fseek (fopen data) st.shofs) lofs tofs = (s', .err e)) :
    spriteStep lodepng data lofs tofs i st = (st.setSprite i s', some e) := by
  unfold spriteStep
  simp only [hd]
  rw [if_neg (by omega)]

theorem spriteStep_data_err (lodepng : Int → List Nat → Option (Nat × Nat × List Nat))
    (data : List Nat) (lofs tofs i : Nat) (st : LoadState) (s' : Sprite) (xofs size k : Nat)
    (f' : FILE) (hv : st.sff.header_.Ver0 = 1 ∨ st.sff.header_.Ver0 = 2)
    (hd : readEntry st.sff.header_.Ver0 (st.sff.sprites_.getD i Sprite.init)
      (fseek (fopen data) st.shofs) lofs tofs = (s', .ok (xofs, size, k, f')))
    (hs : size ≠ 0) (s'' : Sprite) (pals : List Palette) (gp : Gpu) (e : Fault)
    (hr : readData lodepng st.sff.header_.Ver0 s' st.sff.palettes_ st.gpu f' st.shofs size xofs
      (st.prev.map (fun k => (st.sff.sprites_.set i s').getD k Sprite.init))
      = (s'', pals, gp, .err e)) :
    spriteStep lodepng data lofs tofs i st =
      ({ (st.setSprite i s').setSprite i s'' with
              sff := { ((st.setSprite i s').setSprite i s'').sff with palettes_ := pals },
              gpu := gp }, some e) := by
  unfold spriteStep
  simp only [hd]
  rw [if_neg (by omega)]
  simp only [hs, if_false, LoadState.setSprite] at hr ⊢
  simp only [hr]

theorem spriteStep_frame (lodepng : Int → List Nat → Option (Nat × Nat × List Nat)) (data : List Nat)
    (lofs tofs i : Nat) (st : LoadState) :
    (spriteStep lodepng data lofs tofs i st).1.sff.header_ = st.sff.header_ ∧
    (spriteStep lodepng data lofs tofs i st).1.sff.sprites_.length = st.sff.sprites_.length ∧
    (∀ k, k ≠ i → (spriteStep lodepng data lofs tofs i st).1.sff.sprites_[k]? = st.sff.sprites_[k]?) ∧
    st.gpu.slots <+: (spriteStep lodepng data lofs tofs i st).1.gpu.slots ∧
    st.sff.palettes_ <+: (spriteStep lodepng data lofs tofs i st).1.sff.palettes_ ∧
    (st.sff.header_.Ver0 ≠ 1 →
      (spriteStep lodepng data lofs tofs i st).1.sff.palettes_ = st.sff.palettes_) := by
  by_cases hv : st.sff.header_.Ver0 = 1 ∨ st.sff.header_.Ver0 = 2
  swap
  · rw [spriteStep_version _ _ _ _ _ _ hv]
    simp
  rcases hd : readEntry st.sff.header_.Ver0 (st.sff.sprites_.getD i Sprite.init)
      (fseek (fopen data) st.shofs) lofs tofs with ⟨s', r⟩
  have hset : ∀ (l : List Sprite) (a b : Sprite) k, k ≠ i → ((l.set i a).set i b)[k]? = l[k]? := by
    intro l a b k hk
    rw [List.getElem?_set_ne (Ne.symm hk), List.getElem?_set_ne (Ne.symm hk)]
  cases r with
  | err e =>
    rw [spriteStep_entry_err _ _ _ _ _ _ _ _ hv hd]
    simp only [setSprite_header, setSprite_sprites, setSprite_gpu, setSprite_palettes,
      List.length_set, true_and, List.prefix_refl, and_true, implies_true]
    intro k hk
    rw [List.getElem?_set_ne (Ne.symm hk)]
  | ok a =>
    obtain ⟨xofs, size, link, f'⟩ := a
    by_cases hs : size = 0
    · subst hs
      rw [spriteStep_link _ _ _ _ _ _ _ _ _ _ hv hd]
      simp only [linkSprite_header, linkSprite_sprites, linkSprite_gpu, linkSprite_palettes,
        setSprite_header, setSprite_sprites, setSprite_gpu, setSprite_palettes,
        List.length_set, true_and, List.prefix_refl, and_true, implies_true]
      exact fun k hk => hset _ _ _ k hk
    · rcases hr : readData lodepng st.sff.header_.Ver0 s' st.sff.palettes_ st.gpu f' st.shofs size
        xofs (st.prev.map (fun k => (st.sff.sprites_.set i s').getD k Sprite.init))
        with ⟨s'', pals, gp, res⟩
      have hrd := readData_frame lodepng st.sff.header_.Ver0 s' st.sff.palettes_ st.gpu f'
        st.shofs size xofs (st.prev.map (fun k => (st.sff.sprites_.set i s').getD k Sprite.init))
      rw [hr] at hrd
      simp only [] at hrd
      cases res with
      | err e =>
        rw [spriteStep_data_err _ _ _ _ _ _ _ _ _ _ _ hv hd hs _ _ _ _ hr]
        simp only [setSprite_header, setSprite_sprites, setSprite_gpu, setSprite_palettes,
          List.length_set, true_and]
        exact ⟨fun k hk => hset _ _ _ k hk, hrd.2.1, hrd.1, fun h => (hrd.2.2 h).1⟩
      | ok px =>
        rw [spriteStep_data _ _ _ _ _ _ _ _ _ _ _ hv hd hs _ _ _ _ hr]
        simp only [storeSprite_header, storeSprite_sprites, storeSprite_gpu, storeSprite_palettes,
          setSprite_header, setSprite_sprites, setSprite_gpu, setSprite_palettes,
          List.length_set, true_and]
        refine ⟨?_, ?_, hrd.1, fun h => (hrd.2.2 h).1⟩
        · intro k hk
          rw [List.getElem?_set_ne (Ne.symm hk)]
          exact hset _ _ _ k hk
        · exact List.IsPrefix.trans hrd.2.1 (List.prefix_append _ _)

theorem spriteLoop_split (lodepng : Int → List Nat → Option (Nat × Nat × List Nat))
    (data : List Nat) (lofs tofs : Nat) (a b : Nat) :
    ∀ (i : Nat) (st : LoadState),
      spriteLoop lodepng data lofs tofs (a + b) i st =
        match spriteLoop lodepng data lofs tofs a i st with
        | (st', some e) => (st', some e)
        | (st', none) => spriteLoop lodepng data lofs tofs b (i + a) st' := by
  induction a with
  | zero => intro i st; simp [spriteLoop]
  | succ a ih =>
    intro i st
    rw [Nat.succ_add]
    simp only [spriteLoop]
    rcases hs : spriteStep lodepng data lofs tofs i st with ⟨st1, o⟩
    cases o with
    | some e => rfl
    | none =>
      simp only []
      rw [ih (i + 1) st1, Nat.add_assoc, Nat.add_comm 1 a]

theorem spriteLoop_frame (lodepng : Int → List Nat → Option (Nat × Nat × List Nat))
    (data : List Nat) (lofs tofs : Nat) (n : Nat) :
    ∀ (i : Nat) (st : LoadState),
      (spriteLoop lodepng data lofs tofs n i st).1.sff.header_ = st.sff.header_ ∧
      (spriteLoop lodepng data lofs tofs n i st).1.sff.sprites_.length = st.sff.sprites_.length ∧
      (∀ k, k < i ∨ i + n ≤ k →
        (spriteLoop lodepng data lofs tofs n i st).1.sff.sprites_[k]? = st.sff.sprites_[k]?) ∧
      st.gpu.slots <+: (spriteLoop lodepng data lofs tofs n i st).1.gpu.slots ∧
      st.sff.palettes_ <+: (spriteLoop lodepng data lofs tofs n i st).1.sff.palettes_ ∧
      (st.sff.header_.Ver0 ≠ 1 →
        (spriteLoop lodepng data lofs tofs n i st).1.sff.palettes_ = st.sff.palettes_) := by
  induction n with
  | zero => intro i st; simp [spriteLoop]
  | succ n ih =>
    intro i st
    obtain ⟨a1, a2, a3, a4, a5, a6⟩ := spriteStep_frame lodepng data lofs tofs i st
    simp only [spriteLoop]
    rcases hs : spriteStep lodepng data lofs tofs i st with ⟨st1, o⟩
    rw [hs] at a1 a2 a3 a4 a5 a6
    simp only [] at a1 a2 a3 a4 a5 a6
    cases o with
    | some e =>
      simp only []
      exact ⟨a1, a2, fun k hk => a3 k (by omega), a4, a5, a6⟩
    | none =>
      simp only []
      obtain ⟨b1, b2, b3, b4, b5, b6⟩ := ih (i + 1) st1
      refine ⟨b1.trans a1, b2.trans a2, ?_, a4.trans b4, a5.trans b5, ?_⟩
      · intro k hk
        rw [b3 k (by omega), a3 k (by omega)]
      · intro hv
        rw [b6 (by rw [a1]; exact hv), a6 hv]

theorem spriteLoop_shofs_v2 (lodepng : Int → List Nat → Option (Nat × Nat × List Nat))
    (data : List Nat) (lofs tofs : Nat) (n : Nat) :
    ∀ (i : Nat) (st st' : LoadState), st.sff.header_.Ver0 = 2 →
      spriteLoop lodepng data lofs tofs n i st = (st', none) → st'.shofs = st.shofs + 28 * n := by
  induction n with
  | zero =>
    intro i st st' _ h
    simp only [spriteLoop, Prod.mk.injEq, and_true] at h
    subst h
    rfl
  | succ n ih =>
    intro i st st' hv h
    simp only [spriteLoop] at h
    rcases hs : spriteStep lodepng data lofs tofs i st with ⟨st1, o⟩
    rw [hs] at h
    cases o with
    | some e => simp at h
    | none =>
      simp only [] at h
      have hh := (spriteStep_frame lodepng data lofs tofs i st).1
      rw [hs] at hh
      simp only [] at hh
      rw [ih (i + 1) st1 st' (by rw [hh]; exact hv) h]
      have : st1.shofs = st.shofs + 28 := by
        have hv' : st.sff.header_.Ver0 = 1 ∨ st.sff.header_.Ver0 = 2 := Or.inr hv
        rcases hd : readEntry st.sff.header_.Ver0 (st.sff.sprites_.getD i Sprite.init)
          (fseek (fopen data) st.shofs) lofs tofs with ⟨s', r⟩
        cases r with
        | err e =>
          rw [spriteStep_entry_err _ _ _ _ _ _ _ _ hv' hd] at hs
          simp at hs
        | ok a =>
          obtain ⟨xofs, size, link, f'⟩ := a
          by_cases hz : size = 0
          · subst hz
            rw [spriteStep_link _ _ _ _ _ _ _ _ _ _ hv' hd] at hs
            simp only [Prod.mk.injEq, and_true] at hs
            rw [← hs]
            simp [nextEntry, hv]
          · rcases hr : readData lodepng st.sff.header_.Ver0 s' st.sff.palettes_ st.gpu f' st.shofs
              size xofs (st.prev.map (fun k => (st.sff.sprites_.set i s').getD k Sprite.init))
              with ⟨s'', pals, gp, res⟩
            cases res with
            | err e =>
              rw [spriteStep_data_err _ _ _ _ _ _ _ _ _ _ _ hv' hd hz _ _ _ _ hr] at hs
              simp at hs
            | ok px =>
              rw [spriteStep_data _ _ _ _ _ _ _ _ _ _ _ hv' hd hz _ _ _ _ hr] at hs
              simp only [Prod.mk.injEq, and_true] at hs
              rw [← hs]
              simp [nextEntry, hv]
      omega

theorem Gpu.lookup_prefix (g g' : Gpu) (h : g.slots <+: g'.slots) (id : Nat) (u : Upload)
    (hl : g.lookup id = some u) : g'.lookup id = some u := by
  unfold Gpu.lookup at hl ⊢
  split_ifs at hl ⊢ with h0
  obtain ⟨t, ht⟩ := h
  rw [← ht]
  rw [List.getD_eq_getElem?_getD] at hl ⊢
  by_cases hlt : id - 1 < g.slots.length
  · rw [List.getElem?_append_left hlt]
    exact hl
  · rw [List.getElem?_eq_none (by omega)] at hl
    simp at hl

theorem Gpu.lookup_new (slots : List (Option Upload)) (u : Upload) :
    Gpu.lookup ⟨slots ++ [some u]⟩ (slots.length + 1) = some u := by
  unfold Gpu.lookup
  simp [List.getD_eq_getElem?_getD]

/-! ## Linked sprites (C3, C4, C5) -/

theorem CopyFrom_eq (s o : Sprite) : s.CopyFrom o = o := by
  cases o
  rfl

theorem link_step_sprites (lodepng : Int → List Nat → Option (Nat × Nat × List Nat))
    (data : List Nat) (lofs tofs i : Nat) (st : LoadState) (s' : Sprite) (xofs k : Nat) (f' : FILE)
    (hv : st.sff.header_.Ver0 = 1 ∨ st.sff.header_.Ver0 = 2)
    (hi : i < st.sff.sprites_.length)
    (hd : readEntry st.sff.header_.Ver0 (st.sff.sprites_.getD i Sprite.init)
      (fseek (fopen data) st.shofs) lofs tofs = (s', .ok (xofs, 0, k, f')))
    (hk : k < i) :
    (spriteStep lodepng data lofs tofs i st).2 = none ∧
    ∃ sk, st.sff.sprites_[k]? = some sk ∧
      (spriteStep lodepng data lofs tofs i st).1.sff.sprites_[i]? = some sk ∧
      (spriteStep lodepng data lofs tofs i st).1.sff.sprites_[k]? = some sk := by
  rw [spriteStep_link _ _ _ _ _ _ _ _ _ _ hv hd]
  have hk' : k < st.sff.sprites_.length := by omega
  obtain ⟨sk, hsk⟩ : ∃ sk, st.sff.sprites_[k]? = some sk := ⟨_, List.getElem?_eq_getElem hk'⟩
  refine ⟨rfl, sk, hsk, ?_, ?_⟩
  · simp only [linkSprite_sprites, setSprite_sprites, hk, if_true, CopyFrom_eq]
    rw [List.getElem?_set_self (by simp; omega)]
    rw [List.getD_eq_getElem?_getD, List.getElem?_set_ne (by omega), hsk]
    rfl
  · simp only [linkSprite_sprites, setSprite_sprites]
    rw [List.getElem?_set_ne (by omega), List.getElem?_set_ne (by omega), hsk]

/-- C3: in the sprite loop of `Load`, an entry `i` read with data size 0 and
link index `k < i` does not end the loop and leaves sprite `i` equal to sprite
`k` in every field (width, height, anchor, group, number, palette index,
compression tag, colour depth, texture handle); what the entry's own header
held is overwritten, sprite `k` is unchanged, and both stay so through the
rest of the loop. -/
theorem linked_sprite_copy (lodepng : Int → List Nat → Option (Nat × Nat × List Nat))
    (data : List Nat) (lofs tofs i : Nat) (st : LoadState) (s' : Sprite) (xofs k : Nat) (f' : FILE)
    (hv : st.sff.header_.Ver0 = 1 ∨ st.sff.header_.Ver0 = 2)
    (hi : i < st.sff.sprites_.length)
    (hd : readEntry st.sff.header_.Ver0 (st.sff.sprites_.getD i Sprite.init)
      (fseek (fopen data) st.shofs) lofs tofs = (s', .ok (xofs, 0, k, f')))
    (hk : k < i) :
    (spriteStep lodepng data lofs tofs i st).2 = none ∧
    ∃ sk, st.sff.sprites_[k]? = some sk ∧
      (spriteStep lodepng data lofs tofs i st).1.sff.sprites_[i]? = some sk ∧
      (spriteStep lodepng data lofs tofs i st).1.sff.sprites_[k]? = some sk ∧
      ∀ m,
        (spriteLoop lodepng data lofs tofs m (i + 1)
          (spriteStep lodepng data lofs tofs i st).1).1.sff.sprites_[i]? = some sk ∧
        (spriteLoop lodepng data lofs tofs m (i + 1)
          (spriteStep lodepng data lofs tofs i st).1).1.sff.sprites_[k]? = some sk := by
  obtain ⟨a, sk, b, c, d⟩ := link_step_sprites lodepng data lofs tofs i st s' xofs k f' hv hi hd hk
  refine ⟨a, sk, b, c, d, fun m => ?_⟩
  have hf := (spriteLoop_frame lodepng data lofs tofs m (i + 1)
    (spriteStep lodepng data lofs tofs i st).1).2.2.1
  exact ⟨by rw [hf i (by omega)]; exact c, by rw [hf k (by omega)]; exact d⟩

set_option maxRecDepth 100000 in
/-- On `sampleV2`, entry 1 (size 0, link 0) makes sprite 1 a copy of sprite 0. -/
theorem linked_sprite_copy_witness :
    (spriteStep noPng sampleV2 148 0 1 (spriteLoop noPng sampleV2 148 0 1 0 sampleStart).1).2 = none ∧
    ∃ sk, (spriteLoop noPng sampleV2 148 0 1 0 sampleStart).1.sff.sprites_[0]? = some sk ∧
      (spriteStep noPng sampleV2 148 0 1
        (spriteLoop noPng sampleV2 148 0 1 0 sampleStart).1).1.sff.sprites_[1]? = some sk ∧
      (spriteStep noPng sampleV2 148 0 1
        (spriteLoop noPng sampleV2 148 0 1 0 sampleStart).1).1.sff.sprites_[0]? = some sk ∧
      ∀ m,
        (spriteLoop noPng sampleV2 148 0 m (1 + 1)
          (spriteStep noPng sampleV2 148 0 1
            (spriteLoop noPng sampleV2 148 0 1 0 sampleStart).1).1).1.sff.sprites_[1]? = some sk ∧
        (spriteLoop noPng sampleV2 148 0 m (1 + 1)
          (spriteStep noPng sampleV2 148 0 1
            (spriteLoop noPng sampleV2 148 0 1 0 sampleStart).1).1).1.sff.sprites_[0]? = some sk :=
  linked_sprite_copy noPng sampleV2 148 0 1 (spriteLoop noPng sampleV2 148 0 1 0 sampleStart).1
    ⟨0, 1, 9, 9, 0, 0, 1, 0, 8, Texture2D.zero⟩ 148 0 ⟨sampleV2, 120⟩
    (by decide) (by decide) (by decide) (by decide)

theorem Gpu.lookup_unload (g : Gpu) (t : Texture2D) : (UnloadTexture g t).lookup t.id = none := by
  unfold UnloadTexture Gpu.lookup
  by_cases h : t.id = 0
  · simp [h]
  · rw [if_neg h, if_pos (by omega)]
    simp only [List.getD_eq_getElem?_getD]
    by_cases hl : t.id - 1 < g.slots.length
    · rw [List.getElem?_set_self hl]
      rfl
    · rw [List.getElem?_eq_none (by simp; omega)]
      rfl

/-- C4 (amended): a linked sprite `i` (data size 0, link index `k < i`) holds the
very texture handle of sprite `k`: in every GPU store the two sprites reach the
same pixel data, and once the texture is released through either of them
neither reaches any. -/
theorem linked_sprite_shares_texture (lodepng : Int → List Nat → Option (Nat × Nat × List Nat))
    (data : List Nat) (lofs tofs i : Nat) (st : LoadState) (s' : Sprite) (xofs k : Nat) (f' : FILE)
    (hv : st.sff.header_.Ver0 = 1 ∨ st.sff.header_.Ver0 = 2)
    (hi : i < st.sff.sprites_.length)
    (hd : readEntry st.sff.header_.Ver0 (st.sff.sprites_.getD i Sprite.init)
      (fseek (fopen data) st.shofs) lofs tofs = (s', .ok (xofs, 0, k, f')))
    (hk : k < i) (g : Gpu) :
    ∃ si sk, (spriteStep lodepng data lofs tofs i st).1.sff.sprites_[i]? = some si ∧
      (spriteStep lodepng data lofs tofs i st).1.sff.sprites_[k]? = some sk ∧
      si.texture = sk.texture ∧
      g.lookup si.texture.id = g.lookup sk.texture.id ∧
      (UnloadTexture g sk.texture).lookup si.texture.id = none ∧
      (UnloadTexture g si.texture).lookup sk.texture.id = none := by
  obtain ⟨_, sk, _, h1, h2⟩ := link_step_sprites lodepng data lofs tofs i st s' xofs k f' hv hi hd hk
  exact ⟨sk, sk, h1, h2, rfl, rfl, Gpu.lookup_unload g sk.texture, Gpu.lookup_unload g sk.texture⟩

set_option maxRecDepth 100000 in
/-- On `sampleV2`, sprites 1 and 0 hold one texture after entry 1 is processed. -/
theorem linked_sprite_shares_texture_witness :
    ∃ si sk, (spriteStep noPng sampleV2 148 0 1
        (spriteLoop noPng sampleV2 148 0 1 0 sampleStart).1).1.sff.sprites_[1]? = some si ∧
      (spriteStep noPng sampleV2 148 0 1
        (spriteLoop noPng sampleV2 148 0 1 0 sampleStart).1).1.sff.sprites_[0]? = some sk ∧
      si.texture = sk.texture ∧
      Gpu.empty.lookup si.texture.id = Gpu.empty.lookup sk.texture.id ∧
      (UnloadTexture Gpu.empty sk.texture).lookup si.texture.id = none ∧
      (UnloadTexture Gpu.empty si.texture).lookup sk.texture.id = none :=
  linked_sprite_shares_texture noPng sampleV2 148 0 1
    (spriteLoop noPng sampleV2 148 0 1 0 sampleStart).1
    ⟨0, 1, 9, 9, 0, 0, 1, 0, 8, Texture2D.zero⟩ 148 0 ⟨sampleV2, 120⟩
    (by decide) (by decide) (by decide) (by decide) Gpu.empty

/-- C4 as stated fails on `sampleV2`: after a successful `Load`, sprite 1
(linked to sprite 0) has the texture id of sprite 0 and reaches the pixels
0, 1, 2, 3 through it; releasing the texture of sprite 0 leaves sprite 1
without pixel data. -/
theorem linked_sprite_not_independent :
    (Load noPng SffFile.init Gpu.empty sampleV2).2.2 = .ok () ∧
    ((Load noPng SffFile.init Gpu.empty sampleV2).1.sprites_.getD 1 Sprite.init).texture.id =
      ((Load noPng SffFile.init Gpu.empty sampleV2).1.sprites_.getD 0 Sprite.init).texture.id ∧
    (Load noPng SffFile.init Gpu.empty sampleV2).2.1.lookup
      ((Load noPng SffFile.init Gpu.empty sampleV2).1.sprites_.getD 1 Sprite.init).texture.id
      = some ⟨[0, 1, 2, 3], 2, 2, PIXELFORMAT_UNCOMPRESSED_GRAYSCALE, 1⟩ ∧
    (UnloadTexture (Load noPng SffFile.init Gpu.empty sampleV2).2.1
        ((Load noPng SffFile.init Gpu.empty sampleV2).1.sprites_.getD 0 Sprite.init).texture).lookup
      ((Load noPng SffFile.init Gpu.empty sampleV2).1.sprites_.getD 1 Sprite.init).texture.id
      = none := by
  decide

theorem readEntry_texture (ver0 : Nat) (s s' : Sprite) (f : FILE) (lofs tofs : Nat)
    (r : Nat × Nat × Nat × FILE) (h : readEntry ver0 s f lofs tofs = (s', .ok r)) :
    s'.texture = s.texture := by
  unfold readEntry at h
  obtain ⟨data, p⟩ := f
  split_ifs at h
  · have hl := ReadSpriteHeaderV1_inv _ _ _ _ h
    rw [ReadSpriteHeaderV1_ok _ _ _ hl] at h
    simp only [Prod.mk.injEq] at h
    rw [← h.1]
    rfl
  · have hl := ReadSpriteHeaderV2_inv _ _ _ _ _ _ h
    rw [ReadSpriteHeaderV2_ok _ _ _ _ _ hl] at h
    simp only [Prod.mk.injEq] at h
    rw [← h.1]
    rfl

/-- C5: in a `Load` whose sprite loop started from `N` fresh sprites and has
processed entries `0 .. i-1`, an entry `i` read with data size 0 and link index
`k ≥ i` does not end the loop, which goes on with entry `i + 1`; sprite `i` then
has palette index 0 and the zero texture handle, and keeps them whatever the
rest of the loop does. -/
theorem broken_link_sprite (lodepng : Int → List Nat → Option (Nat × Nat × List Nat))
    (data : List Nat) (lofs tofs N i : Nat) (st0 st : LoadState) (s' : Sprite) (xofs k : Nat)
    (f' : FILE)
    (h0 : st0.sff.sprites_ = List.replicate N Sprite.init) (hi : i < N)
    (hrun : spriteLoop lodepng data lofs tofs i 0 st0 = (st, none))
    (hv : st.sff.header_.Ver0 = 1 ∨ st.sff.header_.Ver0 = 2)
    (hd : readEntry st.sff.header_.Ver0 (st.sff.sprites_.getD i Sprite.init)
      (fseek (fopen data) st.shofs) lofs tofs = (s', .ok (xofs, 0, k, f')))
    (hk : i ≤ k) :
    (spriteStep lodepng data lofs tofs i st).2 = none ∧
    ∀ m, spriteLoop lodepng data lofs tofs (i + (1 + m)) 0 st0
        = spriteLoop lodepng data lofs tofs m (i + 1) (spriteStep lodepng data lofs tofs i st).1 ∧
      ∃ s, (spriteLoop lodepng data lofs tofs (i + (1 + m)) 0 st0).1.sff.sprites_[i]? = some s ∧
        s.palidx = 0 ∧ s.texture = Texture2D.zero := by
  have hfr := spriteLoop_frame lodepng data lofs tofs i 0 st0
  rw [hrun] at hfr
  simp only [] at hfr
  have hlen : st.sff.sprites_.length = N := by rw [hfr.2.1, h0, List.length_replicate]
  have hsi : st.sff.sprites_.getD i Sprite.init = Sprite.init := by
    rw [List.getD_eq_getElem?_getD, hfr.2.2.1 i (by omega), h0]
    simp [hi]
  have hstep := spriteStep_link lodepng data lofs tofs i st s' xofs k f' hv hd
  refine ⟨by rw [hstep], ?_⟩
  intro m
  have hsplit : spriteLoop lodepng data lofs tofs (i + (1 + m)) 0 st0
      = spriteLoop lodepng data lofs tofs m (i + 1) (spriteStep lodepng data lofs tofs i st).1 := by
    rw [spriteLoop_split, hrun]
    simp only [Nat.zero_add]
    rw [spriteLoop_split]
    simp only [spriteLoop]
    rw [hstep]
  refine ⟨hsplit, ?_⟩
  rw [hsplit]
  have hfr2 := (spriteLoop_frame lodepng data lofs tofs m (i + 1)
    (spriteStep lodepng data lofs tofs i st).1).2.2.1 i (by omega)
  rw [hfr2, hstep]
  simp only [linkSprite_sprites, setSprite_sprites]
  rw [if_neg (by omega)]
  rw [List.getElem?_set_self (by simp; omega)]
  refine ⟨_, rfl, rfl, ?_⟩
  simp only []
  rw [List.getD_eq_getElem?_getD, List.getElem?_set_self (by omega)]
  simp only [Option.getD_some]
  rw [readEntry_texture _ _ _ _ _ _ _ hd, hsi]
  rfl

set_option maxRecDepth 100000 in
/-- On `sampleV2`, entry 2 (size 0, link 7) leaves sprite 2 empty and the loop goes on. -/
theorem broken_link_sprite_witness :
    (spriteStep noPng sampleV2 148 0 2 (spriteLoop noPng sampleV2 148 0 2 0 sampleStart).1).2 = none ∧
    ∀ m, spriteLoop noPng sampleV2 148 0 (2 + (1 + m)) 0 sampleStart
        = spriteLoop noPng sampleV2 148 0 m (2 + 1)
            (spriteStep noPng sampleV2 148 0 2 (spriteLoop noPng sampleV2 148 0 2 0 sampleStart).1).1 ∧
      ∃ s, (spriteLoop noPng sampleV2 148 0 (2 + (1 + m)) 0 sampleStart).1.sff.sprites_[2]? = some s ∧
        s.palidx = 0 ∧ s.texture = Texture2D.zero :=
  broken_link_sprite noPng sampleV2 148 0 3 2 sampleStart
    (spriteLoop noPng sampleV2 148 0 2 0 sampleStart).1
    ⟨0, 2, 5, 5, 0, 0, 1, 0, 8, Texture2D.zero⟩ 148 7 ⟨sampleV2, 148⟩
    (by decide) (by decide) (by decide) (by decide) (by decide) (by decide)

/-! ## Raw sprites of a variant-2 file (C1) -/

theorem Load_ok (lodepng : Int → List Nat → Option (Nat × Nat × List Nat)) (c : SffFile) (g : Gpu)
    (data : List Nat) (h : (Load lodepng c g data).2.2 = .ok ()) :
    ∃ hdr lofs tofs f pals gp stF,
      ReadHeader c.header_ (fopen data) = (hdr, some (lofs, tofs, f)) ∧
      palettePhase c g data hdr lofs = (pals, gp, none) ∧
      spriteLoop lodepng data lofs tofs hdr.NumberOfSprites 0 (loopStart c hdr pals gp)
        = (stF, none) ∧
      (Load lodepng c g data).1 =
        (if stF.sff.header_.Ver0 = 1 then
          { stF.sff with header_ :=
              { stF.sff.header_ with NumberOfPalettes := stF.sff.palettes_.length % 2 ^ 32 } }
         else stF.sff) ∧
      (Load lodepng c g data).2.1 = stF.gpu := by
  rcases hr : ReadHeader c.header_ (fopen data) with ⟨hdr, o⟩
  cases o with
  | none =>
    unfold Load at h
    simp only [hr] at h
    exact absurd h (by simp)
  | some r =>
    obtain ⟨lofs, tofs, f⟩ := r
    rcases hp : palettePhase c g data hdr lofs with ⟨pals, gp, o⟩
    rcases hs : spriteLoop lodepng data lofs tofs hdr.NumberOfSprites 0 (loopStart c hdr pals gp)
      with ⟨stF, o2⟩
    unfold Load at h ⊢
    unfold palettePhase at hp
    unfold loopStart at hs
    simp only [hr, hp] at h ⊢
    cases o with
    | some e => exact absurd h (by simp)
    | none =>
      simp only [hs] at h ⊢
      cases o2 with
      | some e => exact absurd h (by simp)
      | none =>
        exact ⟨hdr, lofs, tofs, f, pals, gp, stF, rfl, by unfold palettePhase; exact hp,
          by unfold loopStart; exact hs, rfl, rfl⟩

theorem spriteLoop_none_split (lodepng : Int → List Nat → Option (Nat × Nat × List Nat))
    (data : List Nat) (lofs tofs : Nat) (a b i : Nat) (st stF : LoadState)
    (h : spriteLoop lodepng data lofs tofs (a + b) i st = (stF, none)) :
    ∃ st', spriteLoop lodepng data lofs tofs a i st = (st', none) ∧
      spriteLoop lodepng data lofs tofs b (i + a) st' = (stF, none) := by
  rw [spriteLoop_split] at h
  rcases hs : spriteLoop lodepng data lofs tofs a i st with ⟨st', o⟩
  rw [hs] at h
  cases o with
  | some e => simp at h
  | none => exact ⟨st', rfl, h⟩

theorem spriteLoop_one (lodepng : Int → List Nat → Option (Nat × Nat × List Nat))
    (data : List Nat) (lofs tofs : Nat) (i : Nat) (st : LoadState) :
    spriteLoop lodepng data lofs tofs 1 i st = spriteStep lodepng data lofs tofs i st := by
  simp only [spriteLoop]
  rcases spriteStep lodepng data lofs tofs i st with ⟨st', o⟩
  cases o <;> rfl

/-- A successful `Load` seen from entry `i`: the state `st` in which the sprite
loop reaches the entry, the fault-free iteration for it, and the rest of the
loop up to the final state. -/
theorem Load_ok_at (lodepng : Int → List Nat → Option (Nat × Nat × List Nat)) (c : SffFile)
    (g : Gpu) (data : List Nat) (h : (Load lodepng c g data).2.2 = .ok ()) (i : Nat)
    (hi : i < (Load lodepng c g data).1.header_.NumberOfSprites) :
    ∃ hdr lofs tofs f pals gp st st1 stF,
      ReadHeader c.header_ (fopen data) = (hdr, some (lofs, tofs, f)) ∧
      palettePhase c g data hdr lofs = (pals, gp, none) ∧
      spriteLoop lodepng data lofs tofs i 0 (loopStart c hdr pals gp) = (st, none) ∧
      spriteStep lodepng data lofs tofs i st = (st1, none) ∧
      spriteLoop lodepng data lofs tofs (hdr.NumberOfSprites - (i + 1)) (i + 1) st1 = (stF, none) ∧
      st.sff.header_ = hdr ∧ i < hdr.NumberOfSprites ∧
      st.sff.sprites_.length = hdr.NumberOfSprites ∧
      st.sff.sprites_.getD i Sprite.init = Sprite.init ∧
      (Load lodepng c g data).1.sprites_ = stF.sff.sprites_ ∧
      (Load lodepng c g data).1.palettes_ = stF.sff.palettes_ ∧
      (Load lodepng c g data).1.header_.Ver0 = hdr.Ver0 ∧
      (Load lodepng c g data).2.1 = stF.gpu := by
  obtain ⟨hdr, lofs, tofs, f, pals, gp, stF, h1, h2, h3, h4, h5⟩ := Load_ok lodepng c g data h
  have hfr := spriteLoop_frame lodepng data lofs tofs hdr.NumberOfSprites 0 (loopStart c hdr pals gp)
  rw [h3] at hfr
  simp only [] at hfr
  have hhdr : stF.sff.header_ = hdr := hfr.1
  have hN : (Load lodepng c g data).1.header_.NumberOfSprites = hdr.NumberOfSprites := by
    rw [h4]
    split_ifs <;> simp [hhdr]
  rw [hN] at hi
  have hsplit : hdr.NumberOfSprites = i + (1 + (hdr.NumberOfSprites - (i + 1))) := by omega
  have h3' := h3
  rw [hsplit] at h3'
  obtain ⟨st, e1, e2⟩ := spriteLoop_none_split _ _ _ _ _ _ _ _ _ h3'
  obtain ⟨st1, e3, e4⟩ := spriteLoop_none_split _ _ _ _ _ _ _ _ _ e2
  rw [spriteLoop_one] at e3
  have hfr1 := spriteLoop_frame lodepng data lofs tofs i 0 (loopStart c hdr pals gp)
  rw [e1] at hfr1
  simp only [] at hfr1
  refine ⟨hdr, lofs, tofs, f, pals, gp, st, st1, stF, h1, h2, e1, ?_, ?_, hfr1.1, hi, ?_, ?_, ?_,
    ?_, ?_, h5⟩
  · simpa using e3
  · simpa using e4
  · rw [hfr1.2.1]
    simp [loopStart]
  · rw [List.getD_eq_getElem?_getD, hfr1.2.2.1 i (by omega)]
    simp [loopStart, hi]
  · rw [h4]
    split_ifs <;> rfl
  · rw [h4]
    split_ifs <;> rfl
  · rw [h4]
    split_ifs <;> simp [hhdr]

theorem toI8_zero : toI8 0 = 0 := by decide

theorem ReadSpriteDataV2_raw (lodepng : Int → List Nat → Option (Nat × Nat × List Nat))
    (s s'' : Sprite) (data : List Nat) (p offset size : Nat) (px : List Nat) (hr : s.rle = 0)
    (h : ReadSpriteDataV2 lodepng s ⟨data, p⟩ offset size = (s'', .ok px)) :
    s'' = s ∧ px = (data.drop offset).take size ∧ px.length = size := by
  unfold ReadSpriteDataV2 at h
  rw [if_neg (by omega), if_pos hr] at h
  simp only [fseek, fread1_eq] at h
  split_ifs at h with hc
  · simp only [Prod.mk.injEq, Res.ok.injEq] at h
    refine ⟨h.1.symm, h.2.symm, ?_⟩
    rw [← h.2, List.length_take, List.length_drop]
    simp only [] at hc
    omega
  · simp at h

/-- C1: after a successful `Load` of a variant-2 file, for every directory
entry `i` (at offset `FirstSpriteHeaderOffset + 28 * i`) with format code 0 and
declared data size `n > 0`, sprite `i` has the width, height and anchor stored
in the entry and the entry's palette index, and its texture id names the
upload of exactly the `n` file bytes that start at the entry's resolved data
offset. -/
theorem raw_sprite_v2 (lodepng : Int → List Nat → Option (Nat × Nat × List Nat)) (c : SffFile)
    (g : Gpu) (data : List Nat) (i : Nat)
    (h : (Load lodepng c g data).2.2 = .ok ())
    (hv : (Load lodepng c g data).1.header_.Ver0 = 2)
    (hi : i < (Load lodepng c g data).1.header_.NumberOfSprites)
    (hfmt : byteAt data ((Load lodepng c g data).1.header_.FirstSpriteHeaderOffset + 28 * i + 14) = 0)
    (hsize : 0 < le32At data
      ((Load lodepng c g data).1.header_.FirstSpriteHeaderOffset + 28 * i + 20)) :
    ∃ s, (Load lodepng c g data).1.sprites_[i]? = some s ∧
      s.Size0 = le16At data ((Load lodepng c g data).1.header_.FirstSpriteHeaderOffset + 28 * i + 4) ∧
      s.Size1 = le16At data ((Load lodepng c g data).1.header_.FirstSpriteHeaderOffset + 28 * i + 6) ∧
      s.Offset0 = toI16 (le16At data
        ((Load lodepng c g data).1.header_.FirstSpriteHeaderOffset + 28 * i + 8)) ∧
      s.Offset1 = toI16 (le16At data
        ((Load lodepng c g data).1.header_.FirstSpriteHeaderOffset + 28 * i + 10)) ∧
      s.palidx = (le16At data
        ((Load lodepng c g data).1.header_.FirstSpriteHeaderOffset + 28 * i + 24) : Nat) ∧
      (Load lodepng c g data).2.1.lookup s.texture.id = some
        ⟨(data.drop (entryV2Ofs data
            ((Load lodepng c g data).1.header_.FirstSpriteHeaderOffset + 28 * i)
            (le32At data 52) (le32At data 60))).take
          (le32At data ((Load lodepng c g data).1.header_.FirstSpriteHeaderOffset + 28 * i + 20)),
         s.Size0, s.Size1, PIXELFORMAT_UNCOMPRESSED_GRAYSCALE, 1⟩ ∧
      ((data.drop (entryV2Ofs data
            ((Load lodepng c g data).1.header_.FirstSpriteHeaderOffset + 28 * i)
            (le32At data 52) (le32At data 60))).take
          (le32At data ((Load lodepng c g data).1.header_.FirstSpriteHeaderOffset + 28 * i + 20))).length
        = le32At data ((Load lodepng c g data).1.header_.FirstSpriteHeaderOffset + 28 * i + 20) := by
  obtain ⟨hdr, lofs, tofs, f, pals, gp, st, st1, stF, h1, h2, e1, e3, e4, hh, hiN, hlen, hsi,
    hsp, hpal, hver, hgpu⟩ := Load_ok_at lodepng c g data h i hi
  have hfso : (Load lodepng c g data).1.header_.FirstSpriteHeaderOffset
      = hdr.FirstSpriteHeaderOffset := by
    obtain ⟨hdr', lofs', tofs', f', pals', gp', stF', k1, k2, k3, k4, k5⟩ := Load_ok lodepng c g data h
    rw [h1] at k1
    simp only [Prod.mk.injEq, Option.some.injEq] at k1
    have hfr := spriteLoop_frame lodepng data lofs' tofs' hdr'.NumberOfSprites 0
      (loopStart c hdr' pals' gp')
    rw [k3] at hfr
    rw [k4]
    split_ifs
    · simp only []
      rw [hfr.1, k1.1]
      rfl
    · rw [hfr.1, k1.1]
      rfl
  rw [hfso] at hfmt hsize ⊢
  rw [hver] at hv
  -- the header
  obtain ⟨hm, hcase⟩ := ReadHeader_some _ _ _ _ h1
  have hv2 : byteAt data 15 = 2 ∧ 64 ≤ data.length := by
    rcases hcase with hc | hc
    · exact hc
    · rw [ReadHeader_v1 _ _ hm hc.1 hc.2] at h1
      simp only [Prod.mk.injEq] at h1
      rw [← h1.1] at hv
      simp at hv
  rw [ReadHeader_v2 _ _ hm hv2.1 hv2.2] at h1
  simp only [Prod.mk.injEq, Option.some.injEq] at h1
  obtain ⟨hhdr, hlofs, htofs, _⟩ := h1
  rw [hlofs, htofs]
  -- the position of entry `i`
  have hst0 : (loopStart c hdr pals gp).sff.header_.Ver0 = 2 := hv
  have hshofs := spriteLoop_shofs_v2 lodepng data lofs tofs i 0 _ st hst0 e1
  have hshofs' : st.shofs = hdr.FirstSpriteHeaderOffset + 28 * i := hshofs
  have hstv : st.sff.header_.Ver0 = 2 := by rw [hh]; exact hv
  have hv' : st.sff.header_.Ver0 = 1 ∨ st.sff.header_.Ver0 = 2 := Or.inr hstv
  -- the iteration for entry `i`
  rcases hd : readEntry st.sff.header_.Ver0 (st.sff.sprites_.getD i Sprite.init)
    (fseek (fopen data) st.shofs) lofs tofs with ⟨s', r⟩
  cases r with
  | err e =>
    rw [spriteStep_entry_err _ _ _ _ _ _ _ _ hv' hd] at e3
    simp at e3
  | ok a =>
    obtain ⟨xofs, size, link, f'⟩ := a
    have hd' := hd
    unfold readEntry at hd'
    rw [if_neg (by omega)] at hd'
    simp only [fseek, fopen] at hd'
    have hl := ReadSpriteHeaderV2_inv _ _ _ _ _ _ hd'
    simp only [] at hl
    rw [ReadSpriteHeaderV2_ok _ _ _ _ _ hl] at hd'
    simp only [Prod.mk.injEq, Res.ok.injEq] at hd'
    obtain ⟨hs', hxofs, hsz, hlink, hf'⟩ := hd'
    rw [hshofs'] at hs' hxofs hsz hlink hf'
    have hz : size ≠ 0 := by omega
    rcases hr : readData lodepng st.sff.header_.Ver0 s' st.sff.palettes_ st.gpu f' st.shofs size
      xofs (st.prev.map (fun k => (st.sff.sprites_.set i s').getD k Sprite.init))
      with ⟨s'', pals2, gp2, res⟩
    cases res with
    | err e =>
      rw [spriteStep_data_err _ _ _ _ _ _ _ _ _ _ _ hv' hd hz _ _ _ _ hr] at e3
      simp at e3
    | ok px =>
      rw [spriteStep_data _ _ _ _ _ _ _ _ _ _ _ hv' hd hz _ _ _ _ hr] at e3
      simp only [Prod.mk.injEq, and_true] at e3
      unfold readData at hr
      rw [if_neg (by omega)] at hr
      simp only [Prod.mk.injEq] at hr
      obtain ⟨hr1, hr2, hr3, hr4⟩ := hr
      have hrle : s'.rle = 0 := by
        rw [← hs']
        simp only [entryV2]
        rw [hfmt, toI8_zero]
        rfl
      have hraw := ReadSpriteDataV2_raw lodepng s' s'' f'.data f'.pos xofs size px hrle
        (by rw [← hr1, ← hr4])
      obtain ⟨hs'', hpx, hpxlen⟩ := hraw
      have hf'data : f'.data = data := by rw [← hf']
      -- sprite `i` and the GPU after the iteration
      have hsp1 : st1.sff.sprites_[i]? = some
          { s' with texture := ⟨gp2.slots.length + 1, s'.Size0, s'.Size1, 1, uploadFormat s'⟩ } := by
        rw [← e3]
        simp only [storeSprite_sprites, setSprite_sprites]
        rw [List.getElem?_set_self (by simp; omega)]
        simp only [List.getD_eq_getElem?_getD]
        rw [List.getElem?_set_self (by simp; omega)]
        simp only [Option.getD_some, hs'']
      have hgp1 : st1.gpu = ⟨gp2.slots ++ [some ⟨px, s'.Size0, s'.Size1, uploadFormat s', 1⟩]⟩ := by
        rw [← e3]
        simp only [storeSprite_gpu, setSprite_sprites]
        simp only [List.getD_eq_getElem?_getD]
        rw [List.getElem?_set_self (by simp; omega)]
        simp only [Option.getD_some, hs'']
      have hfmt' : uploadFormat s' = PIXELFORMAT_UNCOMPRESSED_GRAYSCALE := by
        unfold uploadFormat Sprite.IsRGBA
        rw [hrle]
        rfl
      -- the rest of the loop
      have hfrF := spriteLoop_frame lodepng data lofs tofs (hdr.NumberOfSprites - (i + 1)) (i + 1) st1
      rw [e4] at hfrF
      simp only [] at hfrF
      refine ⟨{ s' with texture := ⟨gp2.slots.length + 1, s'.Size0, s'.Size1, 1, uploadFormat s'⟩ },
        ?_, ?_, ?_, ?_, ?_, ?_, ?_, ?_⟩
      · rw [hsp, hfrF.2.2.1 i (by omega), hsp1]
      · rw [← hs']; rfl
      · rw [← hs']; rfl
      · rw [← hs']; rfl
      · rw [← hs']; rfl
      · rw [← hs']; rfl
      · rw [hgpu]
        apply Gpu.lookup_prefix st1.gpu stF.gpu hfrF.2.2.2.1
        rw [hgp1]
        simp only []
        rw [Gpu.lookup_new, hfmt', hpx, hf'data, ← hxofs, ← hsz]
      · rw [hpx, hf'data, ← hxofs, ← hsz] at hpxlen
        exact hpxlen

/-- On `sampleV2`, sprite 0 is 2x2 with anchor (1, -1), palette index 0 and pixels 0, 1, 2, 3. -/
theorem raw_sprite_v2_witness :
    ∃ s, (Load noPng SffFile.init Gpu.empty sampleV2).1.sprites_[0]? = some s ∧
      s.Size0 = 2 ∧ s.Size1 = 2 ∧ s.Offset0 = 1 ∧ s.Offset1 = -1 ∧ s.palidx = 0 ∧
      (Load noPng SffFile.init Gpu.empty sampleV2).2.1.lookup s.texture.id
        = some ⟨[0, 1, 2, 3], 2, 2, PIXELFORMAT_UNCOMPRESSED_GRAYSCALE, 1⟩ := by
  obtain ⟨s, h1, h2, h3, h4, h5, h6, h7, _⟩ := raw_sprite_v2 noPng SffFile.init Gpu.empty sampleV2 0
    (by decide) (by decide) (by decide) (by decide) (by decide)
  exact ⟨s, h1, h2.trans (by decide), h3.trans (by decide), h4.trans (by decide),
    h5.trans (by decide), h6.trans (by decide), h7.trans (by rw [h2, h3]; decide)⟩

/-! ## Palette deduplication (C9) -/

theorem isFirst_iff (data : List Nat) (hdr : SffHeader) (j : Nat) :
    isFirst data hdr j = true ↔ ∀ a, a < j → palKey data hdr a ≠ palKey data hdr j := by
  simp [isFirst, List.all_eq_true]

theorem PalInv_new (data : List Nat) (hdr : SffHeader) (g0 : Gpu) (i : Nat)
    (up : List ((Int × Int) × Nat)) (pals : List Palette) (g : Gpu) (pal_rgba : List Nat)
    (h : PalInv data hdr g0 i up pals g) (hl : up.lookup (palKey data hdr i) = none) :
    PalInv data hdr g0 (i + 1) ((palKey data hdr i, i) :: up)
      (pals ++ [⟨(GeneratePaletteTextureRGBA g pal_rgba).2⟩]) (GeneratePaletteTextureRGBA g pal_rgba).1 := by
  obtain ⟨h1, h2, h3, h4, h5, h6⟩ := h
  have hnew := h3 _ hl
  have hfirst : isFirst data hdr i = true := (isFirst_iff data hdr i).2 hnew
  have hcount : firstCount data hdr (i + 1) = firstCount data hdr i + 1 := by
    simp [firstCount, hfirst]
  refine ⟨by simp [h1], ?_, ?_, ?_, ?_, ?_⟩
  · intro key idx hk
    rw [List.lookup_cons] at hk
    by_cases he : key = palKey data hdr i
    · subst he
      simp only [beq_self_eq_true, Option.some.injEq] at hk
      subst hk
      exact ⟨by omega, rfl, hnew⟩
    · have : (key == palKey data hdr i) = false := by simpa using he
      simp only [this] at hk
      obtain ⟨a, b, c⟩ := h2 key idx hk
      exact ⟨by omega, b, c⟩
  · intro key hk a ha
    rw [List.lookup_cons] at hk
    by_cases he : key = palKey data hdr i
    · subst he
      simp at hk
    · have : (key == palKey data hdr i) = false := by simpa using he
      simp only [this] at hk
      by_cases hai : a = i
      · subst hai
        exact fun h' => he h'.symm
      · exact h3 key hk a (by omega)
  · intro a b hab hb hkey
    by_cases hbi : b = i
    · subst hbi
      exact absurd hkey (hnew a hab)
    · rw [List.getElem?_append_left (by omega), List.getElem?_append_left (by omega)]
      exact h4 a b hab (by omega) hkey
  · intro j hj hf
    by_cases hji : j = i
    · subst hji
      refine ⟨⟨(GeneratePaletteTextureRGBA g pal_rgba).2⟩,
        by rw [List.getElem?_append_right (by omega)]; simp [h1], ?_⟩
      simp only [GeneratePaletteTextureRGBA, paletteTexture, rlLoadTexture]
      omega
    · obtain ⟨p, hp1, hp2⟩ := h5 j (by omega) hf
      exact ⟨p, by rw [List.getElem?_append_left (by omega)]; exact hp1, hp2⟩
  · simp only [GeneratePaletteTextureRGBA, paletteTexture, rlLoadTexture, List.length_append,
      List.length_singleton]
    omega

theorem PalInv_dup (data : List Nat) (hdr : SffHeader) (g0 : Gpu) (i k : Nat)
    (up : List ((Int × Int) × Nat)) (pals : List Palette) (g : Gpu)
    (h : PalInv data hdr g0 i up pals g) (hl : up.lookup (palKey data hdr i) = some k) :
    PalInv data hdr g0 (i + 1) up
      (pals ++ [⟨(pals.getD k ⟨Texture2D.zero⟩).texture⟩]) g := by
  obtain ⟨h1, h2, h3, h4, h5, h6⟩ := h
  obtain ⟨hk1, hk2, hk3⟩ := h2 _ _ hl
  have hfirst : isFirst data hdr i = false := by
    cases hf : isFirst data hdr i with
    | false => rfl
    | true => exact absurd hk2 ((isFirst_iff data hdr i).1 hf k hk1)
  have hcount : firstCount data hdr (i + 1) = firstCount data hdr i := by
    simp [firstCount, hfirst]
  have hlast : (pals ++ [(⟨(pals.getD k ⟨Texture2D.zero⟩).texture⟩ : Palette)])[i]? = pals[k]? := by
    rw [List.getElem?_append_right (by omega)]
    simp only [h1, Nat.sub_self, List.getElem?_cons_zero]
    rw [List.getD_eq_getElem?_getD, List.getElem?_eq_getElem (by omega)]
    rfl
  refine ⟨by simp [h1], ?_, ?_, ?_, ?_, ?_⟩
  · intro key idx hk
    obtain ⟨a, b, c⟩ := h2 key idx hk
    exact ⟨by omega, b, c⟩
  · intro key hk a ha
    by_cases hai : a = i
    · subst hai
      intro he
      rw [← he, hl] at hk
      simp at hk
    · exact h3 key hk a (by omega)
  · intro a b hab hb hkey
    by_cases hbi : b = i
    · subst hbi
      rw [hlast, List.getElem?_append_left (by omega)]
      have hka : k ≤ a := by
        by_contra hc
        exact hk3 a (by omega) hkey
      by_cases hkeq : k = a
      · rw [hkeq]
      · exact (h4 k a (by omega) (by omega) (by rw [hk2, hkey])).symm
    · rw [List.getElem?_append_left (by omega), List.getElem?_append_left (by omega)]
      exact h4 a b hab (by omega) hkey
  · intro j hj hf
    have hji : j ≠ i := by
      rintro rfl
      rw [hfirst] at hf
      exact absurd hf (by simp)
    obtain ⟨p, hp1, hp2⟩ := h5 j (by omega) hf
    exact ⟨p, by rw [List.getElem?_append_left (by omega)]; exact hp1, hp2⟩
  · omega

theorem paletteLoop_inv (data : List Nat) (hdr : SffHeader) (lofs : Nat) (g0 : Gpu) (n : Nat) :
    ∀ (i : Nat) (up : List ((Int × Int) × Nat)) (pals : List Palette) (g : Gpu)
      (palsF : List Palette) (gF : Gpu),
      paletteLoop data hdr lofs n i up pals g = (palsF, gF, none) →
      PalInv data hdr g0 i up pals g →
      ∃ upF, PalInv data hdr g0 (i + n) upF palsF gF := by
  induction n with
  | zero =>
    intro i up pals g palsF gF h hinv
    simp only [paletteLoop, Prod.mk.injEq, and_true] at h
    obtain ⟨rfl, rfl⟩ := h
    exact ⟨up, hinv⟩
  | succ n ih =>
    intro i up pals g palsF gF h hinv
    rw [paletteLoop] at h
    simp only [fseek, fopen] at h
    iterate 4
      split at h
      · simp at h
      rename_i heq
      obtain ⟨hl, rfl, rfl⟩ := ReadU16LE_some heq
      clear heq
      try simp only [] at hl
    iterate 2
      split at h
      · simp at h
      rename_i heq
      obtain ⟨hl, rfl, rfl⟩ := ReadU32LE_some heq
      clear heq
      try simp only [] at hl
    simp only [] at h
    have hkey : (toI16 (le16At data ((hdr.FirstPaletteHeaderOffset + i * 16) % 2 ^ 32)),
        toI16 (le16At data ((hdr.FirstPaletteHeaderOffset + i * 16) % 2 ^ 32 + 2)))
        = palKey data hdr i := rfl
    rw [hkey] at h
    split at h
    · rename_i hlook
      split at h
      · simp at h
      · have := ih (i + 1) _ _ _ palsF gF h (PalInv_new data hdr g0 i up pals g _ hinv hlook)
        rw [Nat.add_assoc, Nat.add_comm 1 n] at this
        exact this
    · rename_i k hlook
      have := ih (i + 1) _ _ _ palsF gF h (PalInv_dup data hdr g0 i k up pals g hinv hlook)
      rw [Nat.add_assoc, Nat.add_comm 1 n] at this
      exact this

theorem PalInv_init (data : List Nat) (hdr : SffHeader) (g0 : Gpu) :
    PalInv data hdr g0 0 [] [] g0 := by
  refine ⟨rfl, ?_, ?_, ?_, ?_, rfl⟩
  · intro key idx h
    simp at h
  · intro key _ a ha
    omega
  · intro a b _ hb
    omega
  · intro j hj
    omega

theorem Load_ok_v2 (lodepng : Int → List Nat → Option (Nat × Nat × List Nat)) (c : SffFile)
    (g : Gpu) (data : List Nat) (h : (Load lodepng c g data).2.2 = .ok ())
    (hv : (Load lodepng c g data).1.header_.Ver0 = 2) :
    ∃ pals gp,
      palettePhase c g data (Load lodepng c g data).1.header_ (le32At data 52) = (pals, gp, none) ∧
      paletteLoop data (Load lodepng c g data).1.header_ (le32At data 52)
        (Load lodepng c g data).1.header_.NumberOfPalettes 0 [] [] g = (pals, gp, none) ∧
      (Load lodepng c g data).1.palettes_ = pals ∧
      gp.slots <+: (Load lodepng c g data).2.1.slots := by
  obtain ⟨hdr, lofs, tofs, f, pals, gp, stF, h1, h2, h3, h4, h5⟩ := Load_ok lodepng c g data h
  have hfr := spriteLoop_frame lodepng data lofs tofs hdr.NumberOfSprites 0 (loopStart c hdr pals gp)
  rw [h3] at hfr
  simp only [] at hfr
  obtain ⟨f1, _, _, f4, _, f6⟩ := hfr
  have hhdr : stF.sff.header_ = hdr := f1
  have hne : ¬ stF.sff.header_.Ver0 = 1 := by
    intro h1'
    rw [h4, if_pos h1'] at hv
    simp only [] at hv
    omega
  rw [if_neg hne] at h4
  have hv2 : hdr.Ver0 = 2 := by rw [← hhdr, ← h4]; exact hv
  obtain ⟨hm, hcase⟩ := ReadHeader_some _ _ _ _ h1
  have hc2 : byteAt data 15 = 2 ∧ 64 ≤ data.length := by
    rcases hcase with hc | hc
    · exact hc
    · rw [ReadHeader_v1 _ _ hm hc.1 hc.2] at h1
      simp only [Prod.mk.injEq] at h1
      rw [← h1.1] at hv2
      simp at hv2
  have h1' := h1
  rw [ReadHeader_v2 _ _ hm hc2.1 hc2.2] at h1'
  simp only [Prod.mk.injEq, Option.some.injEq] at h1'
  have hlofs : le32At data 52 = lofs := h1'.2.1
  have hfinal : (Load lodepng c g data).1.header_ = hdr := by rw [h4, hhdr]
  rw [hfinal, hlofs]
  refine ⟨pals, gp, h2, ?_, ?_, ?_⟩
  · unfold palettePhase at h2
    rw [if_pos (by omega)] at h2
    exact h2
  · rw [h4]
    exact f6 (by
      show hdr.Ver0 ≠ 1
      omega)
  · rw [h5]
    exact f4

/-- C9: after a successful `Load` of a variant-2 file with `N` declared palette
entries, the palette list has `N` entries; two entries with the same
(group, number) key hold the same handle; the first occurrence of a key holds
the id that the count of distinct keys up to it gives, so that ids were handed
out for first occurrences only; and the palette phase uploaded exactly as many
tables as there are distinct keys. -/
theorem palette_dedup (lodepng : Int → List Nat → Option (Nat × Nat × List Nat)) (c : SffFile)
    (g : Gpu) (data : List Nat) (h : (Load lodepng c g data).2.2 = .ok ())
    (hv : (Load lodepng c g data).1.header_.Ver0 = 2) :
    (Load lodepng c g data).1.palettes_.length
      = (Load lodepng c g data).1.header_.NumberOfPalettes ∧
    (∀ a b, a < b → b < (Load lodepng c g data).1.header_.NumberOfPalettes →
      palKey data (Load lodepng c g data).1.header_ a
        = palKey data (Load lodepng c g data).1.header_ b →
      (Load lodepng c g data).1.palettes_[b]? = (Load lodepng c g data).1.palettes_[a]?) ∧
    (∀ j, j < (Load lodepng c g data).1.header_.NumberOfPalettes →
      isFirst data (Load lodepng c g data).1.header_ j = true →
      ∃ p, (Load lodepng c g data).1.palettes_[j]? = some p ∧
        p.texture.id = g.slots.length + firstCount data (Load lodepng c g data).1.header_ (j + 1)) ∧
    (palettePhase c g data (Load lodepng c g data).1.header_ (le32At data 52)).2.1.slots.length
      = g.slots.length + firstCount data (Load lodepng c g data).1.header_
          (Load lodepng c g data).1.header_.NumberOfPalettes := by
  obtain ⟨pals, gp, h1, h2, h3, h4⟩ := Load_ok_v2 lodepng c g data h hv
  obtain ⟨upF, i1, _, _, i4, i5, i6⟩ := paletteLoop_inv data _ _ g _ 0 [] [] g pals gp h2
    (PalInv_init data _ g)
  simp only [Nat.zero_add] at i1 i4 i5 i6
  rw [h3, h1]
  exact ⟨i1, i4, i5, i6⟩

set_option maxRecDepth 100000 in
/-- On `samplePalV2`, entries 0 and 2 share a handle, entry 1 has id 2, and two tables are uploaded. -/
theorem palette_dedup_witness :
    (Load noPng SffFile.init Gpu.empty samplePalV2).1.palettes_.length = 3 ∧
    (Load noPng SffFile.init Gpu.empty samplePalV2).1.palettes_[2]?
      = (Load noPng SffFile.init Gpu.empty samplePalV2).1.palettes_[0]? ∧
    (∃ p, (Load noPng SffFile.init Gpu.empty samplePalV2).1.palettes_[1]? = some p ∧
      p.texture.id = 2) ∧
    (palettePhase SffFile.init Gpu.empty samplePalV2
      (Load noPng SffFile.init Gpu.empty samplePalV2).1.header_
      (le32At samplePalV2 52)).2.1.slots.length = 2 := by
  obtain ⟨a, b, c, d⟩ := palette_dedup noPng SffFile.init Gpu.empty samplePalV2
    (by decide) (by decide)
  obtain ⟨p, hp1, hp2⟩ := c 1 (by decide) (by decide)
  exact ⟨a.trans (by decide), b 0 2 (by decide) (by decide) (by decide),
    ⟨p, hp1, hp2.trans (by decide)⟩, d.trans (by decide)⟩

/-! ## Palettes of a variant-1 file (C10) -/

set_option maxRecDepth 8000 in
theorem ReadSpriteDataV1_palette (sprite s'' : Sprite) (palettes pals' : List Palette) (g g' : Gpu)
    (data : List Nat) (p offset datasize nextSubheader : Nat) (prev : Option Sprite)
    (px : List Nat)
    (h : ReadSpriteDataV1 sprite palettes g ⟨data, p⟩ offset datasize nextSubheader prev true
      = (s'', pals', g', .ok px)) :
    ((byteAt data p ≠ 0 ∧ prev.isSome = true) → pals' = palettes) ∧
    (¬(byteAt data p ≠ 0 ∧ prev.isSome = true) →
      pals'.length = palettes.length + 1 ∧ s''.palidx = (palettes.length : Nat)) := by
  unfold ReadSpriteDataV1 at h
  generalize (if nextSubheader > offset then (nextSubheader - offset) % 2 ^ 32 else datasize)
    = ds at h
  simp only [] at h
  split at h
  · simp at h
  rename_i ps f1 heq
  obtain ⟨_, rfl, rfl⟩ := readU8_some heq
  clear heq
  simp only [Bool.true_or, if_true, Bool.true_and, decide_eq_true_eq] at h
  generalize (if ds < 128 + 0 then 128 + 0 else ds) = ds2 at h
  split at h
  · simp at h
  split at h
  · simp at h
  by_cases hsame : byteAt data p ≠ 0 ∧ prev.isSome = true
  · have e : (decide (byteAt data p ≠ 0) && prev.isSome) = true := by
      simp only [Bool.and_eq_true, decide_eq_true_eq]
      exact hsame
    simp only [e, if_true] at h
    split at h
    · simp at h
    · simp only [Prod.mk.injEq] at h
      exact ⟨fun _ => h.2.1.symm, fun hn => absurd hsame hn⟩
  · have e : (decide (byteAt data p ≠ 0) && prev.isSome) = false := by
      simp only [Bool.and_eq_false_iff, decide_eq_false_iff_not]
      by_cases hb : byteAt data p ≠ 0
      · right
        simpa using fun h' => hsame ⟨hb, h'⟩
      · left
        exact hb
    simp only [e, Bool.false_eq_true, if_false] at h
    split at h
    · simp at h
    split at h
    · simp at h
    · simp only [Prod.mk.injEq] at h
      refine ⟨fun hy => absurd hy hsame, fun _ => ?_⟩
      rw [← h.2.1, ← h.1]
      simp

theorem spriteStep_v1_palette (lodepng : Int → List Nat → Option (Nat × Nat × List Nat))
    (data : List Nat) (lofs tofs i : Nat) (st st' : LoadState)
    (hv : st.sff.header_.Ver0 = 1) (hi : i < st.sff.sprites_.length)
    (h : spriteStep lodepng data lofs tofs i st = (st', none)) :
    (ownsPalette data st = true →
      st'.sff.palettes_.length = st.sff.palettes_.length + 1 ∧
      ∃ s, st'.sff.sprites_[i]? = some s ∧ s.palidx = (st.sff.palettes_.length : Nat)) ∧
    (ownsPalette data st = false → st'.sff.palettes_ = st.sff.palettes_) := by
  have hv' : st.sff.header_.Ver0 = 1 ∨ st.sff.header_.Ver0 = 2 := Or.inl hv
  rcases hd : readEntry st.sff.header_.Ver0 (st.sff.sprites_.getD i Sprite.init)
    (fseek (fopen data) st.shofs) lofs tofs with ⟨s', r⟩
  cases r with
  | err e =>
    rw [spriteStep_entry_err _ _ _ _ _ _ _ _ hv' hd] at h
    simp at h
  | ok a =>
    obtain ⟨xofs, size, link, f'⟩ := a
    have hd' := hd
    unfold readEntry at hd'
    rw [if_pos hv] at hd'
    simp only [fseek, fopen] at hd'
    have hl := ReadSpriteHeaderV1_inv _ _ _ _ hd'
    simp only [] at hl
    rw [ReadSpriteHeaderV1_ok _ _ _ hl] at hd'
    simp only [Prod.mk.injEq, Res.ok.injEq] at hd'
    obtain ⟨hs', hxofs, hsz, hlink, hf'⟩ := hd'
    by_cases hz : size = 0
    · subst hz
      rw [spriteStep_link _ _ _ _ _ _ _ _ _ _ hv' hd] at h
      simp only [Prod.mk.injEq, and_true] at h
      have hown : ownsPalette data st = false := by
        simp [ownsPalette, hsz]
      rw [hown]
      refine ⟨fun hc => absurd hc (by simp), fun _ => ?_⟩
      rw [← h]
      simp only [linkSprite_palettes, setSprite_palettes]
    · rcases hr : readData lodepng st.sff.header_.Ver0 s' st.sff.palettes_ st.gpu f' st.shofs size
        xofs (st.prev.map (fun k => (st.sff.sprites_.set i s').getD k Sprite.init))
        with ⟨s'', pals2, gp2, res⟩
      cases res with
      | err e =>
        rw [spriteStep_data_err _ _ _ _ _ _ _ _ _ _ _ hv' hd hz _ _ _ _ hr] at h
        simp at h
      | ok px =>
        rw [spriteStep_data _ _ _ _ _ _ _ _ _ _ _ hv' hd hz _ _ _ _ hr] at h
        simp only [Prod.mk.injEq, and_true] at h
        unfold readData at hr
        rw [if_pos hv, ← hf'] at hr
        have hp := ReadSpriteDataV1_palette _ _ _ _ _ _ _ _ _ _ _ _ _ hr
        have hsome : (st.prev.map (fun k => (st.sff.sprites_.set i s').getD k Sprite.init)).isSome
            = st.prev.isSome := by
          cases st.prev <;> rfl
        rw [hsome] at hp
        have hpal' : st'.sff.palettes_ = pals2 := by
          rw [← h]
          simp only [storeSprite_palettes]
        have hsp' : st'.sff.sprites_[i]? = some
            { s'' with texture := ⟨gp2.slots.length + 1, s''.Size0, s''.Size1, 1, uploadFormat s''⟩ } := by
          rw [← h]
          simp only [storeSprite_sprites, setSprite_sprites]
          rw [List.getElem?_set_self (by simp; omega)]
          simp only [List.getD_eq_getElem?_getD]
          rw [List.getElem?_set_self (by simp; omega)]
          simp only [Option.getD_some]
        constructor
        · intro hown
          have hns : ¬(byteAt data (st.shofs + 18) ≠ 0 ∧ st.prev.isSome = true) := by
            simp only [ownsPalette, Bool.and_eq_true, decide_eq_true_eq, Bool.not_eq_true',
              Bool.and_eq_false_iff, decide_eq_false_iff_not] at hown
            intro hc
            rcases hown.2 with h1 | h1
            · exact h1 hc.1
            · rw [hc.2] at h1
              simp at h1
          obtain ⟨k1, k2⟩ := hp.2 hns
          rw [hpal']
          exact ⟨k1, _, hsp', k2⟩
        · intro hown
          have hys : byteAt data (st.shofs + 18) ≠ 0 ∧ st.prev.isSome = true := by
            simp only [ownsPalette, Bool.and_eq_false_iff, decide_eq_false_iff_not,
              Bool.not_eq_false', Bool.and_eq_true, decide_eq_true_eq] at hown
            rcases hown with h1 | h1
            · exact absurd (by rw [← hsz] at hz; exact hz) h1
            · exact h1
          rw [hpal']
          exact hp.1 hys

theorem spriteLoop_ownCount (lodepng : Int → List Nat → Option (Nat × Nat × List Nat))
    (data : List Nat) (lofs tofs : Nat) (st0 : LoadState) (hv : st0.sff.header_.Ver0 = 1)
    (m : Nat) :
    ∀ st, m ≤ st0.sff.sprites_.length →
      spriteLoop lodepng data lofs tofs m 0 st0 = (st, none) →
      st.sff.palettes_.length = st0.sff.palettes_.length + ownCount lodepng data lofs tofs st0 m ∧
      ∀ i, i < m → ownsPalette data (entryState lodepng data lofs tofs st0 i) = true →
        ∃ s, st.sff.sprites_[i]? = some s ∧
          s.palidx = ((st0.sff.palettes_.length + ownCount lodepng data lofs tofs st0 (i + 1) - 1
            : Nat) : Int) := by
  induction m with
  | zero =>
    intro st _ h
    simp only [spriteLoop, Prod.mk.injEq, and_true] at h
    subst h
    exact ⟨rfl, fun i hi => absurd hi (by omega)⟩
  | succ m ih =>
    intro st hm h
    obtain ⟨stm, e1, e2⟩ := spriteLoop_none_split _ _ _ _ _ _ _ _ _ h
    rw [spriteLoop_one, Nat.zero_add] at e2
    obtain ⟨ih1, ih2⟩ := ih stm (by omega) e1
    have hfr := spriteLoop_frame lodepng data lofs tofs m 0 st0
    rw [e1] at hfr
    simp only [] at hfr
    have hstate : entryState lodepng data lofs tofs st0 m = stm := by
      unfold entryState
      rw [e1]
    obtain ⟨s1, s2⟩ := spriteStep_v1_palette lodepng data lofs tofs m stm st
      (by rw [hfr.1]; exact hv) (by rw [hfr.2.1]; omega) e2
    have hsf := (spriteStep_frame lodepng data lofs tofs m stm).2.2.1
    rw [e2] at hsf
    simp only [] at hsf
    constructor
    · simp only [ownCount, hstate]
      cases ho : ownsPalette data stm with
      | true =>
        rw [(s1 ho).1, ih1]
        simp
        omega
      | false =>
        rw [s2 ho, ih1]
        simp
    · intro i hi hown
      by_cases him : i = m
      · subst him
        rw [hstate] at hown
        obtain ⟨_, s, hs1, hs2⟩ := s1 hown
        refine ⟨s, hs1, ?_⟩
        rw [hs2, ih1]
        simp only [ownCount, hstate, hown, if_true]
        congr 1
      · obtain ⟨s, hs1, hs2⟩ := ih2 i (by omega) hown
        exact ⟨s, by rw [hsf i him]; exact hs1, hs2⟩

theorem ownCount_le (lodepng : Int → List Nat → Option (Nat × Nat × List Nat)) (data : List Nat)
    (lofs tofs : Nat) (st0 : LoadState) (n : Nat) :
    ownCount lodepng data lofs tofs st0 n ≤ n := by
  induction n with
  | zero => simp [ownCount]
  | succ n ih =>
    simp only [ownCount]
    split_ifs <;> omega

theorem le32At_lt (data : List Nat) (p : Nat) : le32At data p < 2 ^ 32 := by
  unfold le32At le32
  exact Nat.mod_lt _ (by decide)

/-- C10: after a successful `Load` of a variant-1 file into a container with no
palette, `NumberOfPalettes` equals the length of the palette list, which equals
the number of directory entries that materialized a palette of their own
(non-zero data size, previous palette not reused); and such an entry `i`, the
`n`-th of them in directory order, has palette index `n - 1`. -/
theorem v1_palette_count (lodepng : Int → List Nat → Option (Nat × Nat × List Nat)) (c : SffFile)
    (g : Gpu) (data : List Nat) (hc : c.palettes_ = [])
    (h : (Load lodepng c g data).2.2 = .ok ())
    (hv : (Load lodepng c g data).1.header_.Ver0 = 1) :
    (Load lodepng c g data).1.header_.NumberOfPalettes
      = (Load lodepng c g data).1.palettes_.length ∧
    (Load lodepng c g data).1.palettes_.length
      = ownCount lodepng data 0 0 (loopStart c (ReadHeader c.header_ (fopen data)).1 [] g)
          (Load lodepng c g data).1.header_.NumberOfSprites ∧
    ∀ i, i < (Load lodepng c g data).1.header_.NumberOfSprites →
      ownsPalette data (entryState lodepng data 0 0
        (loopStart c (ReadHeader c.header_ (fopen data)).1 [] g) i) = true →
      ∃ s, (Load lodepng c g data).1.sprites_[i]? = some s ∧
        s.palidx = ((ownCount lodepng data 0 0
          (loopStart c (ReadHeader c.header_ (fopen data)).1 [] g) (i + 1) - 1 : Nat) : Int) := by
  obtain ⟨hdr, lofs, tofs, f, pals, gp, stF, h1, h2, h3, h4, h5⟩ := Load_ok lodepng c g data h
  have hfr := spriteLoop_frame lodepng data lofs tofs hdr.NumberOfSprites 0 (loopStart c hdr pals gp)
  rw [h3] at hfr
  simp only [] at hfr
  have hhdr : stF.sff.header_ = hdr := hfr.1
  have hv1 : stF.sff.header_.Ver0 = 1 := by
    by_contra hne
    rw [h4, if_neg hne] at hv
    exact hne hv
  rw [if_pos hv1] at h4
  have hv1' : hdr.Ver0 = 1 := by rw [← hhdr]; exact hv1
  obtain ⟨hm, hcase⟩ := ReadHeader_some _ _ _ _ h1
  have hc1 : byteAt data 15 = 1 ∧ 28 ≤ data.length := by
    rcases hcase with hc2 | hc2
    · rw [ReadHeader_v2 _ _ hm hc2.1 hc2.2] at h1
      simp only [Prod.mk.injEq] at h1
      rw [← h1.1] at hv1'
      simp at hv1'
    · exact hc2
  have h1' := h1
  rw [ReadHeader_v1 _ _ hm hc1.1 hc1.2] at h1'
  simp only [Prod.mk.injEq, Option.some.injEq] at h1'
  obtain ⟨hhdrv, hlofs, htofs, _⟩ := h1'
  subst hlofs htofs
  have hN : hdr.NumberOfSprites < 2 ^ 32 := by
    rw [← hhdrv]
    exact le32At_lt data 20
  unfold palettePhase at h2
  rw [if_neg (by omega), hc] at h2
  simp only [Prod.mk.injEq, and_true] at h2
  obtain ⟨hp, hg⟩ := h2
  subst hp hg
  have hst0 : (ReadHeader c.header_ (fopen data)).1 = hdr := by rw [h1]
  rw [hst0]
  obtain ⟨k1, k2⟩ := spriteLoop_ownCount lodepng data 0 0 (loopStart c hdr [] g) hv1'
    hdr.NumberOfSprites stF (by simp [loopStart]) h3
  have hl0 : (loopStart c hdr [] g).sff.palettes_.length = 0 := rfl
  rw [hl0, Nat.zero_add] at k1
  simp only [hl0, Nat.zero_add] at k2
  have hle := ownCount_le lodepng data 0 0 (loopStart c hdr [] g) hdr.NumberOfSprites
  rw [h4]
  simp only [hhdr]
  refine ⟨?_, k1, k2⟩
  rw [k1]
  exact Nat.mod_eq_of_lt (by omega)

set_option maxRecDepth 100000 in
/-- On `sampleV1`, two palettes are materialized; sprite 0 has palette index 0 and sprite 2 has 1. -/
theorem v1_palette_count_witness :
    (Load noPng SffFile.init Gpu.empty sampleV1).1.header_.NumberOfPalettes = 2 ∧
    (Load noPng SffFile.init Gpu.empty sampleV1).1.palettes_.length = 2 ∧
    (∃ s, (Load noPng SffFile.init Gpu.empty sampleV1).1.sprites_[0]? = some s ∧ s.palidx = 0) ∧
    (∃ s, (Load noPng SffFile.init Gpu.empty sampleV1).1.sprites_[2]? = some s ∧ s.palidx = 1) := by
  obtain ⟨a, b, c⟩ := v1_palette_count noPng SffFile.init Gpu.empty sampleV1 rfl
    (by decide) (by decide)
  obtain ⟨s0, h0, h0'⟩ := c 0 (by decide) (by decide)
  obtain ⟨s2, h2, h2'⟩ := c 2 (by decide) (by decide)
  exact ⟨a.trans (b.trans (by decide)), b.trans (by decide), ⟨s0, h0, h0'.trans (by decide)⟩,
    ⟨s2, h2, h2'.trans (by decide)⟩⟩

/-! ## Values of the binary reader (C16) -/

theorem shl_or_eq (a b k : Nat) (hb : b < 2 ^ k) : (a <<< k) ||| b = a * 2 ^ k + b := by
  rw [Nat.shiftLeft_eq, Nat.mul_comm a, Nat.mul_add_lt_is_or hb]

theorem le16_bytes (b0 b1 : Nat) (h0 : b0 < 256) (h1 : b1 < 256) :
    le16 [b0, b1] = b0 + 256 * b1 := by
  unfold le16
  simp only [List.getD_cons_zero, List.getD_cons_succ]
  rw [shl_or_eq b1 b0 8 (by omega)]
  omega

theorem le32_bytes (b0 b1 b2 b3 : Nat) (h0 : b0 < 256) (h1 : b1 < 256) (h2 : b2 < 256)
    (h3 : b3 < 256) :
    le32 [b0, b1, b2, b3] = b0 + 2 ^ 8 * b1 + 2 ^ 16 * b2 + 2 ^ 24 * b3 := by
  unfold le32
  simp only [List.getD_cons_zero, List.getD_cons_succ]
  have e1 : (b3 <<< 24) ||| (b2 <<< 16) = 2 ^ 16 * (2 ^ 8 * b3 + b2) := by
    rw [shl_or_eq b3 _ 24 (by rw [Nat.shiftLeft_eq]; omega), Nat.shiftLeft_eq]; omega
  have e2 : 2 ^ 16 * (2 ^ 8 * b3 + b2) ||| (b1 <<< 8) = 2 ^ 8 * (2 ^ 16 * b3 + 2 ^ 8 * b2 + b1) := by
    rw [← Nat.mul_add_lt_is_or (by rw [Nat.shiftLeft_eq]; omega), Nat.shiftLeft_eq]; omega
  rw [e1, e2, ← Nat.mul_add_lt_is_or (by omega)]
  omega

theorem byteAt_lt (data : List Nat) (hb : ∀ b ∈ data, b < 256) (p : Nat) : byteAt data p < 256 := by
  unfold byteAt
  rw [List.getD_eq_getElem?_getD]
  cases h : data[p]? with
  | none => simp
  | some v => exact hb v (List.mem_iff_getElem?.2 ⟨p, h⟩)

theorem drop_take_two (data : List Nat) (p : Nat) (h : p + 2 ≤ data.length) :
    (data.drop p).take 2 = [byteAt data p, byteAt data (p + 1)] := by
  apply List.ext_getElem?
  intro k
  rcases k with _ | _ | k
  · simp [byteAt, List.getElem?_take, List.getElem?_drop, List.getD_eq_getElem?_getD,
      List.getElem?_eq_getElem (show p < data.length by omega)]
  · simp [byteAt, List.getElem?_take, List.getElem?_drop, List.getD_eq_getElem?_getD,
      List.getElem?_eq_getElem (show p + 1 < data.length by omega)]
  · simp [List.getElem?_take]

theorem drop_take_four (data : List Nat) (p : Nat) (h : p + 4 ≤ data.length) :
    (data.drop p).take 4 =
      [byteAt data p, byteAt data (p + 1), byteAt data (p + 2), byteAt data (p + 3)] := by
  apply List.ext_getElem?
  intro k
  rcases k with _ | _ | _ | _ | k
  · simp [byteAt, List.getElem?_take, List.getElem?_drop, List.getD_eq_getElem?_getD,
      List.getElem?_eq_getElem (show p < data.length by omega)]
  · simp [byteAt, List.getElem?_take, List.getElem?_drop, List.getD_eq_getElem?_getD,
      List.getElem?_eq_getElem (show p + 1 < data.length by omega)]
  · simp [byteAt, List.getElem?_take, List.getElem?_drop, List.getD_eq_getElem?_getD,
      List.getElem?_eq_getElem (show p + 2 < data.length by omega)]
  · simp [byteAt, List.getElem?_take, List.getElem?_drop, List.getD_eq_getElem?_getD,
      List.getElem?_eq_getElem (show p + 3 < data.length by omega)]
  · simp [List.getElem?_take]

theorem le16At_bytes (data : List Nat) (hb : ∀ b ∈ data, b < 256) (p : Nat)
    (h : p + 2 ≤ data.length) :
    le16At data p = byteAt data p + 256 * byteAt data (p + 1) := by
  unfold le16At
  rw [drop_take_two data p h, le16_bytes _ _ (byteAt_lt data hb _) (byteAt_lt data hb _)]

theorem le32At_bytes (data : List Nat) (hb : ∀ b ∈ data, b < 256) (p : Nat)
    (h : p + 4 ≤ data.length) :
    le32At data p = byteAt data p + 2 ^ 8 * byteAt data (p + 1) + 2 ^ 16 * byteAt data (p + 2)
      + 2 ^ 24 * byteAt data (p + 3) := by
  unfold le32At
  rw [drop_take_four data p h, le32_bytes _ _ _ _ (byteAt_lt data hb _) (byteAt_lt data hb _)
    (byteAt_lt data hb _) (byteAt_lt data hb _)]

theorem toI16_twos (v : Nat) (h : v < 2 ^ 16) : toI16 v = twosComplement 16 v := by
  unfold toI16 twosComplement
  rw [Nat.mod_eq_of_lt (by omega)]
  norm_num

theorem toI32_twos (v : Nat) (h : v < 2 ^ 32) : toI32 v = twosComplement 32 v := by
  unfold toI32 twosComplement
  rw [Nat.mod_eq_of_lt (by omega)]

/-- C16: on a stream of bytes (values below 256), with at least 2 (4) bytes
left at the position, `ReadU16LE` (`ReadU32LE`) returns `b0 + 256*b1`
(`b0 + 2^8*b1 + 2^16*b2 + 2^24*b3`) of the next bytes, `ReadI16LE`
(`ReadI32LE`) the two-s complement reading of that value, and the position
moves on by exactly 2 (4); with fewer bytes left each of the reads throws. -/
theorem binary_reader (f : FILE) (hb : ∀ b ∈ f.data, b < 256) :
    (f.pos + 2 ≤ f.data.length →
      ReadU16LE f = some (byteAt f.data f.pos + 256 * byteAt f.data (f.pos + 1),
        ⟨f.data, f.pos + 2⟩) ∧
      ReadI16LE f = some (twosComplement 16 (byteAt f.data f.pos + 256 * byteAt f.data (f.pos + 1)),
        ⟨f.data, f.pos + 2⟩)) ∧
    (f.pos + 4 ≤ f.data.length →
      ReadU32LE f = some (byteAt f.data f.pos + 2 ^ 8 * byteAt f.data (f.pos + 1)
        + 2 ^ 16 * byteAt f.data (f.pos + 2) + 2 ^ 24 * byteAt f.data (f.pos + 3),
        ⟨f.data, f.pos + 4⟩) ∧
      ReadI32LE f = some (twosComplement 32 (byteAt f.data f.pos + 2 ^ 8 * byteAt f.data (f.pos + 1)
        + 2 ^ 16 * byteAt f.data (f.pos + 2) + 2 ^ 24 * byteAt f.data (f.pos + 3)),
        ⟨f.data, f.pos + 4⟩)) ∧
    (f.data.length < f.pos + 2 → ReadU16LE f = none ∧ ReadI16LE f = none) ∧
    (f.data.length < f.pos + 4 → ReadU32LE f = none ∧ ReadI32LE f = none) := by
  have l0 := byteAt_lt f.data hb f.pos
  have l1 := byteAt_lt f.data hb (f.pos + 1)
  have l2 := byteAt_lt f.data hb (f.pos + 2)
  have l3 := byteAt_lt f.data hb (f.pos + 3)
  refine ⟨?_, ?_, ?_, ?_⟩
  · intro h
    rw [ReadU16LE_eq, ReadI16LE_eq, if_pos h, if_pos h, le16At_bytes f.data hb f.pos h,
      toI16_twos _ (by omega)]
    exact ⟨rfl, rfl⟩
  · intro h
    rw [ReadU32LE_eq, if_pos h, le32At_bytes f.data hb f.pos h]
    refine ⟨rfl, ?_⟩
    unfold ReadI32LE
    rw [ReadU32LE_eq, if_pos h, le32At_bytes f.data hb f.pos h]
    simp only []
    rw [toI32_twos _ (by omega)]
  · intro h
    rw [ReadU16LE_eq, ReadI16LE_eq, if_neg (by omega), if_neg (by omega)]
    exact ⟨rfl, rfl⟩
  · intro h
    unfold ReadI32LE
    rw [ReadU32LE_eq, if_neg (by omega)]
    exact ⟨rfl, rfl⟩

/-- On the bytes 0x34 0x12 0xff 0xff: 0x1234 and 0xffff1234 unsigned,
0x1234 and -60876 signed; a 16-bit read at position 3 throws. -/
theorem binary_reader_witness :
    (∀ b ∈ [52, 18, 255, 255], b < 256) ∧
    ReadU16LE ⟨[52, 18, 255, 255], 0⟩ = some (4660, ⟨[52, 18, 255, 255], 2⟩) ∧
    ReadI16LE ⟨[52, 18, 255, 255], 2⟩ = some (-1, ⟨[52, 18, 255, 255], 4⟩) ∧
    ReadU32LE ⟨[52, 18, 255, 255], 0⟩ = some (4294906420, ⟨[52, 18, 255, 255], 4⟩) ∧
    ReadI32LE ⟨[52, 18, 255, 255], 0⟩ = some (-60876, ⟨[52, 18, 255, 255], 4⟩) ∧
    ReadU16LE ⟨[52, 18, 255, 255], 3⟩ = none :=
  ⟨by decide,
   ((binary_reader ⟨[52, 18, 255, 255], 0⟩ (by decide)).1 (by decide)).1.trans (by decide),
   ((binary_reader ⟨[52, 18, 255, 255], 2⟩ (by decide)).1 (by decide)).2.trans (by decide),
   ((binary_reader ⟨[52, 18, 255, 255], 0⟩ (by decide)).2.1 (by decide)).1.trans (by decide),
   ((binary_reader ⟨[52, 18, 255, 255], 0⟩ (by decide)).2.1 (by decide)).2.trans (by decide),
   ((binary_reader ⟨[52, 18, 255, 255], 3⟩ (by decide)).2.2.1 (by decide)).1⟩

/-! ## Layout of the variant-2 header (C17) -/

/-- C17, as stated, fails: on `sampleHeaderV2` the first-sprite-offset that
`ReadHeader` stores is 64, the word at file bytes 36..39, and not 7, the word
at file bytes 32..35. -/
theorem ReadHeader_v2_not_at_32 :
    (ReadHeader SffHeader.init (fopen sampleHeaderV2)).1.FirstSpriteHeaderOffset = 64 ∧
    le32At sampleHeaderV2 36 = 64 ∧ le32At sampleHeaderV2 32 = 7 := by
  decide

/-- C17 (amended): for a variant-2 file (valid magic, file byte 15 equal to 2,
64 header bytes present) `ReadHeader` passes over five 32-bit words after the
version bytes (file bytes 16..35) and takes first-sprite-offset from bytes
36..39, sprite-count from 40..43, first-palette-offset from 44..47,
palette-count from 48..51, the local base offset from 52..55, passes over
56..59, takes the global base offset from 60..63 and leaves the position at 64. -/
theorem ReadHeader_v2_layout (h : SffHeader) (data : List Nat) (hm : data.take 12 = sffMagic)
    (hv : byteAt data 15 = 2) (hl : 64 ≤ data.length) :
    (ReadHeader h (fopen data)).1.FirstSpriteHeaderOffset = le32At data 36 ∧
    (ReadHeader h (fopen data)).1.NumberOfSprites = le32At data 40 ∧
    (ReadHeader h (fopen data)).1.FirstPaletteHeaderOffset = le32At data 44 ∧
    (ReadHeader h (fopen data)).1.NumberOfPalettes = le32At data 48 ∧
    (ReadHeader h (fopen data)).2 = some (le32At data 52, le32At data 60, ⟨data, 64⟩) := by
  rw [ReadHeader_v2 h data hm hv hl]
  exact ⟨rfl, rfl, rfl, rfl, rfl⟩

/-- On `sampleHeaderV2`: offsets 64 and 100, counts 3 and 2, base offsets 148 and 200. -/
theorem ReadHeader_v2_layout_witness :
    (ReadHeader SffHeader.init (fopen sampleHeaderV2)).1.FirstSpriteHeaderOffset = 64 ∧
    (ReadHeader SffHeader.init (fopen sampleHeaderV2)).1.NumberOfSprites = 3 ∧
    (ReadHeader SffHeader.init (fopen sampleHeaderV2)).1.FirstPaletteHeaderOffset = 100 ∧
    (ReadHeader SffHeader.init (fopen sampleHeaderV2)).1.NumberOfPalettes = 2 ∧
    (ReadHeader SffHeader.init (fopen sampleHeaderV2)).2 = some (148, 200, ⟨sampleHeaderV2, 64⟩) := by
  obtain ⟨a, b, c, d, e⟩ := ReadHeader_v2_layout SffHeader.init sampleHeaderV2
    (by decide) (by decide) (by decide)
  exact ⟨a.trans (by decide), b.trans (by decide), c.trans (by decide), d.trans (by decide),
    e.trans (by decide)⟩

/-! ## Resolved data offset of a variant-2 entry (C18) -/

/-- C18: for a variant-2 directory entry of 28 bytes at offset `p`,
`ReadSpriteHeaderV2` returns normally with the resolved data offset
`(relative + lofs) mod 2^32` when the low bit of the flag word (bytes 26..27
of the entry) is 0 and `(relative + tofs) mod 2^32` when it is 1, where
`relative` is the 32-bit word at bytes 16..19; two entries with the same
relative offset whose flag words have the same low bit resolve alike. -/
theorem ReadSpriteHeaderV2_offset (s : Sprite) (data : List Nat) (p lofs tofs : Nat)
    (h : p + 28 ≤ data.length) :
    (∃ size link f', (ReadSpriteHeaderV2 s ⟨data, p⟩ lofs tofs).2 =
      .ok (if le16At data (p + 26) % 2 = 0 then (le32At data (p + 16) + lofs) % 2 ^ 32
           else (le32At data (p + 16) + tofs) % 2 ^ 32, size, link, f')) ∧
    (∀ (s' : Sprite) (data' : List Nat) (p' : Nat), p' + 28 ≤ data'.length →
      le32At data' (p' + 16) = le32At data (p + 16) →
      le16At data' (p' + 26) % 2 = le16At data (p + 26) % 2 →
      ∃ ofs size link f' size' link' f'',
        (ReadSpriteHeaderV2 s ⟨data, p⟩ lofs tofs).2 = .ok (ofs, size, link, f') ∧
        (ReadSpriteHeaderV2 s' ⟨data', p'⟩ lofs tofs).2 = .ok (ofs, size', link', f'')) := by
  refine ⟨?_, ?_⟩
  · rw [ReadSpriteHeaderV2_ok s data p lofs tofs h]
    exact ⟨le32At data (p + 20), le16At data (p + 12), ⟨data, p + 28⟩,
      by simp only [entryV2Ofs, Nat.and_one_is_mod]⟩
  · intro s' data' p' h' hr hf
    rw [ReadSpriteHeaderV2_ok s data p lofs tofs h, ReadSpriteHeaderV2_ok s' data' p' lofs tofs h']
    refine ⟨entryV2Ofs data p lofs tofs, le32At data (p + 20), le16At data (p + 12),
      ⟨data, p + 28⟩, le32At data' (p' + 20), le16At data' (p' + 12), ⟨data', p' + 28⟩, rfl, ?_⟩
    simp only [entryV2Ofs, Nat.and_one_is_mod, hr, hf]

/-- An entry with relative offset 5: flag word 0xfffe resolves against the local
base 100, flag word 3 against the global base 200. -/
theorem ReadSpriteHeaderV2_offset_witness :
    (∃ size link f', (ReadSpriteHeaderV2 Sprite.init
      ⟨List.replicate 16 0 ++ [5, 0, 0, 0] ++ List.replicate 6 0 ++ [254, 255], 0⟩ 100 200).2 =
      .ok (105, size, link, f')) ∧
    (∃ size link f', (ReadSpriteHeaderV2 Sprite.init
      ⟨List.replicate 16 0 ++ [5, 0, 0, 0] ++ List.replicate 6 0 ++ [3, 0], 0⟩ 100 200).2 =
      .ok (205, size, link, f')) :=
  ⟨(ReadSpriteHeaderV2_offset Sprite.init
      (List.replicate 16 0 ++ [5, 0, 0, 0] ++ List.replicate 6 0 ++ [254, 255]) 0 100 200
      (by decide)).1,
   (ReadSpriteHeaderV2_offset Sprite.init
      (List.replicate 16 0 ++ [5, 0, 0, 0] ++ List.replicate 6 0 ++ [3, 0]) 0 100 200
      (by decide)).1⟩

/-! ## Palette texture tables (C20) -/

theorem length_flatten_four (f : Nat → List Nat) (hf : ∀ i, (f i).length = 4) (n : Nat) :
    (((List.range n).map f).flatten).length = 4 * n := by
  induction n with
  | zero => simp
  | succ n ih =>
    rw [List.range_succ, List.map_append, List.flatten_append, List.length_append, ih]
    simp [hf]
    omega

theorem getD_flatten_four (f : Nat → List Nat) (hf : ∀ i, (f i).length = 4) (n i k : Nat)
    (hi : i < n) (hk : k < 4) :
    (((List.range n).map f).flatten).getD (4 * i + k) 0 = (f i).getD k 0 := by
  induction n with
  | zero => omega
  | succ n ih =>
    rw [List.range_succ, List.map_append, List.flatten_append]
    have hlen := length_flatten_four f hf n
    rcases Nat.lt_or_ge i n with h | h
    · rw [List.getD_append _ _ _ _ (by omega)]
      exact ih h
    · have hin : i = n := by omega
      subst hin
      rw [List.getD_append_right _ _ _ _ (by omega), hlen]
      simp

theorem and_ff (v : Nat) : v &&& 0xFF = v % 256 := by
  have := Nat.and_pow_two_sub_one_eq_mod v 8
  simpa using this

theorem palBytesRGB_getD (pal_rgb : List RGB) (i k : Nat) (hi : i < 256) (hk : k < 4) :
    (palBytesRGB pal_rgb).getD (4 * i + k) 0 =
      [(pal_rgb.getD (255 - i) ⟨0, 0, 0⟩).r, (pal_rgb.getD (255 - i) ⟨0, 0, 0⟩).g,
       (pal_rgb.getD (255 - i) ⟨0, 0, 0⟩).b, if i ≠ 0 then 255 else 0].getD k 0 :=
  getD_flatten_four (fun i =>
    [(pal_rgb.getD (255 - i) ⟨0, 0, 0⟩).r, (pal_rgb.getD (255 - i) ⟨0, 0, 0⟩).g,
     (pal_rgb.getD (255 - i) ⟨0, 0, 0⟩).b, if i ≠ 0 then 255 else 0]) (fun _ => rfl) 256 i k hi hk

theorem palBytesRGBA_getD (pal_rgba : List Nat) (i k : Nat) (hi : i < 256) (hk : k < 4) :
    (palBytesRGBA pal_rgba).getD (4 * i + k) 0 =
      [(pal_rgba.getD i 0 >>> 0) &&& 0xFF, (pal_rgba.getD i 0 >>> 8) &&& 0xFF,
       (pal_rgba.getD i 0 >>> 16) &&& 0xFF, (pal_rgba.getD i 0 >>> 24) &&& 0xFF].getD k 0 :=
  getD_flatten_four (fun i =>
    [(pal_rgba.getD i 0 >>> 0) &&& 0xFF, (pal_rgba.getD i 0 >>> 8) &&& 0xFF,
     (pal_rgba.getD i 0 >>> 16) &&& 0xFF, (pal_rgba.getD i 0 >>> 24) &&& 0xFF])
    (fun _ => rfl) 256 i k hi hk

theorem palBytesRGB_length (pal_rgb : List RGB) : (palBytesRGB pal_rgb).length = 1024 :=
  length_flatten_four (fun i =>
    [(pal_rgb.getD (255 - i) ⟨0, 0, 0⟩).r, (pal_rgb.getD (255 - i) ⟨0, 0, 0⟩).g,
     (pal_rgb.getD (255 - i) ⟨0, 0, 0⟩).b, if i ≠ 0 then 255 else 0]) (fun _ => rfl) 256

theorem palBytesRGBA_length (pal_rgba : List Nat) : (palBytesRGBA pal_rgba).length = 1024 :=
  length_flatten_four (fun i =>
    [(pal_rgba.getD i 0 >>> 0) &&& 0xFF, (pal_rgba.getD i 0 >>> 8) &&& 0xFF,
     (pal_rgba.getD i 0 >>> 16) &&& 0xFF, (pal_rgba.getD i 0 >>> 24) &&& 0xFF])
    (fun _ => rfl) 256

/-- C20: the texture table the legacy `GeneratePaletteTexture` uploads has 0
in the alpha byte of entry 0 and 255 in the alpha byte of each entry 1..255,
whatever the colour table; the table the variant-2 `GeneratePaletteTexture`
uploads has in entry `i` the bytes R = bits 0..7, G = bits 8..15, B = bits
16..23 and A = bits 24..31 of value `i` of the colour table, alpha as it is. -/
theorem palette_texture_alpha (g : Gpu) (pal_rgb : List RGB) (pal_rgba : List Nat) :
    ((GeneratePaletteTextureRGB g pal_rgb).1.lookup (GeneratePaletteTextureRGB g pal_rgb).2.id
      = some ⟨palBytesRGB pal_rgb, 256, 1, PIXELFORMAT_UNCOMPRESSED_R8G8B8A8, 1⟩ ∧
     (palBytesRGB pal_rgb).length = 1024 ∧
     (palBytesRGB pal_rgb).getD 3 0 = 0 ∧
     ∀ i, 1 ≤ i → i < 256 → (palBytesRGB pal_rgb).getD (4 * i + 3) 0 = 255) ∧
    ((GeneratePaletteTextureRGBA g pal_rgba).1.lookup (GeneratePaletteTextureRGBA g pal_rgba).2.id
      = some ⟨palBytesRGBA pal_rgba, 256, 1, PIXELFORMAT_UNCOMPRESSED_R8G8B8A8, 1⟩ ∧
     (palBytesRGBA pal_rgba).length = 1024 ∧
     ∀ i, i < 256 →
       (palBytesRGBA pal_rgba).getD (4 * i) 0 = pal_rgba.getD i 0 % 2 ^ 8 ∧
       (palBytesRGBA pal_rgba).getD (4 * i + 1) 0 = pal_rgba.getD i 0 / 2 ^ 8 % 2 ^ 8 ∧
       (palBytesRGBA pal_rgba).getD (4 * i + 2) 0 = pal_rgba.getD i 0 / 2 ^ 16 % 2 ^ 8 ∧
       (palBytesRGBA pal_rgba).getD (4 * i + 3) 0 = pal_rgba.getD i 0 / 2 ^ 24 % 2 ^ 8) := by
  refine ⟨⟨?_, ?_, ?_, ?_⟩, ?_, ?_, ?_⟩
  · simp [GeneratePaletteTextureRGB, paletteTexture, rlLoadTexture, Gpu.lookup]
  · exact palBytesRGB_length pal_rgb
  · exact palBytesRGB_getD pal_rgb 0 3 (by omega) (by omega)
  · intro i h1 h2
    rw [palBytesRGB_getD pal_rgb i 3 h2 (by omega)]
    simp only [List.getD_cons_succ, List.getD_cons_zero]
    rw [if_pos (by omega)]
  · simp [GeneratePaletteTextureRGBA, paletteTexture, rlLoadTexture, Gpu.lookup]
  · exact palBytesRGBA_length pal_rgba
  · intro i hi
    have e0 := palBytesRGBA_getD pal_rgba i 0 hi (by omega)
    have e1 := palBytesRGBA_getD pal_rgba i 1 hi (by omega)
    have e2 := palBytesRGBA_getD pal_rgba i 2 hi (by omega)
    have e3 := palBytesRGBA_getD pal_rgba i 3 hi (by omega)
    simp only [Nat.add_zero, List.getD_cons_succ, List.getD_cons_zero] at e0 e1 e2 e3
    rw [e0, e1, e2, e3, and_ff, and_ff, and_ff, and_ff, Nat.shiftRight_eq_div_pow,
      Nat.shiftRight_eq_div_pow, Nat.shiftRight_eq_div_pow, Nat.shiftRight_eq_div_pow]
    simp

/-- A legacy table of 256 equal colours gives alpha 0 then 255; the variant-2
value 0x80402010 at index 1 gives the bytes 0x10, 0x20, 0x40, 0x80. -/
theorem palette_texture_alpha_witness :
    ((palBytesRGB (List.replicate 256 ⟨9, 9, 9⟩)).getD 3 0 = 0 ∧
     (palBytesRGB (List.replicate 256 ⟨9, 9, 9⟩)).getD (4 * 255 + 3) 0 = 255) ∧
    ((palBytesRGBA [0, 2151686160]).getD (4 * 1) 0 = 16 ∧
     (palBytesRGBA [0, 2151686160]).getD (4 * 1 + 1) 0 = 32 ∧
     (palBytesRGBA [0, 2151686160]).getD (4 * 1 + 2) 0 = 64 ∧
     (palBytesRGBA [0, 2151686160]).getD (4 * 1 + 3) 0 = 128) :=
  ⟨⟨(palette_texture_alpha Gpu.empty (List.replicate 256 ⟨9, 9, 9⟩) []).1.2.2.1,
    (palette_texture_alpha Gpu.empty (List.replicate 256 ⟨9, 9, 9⟩) []).1.2.2.2 255
      (by decide) (by decide)⟩,
   (palette_texture_alpha Gpu.empty [] [0, 2151686160]).2.2.2 1 (by decide)⟩

/-! ## A sprite that cannot be decoded (C14) -/

theorem Load_sprite_fault (lodepng : Int → List Nat → Option (Nat × Nat × List Nat))
    (c : SffFile) (g : Gpu) (data : List Nat) (hdr : SffHeader) (lofs tofs : Nat) (f : FILE)
    (pals : List Palette) (gp : Gpu) (stF : LoadState) (e : Fault)
    (hh : ReadHeader c.header_ (fopen data) = (hdr, some (lofs, tofs, f)))
    (hp : palettePhase c g data hdr lofs = (pals, gp, none))
    (hs : spriteLoop lodepng data lofs tofs hdr.NumberOfSprites 0 (loopStart c hdr pals gp)
      = (stF, some e)) :
    Load lodepng c g data = (stF.sff, stF.gpu, .err e) := by
  unfold Load
  unfold palettePhase at hp
  unfold loopStart at hs
  simp only [hh, hp, hs]

theorem Load_palette_fault (lodepng : Int → List Nat → Option (Nat × Nat × List Nat))
    (c : SffFile) (g : Gpu) (data : List Nat) (hdr : SffHeader) (lofs tofs : Nat) (f : FILE)
    (pals : List Palette) (gp : Gpu) (e : Fault)
    (hh : ReadHeader c.header_ (fopen data) = (hdr, some (lofs, tofs, f)))
    (hp : palettePhase c g data hdr lofs = (pals, gp, some e)) :
    Load lodepng c g data = ({ c with header_ := hdr, palettes_ := pals }, gp, .err e) := by
  unfold Load
  unfold palettePhase at hp
  simp only [hh, hp]

theorem spriteLoop_fault_at (lodepng : Int → List Nat → Option (Nat × Nat × List Nat))
    (data : List Nat) (lofs tofs : Nat) (n i : Nat) (st0 st st1 : LoadState) (e : Fault)
    (hi : i < n) (hl : spriteLoop lodepng data lofs tofs i 0 st0 = (st, none))
    (hs : spriteStep lodepng data lofs tofs i st = (st1, some e)) :
    spriteLoop lodepng data lofs tofs n 0 st0 = (st1, some e) := by
  have hn : n = i + ((n - i - 1) + 1) := by omega
  rw [hn, spriteLoop_split, hl]
  simp only [Nat.zero_add]
  rw [spriteLoop]
  simp only [hs]

theorem ReadHeader_ver (h h' : SffHeader) (data : List Nat) (r : Nat × Nat × FILE)
    (H : ReadHeader h (fopen data) = (h', some r)) : h'.Ver0 = 1 ∨ h'.Ver0 = 2 := by
  obtain ⟨hm, hv⟩ := ReadHeader_some h h' data r H
  rcases hv with ⟨hv, hl⟩ | ⟨hv, hl⟩
  · rw [ReadHeader_v2 h data hm hv hl] at H
    simp only [Prod.mk.injEq] at H
    rw [← H.1]
    exact Or.inr rfl
  · rw [ReadHeader_v1 h data hm hv hl] at H
    simp only [Prod.mk.injEq] at H
    rw [← H.1]
    exact Or.inl rfl

theorem toI8_small (b : Nat) (h : b < 128) : toI8 b = (b : Int) := by
  unfold toI8
  rw [Nat.mod_eq_of_lt (by omega), if_pos h]

theorem toI8_big (b : Nat) (h : 128 ≤ b) (h2 : b < 256) : toI8 b = (b : Int) - 256 := by
  unfold toI8
  rw [Nat.mod_eq_of_lt h2, if_neg (by omega)]

theorem ReadSpriteDataV2_bad_format (lodepng : Int → List Nat → Option (Nat × Nat × List Nat))
    (s : Sprite) (f : FILE) (offset datasize b : Nat) (hr : s.rle = -(toI8 b)) (hb : b < 256)
    (hn : b ∉ [0, 2, 3, 4, 10, 11, 12]) :
    ReadSpriteDataV2 lodepng s f offset datasize = (s, .err .fail) := by
  simp only [List.mem_cons, List.mem_singleton, List.not_mem_nil, or_false, not_or] at hn
  unfold ReadSpriteDataV2
  rcases Nat.lt_or_ge b 128 with h | h
  · have e := toI8_small b h
    rw [if_neg (by omega), if_neg (by omega)]
    simp only []
    split
    · rfl
    · rw [if_neg (by omega), if_neg (by omega), if_neg (by omega), if_neg (by omega)]
  · have e := toI8_big b h hb
    rw [if_pos (by omega)]

/-- C14: when the sprite loop of `Load` has handled entries `0 .. i-1` and
entry `i` has a non-zero declared size, a data read for entry `i` that ends
in a fault ends `Load` with that fault (for `nullptr`, the return of `false`):
the sprite is not skipped.  In particular a variant-2 entry with non-zero size
whose format code (byte 14 of the entry) is none of 0, 2, 3, 4, 10, 11, 12
makes `Load` return `false`. -/
theorem Load_decode_failure (lodepng : Int → List Nat → Option (Nat × Nat × List Nat))
    (c : SffFile) (g : Gpu) (data : List Nat) (hdr : SffHeader) (lofs tofs : Nat) (f : FILE)
    (pals : List Palette) (gp : Gpu) (i : Nat) (st : LoadState)
    (hh : ReadHeader c.header_ (fopen data) = (hdr, some (lofs, tofs, f)))
    (hp : palettePhase c g data hdr lofs = (pals, gp, none))
    (hi : i < hdr.NumberOfSprites)
    (hl : spriteLoop lodepng data lofs tofs i 0 (loopStart c hdr pals gp) = (st, none)) :
    (∀ (s' : Sprite) (xofs size k : Nat) (f' : FILE) (s'' : Sprite) (pals' : List Palette)
        (gp' : Gpu) (e : Fault),
      readEntry hdr.Ver0 (st.sff.sprites_.getD i Sprite.init) (fseek (fopen data) st.shofs)
        lofs tofs = (s', .ok (xofs, size, k, f')) →
      size ≠ 0 →
      readData lodepng hdr.Ver0 s' st.sff.palettes_ st.gpu f' st.shofs size xofs
        (st.prev.map (fun k => (st.sff.sprites_.set i s').getD k Sprite.init))
        = (s'', pals', gp', .err e) →
      (Load lodepng c g data).2.2 = .err e) ∧
    (hdr.Ver0 = 2 →
      hdr.FirstSpriteHeaderOffset + 28 * i + 28 ≤ data.length →
      le32At data (hdr.FirstSpriteHeaderOffset + 28 * i + 20) ≠ 0 →
      byteAt data (hdr.FirstSpriteHeaderOffset + 28 * i + 14) < 256 →
      byteAt data (hdr.FirstSpriteHeaderOffset + 28 * i + 14) ∉ [0, 2, 3, 4, 10, 11, 12] →
      (Load lodepng c g data).2.2 = .err .fail) := by
  have hhdr : st.sff.header_ = hdr := by
    have := (spriteLoop_frame lodepng data lofs tofs i 0 (loopStart c hdr pals gp)).1
    rw [hl] at this
    exact this
  have hv : st.sff.header_.Ver0 = 1 ∨ st.sff.header_.Ver0 = 2 := by
    rw [hhdr]; exact ReadHeader_ver _ _ _ _ hh
  have key : ∀ (s' : Sprite) (xofs size k : Nat) (f' : FILE) (s'' : Sprite)
      (pals' : List Palette) (gp' : Gpu) (e : Fault),
      readEntry hdr.Ver0 (st.sff.sprites_.getD i Sprite.init) (fseek (fopen data) st.shofs)
        lofs tofs = (s', .ok (xofs, size, k, f')) →
      size ≠ 0 →
      readData lodepng hdr.Ver0 s' st.sff.palettes_ st.gpu f' st.shofs size xofs
        (st.prev.map (fun k => (st.sff.sprites_.set i s').getD k Sprite.init))
        = (s'', pals', gp', .err e) →
      (Load lodepng c g data).2.2 = .err e := by
    intro s' xofs size k f' s'' pals' gp' e hd hs hr
    rw [← hhdr] at hd hr
    have hstep := spriteStep_data_err lodepng data lofs tofs i st s' xofs size k f' hv hd hs
      s'' pals' gp' e hr
    rw [Load_sprite_fault lodepng c g data hdr lofs tofs f pals gp _ e hh hp
      (spriteLoop_fault_at lodepng data lofs tofs _ i _ st _ e hi hl hstep)]
  refine ⟨key, ?_⟩
  intro hv2 hlen hsz hb hn
  have hsh : st.shofs = hdr.FirstSpriteHeaderOffset + 28 * i := by
    have := spriteLoop_shofs_v2 lodepng data lofs tofs i 0 (loopStart c hdr pals gp) st hv2 hl
    rw [this]
    rfl
  have hd : readEntry hdr.Ver0 (st.sff.sprites_.getD i Sprite.init) (fseek (fopen data) st.shofs)
      lofs tofs = (entryV2 (st.sff.sprites_.getD i Sprite.init) data st.shofs,
        .ok (entryV2Ofs data st.shofs lofs tofs, le32At data (st.shofs + 20),
          le16At data (st.shofs + 12), ⟨data, st.shofs + 28⟩)) := by
    unfold readEntry
    rw [if_neg (by omega)]
    exact ReadSpriteHeaderV2_ok _ data st.shofs lofs tofs (by omega)
  refine key _ _ _ _ _ (entryV2 (st.sff.sprites_.getD i Sprite.init) data st.shofs)
    st.sff.palettes_ st.gpu .fail hd (by rw [hsh]; exact hsz) ?_
  unfold readData
  rw [if_neg (by omega)]
  simp only []
  rw [ReadSpriteDataV2_bad_format lodepng _ _ _ _ (byteAt data (st.shofs + 14)) rfl
    (by rw [hsh]; exact hb) (by rw [hsh]; exact hn)]

set_option maxRecDepth 100000 in
/-- On `sampleBadFormat`, whose only entry has format code 1 and size 4, `Load` returns `false`. -/
theorem Load_decode_failure_witness :
    (Load noPng SffFile.init Gpu.empty sampleBadFormat).2.2 = .err .fail :=
  (Load_decode_failure noPng SffFile.init Gpu.empty sampleBadFormat
    ⟨0, 1, 0, 2, 64, 0, 1, 0⟩ 92 0 ⟨sampleBadFormat, 64⟩ [] Gpu.empty 0
    (loopStart SffFile.init ⟨0, 1, 0, 2, 64, 0, 1, 0⟩ [] Gpu.empty)
    (by decide) (by decide) (by decide) rfl).2 (by decide) (by decide) (by decide) (by decide)
    (by decide)

/-! ## The container after a failed Load (C15) -/

set_option maxRecDepth 100000 in
/-- C15, as stated, fails: `Load` on the empty container returns `false` for
`sampleBadFormat` (its only sprite cannot be decoded) and leaves a sprite list
of one record behind. -/
theorem Load_failure_not_empty :
    (Load noPng SffFile.init Gpu.empty sampleBadFormat).2.2 = .err .fail ∧
    SffFile.init.sprites_ = [] ∧ SffFile.init.palettes_ = [] ∧
    (Load noPng SffFile.init Gpu.empty sampleBadFormat).1.sprites_.length = 1 ∧
    (Load noPng SffFile.init Gpu.empty sampleBadFormat).1.sprites_ ≠ [] := by
  decide

/-- C15 (amended): `Load` on an empty container that fails in `ReadHeader`
leaves the sprite list and the palette list empty; a failure in the palette
directory leaves the sprite list empty and in the palette list the palettes
built before the failure; a failure in the sprite loop (a truncated directory
entry or a sprite that cannot be decoded) leaves a sprite list of
`NumberOfSprites` records and a palette list that starts with the palettes of
the palette phase.  Nothing is rolled back. -/
theorem Load_failure_state (lodepng : Int → List Nat → Option (Nat × Nat × List Nat))
    (c : SffFile) (g : Gpu) (data : List Nat) (hc : c.sprites_ = [] ∧ c.palettes_ = []) :
    ((ReadHeader c.header_ (fopen data)).2 = none →
      (Load lodepng c g data).2.2 = .err .fail ∧
      (Load lodepng c g data).1.sprites_ = [] ∧ (Load lodepng c g data).1.palettes_ = []) ∧
    (∀ (hdr : SffHeader) (lofs tofs : Nat) (f : FILE) (pals : List Palette) (gp : Gpu) (e : Fault),
      ReadHeader c.header_ (fopen data) = (hdr, some (lofs, tofs, f)) →
      palettePhase c g data hdr lofs = (pals, gp, some e) →
      (Load lodepng c g data).2.2 = .err e ∧
      (Load lodepng c g data).1.sprites_ = [] ∧ (Load lodepng c g data).1.palettes_ = pals) ∧
    (∀ (hdr : SffHeader) (lofs tofs : Nat) (f : FILE) (pals : List Palette) (gp : Gpu)
        (stF : LoadState) (e : Fault),
      ReadHeader c.header_ (fopen data) = (hdr, some (lofs, tofs, f)) →
      palettePhase c g data hdr lofs = (pals, gp, none) →
      spriteLoop lodepng data lofs tofs hdr.NumberOfSprites 0 (loopStart c hdr pals gp)
        = (stF, some e) →
      (Load lodepng c g data).2.2 = .err e ∧
      (Load lodepng c g data).1.sprites_.length = hdr.NumberOfSprites ∧
      pals <+: (Load lodepng c g data).1.palettes_) := by
  refine ⟨?_, ?_, ?_⟩
  · intro h
    rcases hr : ReadHeader c.header_ (fopen data) with ⟨h', o⟩
    rw [hr] at h
    simp only [] at h
    subst h
    unfold Load
    simp only [hr]
    exact ⟨trivial, hc.1, hc.2⟩
  · intro hdr lofs tofs f pals gp e hh hp
    rw [Load_palette_fault lodepng c g data hdr lofs tofs f pals gp e hh hp]
    exact ⟨rfl, hc.1, rfl⟩
  · intro hdr lofs tofs f pals gp stF e hh hp hs
    rw [Load_sprite_fault lodepng c g data hdr lofs tofs f pals gp stF e hh hp hs]
    have fr := spriteLoop_frame lodepng data lofs tofs hdr.NumberOfSprites 0
      (loopStart c hdr pals gp)
    rw [hs] at fr
    refine ⟨rfl, ?_, ?_⟩
    · rw [fr.2.1]
      simp [loopStart]
    · exact fr.2.2.2.2.1

set_option maxRecDepth 100000 in
/-- A file with a wrong magic leaves both lists empty; `sampleBadFormat` leaves one sprite record. -/
theorem Load_failure_state_witness :
    ((Load noPng SffFile.init Gpu.empty (List.replicate 64 0)).2.2 = .err .fail ∧
      (Load noPng SffFile.init Gpu.empty (List.replicate 64 0)).1.sprites_ = [] ∧
      (Load noPng SffFile.init Gpu.empty (List.replicate 64 0)).1.palettes_ = []) ∧
    ((Load noPng SffFile.init Gpu.empty sampleBadFormat).2.2 = .err .fail ∧
      (Load noPng SffFile.init Gpu.empty sampleBadFormat).1.sprites_.length = 1 ∧
      [] <+: (Load noPng SffFile.init Gpu.empty sampleBadFormat).1.palettes_) :=
  ⟨(Load_failure_state noPng SffFile.init Gpu.empty (List.replicate 64 0) (by decide)).1
      (by decide),
   (Load_failure_state noPng SffFile.init Gpu.empty sampleBadFormat (by decide)).2.2
      ⟨0, 1, 0, 2, 64, 0, 1, 0⟩ 92 0 ⟨sampleBadFormat, 64⟩ [] Gpu.empty
      (spriteLoop noPng sampleBadFormat 92 0 1 0
        (loopStart SffFile.init ⟨0, 1, 0, 2, 64, 0, 1, 0⟩ [] Gpu.empty)).1 .fail
      (by decide) (by decide) (by decide)⟩

/-! ## Palette data offset (C19) -/

theorem freadN_eq (f : FILE) (size count : Nat) (h : 0 < size * count) :
    freadN f size count = if f.pos + size * count ≤ f.data.length
      then some ((f.data.drop f.pos).take (size * count), ⟨f.data, f.pos + size * count⟩)
      else none := by
  unfold freadN
  exact readBytes_eq f _ h

theorem PalData_mono (data : List Nat) (hdr : SffHeader) (lofs i : Nat) (pals : List Palette)
    (g g' : Gpu) (p : Palette) (hlen : pals.length = i) (hg : g.slots <+: g'.slots)
    (h : PalData data hdr lofs i pals g)
    (hnew : isFirst data hdr i = true →
      g'.lookup p.texture.id = some ⟨palTableAt data (palDataOfs data hdr lofs i), 256, 1,
        PIXELFORMAT_UNCOMPRESSED_R8G8B8A8, 1⟩) :
    PalData data hdr lofs (i + 1) (pals ++ [p]) g' := by
  intro j hj hf
  rcases Nat.lt_or_ge j i with hlt | hge
  · obtain ⟨q, hq1, hq2⟩ := h j hlt hf
    refine ⟨q, ?_, Gpu.lookup_prefix g g' hg _ _ hq2⟩
    rw [List.getElem?_append_left (by omega)]
    exact hq1
  · have hji : j = i := by omega
    subst hji
    refine ⟨p, ?_, hnew hf⟩
    rw [List.getElem?_append_right (by omega), hlen]
    simp

theorem paletteLoop_data (data : List Nat) (hdr : SffHeader) (lofs : Nat) (g0 : Gpu) (n : Nat) :
    ∀ (i : Nat) (up : List ((Int × Int) × Nat)) (pals : List Palette) (g : Gpu)
      (palsF : List Palette) (gF : Gpu),
      paletteLoop data hdr lofs n i up pals g = (palsF, gF, none) →
      PalInv data hdr g0 i up pals g → PalData data hdr lofs i pals g →
      PalData data hdr lofs (i + n) palsF gF := by
  induction n with
  | zero =>
    intro i up pals g palsF gF h hinv hd
    simp only [paletteLoop, Prod.mk.injEq, and_true] at h
    obtain ⟨rfl, rfl⟩ := h
    exact hd
  | succ n ih =>
    intro i up pals g palsF gF h hinv hd
    rw [paletteLoop] at h
    simp only [fseek, fopen] at h
    iterate 4
      split at h
      · simp at h
      rename_i heq
      obtain ⟨hl, rfl, rfl⟩ := ReadU16LE_some heq
      clear heq
      try simp only [] at hl
    iterate 2
      split at h
      · simp at h
      rename_i heq
      obtain ⟨hl, rfl, rfl⟩ := ReadU32LE_some heq
      clear heq
      try simp only [] at hl
    simp only [] at h
    have hkey : (toI16 (le16At data ((hdr.FirstPaletteHeaderOffset + i * 16) % 2 ^ 32)),
        toI16 (le16At data ((hdr.FirstPaletteHeaderOffset + i * 16) % 2 ^ 32 + 2)))
        = palKey data hdr i := rfl
    rw [hkey] at h
    split at h
    · rename_i hlook
      split at h
      · simp at h
      · rename_i rgba f' hread
        rw [freadN_eq _ _ _ (by decide)] at hread
        split_ifs at hread with hfit
        simp only [Option.some.injEq, Prod.mk.injEq] at hread
        obtain ⟨hrgba, _⟩ := hread
        have := ih (i + 1) _ _ _ palsF gF h (PalInv_new data hdr g0 i up pals g _ hinv hlook)
          (PalData_mono data hdr lofs i pals g _ _ hinv.1
            (by simp [GeneratePaletteTextureRGBA, paletteTexture, rlLoadTexture]) hd
            (by
              intro _
              rw [← hrgba]
              simp only [GeneratePaletteTextureRGBA, paletteTexture, rlLoadTexture]
              rw [Gpu.lookup_new]
              rfl))
        rw [Nat.add_assoc, Nat.add_comm 1 n] at this
        exact this
    · rename_i k hlook
      have hnf : isFirst data hdr i = true → False := by
        intro hf
        obtain ⟨h1, h2, _⟩ := hinv.2.1 _ _ hlook
        exact (isFirst_iff data hdr i).1 hf k h1 h2
      have := ih (i + 1) _ _ _ palsF gF h (PalInv_dup data hdr g0 i k up pals g hinv hlook)
        (PalData_mono data hdr lofs i pals g g _ hinv.1 (List.prefix_refl _) hd
          (fun hf => (hnf hf).elim))
      rw [Nat.add_assoc, Nat.add_comm 1 n] at this
      exact this

theorem Load_palette_table (lodepng : Int → List Nat → Option (Nat × Nat × List Nat))
    (c : SffFile) (g : Gpu) (data : List Nat) (h : (Load lodepng c g data).2.2 = .ok ())
    (hv : (Load lodepng c g data).1.header_.Ver0 = 2) (j : Nat)
    (hj : j < (Load lodepng c g data).1.header_.NumberOfPalettes)
    (hf : isFirst data (Load lodepng c g data).1.header_ j = true) :
    ∃ p, (Load lodepng c g data).1.palettes_[j]? = some p ∧
      (Load lodepng c g data).2.1.lookup p.texture.id =
        some ⟨palTableAt data
          (palDataOfs data (Load lodepng c g data).1.header_ (le32At data 52) j), 256, 1,
          PIXELFORMAT_UNCOMPRESSED_R8G8B8A8, 1⟩ := by
  obtain ⟨pals, gp, _, h2, h3, h4⟩ := Load_ok_v2 lodepng c g data h hv
  have hd := paletteLoop_data data _ _ g _ 0 [] [] g pals gp h2 (PalInv_init data _ g)
    (fun j hj _ => absurd hj (Nat.not_lt_zero j))
  simp only [Nat.zero_add] at hd
  obtain ⟨p, hp1, hp2⟩ := hd j hj hf
  exact ⟨p, by rw [h3]; exact hp1, Gpu.lookup_prefix gp _ h4 _ _ hp2⟩

set_option maxRecDepth 100000 in
/-- C19, as stated, fails: in `samplePalFlag` every 16-bit word of the palette
directory entry has low bit 1 and the two base offsets differ (81 and 82), yet
`Load` builds the palette from the bytes at (local base + relative offset) mod
2^32 = 80, whose table starts with 1, and not from those at (global base +
relative offset) mod 2^32 = 81, whose table starts with 2. -/
theorem palette_data_ignores_flag :
    (∀ k, k < 8 → le16At samplePalFlag (64 + 2 * k) % 2 = 1) ∧
    le32At samplePalFlag 52 = 81 ∧ le32At samplePalFlag 60 = 82 ∧
    le32At samplePalFlag 72 = 4294967295 ∧
    (Load noPng SffFile.init Gpu.empty samplePalFlag).2.2 = .ok () ∧
    (∃ p u, (Load noPng SffFile.init Gpu.empty samplePalFlag).1.palettes_[0]? = some p ∧
      (Load noPng SffFile.init Gpu.empty samplePalFlag).2.1.lookup p.texture.id = some u ∧
      u.data = palTableAt samplePalFlag ((81 + 4294967295) % 2 ^ 32)) ∧
    (palTableAt samplePalFlag ((81 + 4294967295) % 2 ^ 32)).getD 0 0 = 1 ∧
    (palTableAt samplePalFlag ((82 + 4294967295) % 2 ^ 32)).getD 0 0 = 2 := by
  refine ⟨by decide, by decide, by decide, by decide, by decide, ?_, by decide, by decide⟩
  obtain ⟨p, hp1, hp2⟩ := Load_palette_table noPng SffFile.init Gpu.empty samplePalFlag
    (by decide) (by decide) 0 (by decide) (by decide)
  exact ⟨p, _, hp1, hp2, rfl⟩

/-- C19 (amended): after a successful `Load` of a variant-2 file, for every
palette directory entry `j` with a new key, palette `j` names the upload of the
table made of the 256 colour values (1024 bytes) read at file offset (local
base offset + relative data offset of the entry) mod 2^32; the palette entry
has no location flag and the global base offset is not used. -/
theorem palette_data_offset (lodepng : Int → List Nat → Option (Nat × Nat × List Nat))
    (c : SffFile) (g : Gpu) (data : List Nat) (h : (Load lodepng c g data).2.2 = .ok ())
    (hv : (Load lodepng c g data).1.header_.Ver0 = 2) :
    ∀ j, j < (Load lodepng c g data).1.header_.NumberOfPalettes →
      isFirst data (Load lodepng c g data).1.header_ j = true →
      ∃ p, (Load lodepng c g data).1.palettes_[j]? = some p ∧
        (Load lodepng c g data).2.1.lookup p.texture.id =
          some ⟨palBytesRGBA (u32sOf ((data.drop
              ((le32At data 52 + le32At data
                (((Load lodepng c g data).1.header_.FirstPaletteHeaderOffset + j * 16) % 2 ^ 32
                  + 8)) % 2 ^ 32)).take 1024)),
            256, 1, PIXELFORMAT_UNCOMPRESSED_R8G8B8A8, 1⟩ :=
  fun j hj hf => Load_palette_table lodepng c g data h hv j hj hf

set_option maxRecDepth 100000 in
/-- On `samplePalV2` (local base offset 112, relative offsets 0) palette 1 is
built from the 1024 bytes at offset 112. -/
theorem palette_data_offset_witness :
    ∃ p, (Load noPng SffFile.init Gpu.empty samplePalV2).1.palettes_[1]? = some p ∧
      (Load noPng SffFile.init Gpu.empty samplePalV2).2.1.lookup p.texture.id =
        some ⟨palBytesRGBA (u32sOf ((samplePalV2.drop 112).take 1024)),
          256, 1, PIXELFORMAT_UNCOMPRESSED_R8G8B8A8, 1⟩ := by
  obtain ⟨p, hp1, hp2⟩ := palette_data_offset noPng SffFile.init Gpu.empty samplePalV2
    (by decide) (by decide) 1 (by decide) (by decide)
  refine ⟨p, hp1, hp2.trans ?_⟩
  have e : (le32At samplePalV2 52 + le32At samplePalV2
      (((Load noPng SffFile.init Gpu.empty samplePalV2).1.header_.FirstPaletteHeaderOffset
        + 1 * 16) % 2 ^ 32 + 8)) % 2 ^ 32 = 112 := by decide
  rw [e]

/-! ## Pixel buffer of a raw sprite (C11) -/

set_option maxRecDepth 100000 in
/-- C11: `Load` succeeds on `sampleRawShort` and leaves sprite 0 with width 2,
height 2 and tag 0 (raw), while the pixel buffer it hands to `rlLoadTexture`
for that sprite, as a 2x2 one-byte-per-pixel image, is the single byte 7:
its length is 1, not 2 * 2 * 1. -/
theorem raw_buffer_length_mismatch :
    (Load noPng SffFile.init Gpu.empty sampleRawShort).2.2 = .ok () ∧
    ((Load noPng SffFile.init Gpu.empty sampleRawShort).1.sprites_.getD 0 Sprite.init).Size0 = 2 ∧
    ((Load noPng SffFile.init Gpu.empty sampleRawShort).1.sprites_.getD 0 Sprite.init).Size1 = 2 ∧
    ((Load noPng SffFile.init Gpu.empty sampleRawShort).1.sprites_.getD 0 Sprite.init).rle = 0 ∧
    (Load noPng SffFile.init Gpu.empty sampleRawShort).2.1.lookup
      ((Load noPng SffFile.init Gpu.empty sampleRawShort).1.sprites_.getD 0 Sprite.init).texture.id
      = some ⟨[7], 2, 2, PIXELFORMAT_UNCOMPRESSED_GRAYSCALE, 1⟩ ∧
    ([7] : List Nat).length ≠ 2 * 2 * 1 := by
  decide

/-! ## Buffer accesses of the decoders (C12, C13) -/

theorem fillRunT_erase (dstLen v : Nat) (n : Nat) :
    ∀ (j : Nat) (dst : List Nat) (lg : Access),
      ((fillRunT dstLen v n j dst lg).1, (fillRunT dstLen v n j dst lg).2.1)
        = fillRun dstLen v n j dst := by
  induction n with
  | zero => intro j dst lg; rfl
  | succ n ih =>
    intro j dst lg
    simp only [fillRunT, fillRun]
    split
    · exact ih _ _ _
    · exact ih _ _ _

theorem fillRunT_ok (dstLen v : Nat) (n : Nat) :
    ∀ (j : Nat) (dst : List Nat) (lg : Access), WritesOk dstLen j dst lg →
      WritesOk dstLen (fillRunT dstLen v n j dst lg).1 (fillRunT dstLen v n j dst lg).2.1
        (fillRunT dstLen v n j dst lg).2.2 ∧
      (fillRunT dstLen v n j dst lg).2.2.reads = lg.reads := by
  induction n with
  | zero => intro j dst lg h; exact ⟨h, rfl⟩
  | succ n ih =>
    intro j dst lg h
    simp only [fillRunT]
    split
    · rename_i hj
      have := ih (j + 1) (dst.set j v) (lg.wr j) ⟨by rw [List.length_set]; exact h.1, by omega, by
        intro w hw
        simp only [Access.wr, List.mem_append, List.mem_singleton] at hw
        rcases hw with hw | hw
        · exact h.2.2 w hw
        · omega⟩
      exact this
    · exact ih _ _ _ h

theorem ReadsOk_rd (srcLen : Nat) (reads : List Nat) (i : Nat) (h : ReadsOk srcLen reads i) :
    ReadsOk srcLen (reads ++ [i]) i := by
  obtain ⟨h1, h2, h3, h4⟩ := h
  refine ⟨h1, ?_, ?_, ?_⟩
  · intro r hr
    simp only [List.mem_append, List.mem_singleton] at hr
    rcases hr with hr | hr
    · exact h2 r hr
    · omega
  · rw [List.chain'_append]
    refine ⟨h3, List.chain'_singleton i, ?_⟩
    intro x hx y hy
    simp only [List.head?_cons, Option.mem_def, Option.some.injEq] at hy
    subst hy
    exact h4 x hx
  · intro r hr
    simp only [List.getLast?_append, List.getLast?_singleton, Option.or,
      Option.some.injEq] at hr
    subst hr
    exact Or.inl rfl

theorem ReadsOk_rd_adv (srcLen : Nat) (reads : List Nat) (i : Nat) (h : ReadsOk srcLen reads i) :
    ReadsOk srcLen (reads ++ [i]) (adv srcLen i) := by
  obtain ⟨h1, h2, h3, h4⟩ := ReadsOk_rd srcLen reads i h
  refine ⟨?_, h2, h3, ?_⟩
  · unfold adv; split <;> omega
  · intro r hr
    simp only [List.getLast?_append, List.getLast?_singleton, Option.or,
      Option.some.injEq] at hr
    subst hr
    unfold adv cursorStep
    split
    · exact Or.inr ⟨rfl, by assumption⟩
    · exact Or.inl rfl

theorem rle8LoopT_erase (src : List Nat) (srcLen dstLen : Nat) (fuel : Nat) :
    ∀ (i j : Nat) (dst : List Nat) (lg : Access),
      (rle8LoopT src srcLen dstLen fuel i j dst lg).1 = rle8Loop src srcLen dstLen fuel i j dst := by
  induction fuel with
  | zero => intro i j dst lg; rfl
  | succ fuel ih =>
    intro i j dst lg
    simp only [rle8LoopT, rle8Loop]
    split
    · split
      · rw [ih, ← fillRunT_erase]
      · rw [ih, ← fillRunT_erase]
    · rfl

theorem rle8LoopT_ok (src : List Nat) (srcLen dstLen : Nat) (fuel : Nat) :
    ∀ (i j : Nat) (dst : List Nat) (lg : Access),
      WritesOk dstLen j dst lg → ReadsOk srcLen lg.reads i →
      (∀ w ∈ (rle8LoopT src srcLen dstLen fuel i j dst lg).2.writes, w < dstLen) ∧
      (∃ i', ReadsOk srcLen (rle8LoopT src srcLen dstLen fuel i j dst lg).2.reads i') ∧
      (∀ d, (rle8LoopT src srcLen dstLen fuel i j dst lg).1 = some d → d.length = dstLen) := by
  induction fuel with
  | zero =>
    intro i j dst lg hw hr
    simp only [rle8LoopT]
    refine ⟨hw.2.2, ⟨i, hr⟩, ?_⟩
    intro d hd
    split at hd
    · simp at hd
    · simp only [Option.some.injEq] at hd
      rw [← hd]; exact hw.1
  | succ fuel ih =>
    intro i j dst lg hw hr
    simp only [rle8LoopT]
    split
    · have hr1 := ReadsOk_rd_adv srcLen lg.reads i hr
      split
      · have hr2 := ReadsOk_rd_adv srcLen _ _ hr1
        have hf := fillRunT_ok dstLen (src.getD (adv srcLen i) 0) (src.getD i 0 &&& 0x3f) j dst
          ((lg.rd i).rd (adv srcLen i)) hw
        exact ih _ _ _ _ hf.1 (by rw [hf.2]; exact hr2)
      · have hf := fillRunT_ok dstLen (src.getD i 0) 1 j dst (lg.rd i) hw
        exact ih _ _ _ _ hf.1 (by rw [hf.2]; exact hr1)
    · refine ⟨hw.2.2, ⟨i, hr⟩, ?_⟩
      intro d hd
      simp only [Option.some.injEq] at hd
      rw [← hd]; exact hw.1

theorem WritesOk_wr (dstLen j : Nat) (dst : List Nat) (lg : Access) (v : Nat)
    (h : WritesOk dstLen j dst lg) (hj : j < dstLen) :
    WritesOk dstLen (j + 1) (dst.set j v) (lg.wr j) := by
  refine ⟨by rw [List.length_set]; exact h.1, by omega, ?_⟩
  intro w hw
  simp only [Access.wr, List.mem_append, List.mem_singleton] at hw
  rcases hw with hw | hw
  · exact h.2.2 w hw
  · omega

theorem pcxLoopT_erase (src : List Nat) (srcLen dstLen : Nat) (fuel : Nat) :
    ∀ (i j : Nat) (dst : List Nat) (lg : Access),
      (pcxLoopT src srcLen dstLen fuel i j dst lg).1 = pcxLoop src srcLen dstLen fuel i j dst := by
  induction fuel with
  | zero => intro i j dst lg; rfl
  | succ fuel ih =>
    intro i j dst lg
    simp only [pcxLoopT, pcxLoop]
    split
    · split
      · split
        · rw [ih, ← fillRunT_erase]
        · rfl
      · rw [ih, ← fillRunT_erase]
    · rfl

theorem pcxLoopT_ok (src : List Nat) (srcLen dstLen : Nat) (fuel : Nat) :
    ∀ (i j : Nat) (dst : List Nat) (lg : Access), WritesOk dstLen j dst lg →
      (∀ w ∈ (pcxLoopT src srcLen dstLen fuel i j dst lg).2.writes, w < dstLen) ∧
      (∀ j' d, (pcxLoopT src srcLen dstLen fuel i j dst lg).1 = some (j', d) →
        d.length = dstLen ∧ j' ≤ dstLen) := by
  induction fuel with
  | zero =>
    intro i j dst lg hw
    simp only [pcxLoopT]
    refine ⟨hw.2.2, ?_⟩
    intro j' d hd
    split at hd
    · simp at hd
    · simp only [Option.some.injEq, Prod.mk.injEq] at hd
      rw [← hd.1, ← hd.2]; exact ⟨hw.1, hw.2.1⟩
  | succ fuel ih =>
    intro i j dst lg hw
    have hw1 : WritesOk dstLen j dst (lg.rd i) := hw
    have hw2 : WritesOk dstLen j dst ((lg.rd i).rd (i + 1)) := hw
    simp only [pcxLoopT]
    split
    · split
      · split
        · exact ih _ _ _ _ (fillRunT_ok dstLen _ _ j dst _ hw2).1
        · refine ⟨hw.2.2, ?_⟩
          intro j' d hd
          simp only [Option.some.injEq, Prod.mk.injEq] at hd
          rw [← hd.1, ← hd.2]; exact ⟨hw.1, hw.2.1⟩
      · exact ih _ _ _ _ (fillRunT_ok dstLen _ _ j dst _ hw1).1
    · refine ⟨hw.2.2, ?_⟩
      intro j' d hd
      simp only [Option.some.injEq, Prod.mk.injEq] at hd
      rw [← hd.1, ← hd.2]; exact ⟨hw.1, hw.2.1⟩

theorem rle5InnerT_erase (src : List Nat) (srcLen dstLen : Nat) (fuel : Nat) :
    ∀ (rl dl : Int) (c i j : Nat) (dst : List Nat) (lg : Access),
      (rle5InnerT src srcLen dstLen fuel rl dl c i j dst lg).1
        = rle5Inner src srcLen dstLen fuel rl dl c i j dst := by
  induction fuel with
  | zero => intro rl dl c i j dst lg; rfl
  | succ fuel ih =>
    intro rl dl c i j dst lg
    simp only [rle5InnerT, rle5Inner]
    by_cases hj : j < dstLen
    · simp only [hj, if_true]
      split
      · split
        · rfl
        · exact ih _ _ _ _ _ _ _
      · exact ih _ _ _ _ _ _ _
    · simp only [hj, if_false]
      split
      · split
        · rfl
        · exact ih _ _ _ _ _ _ _
      · exact ih _ _ _ _ _ _ _

theorem rle5InnerT_ok (src : List Nat) (srcLen dstLen : Nat) (fuel : Nat) :
    ∀ (rl dl : Int) (c i j : Nat) (dst : List Nat) (lg : Access),
      WritesOk dstLen j dst lg → ReadsOk srcLen lg.reads i →
      (∀ w ∈ (rle5InnerT src srcLen dstLen fuel rl dl c i j dst lg).2.writes, w < dstLen) ∧
      (∃ i', ReadsOk srcLen (rle5InnerT src srcLen dstLen fuel rl dl c i j dst lg).2.reads i') ∧
      (∀ i' j' d, (rle5InnerT src srcLen dstLen fuel rl dl c i j dst lg).1 = some (i', j', d) →
        WritesOk dstLen j' d (rle5InnerT src srcLen dstLen fuel rl dl c i j dst lg).2 ∧
        ReadsOk srcLen (rle5InnerT src srcLen dstLen fuel rl dl c i j dst lg).2.reads i') := by
  induction fuel with
  | zero =>
    intro rl dl c i j dst lg hw hr
    simp only [rle5InnerT]
    exact ⟨hw.2.2, ⟨i, hr⟩, fun _ _ _ h => by simp at h⟩
  | succ fuel ih =>
    intro rl dl c i j dst lg hw hr
    simp only [rle5InnerT]
    by_cases hj : j < dstLen
    · have hw1 := WritesOk_wr dstLen j dst lg c hw hj
      have hr1 : ReadsOk srcLen (lg.wr j).reads i := hr
      simp only [hj, if_true]
      split
      · split
        · refine ⟨hw1.2.2, ⟨i, hr1⟩, ?_⟩
          intro i' j' d hd
          simp only [Option.some.injEq, Prod.mk.injEq] at hd
          obtain ⟨rfl, rfl, rfl⟩ := hd
          exact ⟨hw1, hr1⟩
        · exact ih _ _ _ _ _ _ _
            (show WritesOk dstLen (j + 1) (dst.set j c) (((lg.wr j).rd i).rd i) from hw1)
            (ReadsOk_rd_adv srcLen _ i (ReadsOk_rd srcLen _ i hr1))
      · exact ih _ _ _ _ _ _ _ hw1 hr1
    · simp only [hj, if_false]
      split
      · split
        · refine ⟨hw.2.2, ⟨i, hr⟩, ?_⟩
          intro i' j' d hd
          simp only [Option.some.injEq, Prod.mk.injEq] at hd
          obtain ⟨rfl, rfl, rfl⟩ := hd
          exact ⟨hw, hr⟩
        · exact ih _ _ _ _ _ _ _ (show WritesOk dstLen j dst ((lg.rd i).rd i) from hw)
            (ReadsOk_rd_adv srcLen _ i (ReadsOk_rd srcLen _ i hr))
      · exact ih _ _ _ _ _ _ _ hw hr

theorem rle5LoopT_erase (src : List Nat) (srcLen dstLen : Nat) (fuel : Nat) :
    ∀ (i j : Nat) (dst : List Nat) (lg : Access),
      (rle5LoopT src srcLen dstLen fuel i j dst lg).1 = rle5Loop src srcLen dstLen fuel i j dst := by
  induction fuel with
  | zero => intro i j dst lg; rfl
  | succ fuel ih =>
    intro i j dst lg
    simp only [rle5LoopT, rle5Loop]
    split
    · rw [← rle5InnerT_erase src srcLen dstLen _ _ _ _ _ j dst
        (if src.getD (adv srcLen i) 0 >>> 7 ≠ 0
          then (((lg.rd i).rd (adv srcLen i)).rd (adv srcLen i)).rd (adv srcLen (adv srcLen i))
          else ((lg.rd i).rd (adv srcLen i)).rd (adv srcLen i))]
      rcases hin : rle5InnerT src srcLen dstLen _ _ _ _ _ j dst
        (if src.getD (adv srcLen i) 0 >>> 7 ≠ 0
          then (((lg.rd i).rd (adv srcLen i)).rd (adv srcLen i)).rd (adv srcLen (adv srcLen i))
          else ((lg.rd i).rd (adv srcLen i)).rd (adv srcLen i)) with ⟨o, lg'⟩
      cases o with
      | none => rfl
      | some r =>
        obtain ⟨i', j', d⟩ := r
        exact ih _ _ _ _
    · rfl

theorem rle5LoopT_ok (src : List Nat) (srcLen dstLen : Nat) (fuel : Nat) :
    ∀ (i j : Nat) (dst : List Nat) (lg : Access),
      WritesOk dstLen j dst lg → ReadsOk srcLen lg.reads i →
      (∀ w ∈ (rle5LoopT src srcLen dstLen fuel i j dst lg).2.writes, w < dstLen) ∧
      (∃ i', ReadsOk srcLen (rle5LoopT src srcLen dstLen fuel i j dst lg).2.reads i') ∧
      (∀ d, (rle5LoopT src srcLen dstLen fuel i j dst lg).1 = some d → d.length = dstLen) := by
  induction fuel with
  | zero =>
    intro i j dst lg hw hr
    simp only [rle5LoopT]
    refine ⟨hw.2.2, ⟨i, hr⟩, ?_⟩
    intro d hd
    split at hd
    · simp at hd
    · simp only [Option.some.injEq] at hd
      rw [← hd]; exact hw.1
  | succ fuel ih =>
    intro i j dst lg hw hr
    simp only [rle5LoopT]
    split
    · have hA := ReadsOk_rd srcLen _ _ (ReadsOk_rd_adv srcLen lg.reads i hr)
      have hB := ReadsOk_rd_adv srcLen _ _ hA
      have hC := ReadsOk_rd_adv srcLen _ _ hB
      have hin := rle5InnerT_ok src srcLen dstLen
        (((src.getD i 0 : Nat) : Int).toNat
          + 8 * ((src.getD (adv srcLen i) 0 &&& 0x7f : Nat) : Int).toNat + 2)
        ((src.getD i 0 : Nat) : Int) ((src.getD (adv srcLen i) 0 &&& 0x7f : Nat) : Int)
        (if src.getD (adv srcLen i) 0 >>> 7 ≠ 0
          then src.getD (if src.getD (adv srcLen i) 0 >>> 7 ≠ 0
            then adv srcLen (adv srcLen i) else adv srcLen i) 0 else 0)
        (adv srcLen (if src.getD (adv srcLen i) 0 >>> 7 ≠ 0
          then adv srcLen (adv srcLen i) else adv srcLen i))
        j dst
        (if src.getD (adv srcLen i) 0 >>> 7 ≠ 0
          then (((lg.rd i).rd (adv srcLen i)).rd (adv srcLen i)).rd (adv srcLen (adv srcLen i))
          else ((lg.rd i).rd (adv srcLen i)).rd (adv srcLen i))
        (by split <;> exact hw)
        (by
          by_cases hc : src.getD (adv srcLen i) 0 >>> 7 ≠ 0
          · rw [if_pos hc, if_pos hc]; exact hC
          · rw [if_neg hc, if_neg hc]; exact hB)
      rcases hres : rle5InnerT src srcLen dstLen
        (((src.getD i 0 : Nat) : Int).toNat
          + 8 * ((src.getD (adv srcLen i) 0 &&& 0x7f : Nat) : Int).toNat + 2)
        ((src.getD i 0 : Nat) : Int) ((src.getD (adv srcLen i) 0 &&& 0x7f : Nat) : Int)
        (if src.getD (adv srcLen i) 0 >>> 7 ≠ 0
          then src.getD (if src.getD (adv srcLen i) 0 >>> 7 ≠ 0
            then adv srcLen (adv srcLen i) else adv srcLen i) 0 else 0)
        (adv srcLen (if src.getD (adv srcLen i) 0 >>> 7 ≠ 0
          then adv srcLen (adv srcLen i) else adv srcLen i))
        j dst
        (if src.getD (adv srcLen i) 0 >>> 7 ≠ 0
          then (((lg.rd i).rd (adv srcLen i)).rd (adv srcLen i)).rd (adv srcLen (adv srcLen i))
          else ((lg.rd i).rd (adv srcLen i)).rd (adv srcLen i)) with ⟨o, lg'⟩
      rw [hres] at hin
      cases o with
      | none => exact ⟨hin.1, hin.2.1, fun d hd => by simp at hd⟩
      | some r =>
        obtain ⟨i', j', d⟩ := r
        obtain ⟨hw', hr'⟩ := hin.2.2 i' j' d rfl
        exact ih _ _ _ _ hw' hr'
    · refine ⟨hw.2.2, ⟨i, hr⟩, ?_⟩
      intro d hd
      simp only [Option.some.injEq] at hd
      rw [← hd]; exact hw.1

theorem lz5CopyT_erase (dstLen d : Nat) (count : Nat) :
    ∀ (j : Nat) (dst : List Nat) (tr : List CopyStep) (lg : Access),
      ((lz5CopyT dstLen d count j dst tr lg).1, (lz5CopyT dstLen d count j dst tr lg).2.1,
        (lz5CopyT dstLen d count j dst tr lg).2.2.1) = lz5Copy dstLen d count j dst tr := by
  induction count with
  | zero => intro j dst tr lg; rfl
  | succ count ih =>
    intro j dst tr lg
    simp only [lz5CopyT, lz5Copy]
    split
    · exact ih _ _ _ _
    · split
      · exact ih _ _ _ _
      · exact ih _ _ _ _

theorem lz5CopyT_ok (dstLen d : Nat) (count : Nat) :
    ∀ (j : Nat) (dst : List Nat) (tr : List CopyStep) (lg : Access), WritesOk dstLen j dst lg →
      WritesOk dstLen (lz5CopyT dstLen d count j dst tr lg).1
        (lz5CopyT dstLen d count j dst tr lg).2.1 (lz5CopyT dstLen d count j dst tr lg).2.2.2 ∧
      (lz5CopyT dstLen d count j dst tr lg).2.2.2.reads = lg.reads := by
  induction count with
  | zero => intro j dst tr lg h; exact ⟨h, rfl⟩
  | succ count ih =>
    intro j dst tr lg h
    simp only [lz5CopyT]
    split
    · rename_i hj
      exact ih _ _ _ _ (WritesOk_wr dstLen j dst lg _ h hj.1)
    · split
      · rename_i hj
        exact ih _ _ _ _ (WritesOk_wr dstLen j dst lg _ h hj)
      · exact ih _ _ _ _ h

theorem lz5StepT_erase (src : List Nat) (srcLen dstLen : Nat) (st : Lz5State) (lg : Access) :
    (lz5StepT src srcLen dstLen st lg).1 = lz5Step src srcLen dstLen st := by
  have ef : ∀ v n j dst lg, fillRun dstLen v n j dst
      = ((fillRunT dstLen v n j dst lg).1, (fillRunT dstLen v n j dst lg).2.1) :=
    fun v n j dst lg => (fillRunT_erase dstLen v n j dst lg).symm
  have ec : ∀ d n j dst tr lg, lz5Copy dstLen d n j dst tr
      = ((lz5CopyT dstLen d n j dst tr lg).1, (lz5CopyT dstLen d n j dst tr lg).2.1,
          (lz5CopyT dstLen d n j dst tr lg).2.2.1) :=
    fun d n j dst tr lg => (lz5CopyT_erase dstLen d n j dst tr lg).symm
  unfold lz5StepT lz5TokenT lz5Step
  simp only []
  by_cases h1 : st.ct &&& (1 <<< st.cts) ≠ 0
  · rw [if_pos h1, if_pos h1]
    by_cases h2 : src.getD st.i 0 &&& 0x3f = 0
    · rw [if_pos h2, if_pos h2]
      rw [ec _ _ _ _ _ (((lg.rd st.i).rd (adv srcLen st.i)).rd (adv srcLen (adv srcLen st.i)))]
      split <;> rfl
    · rw [if_neg h2, if_neg h2]
      by_cases h3 : (st.rbc + 2) % 256 < 8
      · rw [if_pos h3, if_pos h3]
        rw [ec _ _ _ _ _ ((lg.rd st.i).rd (adv srcLen st.i))]
        split <;> rfl
      · rw [if_neg h3, if_neg h3]
        rw [ec _ _ _ _ _ (lg.rd st.i)]
        split <;> rfl
  · rw [if_neg h1, if_neg h1]
    by_cases h2 : src.getD st.i 0 &&& 0xe0 = 0
    · rw [if_pos h2, if_pos h2]
      rw [ef _ _ _ _ ((lg.rd st.i).rd (adv srcLen st.i))]
      split <;> rfl
    · rw [if_neg h2, if_neg h2]
      rw [ef _ _ _ _ (lg.rd st.i)]
      split <;> rfl

theorem lz5TokenT_ok (src : List Nat) (srcLen dstLen : Nat) (st : Lz5State) (lg : Access)
    (hw : WritesOk dstLen st.j st.dst lg) (hr : ReadsOk srcLen lg.reads st.i) :
    WritesOk dstLen (lz5TokenT src srcLen dstLen st lg).1.j
      (lz5TokenT src srcLen dstLen st lg).1.dst (lz5TokenT src srcLen dstLen st lg).2 ∧
    ReadsOk srcLen (lz5TokenT src srcLen dstLen st lg).2.reads
      (lz5TokenT src srcLen dstLen st lg).1.i := by
  have r1 := ReadsOk_rd_adv srcLen _ _ hr
  have r2 := ReadsOk_rd_adv srcLen _ _ r1
  have r3 := ReadsOk_rd_adv srcLen _ _ r2
  unfold lz5TokenT
  simp only []
  split
  · split
    · have h := lz5CopyT_ok dstLen (((src.getD st.i 0 <<< 2) ||| src.getD (adv srcLen st.i) 0) + 1)
        (src.getD (adv srcLen (adv srcLen st.i)) 0 + 2 + 1) st.j st.dst st.trace
        (((lg.rd st.i).rd (adv srcLen st.i)).rd (adv srcLen (adv srcLen st.i))) hw
      exact ⟨h.1, by rw [h.2]; exact r3⟩
    · split
      · have h := lz5CopyT_ok dstLen (src.getD (adv srcLen st.i) 0 + 1)
          ((src.getD st.i 0 &&& 0x3f) + 1) st.j st.dst st.trace
          ((lg.rd st.i).rd (adv srcLen st.i)) hw
        exact ⟨h.1, by rw [h.2]; exact r2⟩
      · have h := lz5CopyT_ok dstLen
          ((st.rb ||| ((src.getD st.i 0 &&& 0xc0) >>> st.rbc)) % 256 + 1)
          ((src.getD st.i 0 &&& 0x3f) + 1) st.j st.dst st.trace (lg.rd st.i) hw
        exact ⟨h.1, by rw [h.2]; exact r1⟩
  · split
    · have h := fillRunT_ok dstLen (src.getD st.i 0 % 256) (src.getD (adv srcLen st.i) 0 + 8)
        st.j st.dst ((lg.rd st.i).rd (adv srcLen st.i)) hw
      exact ⟨h.1, by rw [h.2]; exact r2⟩
    · have h := fillRunT_ok dstLen ((src.getD st.i 0 &&& 0x1f) % 256) (src.getD st.i 0 >>> 5)
        st.j st.dst (lg.rd st.i) hw
      exact ⟨h.1, by rw [h.2]; exact r1⟩

theorem lz5StepT_ok (src : List Nat) (srcLen dstLen : Nat) (st : Lz5State) (lg : Access)
    (hw : WritesOk dstLen st.j st.dst lg) (hr : ReadsOk srcLen lg.reads st.i) :
    WritesOk dstLen (lz5StepT src srcLen dstLen st lg).1.j
      (lz5StepT src srcLen dstLen st lg).1.dst (lz5StepT src srcLen dstLen st lg).2 ∧
    ReadsOk srcLen (lz5StepT src srcLen dstLen st lg).2.reads
      (lz5StepT src srcLen dstLen st lg).1.i := by
  obtain ⟨h1, h2⟩ := lz5TokenT_ok src srcLen dstLen st lg hw hr
  unfold lz5StepT
  simp only []
  split
  · exact ⟨h1, ReadsOk_rd_adv srcLen _ _ h2⟩
  · exact ⟨h1, h2⟩

theorem lz5LoopT_erase (src : List Nat) (srcLen dstLen : Nat) (fuel : Nat) :
    ∀ (st : Lz5State) (lg : Access),
      (lz5LoopT src srcLen dstLen fuel st lg).1 = lz5Loop src srcLen dstLen fuel st := by
  induction fuel with
  | zero => intro st lg; rfl
  | succ fuel ih =>
    intro st lg
    simp only [lz5LoopT, lz5Loop]
    split
    · rw [ih, lz5StepT_erase]
    · rfl

theorem lz5LoopT_ok (src : List Nat) (srcLen dstLen : Nat) (fuel : Nat) :
    ∀ (st : Lz5State) (lg : Access),
      WritesOk dstLen st.j st.dst lg → ReadsOk srcLen lg.reads st.i →
      (∀ w ∈ (lz5LoopT src srcLen dstLen fuel st lg).2.writes, w < dstLen) ∧
      (∃ i', ReadsOk srcLen (lz5LoopT src srcLen dstLen fuel st lg).2.reads i') ∧
      (∀ st', (lz5LoopT src srcLen dstLen fuel st lg).1 = some st' →
        st'.dst.length = dstLen) := by
  induction fuel with
  | zero =>
    intro st lg hw hr
    simp only [lz5LoopT]
    refine ⟨hw.2.2, ⟨st.i, hr⟩, ?_⟩
    intro st' hd
    split at hd
    · simp at hd
    · simp only [Option.some.injEq] at hd
      rw [← hd]; exact hw.1
  | succ fuel ih =>
    intro st lg hw hr
    simp only [lz5LoopT]
    split
    · obtain ⟨h1, h2⟩ := lz5StepT_ok src srcLen dstLen st lg hw hr
      exact ih _ _ h1 h2
    · refine ⟨hw.2.2, ⟨st.i, hr⟩, ?_⟩
      intro st' hd
      simp only [Option.some.injEq] at hd
      rw [← hd]; exact hw.1

theorem WritesOk_init (dstLen : Nat) : WritesOk dstLen 0 (List.replicate dstLen 0) ⟨[], []⟩ :=
  ⟨List.length_replicate _ _, Nat.zero_le _, fun _ h => by simp at h⟩

theorem ReadsOk_init (srcLen : Nat) : ReadsOk srcLen [] 0 :=
  ⟨Nat.zero_le _, fun _ h => by simp at h, List.chain'_nil, fun _ h => by simp at h⟩

theorem RlePcxDecodeT_erase (s : Sprite) (src : List Nat) :
    (RlePcxDecodeT s src).1 = RlePcxDecode s src := by
  unfold RlePcxDecodeT RlePcxDecode
  split
  · rfl
  · cases dstLenOf s with
    | none => rfl
    | some dstLen =>
      simp only []
      rw [← pcxLoopT_erase src src.length dstLen src.length 0 0 (List.replicate dstLen 0) ⟨[], []⟩]
      rcases pcxLoopT src src.length dstLen src.length 0 0 (List.replicate dstLen 0) ⟨[], []⟩
        with ⟨o, lg⟩
      cases o with
      | none => rfl
      | some r =>
        obtain ⟨j, dst⟩ := r
        simp only []
        split <;> rfl

theorem Rle8DecodeT_erase (s : Sprite) (src : List Nat) :
    (Rle8DecodeT s src).1 = Rle8Decode s src := by
  unfold Rle8DecodeT Rle8Decode
  split
  · rfl
  · cases dstLenOf s with
    | none => rfl
    | some dstLen =>
      simp only []
      rw [← rle8LoopT_erase src src.length dstLen (src.length + dstLen) 0 0
        (List.replicate dstLen 0) ⟨[], []⟩]
      rcases rle8LoopT src src.length dstLen (src.length + dstLen) 0 0
        (List.replicate dstLen 0) ⟨[], []⟩ with ⟨o, lg⟩
      cases o <;> rfl

theorem Rle5DecodeT_erase (s : Sprite) (src : List Nat) :
    (Rle5DecodeT s src).1 = Rle5Decode s src := by
  unfold Rle5DecodeT Rle5Decode
  split
  · rfl
  · cases dstLenOf s with
    | none => rfl
    | some dstLen =>
      simp only []
      rw [← rle5LoopT_erase src src.length dstLen dstLen 0 0 (List.replicate dstLen 0) ⟨[], []⟩]
      rcases rle5LoopT src src.length dstLen dstLen 0 0 (List.replicate dstLen 0) ⟨[], []⟩
        with ⟨o, lg⟩
      cases o <;> rfl

theorem Lz5DecodeT_erase (s : Sprite) (src : List Nat) :
    (Lz5DecodeT s src).1 = Lz5Decode s src := by
  unfold Lz5DecodeT Lz5Decode Lz5Run
  split
  · rfl
  · cases dstLenOf s with
    | none => rfl
    | some dstLen =>
      simp only []
      rw [← lz5LoopT_erase src src.length dstLen dstLen (lz5Init src dstLen)
        ⟨[0], List.range dstLen⟩]
      rcases lz5LoopT src src.length dstLen dstLen (lz5Init src dstLen)
        ⟨[0], List.range dstLen⟩ with ⟨o, lg⟩
      cases o <;> rfl

theorem dstLenOf_some (s : Sprite) (dstLen : Nat) (h : dstLenOf s = some dstLen) :
    dstLen = s.Size0 * s.Size1 := by
  unfold dstLenOf at h
  split at h
  · simp only [Option.some.injEq] at h; exact h.symm
  · simp at h

theorem lz5_start (src : List Nat) (dstLen : Nat) :
    WritesOk dstLen (lz5Init src dstLen).j (lz5Init src dstLen).dst ⟨[0], List.range dstLen⟩ ∧
    ReadsOk src.length (⟨[0], List.range dstLen⟩ : Access).reads (lz5Init src dstLen).i :=
  ⟨⟨List.length_replicate _ _, Nat.zero_le _, fun _ h => List.mem_range.1 h⟩,
   ReadsOk_rd_adv src.length [] 0 (ReadsOk_init src.length)⟩

theorem RlePcxDecodeT_ok (s : Sprite) (src : List Nat) :
    (RlePcxDecodeT s src).2.writesBelow (s.Size0 * s.Size1) ∧
    ∀ px, (RlePcxDecodeT s src).1 = .ok px → px.length = s.Size0 * s.Size1 := by
  unfold RlePcxDecodeT Access.writesBelow
  split
  · exact ⟨fun _ h => by simp at h, fun _ h => by simp at h⟩
  · cases hd : dstLenOf s with
    | none => exact ⟨fun _ h => by simp at h, fun _ h => by simp at h⟩
    | some dstLen =>
      have hlen := dstLenOf_some s dstLen hd
      subst hlen
      simp only []
      have h := pcxLoopT_ok src src.length (s.Size0 * s.Size1) src.length 0 0
        (List.replicate (s.Size0 * s.Size1) 0) ⟨[], []⟩ (WritesOk_init _)
      rcases hres : pcxLoopT src src.length (s.Size0 * s.Size1) src.length 0 0
        (List.replicate (s.Size0 * s.Size1) 0) ⟨[], []⟩ with ⟨o, lg⟩
      rw [hres] at h
      cases o with
      | none => exact ⟨h.1, fun _ hp => by simp at hp⟩
      | some r =>
        obtain ⟨j, dst⟩ := r
        obtain ⟨hl, hj⟩ := h.2 j dst rfl
        simp only []
        split
        · refine ⟨?_, ?_⟩
          · intro w hw
            simp only [List.mem_append, List.mem_range'_1] at hw
            rcases hw with hw | hw
            · exact h.1 w hw
            · omega
          · intro px hp
            simp only [Res.ok.injEq] at hp
            rw [← hp, List.length_append, List.length_take, List.length_replicate, hl]
            omega
        · refine ⟨h.1, ?_⟩
          intro px hp
          simp only [Res.ok.injEq] at hp
          rw [← hp]; exact hl

theorem Rle8DecodeT_ok (s : Sprite) (src : List Nat) :
    (Rle8DecodeT s src).2.writesBelow (s.Size0 * s.Size1) ∧
    ((∀ r ∈ (Rle8DecodeT s src).2.reads, r ≤ src.length - 1) ∧
      List.Chain' (cursorStep src.length) (Rle8DecodeT s src).2.reads) ∧
    ∀ px, (Rle8DecodeT s src).1 = .ok px → px.length = s.Size0 * s.Size1 := by
  unfold Rle8DecodeT Access.writesBelow
  split
  · exact ⟨fun _ h => by simp at h, ⟨fun _ h => by simp at h, List.chain'_nil⟩,
      fun _ h => by simp at h⟩
  · cases hd : dstLenOf s with
    | none => exact ⟨fun _ h => by simp at h, ⟨fun _ h => by simp at h, List.chain'_nil⟩,
        fun _ h => by simp at h⟩
    | some dstLen =>
      have hlen := dstLenOf_some s dstLen hd
      subst hlen
      simp only []
      have h := rle8LoopT_ok src src.length (s.Size0 * s.Size1) (src.length + s.Size0 * s.Size1)
        0 0 (List.replicate (s.Size0 * s.Size1) 0) ⟨[], []⟩ (WritesOk_init _) (ReadsOk_init _)
      rcases hres : rle8LoopT src src.length (s.Size0 * s.Size1) (src.length + s.Size0 * s.Size1)
        0 0 (List.replicate (s.Size0 * s.Size1) 0) ⟨[], []⟩ with ⟨o, lg⟩
      rw [hres] at h
      obtain ⟨hw, ⟨i', hr⟩, hl⟩ := h
      cases o with
      | none => exact ⟨hw, ⟨hr.2.1, hr.2.2.1⟩, fun _ hp => by simp at hp⟩
      | some dst =>
        refine ⟨hw, ⟨hr.2.1, hr.2.2.1⟩, ?_⟩
        intro px hp
        simp only [Res.ok.injEq] at hp
        rw [← hp]; exact hl dst rfl

theorem Rle5DecodeT_ok (s : Sprite) (src : List Nat) :
    (Rle5DecodeT s src).2.writesBelow (s.Size0 * s.Size1) ∧
    ((∀ r ∈ (Rle5DecodeT s src).2.reads, r ≤ src.length - 1) ∧
      List.Chain' (cursorStep src.length) (Rle5DecodeT s src).2.reads) ∧
    ∀ px, (Rle5DecodeT s src).1 = .ok px → px.length = s.Size0 * s.Size1 := by
  unfold Rle5DecodeT Access.writesBelow
  split
  · exact ⟨fun _ h => by simp at h, ⟨fun _ h => by simp at h, List.chain'_nil⟩,
      fun _ h => by simp at h⟩
  · cases hd : dstLenOf s with
    | none => exact ⟨fun _ h => by simp at h, ⟨fun _ h => by simp at h, List.chain'_nil⟩,
        fun _ h => by simp at h⟩
    | some dstLen =>
      have hlen := dstLenOf_some s dstLen hd
      subst hlen
      simp only []
      have h := rle5LoopT_ok src src.length (s.Size0 * s.Size1) (s.Size0 * s.Size1)
        0 0 (List.replicate (s.Size0 * s.Size1) 0) ⟨[], []⟩ (WritesOk_init _) (ReadsOk_init _)
      rcases hres : rle5LoopT src src.length (s.Size0 * s.Size1) (s.Size0 * s.Size1)
        0 0 (List.replicate (s.Size0 * s.Size1) 0) ⟨[], []⟩ with ⟨o, lg⟩
      rw [hres] at h
      obtain ⟨hw, ⟨i', hr⟩, hl⟩ := h
      cases o with
      | none => exact ⟨hw, ⟨hr.2.1, hr.2.2.1⟩, fun _ hp => by simp at hp⟩
      | some dst =>
        refine ⟨hw, ⟨hr.2.1, hr.2.2.1⟩, ?_⟩
        intro px hp
        simp only [Res.ok.injEq] at hp
        rw [← hp]; exact hl dst rfl

theorem Lz5DecodeT_ok (s : Sprite) (src : List Nat) :
    (Lz5DecodeT s src).2.writesBelow (s.Size0 * s.Size1) ∧
    ((∀ r ∈ (Lz5DecodeT s src).2.reads, r ≤ src.length - 1) ∧
      List.Chain' (cursorStep src.length) (Lz5DecodeT s src).2.reads) ∧
    ∀ px, (Lz5DecodeT s src).1 = .ok px → px.length = s.Size0 * s.Size1 := by
  unfold Lz5DecodeT Access.writesBelow
  split
  · exact ⟨fun _ h => by simp at h, ⟨fun _ h => by simp at h, List.chain'_nil⟩,
      fun _ h => by simp at h⟩
  · cases hd : dstLenOf s with
    | none => exact ⟨fun _ h => by simp at h, ⟨fun _ h => by simp at h, List.chain'_nil⟩,
        fun _ h => by simp at h⟩
    | some dstLen =>
      have hlen := dstLenOf_some s dstLen hd
      subst hlen
      simp only []
      have h := lz5LoopT_ok src src.length (s.Size0 * s.Size1) (s.Size0 * s.Size1)
        (lz5Init src (s.Size0 * s.Size1)) ⟨[0], List.range (s.Size0 * s.Size1)⟩
        (lz5_start src _).1 (lz5_start src _).2
      rcases hres : lz5LoopT src src.length (s.Size0 * s.Size1) (s.Size0 * s.Size1)
        (lz5Init src (s.Size0 * s.Size1)) ⟨[0], List.range (s.Size0 * s.Size1)⟩ with ⟨o, lg⟩
      rw [hres] at h
      obtain ⟨hw, ⟨i', hr⟩, hl⟩ := h
      cases o with
      | none => exact ⟨hw, ⟨hr.2.1, hr.2.2.1⟩, fun _ hp => by simp at hp⟩
      | some st =>
        refine ⟨hw, ⟨hr.2.1, hr.2.2.1⟩, ?_⟩
        intro px hp
        simp only [Res.ok.injEq] at hp
        rw [← hp]; exact hl st rfl

/-- C12: for every source and every width and height, a buffer returned by
`RlePcxDecode`, `Rle8Decode`, `Rle5Decode` or `Lz5Decode` has length exactly
width * height, and every write recorded in a run of one of these decoders
(the decoders with their access record compute the same results) is at an
index strictly below width * height. -/
theorem decoders_write_in_bounds (s : Sprite) (src : List Nat) :
    ((RlePcxDecodeT s src).1 = RlePcxDecode s src ∧ (Rle8DecodeT s src).1 = Rle8Decode s src ∧
      (Rle5DecodeT s src).1 = Rle5Decode s src ∧ (Lz5DecodeT s src).1 = Lz5Decode s src) ∧
    (∀ px, (RlePcxDecode s src = .ok px ∨ Rle8Decode s src = .ok px ∨
        Rle5Decode s src = .ok px ∨ Lz5Decode s src = .ok px) →
      px.length = s.Size0 * s.Size1) ∧
    ((RlePcxDecodeT s src).2.writesBelow (s.Size0 * s.Size1) ∧
      (Rle8DecodeT s src).2.writesBelow (s.Size0 * s.Size1) ∧
      (Rle5DecodeT s src).2.writesBelow (s.Size0 * s.Size1) ∧
      (Lz5DecodeT s src).2.writesBelow (s.Size0 * s.Size1)) := by
  refine ⟨⟨RlePcxDecodeT_erase s src, Rle8DecodeT_erase s src, Rle5DecodeT_erase s src,
    Lz5DecodeT_erase s src⟩, ?_, ⟨(RlePcxDecodeT_ok s src).1, (Rle8DecodeT_ok s src).1,
    (Rle5DecodeT_ok s src).1, (Lz5DecodeT_ok s src).1⟩⟩
  intro px h
  rcases h with h | h | h | h
  · exact (RlePcxDecodeT_ok s src).2 px (by rw [RlePcxDecodeT_erase]; exact h)
  · exact (Rle8DecodeT_ok s src).2.2 px (by rw [Rle8DecodeT_erase]; exact h)
  · exact (Rle5DecodeT_ok s src).2.2 px (by rw [Rle5DecodeT_erase]; exact h)
  · exact (Lz5DecodeT_ok s src).2.2 px (by rw [Lz5DecodeT_erase]; exact h)

/-- The RLE8 source 0x43 0x07 for a 2x2 sprite: the buffer 7 7 7 7 of length
4, written at the indices 0, 1, 2, 3. -/
theorem decoders_write_in_bounds_witness :
    Rle8Decode sprite2x2 [67, 7] = .ok [7, 7, 7, 7] ∧
    ([7, 7, 7, 7] : List Nat).length = sprite2x2.Size0 * sprite2x2.Size1 ∧
    (Rle8DecodeT sprite2x2 [67, 7]).2.writes = [0, 1, 2, 3] ∧
    (Rle8DecodeT sprite2x2 [67, 7]).2.writesBelow (sprite2x2.Size0 * sprite2x2.Size1) :=
  ⟨by decide,
   (decoders_write_in_bounds sprite2x2 [67, 7]).2.1 [7, 7, 7, 7] (Or.inr (Or.inl (by decide))),
   by decide, (decoders_write_in_bounds sprite2x2 [67, 7]).2.2.2.1⟩

/-- C13: for every source of length `srcLen >= 1` and every width and height,
every source read recorded in a run of `Rle8Decode`, `Rle5Decode` or
`Lz5Decode` (the decoders with their access record compute the same results)
is at an index below `srcLen`, that is in `0 .. srcLen - 1`, and from one read to the next the cursor
stays or goes up by one from a position strictly below `srcLen - 1`; the same
holds of the decoding loops run for any number of iterations. -/
theorem decoders_read_in_bounds (s : Sprite) (src : List Nat) (hs : 1 ≤ src.length) :
    ((Rle8DecodeT s src).1 = Rle8Decode s src ∧ (Rle5DecodeT s src).1 = Rle5Decode s src ∧
      (Lz5DecodeT s src).1 = Lz5Decode s src) ∧
    ((Rle8DecodeT s src).2.readsClamped src.length ∧
      (Rle5DecodeT s src).2.readsClamped src.length ∧
      (Lz5DecodeT s src).2.readsClamped src.length) ∧
    (∀ fuel dstLen,
      (rle8LoopT src src.length dstLen fuel 0 0 (List.replicate dstLen 0) ⟨[], []⟩).2.readsClamped
        src.length ∧
      (rle5LoopT src src.length dstLen fuel 0 0 (List.replicate dstLen 0) ⟨[], []⟩).2.readsClamped
        src.length ∧
      (lz5LoopT src src.length dstLen fuel (lz5Init src dstLen)
        ⟨[0], List.range dstLen⟩).2.readsClamped src.length) := by
  have cl : ∀ (lg : Access), ((∀ r ∈ lg.reads, r ≤ src.length - 1) ∧
      List.Chain' (cursorStep src.length) lg.reads) → lg.readsClamped src.length :=
    fun lg h => ⟨fun r hr => by have := h.1 r hr; omega, h.2⟩
  refine ⟨⟨Rle8DecodeT_erase s src, Rle5DecodeT_erase s src, Lz5DecodeT_erase s src⟩,
    ⟨cl _ (Rle8DecodeT_ok s src).2.1, cl _ (Rle5DecodeT_ok s src).2.1,
      cl _ (Lz5DecodeT_ok s src).2.1⟩, ?_⟩
  intro fuel dstLen
  obtain ⟨_, ⟨i8, h8⟩, _⟩ := rle8LoopT_ok src src.length dstLen fuel 0 0
    (List.replicate dstLen 0) ⟨[], []⟩ (WritesOk_init _) (ReadsOk_init _)
  obtain ⟨_, ⟨i5, h5⟩, _⟩ := rle5LoopT_ok src src.length dstLen fuel 0 0
    (List.replicate dstLen 0) ⟨[], []⟩ (WritesOk_init _) (ReadsOk_init _)
  obtain ⟨_, ⟨iz, hz⟩, _⟩ := lz5LoopT_ok src src.length dstLen fuel (lz5Init src dstLen)
    ⟨[0], List.range dstLen⟩ (lz5_start src dstLen).1 (lz5_start src dstLen).2
  exact ⟨cl _ ⟨h8.2.1, h8.2.2.1⟩, cl _ ⟨h5.2.1, h5.2.2.1⟩, cl _ ⟨hz.2.1, hz.2.2.1⟩⟩

/-- The RLE8 source 0x43 0x07 for a 2x2 sprite is read at the indices 0, 1, 1:
the cursor stops at the last byte. -/
theorem decoders_read_in_bounds_witness :
    1 ≤ [67, 7].length ∧
    (Rle8DecodeT sprite2x2 [67, 7]).2.reads = [0, 1, 1] ∧
    (Rle8DecodeT sprite2x2 [67, 7]).2.readsClamped [67, 7].length :=
  ⟨by decide, by decide, (decoders_read_in_bounds sprite2x2 [67, 7] (by decide)).2.1.1⟩

/-! ## Palette index of a paletted sprite (C21) -/

set_option maxRecDepth 100000 in
/-- C21: `Load` succeeds on `samplePalidx` and leaves one palette and a sprite 0
that is paletted (tag -2) with palette index 3, the value stored in its
directory entry: the index is not below the number of palettes. -/
theorem palidx_out_of_range :
    (Load noPng SffFile.init Gpu.empty samplePalidx).2.2 = .ok () ∧
    (Load noPng SffFile.init Gpu.empty samplePalidx).1.palettes_.length = 1 ∧
    ((Load noPng SffFile.init Gpu.empty samplePalidx).1.sprites_.getD 0 Sprite.init).IsPaletted
      = true ∧
    ((Load noPng SffFile.init Gpu.empty samplePalidx).1.sprites_.getD 0 Sprite.init).palidx = 3 ∧
    ¬ ((Load noPng SffFile.init Gpu.empty samplePalidx).1.sprites_.getD 0 Sprite.init).palidx
      < ((Load noPng SffFile.init Gpu.empty samplePalidx).1.palettes_.length : Int) := by
  decide

/-! ## A run of Rle8Decode that never exits (C23) -/

theorem rle8Loop_stuck (dstLen : Nat) (dst : List Nat) (h : 1 ≤ dstLen) (fuel : Nat) :
    rle8Loop [0x40] 1 dstLen fuel 0 0 dst = none := by
  induction fuel with
  | zero =>
    simp only [rle8Loop]
    rw [if_pos (by omega)]
  | succ fuel ih =>
    rw [rle8Loop, if_pos (by omega)]
    have e1 : adv 1 0 = 0 := by decide
    have e2 : ([0x40] : List Nat).getD 0 0 &&& 0xc0 = 0x40 := by decide
    have e3 : ([0x40] : List Nat).getD 0 0 &&& 0x3f = 0 := by decide
    simp only [e1, e2, e3, if_true, fillRun]
    exact ih

/-- C23: on the one-byte source 0x40 (a run-control byte with run count 0)
and a 1x1 sprite, the loop of `Rle8Decode` is still at output position 0 after
any number of iterations: each iteration reads the control byte and, as the
run value, the same byte again (the cursor is clamped), and writes nothing.
`Rle8Decode` does not return. -/
theorem Rle8Decode_never_exits :
    (∀ fuel, rle8Loop [0x40] 1 1 fuel 0 0 [0] = none) ∧
    Rle8Decode sprite1x1 [0x40] = .err .hang :=
  ⟨fun fuel => rle8Loop_stuck 1 [0] (Nat.le_refl 1) fuel, by decide⟩

/-! ## Token forms of Lz5Decode (C25, C26) -/

theorem lz5Step_forms (src : List Nat) (srcLen dstLen : Nat) (st : Lz5State) :
    lz5Step src srcLen dstLen st = lz5Next src srcLen
      (if st.ct &&& (1 <<< st.cts) ≠ 0 then
        (if src.getD st.i 0 &&& 0x3f = 0 then lz5LongRef src srcLen dstLen st
         else lz5ShortRef src srcLen dstLen st)
       else
        (if src.getD st.i 0 &&& 0xe0 = 0 then lz5LongRun src srcLen dstLen st
         else lz5ShortRun src srcLen dstLen st)) := by
  unfold lz5Step lz5Next lz5LongRef lz5ShortRef lz5LongRun lz5ShortRun
  rfl

theorem adv_lt (srcLen i : Nat) (h : i + 1 < srcLen) : adv srcLen i = i + 1 := by
  unfold adv
  rw [if_pos (by omega)]

theorem fillRun_clip (dstLen v : Nat) (n : Nat) :
    ∀ (j : Nat) (dst : List Nat), dst.length = dstLen → j ≤ dstLen →
      fillRun dstLen v n j dst =
        (min (j + n) dstLen,
         dst.take j ++ List.replicate (min (j + n) dstLen - j) v ++ dst.drop (min (j + n) dstLen)) := by
  induction n with
  | zero =>
    intro j dst hl hj
    simp only [fillRun, Nat.add_zero]
    rw [Nat.min_eq_left hj]
    simp
  | succ n ih =>
    intro j dst hl hj
    simp only [fillRun]
    split
    · rename_i hlt
      rw [ih (j + 1) (dst.set j v) (by rw [List.length_set]; exact hl) (by omega)]
      have e : j + 1 + n = j + (n + 1) := by omega
      rw [e]
      have hm : j + 1 ≤ min (j + (n + 1)) dstLen := by omega
      refine Prod.ext rfl ?_
      simp only []
      obtain ⟨k, hk⟩ : ∃ k, min (j + (n + 1)) dstLen = j + 1 + k := ⟨_, (Nat.add_sub_cancel' hm).symm⟩
      rw [hk]
      have e2 : j + 1 + k - (j + 1) = k := by omega
      have e3 : j + 1 + k - j = k + 1 := by omega
      rw [e2, e3, List.drop_set_of_lt v dst (by omega)]
      have htake : (dst.set j v).take (j + 1) = dst.take j ++ [v] := by
        rw [List.set_eq_take_append_cons_drop, if_pos (by omega), List.take_append_eq_append_take,
          List.length_take, Nat.min_eq_left (by omega)]
        have e4 : j + 1 - j = 1 := by omega
        rw [e4, List.take_take, Nat.min_eq_right (by omega)]
        rfl
      rw [htake, List.replicate_succ]
      simp
    · rename_i hge
      have hjd : j = dstLen := by omega
      subst hjd
      rw [ih j dst hl (Nat.le_refl _)]
      rw [Nat.min_eq_right (by omega), Nat.min_eq_right (by omega)]

theorem and_1f_mod (d : Nat) : (d &&& 0x1f) % 256 = d &&& 0x1f :=
  Nat.mod_eq_of_lt (Nat.lt_of_le_of_lt Nat.and_le_right (by decide))

set_option maxRecDepth 100000 in
theorem low5_of_high3_zero : ∀ d, d < 256 → d &&& 0xe0 = 0 → d % 256 = d &&& 0x1f := by
  decide

/-- C25, as stated, fails.  With the control bit set, the token 0x41 (low 6
bits 1) is decoded as the short back-reference and not as the long one; the
token 0x40 (low 6 bits 0) is decoded as the long back-reference and not as
the short one. -/
theorem lz5_backref_forms_swapped :
    ((lz5Init [1, 0x41, 0, 5, 0] 4).ct &&& (1 <<< (lz5Init [1, 0x41, 0, 5, 0] 4).cts) ≠ 0 ∧
      ([1, 0x41, 0, 5, 0] : List Nat).getD (lz5Init [1, 0x41, 0, 5, 0] 4).i 0 &&& 0x3f ≠ 0 ∧
      lz5Step [1, 0x41, 0, 5, 0] 5 4 (lz5Init [1, 0x41, 0, 5, 0] 4)
        ≠ lz5Next [1, 0x41, 0, 5, 0] 5 (lz5LongRef [1, 0x41, 0, 5, 0] 5 4 (lz5Init [1, 0x41, 0, 5, 0] 4)) ∧
      lz5Step [1, 0x41, 0, 5, 0] 5 4 (lz5Init [1, 0x41, 0, 5, 0] 4)
        = lz5Next [1, 0x41, 0, 5, 0] 5
            (lz5ShortRef [1, 0x41, 0, 5, 0] 5 4 (lz5Init [1, 0x41, 0, 5, 0] 4))) ∧
    ((lz5Init [1, 0x40, 0, 0, 0] 4).ct &&& (1 <<< (lz5Init [1, 0x40, 0, 0, 0] 4).cts) ≠ 0 ∧
      ([1, 0x40, 0, 0, 0] : List Nat).getD (lz5Init [1, 0x40, 0, 0, 0] 4).i 0 &&& 0x3f = 0 ∧
      lz5Step [1, 0x40, 0, 0, 0] 5 4 (lz5Init [1, 0x40, 0, 0, 0] 4)
        ≠ lz5Next [1, 0x40, 0, 0, 0] 5
            (lz5ShortRef [1, 0x40, 0, 0, 0] 5 4 (lz5Init [1, 0x40, 0, 0, 0] 4)) ∧
      lz5Step [1, 0x40, 0, 0, 0] 5 4 (lz5Init [1, 0x40, 0, 0, 0] 4)
        = lz5Next [1, 0x40, 0, 0, 0] 5
            (lz5LongRef [1, 0x40, 0, 0, 0] 5 4 (lz5Init [1, 0x40, 0, 0, 0] 4))) := by
  decide

/-- C25 (amended): in `Lz5Decode`, when the current control bit is set, a token
byte whose low 6 bits are zero is decoded as the long back-reference: with the
cursor not clamped, the offset is `((token << 2) | next byte) + 1`, the length
variable is the third byte plus 2 and the copy loop runs once more than that,
and three source bytes are consumed.  A token byte whose low 6 bits are not
zero is decoded as the short back-reference, whose copy loop runs
`(token & 0x3f) + 1` times. -/
theorem lz5_backref_forms (src : List Nat) (srcLen dstLen : Nat) (st : Lz5State)
    (hc : st.ct &&& (1 <<< st.cts) ≠ 0) :
    (src.getD st.i 0 &&& 0x3f = 0 →
      lz5Step src srcLen dstLen st = lz5Next src srcLen (lz5LongRef src srcLen dstLen st)) ∧
    (src.getD st.i 0 &&& 0x3f ≠ 0 →
      lz5Step src srcLen dstLen st = lz5Next src srcLen (lz5ShortRef src srcLen dstLen st)) ∧
    (st.i + 3 < srcLen →
      lz5LongRef src srcLen dstLen st =
        { st with
          i := st.i + 3
          j := (lz5Copy dstLen (((src.getD st.i 0 <<< 2) ||| src.getD (st.i + 1) 0) + 1)
            (src.getD (st.i + 2) 0 + 2 + 1) st.j st.dst st.trace).1
          dst := (lz5Copy dstLen (((src.getD st.i 0 <<< 2) ||| src.getD (st.i + 1) 0) + 1)
            (src.getD (st.i + 2) 0 + 2 + 1) st.j st.dst st.trace).2.1
          trace := (lz5Copy dstLen (((src.getD st.i 0 <<< 2) ||| src.getD (st.i + 1) 0) + 1)
            (src.getD (st.i + 2) 0 + 2 + 1) st.j st.dst st.trace).2.2 }) ∧
    (∃ d, (lz5ShortRef src srcLen dstLen st).j =
        (lz5Copy dstLen d ((src.getD st.i 0 &&& 0x3f) + 1) st.j st.dst st.trace).1 ∧
      (lz5ShortRef src srcLen dstLen st).dst =
        (lz5Copy dstLen d ((src.getD st.i 0 &&& 0x3f) + 1) st.j st.dst st.trace).2.1) := by
  refine ⟨?_, ?_, ?_, ?_⟩
  · intro h
    rw [lz5Step_forms, if_pos hc, if_pos h]
  · intro h
    rw [lz5Step_forms, if_pos hc, if_neg h]
  · intro h
    unfold lz5LongRef
    simp only [adv_lt srcLen st.i (by omega), adv_lt srcLen (st.i + 1) (by omega),
      adv_lt srcLen (st.i + 1 + 1) (by omega)]
  · unfold lz5ShortRef
    simp only []
    split
    · exact ⟨_, rfl, rfl⟩
    · exact ⟨_, rfl, rfl⟩

/-- From the start of `[1, 0x40, 0, 0, 0]` the long form with offset 257 and
three copy steps moves the output position to 3 and the cursor to 4; from the
start of `[1, 0x41, 0, 5, 0]` the short form moves the output position to 2. -/
theorem lz5_backref_forms_witness :
    (lz5Step [1, 0x40, 0, 0, 0] 5 4 (lz5Init [1, 0x40, 0, 0, 0] 4)).j = 3 ∧
    (lz5Step [1, 0x40, 0, 0, 0] 5 4 (lz5Init [1, 0x40, 0, 0, 0] 4)).i = 4 ∧
    (lz5Step [1, 0x41, 0, 5, 0] 5 4 (lz5Init [1, 0x41, 0, 5, 0] 4)).j = 2 := by
  have h1 := (lz5_backref_forms [1, 0x40, 0, 0, 0] 5 4 (lz5Init [1, 0x40, 0, 0, 0] 4)
    (by decide)).1 (by decide)
  have h2 := (lz5_backref_forms [1, 0x41, 0, 5, 0] 5 4 (lz5Init [1, 0x41, 0, 5, 0] 4)
    (by decide)).2.1 (by decide)
  rw [h1, h2]
  decide

/-- C26, as stated, fails.  With the control bit clear, the token 0x20 (low 5
bits zero) is decoded as a short literal run of one pixel and not as an
extended run of 3 + 8 pixels; the token 0x05 (low 5 bits not zero, high 3
bits zero) is decoded as an extended run of 3 + 8 pixels of value 5 and not
as a short run of no pixel. -/
theorem lz5_literal_forms_swapped :
    ((lz5Init [0, 0x20, 3, 0] 16).ct &&& (1 <<< (lz5Init [0, 0x20, 3, 0] 16).cts) = 0 ∧
      ([0, 0x20, 3, 0] : List Nat).getD (lz5Init [0, 0x20, 3, 0] 16).i 0 &&& 0x1f = 0 ∧
      (lz5Step [0, 0x20, 3, 0] 4 16 (lz5Init [0, 0x20, 3, 0] 16)).j = 1 ∧
      (lz5Next [0, 0x20, 3, 0] 4 (lz5LongRun [0, 0x20, 3, 0] 4 16 (lz5Init [0, 0x20, 3, 0] 16))).j
        = 11) ∧
    ((lz5Init [0, 0x05, 3, 0] 16).ct &&& (1 <<< (lz5Init [0, 0x05, 3, 0] 16).cts) = 0 ∧
      ([0, 0x05, 3, 0] : List Nat).getD (lz5Init [0, 0x05, 3, 0] 16).i 0 &&& 0x1f ≠ 0 ∧
      (lz5Step [0, 0x05, 3, 0] 4 16 (lz5Init [0, 0x05, 3, 0] 16)).j = 11 ∧
      (lz5Step [0, 0x05, 3, 0] 4 16 (lz5Init [0, 0x05, 3, 0] 16)).dst
        = List.replicate 11 5 ++ List.replicate 5 0 ∧
      (lz5Next [0, 0x05, 3, 0] 4 (lz5ShortRun [0, 0x05, 3, 0] 4 16 (lz5Init [0, 0x05, 3, 0] 16))).j
        = 0) := by
  decide

/-- C26 (amended): in `Lz5Decode`, when the current control bit is clear, a
token byte whose high 3 bits are zero is decoded as an extended literal run of
(next source byte + 8) pixels whose value is the token (its low 5 bits), and
any other token byte as a short literal run of (high 3 bits) pixels whose value
is the token's low 5 bits; in both cases the run writes one repeated value from
the output position on and is clipped to the buffer. -/
theorem lz5_literal_forms (src : List Nat) (srcLen dstLen : Nat) (st : Lz5State)
    (hc : st.ct &&& (1 <<< st.cts) = 0) (hl : st.dst.length = dstLen) (hj : st.j ≤ dstLen) :
    (src.getD st.i 0 &&& 0xe0 = 0 →
      lz5Step src srcLen dstLen st = lz5Next src srcLen (lz5LongRun src srcLen dstLen st)) ∧
    (src.getD st.i 0 &&& 0xe0 ≠ 0 →
      lz5Step src srcLen dstLen st = lz5Next src srcLen (lz5ShortRun src srcLen dstLen st)) ∧
    (st.i + 2 < srcLen → src.getD st.i 0 < 256 → src.getD st.i 0 &&& 0xe0 = 0 →
      lz5LongRun src srcLen dstLen st =
        { st with
          i := st.i + 2
          j := min (st.j + (src.getD (st.i + 1) 0 + 8)) dstLen
          dst := st.dst.take st.j ++
            List.replicate (min (st.j + (src.getD (st.i + 1) 0 + 8)) dstLen - st.j)
              (src.getD st.i 0 &&& 0x1f) ++
            st.dst.drop (min (st.j + (src.getD (st.i + 1) 0 + 8)) dstLen) }) ∧
    (st.i + 1 < srcLen →
      lz5ShortRun src srcLen dstLen st =
        { st with
          i := st.i + 1
          j := min (st.j + (src.getD st.i 0 >>> 5)) dstLen
          dst := st.dst.take st.j ++
            List.replicate (min (st.j + (src.getD st.i 0 >>> 5)) dstLen - st.j)
              (src.getD st.i 0 &&& 0x1f) ++
            st.dst.drop (min (st.j + (src.getD st.i 0 >>> 5)) dstLen) }) := by
  refine ⟨?_, ?_, ?_, ?_⟩
  · intro h
    rw [lz5Step_forms, if_neg (by simpa using hc), if_pos h]
  · intro h
    rw [lz5Step_forms, if_neg (by simpa using hc), if_neg h]
  · intro h hb hz
    unfold lz5LongRun
    simp only [adv_lt srcLen st.i (by omega), adv_lt srcLen (st.i + 1) (by omega),
      fillRun_clip dstLen _ _ st.j st.dst hl hj, low5_of_high3_zero _ hb hz]
  · intro h
    unfold lz5ShortRun
    simp only [adv_lt srcLen st.i (by omega), fillRun_clip dstLen _ _ st.j st.dst hl hj,
      and_1f_mod]

/-- From the start of `[0, 0x05, 3, 0]` with 16 pixels, 11 pixels of value 5
are written; from the start of `[0, 0x47, 0, 0]`, 2 pixels of value 7. -/
theorem lz5_literal_forms_witness :
    ((lz5Step [0, 0x05, 3, 0] 4 16 (lz5Init [0, 0x05, 3, 0] 16)).j = 11 ∧
      (lz5Step [0, 0x05, 3, 0] 4 16 (lz5Init [0, 0x05, 3, 0] 16)).dst
        = List.replicate 11 5 ++ List.replicate 5 0) ∧
    ((lz5Step [0, 0x47, 0, 0] 4 16 (lz5Init [0, 0x47, 0, 0] 16)).j = 2 ∧
      (lz5Step [0, 0x47, 0, 0] 4 16 (lz5Init [0, 0x47, 0, 0] 16)).dst
        = List.replicate 2 7 ++ List.replicate 14 0) := by
  have h1 := (lz5_literal_forms [0, 0x05, 3, 0] 4 16 (lz5Init [0, 0x05, 3, 0] 16)
    (by decide) (by decide) (by decide)).1 (by decide)
  have h2 := (lz5_literal_forms [0, 0x47, 0, 0] 4 16 (lz5Init [0, 0x47, 0, 0] 16)
    (by decide) (by decide) (by decide)).2.1 (by decide)
  rw [h1, h2]
  decide

/-! ## Termination of RlePcxDecode, Rle5Decode and Lz5Decode (C24) -/

theorem pcxLoop_succ (src : List Nat) (srcLen dstLen fuel i j : Nat) (dst : List Nat) :
    pcxLoop src srcLen dstLen (fuel + 1) i j dst =
      if i < srcLen ∧ j < dstLen then
        match pcxIter src srcLen dstLen i j dst with
        | none => some (j, dst)
        | some (i', j', dst') => pcxLoop src srcLen dstLen fuel i' j' dst'
      else some (j, dst) := by
  rw [pcxLoop]
  unfold pcxIter
  simp only []
  split
  · split
    · split <;> rfl
    · rfl
  · rfl

theorem rle5Loop_succ (src : List Nat) (srcLen dstLen fuel i j : Nat) (dst : List Nat) :
    rle5Loop src srcLen dstLen (fuel + 1) i j dst =
      if j < dstLen then
        match rle5Packet src srcLen dstLen i j dst with
        | none => none
        | some (i', j', dst') => rle5Loop src srcLen dstLen fuel i' j' dst'
      else some dst := by
  rw [rle5Loop]
  rfl

theorem getD_lt (src : List Nat) (hb : ∀ b ∈ src, b < 256) (i : Nat) : src.getD i 0 < 256 :=
  byteAt_lt src hb i

theorem fillRun_mono (dstLen v : Nat) (n : Nat) :
    ∀ (j : Nat) (dst : List Nat), j ≤ (fillRun dstLen v n j dst).1 ∧
      (1 ≤ n → j < dstLen → j < (fillRun dstLen v n j dst).1) := by
  induction n with
  | zero => intro j dst; exact ⟨Nat.le_refl _, fun h => absurd h (by omega)⟩
  | succ n ih =>
    intro j dst
    simp only [fillRun]
    split
    · have := (ih (j + 1) (dst.set j v)).1
      exact ⟨by omega, fun _ _ => by omega⟩
    · rename_i h
      exact ⟨(ih j dst).1, fun _ hj => absurd hj h⟩

theorem lz5Copy_mono (dstLen d : Nat) (count : Nat) :
    ∀ (j : Nat) (dst : List Nat) (tr : List CopyStep), j ≤ (lz5Copy dstLen d count j dst tr).1 ∧
      (1 ≤ count → j < dstLen → j < (lz5Copy dstLen d count j dst tr).1) := by
  induction count with
  | zero => intro j dst tr; exact ⟨Nat.le_refl _, fun h => absurd h (by omega)⟩
  | succ count ih =>
    intro j dst tr
    simp only [lz5Copy]
    split
    · have := (ih (j + 1) (dst.set j (dst.getD (j - d) 0)) (tr ++ [⟨j, d⟩])).1
      exact ⟨by omega, fun _ _ => by omega⟩
    · split
      · have := (ih (j + 1) (dst.set j 0) (tr ++ [⟨j, d⟩])).1
        exact ⟨by omega, fun _ _ => by omega⟩
      · rename_i h
        exact ⟨(ih j dst tr).1, fun _ hj => absurd hj h⟩

theorem pcxIter_consumes (src : List Nat) (srcLen dstLen i j : Nat) (dst : List Nat)
    (i' j' : Nat) (dst' : List Nat) (h : pcxIter src srcLen dstLen i j dst = some (i', j', dst')) :
    i < i' := by
  unfold pcxIter at h
  simp only [] at h
  split at h
  · split at h
    · simp only [Option.some.injEq, Prod.mk.injEq] at h
      omega
    · simp at h
  · simp only [Option.some.injEq, Prod.mk.injEq] at h
    omega

theorem pcxLoop_some (src : List Nat) (srcLen dstLen : Nat) (fuel : Nat) :
    ∀ (i j : Nat) (dst : List Nat), srcLen ≤ i + fuel →
      ∃ r, pcxLoop src srcLen dstLen fuel i j dst = some r := by
  induction fuel with
  | zero =>
    intro i j dst h
    simp only [pcxLoop]
    rw [if_neg (by omega)]
    exact ⟨_, rfl⟩
  | succ fuel ih =>
    intro i j dst h
    rw [pcxLoop_succ]
    split
    · rcases hit : pcxIter src srcLen dstLen i j dst with _ | ⟨i', j', dst'⟩
      · exact ⟨_, rfl⟩
      · have := pcxIter_consumes src srcLen dstLen i j dst i' j' dst' hit
        exact ih i' j' dst' (by omega)
    · exact ⟨_, rfl⟩

theorem shift5_le (b : Nat) (h : b < 256) : b >>> 5 ≤ 7 := by
  rw [Nat.shiftRight_eq_div_pow]
  omega

theorem rle5Inner_some (src : List Nat) (srcLen dstLen : Nat) (hb : ∀ b ∈ src, b < 256)
    (fuel : Nat) :
    ∀ (rl dl : Int) (c i j : Nat) (dst : List Nat), 0 ≤ rl → 0 ≤ dl →
      rl.toNat + 1 + 8 * dl.toNat ≤ fuel →
      ∃ r, rle5Inner src srcLen dstLen fuel rl dl c i j dst = some r ∧
        (if j < dstLen then j + 1 else j) ≤ r.2.1 := by
  induction fuel with
  | zero =>
    intro rl dl c i j dst _ _ h
    omega
  | succ fuel ih =>
    intro rl dl c i j dst hrl hdl h
    rw [rle5Inner]
    simp only []
    by_cases h1 : rl - 1 < 0
    · rw [if_pos h1]
      by_cases h2 : dl - 1 < 0
      · rw [if_pos h2]
        refine ⟨_, rfl, ?_⟩
        split <;> simp
      · rw [if_neg h2]
        have hs := shift5_le _ (getD_lt src hb i)
        obtain ⟨r, hr1, hr2⟩ := ih ((src.getD i 0 >>> 5 : Nat) : Int) (dl - 1)
          (src.getD i 0 &&& 0x1f) (adv srcLen i)
          (if j < dstLen then (j + 1, dst.set j c) else (j, dst)).1
          (if j < dstLen then (j + 1, dst.set j c) else (j, dst)).2
          (by omega) (by omega) (by omega)
        refine ⟨r, hr1, ?_⟩
        by_cases hj : j < dstLen
        · simp only [hj, if_true] at hr2 ⊢
          split at hr2 <;> omega
        · simp only [hj, if_false] at hr2 ⊢
          omega
    · rw [if_neg h1]
      obtain ⟨r, hr1, hr2⟩ := ih (rl - 1) dl c i
        (if j < dstLen then (j + 1, dst.set j c) else (j, dst)).1
        (if j < dstLen then (j + 1, dst.set j c) else (j, dst)).2
        (by omega) hdl (by omega)
      refine ⟨r, hr1, ?_⟩
      by_cases hj : j < dstLen
      · simp only [hj, if_true] at hr2 ⊢
        split at hr2 <;> omega
      · simp only [hj, if_false] at hr2 ⊢
        omega

theorem rle5Packet_some (src : List Nat) (srcLen dstLen : Nat) (hb : ∀ b ∈ src, b < 256)
    (i j : Nat) (dst : List Nat) :
    ∃ r, rle5Packet src srcLen dstLen i j dst = some r ∧ (j < dstLen → j < r.2.1) := by
  unfold rle5Packet
  simp only []
  obtain ⟨r, hr1, hr2⟩ := rle5Inner_some src srcLen dstLen hb
    (((src.getD i 0 : Nat) : Int).toNat
      + 8 * ((src.getD (adv srcLen i) 0 &&& 0x7f : Nat) : Int).toNat + 2)
    ((src.getD i 0 : Nat) : Int) ((src.getD (adv srcLen i) 0 &&& 0x7f : Nat) : Int)
    (if src.getD (adv srcLen i) 0 >>> 7 ≠ 0
      then src.getD (if src.getD (adv srcLen i) 0 >>> 7 ≠ 0
        then adv srcLen (adv srcLen i) else adv srcLen i) 0 else 0)
    (adv srcLen (if src.getD (adv srcLen i) 0 >>> 7 ≠ 0
      then adv srcLen (adv srcLen i) else adv srcLen i))
    j dst (by omega) (by omega) (by omega)
  refine ⟨r, hr1, ?_⟩
  intro hj
  rw [if_pos hj] at hr2
  omega

theorem rle5Loop_some (src : List Nat) (srcLen dstLen : Nat) (hb : ∀ b ∈ src, b < 256)
    (fuel : Nat) :
    ∀ (i j : Nat) (dst : List Nat), dstLen ≤ j + fuel →
      ∃ d, rle5Loop src srcLen dstLen fuel i j dst = some d := by
  induction fuel with
  | zero =>
    intro i j dst h
    simp only [rle5Loop]
    rw [if_neg (by omega)]
    exact ⟨_, rfl⟩
  | succ fuel ih =>
    intro i j dst h
    rw [rle5Loop_succ]
    split
    · rename_i hj
      obtain ⟨r, hr1, hr2⟩ := rle5Packet_some src srcLen dstLen hb i j dst
      obtain ⟨i', j', dst'⟩ := r
      rw [hr1]
      have := hr2 hj
      exact ih i' j' dst' (by simp only [] at this; omega)
    · exact ⟨_, rfl⟩

theorem lz5Next_j (src : List Nat) (srcLen : Nat) (st : Lz5State) :
    (lz5Next src srcLen st).j = st.j := by
  unfold lz5Next
  simp only []
  split <;> rfl

theorem lz5Step_progress (src : List Nat) (srcLen dstLen : Nat) (st : Lz5State)
    (h : st.j < dstLen) : st.j < (lz5Step src srcLen dstLen st).j := by
  rw [lz5Step_forms, lz5Next_j]
  split
  · split
    · exact (lz5Copy_mono dstLen _ _ st.j st.dst st.trace).2 (by omega) h
    · unfold lz5ShortRef
      simp only []
      split
      · exact (lz5Copy_mono dstLen _ _ st.j st.dst st.trace).2 (by omega) h
      · exact (lz5Copy_mono dstLen _ _ st.j st.dst st.trace).2 (by omega) h
  · split
    · exact (fillRun_mono dstLen _ _ st.j st.dst).2 (by omega) h
    · rename_i hne
      exact (fillRun_mono dstLen _ _ st.j st.dst).2 (shift5_pos _ hne) h

theorem lz5Loop_some (src : List Nat) (srcLen dstLen : Nat) (fuel : Nat) :
    ∀ st : Lz5State, dstLen ≤ st.j + fuel →
      ∃ st', lz5Loop src srcLen dstLen fuel st = some st' := by
  induction fuel with
  | zero =>
    intro st h
    simp only [lz5Loop]
    rw [if_neg (by omega)]
    exact ⟨_, rfl⟩
  | succ fuel ih =>
    intro st h
    simp only [lz5Loop]
    split
    · rename_i hj
      have := lz5Step_progress src srcLen dstLen st hj
      exact ih _ (by omega)
    · exact ⟨_, rfl⟩

theorem RlePcxDecode_no_hang (s : Sprite) (src : List Nat) : RlePcxDecode s src ≠ .err .hang := by
  unfold RlePcxDecode
  split
  · simp
  · cases dstLenOf s with
    | none => simp
    | some dstLen =>
      obtain ⟨r, hr⟩ := pcxLoop_some src src.length dstLen src.length 0 0
        (List.replicate dstLen 0) (by omega)
      simp only [hr]
      simp

theorem Rle5Decode_no_hang (s : Sprite) (src : List Nat) (hb : ∀ b ∈ src, b < 256) :
    Rle5Decode s src ≠ .err .hang := by
  unfold Rle5Decode
  split
  · simp
  · cases dstLenOf s with
    | none => simp
    | some dstLen =>
      obtain ⟨r, hr⟩ := rle5Loop_some src src.length dstLen hb dstLen 0 0
        (List.replicate dstLen 0) (by omega)
      simp only [hr]
      simp

theorem Lz5Run_no_hang (s : Sprite) (src : List Nat) : Lz5Run s src ≠ .err .hang := by
  unfold Lz5Run
  split
  · simp
  · cases dstLenOf s with
    | none => simp
    | some dstLen =>
      obtain ⟨r, hr⟩ := lz5Loop_some src src.length dstLen dstLen (lz5Init src dstLen)
        (by omega)
      simp only [hr]
      simp

theorem Lz5Decode_no_hang (s : Sprite) (src : List Nat) : Lz5Decode s src ≠ .err .hang := by
  have h := Lz5Run_no_hang s src
  unfold Lz5Decode
  cases hr : Lz5Run s src with
  | ok st => simp
  | err e =>
    rw [hr] at h
    simpa using h

/-- C24: for every source of bytes and every width and height, `RlePcxDecode`,
`Rle5Decode` and `Lz5Decode` do not run for ever.  An iteration of the outer
loop of `RlePcxDecode` that does not `break` moves the cursor up, so the loop
is over after at most `srcLen` iterations; an iteration of the outer loop of
`Rle5Decode` (whose inner loop ends) and of the loop of `Lz5Decode` entered
with output position `j` below the buffer length moves `j` up, so these loops
are over after at most as many iterations as the buffer has bytes.  This holds
for every buffer length. -/
theorem decoders_terminate (s : Sprite) (src : List Nat) (hb : ∀ b ∈ src, b < 256) :
    (RlePcxDecode s src ≠ .err .hang ∧ Rle5Decode s src ≠ .err .hang ∧
      Lz5Decode s src ≠ .err .hang) ∧
    (∀ (dstLen i j : Nat) (dst : List Nat) (i' j' : Nat) (dst' : List Nat),
      pcxIter src src.length dstLen i j dst = some (i', j', dst') → i < i') ∧
    (∀ (dstLen fuel i j : Nat) (dst : List Nat), src.length ≤ i + fuel →
      ∃ r, pcxLoop src src.length dstLen fuel i j dst = some r) ∧
    (∀ (dstLen i j : Nat) (dst : List Nat),
      ∃ r, rle5Packet src src.length dstLen i j dst = some r ∧ (j < dstLen → j < r.2.1)) ∧
    (∀ (dstLen fuel i j : Nat) (dst : List Nat), dstLen ≤ j + fuel →
      ∃ d, rle5Loop src src.length dstLen fuel i j dst = some d) ∧
    (∀ (dstLen : Nat) (st : Lz5State), st.j < dstLen →
      st.j < (lz5Step src src.length dstLen st).j) ∧
    (∀ (dstLen fuel : Nat) (st : Lz5State), dstLen ≤ st.j + fuel →
      ∃ st', lz5Loop src src.length dstLen fuel st = some st') :=
  ⟨⟨RlePcxDecode_no_hang s src, Rle5Decode_no_hang s src hb, Lz5Decode_no_hang s src⟩,
   fun dstLen i j dst i' j' dst' h => pcxIter_consumes src src.length dstLen i j dst i' j' dst' h,
   fun dstLen fuel i j dst h => pcxLoop_some src src.length dstLen fuel i j dst h,
   fun dstLen i j dst => rle5Packet_some src src.length dstLen hb i j dst,
   fun dstLen fuel i j dst h => rle5Loop_some src src.length dstLen hb fuel i j dst h,
   fun dstLen st h => lz5Step_progress src src.length dstLen st h,
   fun dstLen fuel st h => lz5Loop_some src src.length dstLen fuel st h⟩

/-- On the three-byte source 0xc3 0x07 0x09 and a 2x2 sprite none of the three
decoders runs for ever, and the PCX loop is over within three iterations. -/
theorem decoders_terminate_witness :
    (∀ b ∈ [195, 7, 9], b < 256) ∧
    (RlePcxDecode sprite2x2 [195, 7, 9] ≠ .err .hang ∧
      Rle5Decode sprite2x2 [195, 7, 9] ≠ .err .hang ∧
      Lz5Decode sprite2x2 [195, 7, 9] ≠ .err .hang) ∧
    (∃ r, pcxLoop [195, 7, 9] 3 4 3 0 0 [0, 0, 0, 0] = some r) :=
  ⟨by decide, (decoders_terminate sprite2x2 [195, 7, 9] (by decide)).1,
   (decoders_terminate sprite2x2 [195, 7, 9] (by decide)).2.2.1 4 3 0 0 [0, 0, 0, 0]
     (by decide)⟩

/-! ## RlePcxDecode as an expansion (C22) -/

theorem pcxExpand_lit (b : Nat) (rest : List Nat) (h : ¬ b &&& 0xC0 = 0xC0) :
    pcxExpand (b :: rest) = b :: pcxExpand rest := by
  cases rest with
  | nil => simp [pcxExpand, h]
  | cons v rest => simp [pcxExpand, h]

theorem pcxExpand_run (b v : Nat) (rest : List Nat) (h : b &&& 0xC0 = 0xC0) :
    pcxExpand (b :: v :: rest) = List.replicate (b &&& 0x3F) v ++ pcxExpand rest := by
  simp [pcxExpand, h]

theorem pcxExpand_end (b : Nat) (h : b &&& 0xC0 = 0xC0) : pcxExpand [b] = [] := by
  simp [pcxExpand, h]

theorem take_run_append (n v m : Nat) (E : List Nat) :
    (List.replicate n v ++ E).take m = List.replicate (min (m) n) v ++ E.take (m - n) := by
  rw [List.take_append_eq_append_take, List.take_replicate, List.length_replicate]

theorem getD_append_mid (pre : List Nat) (b : Nat) (rest : List Nat) :
    (pre ++ b :: rest).getD pre.length 0 = b := by
  rw [List.getD_eq_getElem?_getD, List.getElem?_append_right (Nat.le_refl _)]
  simp

theorem pcx_step (dstLen n v j : Nat) (dst dst' E' : List Nat) (j' : Nat)
    (hl : dst.length = dstLen) (hj : j ≤ dstLen)
    (hj' : j' = min (j + n) dstLen + (E'.take (dstLen - min (j + n) dstLen)).length)
    (ht : dst'.take j' =
      (dst.take j ++ List.replicate (min (j + n) dstLen - j) v ++ dst.drop (min (j + n) dstLen)).take
        (min (j + n) dstLen) ++ E'.take (dstLen - min (j + n) dstLen)) :
    j' = j + ((List.replicate n v ++ E').take (dstLen - j)).length ∧
    dst'.take j' = dst.take j ++ (List.replicate n v ++ E').take (dstLen - j) := by
  have e1 : min (dstLen - j) n = min (j + n) dstLen - j := by omega
  have e2 : dstLen - j - n = dstLen - min (j + n) dstLen := by omega
  rw [take_run_append, e1, e2]
  refine ⟨?_, ?_⟩
  · rw [hj', List.length_append, List.length_replicate]
    omega
  · rw [ht, List.take_append_eq_append_take, List.take_append_eq_append_take]
    simp only [List.length_take, List.length_append, List.length_replicate, hl]
    have e3 : min (j + n) dstLen - min j dstLen = min (j + n) dstLen - j := by omega
    have e4 : min (j + n) dstLen - (min j dstLen + (min (j + n) dstLen - j)) = 0 := by omega
    rw [e3, e4, List.take_take, List.take_replicate]
    have e5 : min (min (j + n) dstLen) j = j := by omega
    rw [e5]
    simp

theorem pcxLoop_expand (dstLen : Nat) (fuel : Nat) :
    ∀ (suf pre : List Nat) (j : Nat) (dst : List Nat), suf.length ≤ fuel →
      dst.length = dstLen → j ≤ dstLen →
      ∃ dst', pcxLoop (pre ++ suf) (pre ++ suf).length dstLen fuel pre.length j dst
          = some (j + ((pcxExpand suf).take (dstLen - j)).length, dst') ∧
        dst'.length = dstLen ∧
        dst'.take (j + ((pcxExpand suf).take (dstLen - j)).length)
          = dst.take j ++ (pcxExpand suf).take (dstLen - j) := by
  induction fuel with
  | zero =>
    intro suf pre j dst hf hl hj
    have hs : suf = [] := List.eq_nil_of_length_eq_zero (by omega)
    subst hs
    simp only [pcxLoop, List.append_nil]
    rw [if_neg (by omega)]
    exact ⟨dst, by simp [pcxExpand], hl, by simp [pcxExpand]⟩
  | succ fuel ih =>
    intro suf pre j dst hf hl hj
    rw [pcxLoop_succ]
    by_cases hjd : j < dstLen
    · cases suf with
      | nil =>
        rw [if_neg (by simp)]
        exact ⟨dst, by simp [pcxExpand], hl, by simp [pcxExpand]⟩
      | cons b rest =>
        rw [if_pos ⟨by simp, hjd⟩]
        unfold pcxIter
        simp only [getD_append_mid]
        by_cases hm : b &&& 0xC0 = 0xC0
        · rw [if_pos hm]
          cases rest with
          | nil =>
            rw [if_neg (by simp)]
            exact ⟨dst, by simp [pcxExpand_end b hm], hl, by simp [pcxExpand_end b hm]⟩
          | cons v rest =>
            rw [if_pos (by simp)]
            have hv : (pre ++ b :: v :: rest).getD (pre.length + 1) 0 = v := by
              have := getD_append_mid (pre ++ [b]) v rest
              simpa using this
            simp only [hv, fillRun_clip dstLen v (b &&& 0x3F) j dst hl hj]
            obtain ⟨dst', h1, h2, h3⟩ := ih rest (pre ++ [b, v]) (min (j + (b &&& 0x3F)) dstLen)
              (dst.take j ++ List.replicate (min (j + (b &&& 0x3F)) dstLen - j) v
                ++ dst.drop (min (j + (b &&& 0x3F)) dstLen))
              (by simp only [List.length_cons] at hf; omega)
              (by simp only [List.length_append, List.length_take, List.length_replicate,
                    List.length_drop, hl]; omega)
              (by omega)
            have ea : pre ++ [b, v] ++ rest = pre ++ b :: v :: rest := by simp
            have el : (pre ++ [b, v]).length = pre.length + 1 + 1 := by simp
            rw [ea, el] at h1
            obtain ⟨k1, k2⟩ := pcx_step dstLen (b &&& 0x3F) v j dst dst' (pcxExpand rest) _
              hl hj rfl h3
            rw [pcxExpand_run b v rest hm, ← k1]
            exact ⟨dst', h1, h2, k2⟩
        · rw [if_neg hm]
          simp only [fillRun_clip dstLen b 1 j dst hl hj]
          obtain ⟨dst', h1, h2, h3⟩ := ih rest (pre ++ [b]) (min (j + 1) dstLen)
            (dst.take j ++ List.replicate (min (j + 1) dstLen - j) b
              ++ dst.drop (min (j + 1) dstLen))
            (by simp only [List.length_cons] at hf; omega)
            (by simp only [List.length_append, List.length_take, List.length_replicate,
                  List.length_drop, hl]; omega)
            (by omega)
          have ea : pre ++ [b] ++ rest = pre ++ b :: rest := by simp
          have el : (pre ++ [b]).length = pre.length + 1 := by simp
          rw [ea, el] at h1
          obtain ⟨k1, k2⟩ := pcx_step dstLen 1 b j dst dst' (pcxExpand rest) _ hl hj rfl h3
          have e1 : List.replicate 1 b ++ pcxExpand rest = pcxExpand (b :: rest) := by
            rw [pcxExpand_lit b rest hm]; rfl
          rw [e1] at k1 k2
          rw [← k1]
          exact ⟨dst', h1, h2, k2⟩
    · rw [if_neg (by omega)]
      have e : dstLen - j = 0 := by omega
      rw [e]
      exact ⟨dst, by simp, hl, by simp⟩

theorem RlePcxDecode_expand (s : Sprite) (src : List Nat) (hs : src ≠ [])
    (h2 : s.Size0 * s.Size1 < 2 ^ 31) :
    RlePcxDecode s src = .ok ((pcxExpand src).take (s.Size0 * s.Size1) ++
      List.replicate (s.Size0 * s.Size1 - (pcxExpand src).length) 0) := by
  unfold RlePcxDecode
  rw [if_neg (by simpa using hs), dstLenOf_eq s h2]
  simp only []
  obtain ⟨dst', h1, hl, h3⟩ := pcxLoop_expand (s.Size0 * s.Size1) src.length src [] 0
    (List.replicate (s.Size0 * s.Size1) 0) (Nat.le_refl _) (List.length_replicate _ _)
    (Nat.zero_le _)
  simp only [List.nil_append, List.length_nil, Nat.zero_add, Nat.sub_zero, List.take_zero] at h1 h3
  rw [h1]
  simp only []
  congr 1
  rw [List.length_take] at h3 ⊢
  split
  · rename_i hlt
    rw [h3]
    congr 2
    omega
  · rename_i hge
    have e1 : min (s.Size0 * s.Size1) (pcxExpand src).length = s.Size0 * s.Size1 := by omega
    have e2 : s.Size0 * s.Size1 - (pcxExpand src).length = 0 := by omega
    rw [e1] at h3
    rw [e2, ← h3, List.take_of_length_le (by omega)]
    simp

theorem RlePcxDecode_overflow (w h : Nat) (src : List Nat) (hs : src ≠ [])
    (hw : 2 ^ 31 ≤ w * h) :
    RlePcxDecode { Sprite.init with Size0 := w, Size1 := h } src = .err .undefined := by
  unfold RlePcxDecode dstLenOf
  rw [if_neg (by simpa using hs)]
  simp only []
  rw [if_neg (by omega)]

/-- C22, as stated, fails for a sprite of 65535 x 65535 pixels: the `int`
product of the two sizes overflows and `RlePcxDecode` does not return the
zero-padded expansion of the one-byte source 0. -/
theorem RlePcxDecode_expand_overflow :
    ([0] : List Nat) ≠ [] ∧
    RlePcxDecode { Sprite.init with Size0 := 65535, Size1 := 65535 } [0]
      ≠ .ok ((pcxExpand [0]).take (65535 * 65535) ++
          List.replicate (65535 * 65535 - (pcxExpand [0]).length) 0) := by
  refine ⟨by simp, ?_⟩
  rw [RlePcxDecode_overflow 65535 65535 [0] (by simp) (by decide)]
  exact fun h => Res.noConfusion h

/-- C22 (amended): for every non-empty source `S` and every width and height
with width * height below 2^31, `RlePcxDecode` returns the first width * height
bytes of `pcxExpand S`, padded at the end with zero bytes up to length
width * height. -/
theorem RlePcxDecode_is_expand (s : Sprite) (src : List Nat) (hs : src ≠ [])
    (h2 : s.Size0 * s.Size1 < 2 ^ 31) :
    RlePcxDecode s src = .ok ((pcxExpand src).take (s.Size0 * s.Size1) ++
      List.replicate (s.Size0 * s.Size1 - (pcxExpand src).length) 0) ∧
    ((pcxExpand src).take (s.Size0 * s.Size1) ++
      List.replicate (s.Size0 * s.Size1 - (pcxExpand src).length) 0).length
        = s.Size0 * s.Size1 := by
  refine ⟨RlePcxDecode_expand s src hs h2, ?_⟩
  rw [List.length_append, List.length_take, List.length_replicate]
  omega

/-- For a 2x2 sprite: 0xc3 0x07 0x09 expands to 7 7 7 9; 0xc2 0x05 0xc1 expands
to 5 5 (the marker at the end is dropped) and is padded with two zero bytes;
0x01 0xc9 0x08 expands to eleven bytes, of which the first four are kept. -/
theorem RlePcxDecode_is_expand_witness :
    RlePcxDecode sprite2x2 [195, 7, 9] = .ok [7, 7, 7, 9] ∧
    RlePcxDecode sprite2x2 [194, 5, 193] = .ok [5, 5, 0, 0] ∧
    RlePcxDecode sprite2x2 [1, 201, 8] = .ok [1, 8, 8, 8] :=
  ⟨(RlePcxDecode_is_expand sprite2x2 [195, 7, 9] (by decide) (by decide)).1.trans (by decide),
   (RlePcxDecode_is_expand sprite2x2 [194, 5, 193] (by decide) (by decide)).1.trans (by decide),
   (RlePcxDecode_is_expand sprite2x2 [1, 201, 8] (by decide) (by decide)).1.trans (by decide)⟩

/-! ## Packets of Rle5Decode (C28, C29) -/

theorem rle5Packet_header (src : List Nat) (srcLen dstLen i j : Nat) (dst : List Nat) :
    rle5Packet src srcLen dstLen i j dst =
      rle5Inner src srcLen dstLen
        ((rle5Header src srcLen i).1.toNat + 8 * (rle5Header src srcLen i).2.1.toNat + 2)
        (rle5Header src srcLen i).1 (rle5Header src srcLen i).2.1 (rle5Header src srcLen i).2.2.1
        (rle5Header src srcLen i).2.2.2 j dst := rfl

theorem fillRun_clipPut (dstLen v n j : Nat) (dst : List Nat) (hl : dst.length = dstLen)
    (hj : j ≤ dstLen) : fillRun dstLen v n j dst = clipPut dstLen j dst (List.replicate n v) := by
  rw [fillRun_clip dstLen v n j dst hl hj]
  unfold clipPut
  rw [List.length_replicate, List.take_replicate]
  have e : min (dstLen - j) n = min (j + n) dstLen - j := by omega
  rw [e]

theorem clipPut_len (dstLen j : Nat) (dst out : List Nat) (hl : dst.length = dstLen)
    (hj : j ≤ dstLen) :
    (clipPut dstLen j dst out).2.length = dstLen ∧ (clipPut dstLen j dst out).1 ≤ dstLen ∧
      j ≤ (clipPut dstLen j dst out).1 := by
  unfold clipPut
  simp only [List.length_append, List.length_take, List.length_drop, hl]
  omega

theorem clipPut_append (dstLen j : Nat) (dst A B : List Nat) (hl : dst.length = dstLen)
    (hj : j ≤ dstLen) :
    clipPut dstLen (clipPut dstLen j dst A).1 (clipPut dstLen j dst A).2 B
      = clipPut dstLen j dst (A ++ B) := by
  unfold clipPut
  simp only [List.length_append]
  refine Prod.ext (by simp only []; omega) ?_
  simp only []
  have t1 : (dst.take j ++ A.take (dstLen - j) ++ dst.drop (min (j + A.length) dstLen)).take
      (min (j + A.length) dstLen) = dst.take j ++ A.take (dstLen - j) := by
    rw [List.take_append_eq_append_take, List.take_of_length_le
      (by simp only [List.length_append, List.length_take, hl]; omega)]
    simp only [List.length_append, List.length_take, hl]
    have e : min (j + A.length) dstLen - (min j dstLen + min (dstLen - j) A.length) = 0 := by omega
    rw [e]
    simp
  have t2 : (dst.take j ++ A.take (dstLen - j) ++ dst.drop (min (j + A.length) dstLen)).drop
      (min (min (j + A.length) dstLen + B.length) dstLen)
      = dst.drop (min (j + (A.length + B.length)) dstLen) := by
    rw [List.drop_append_eq_append_drop, List.drop_of_length_le
      (by simp only [List.length_append, List.length_take, hl]; omega)]
    simp only [List.length_append, List.length_take, hl, List.nil_append, List.drop_drop]
    congr 1
    omega
  have t3 : (A ++ B).take (dstLen - j) = A.take (dstLen - j) ++ B.take (dstLen - min (j + A.length) dstLen) := by
    rw [List.take_append_eq_append_take]
    congr 2
    omega
  rw [t1, t2, t3]
  simp

theorem rle5Inner_run (src : List Nat) (srcLen dstLen : Nat) (dl : Int) (c i : Nat) (r : Nat) :
    ∀ (fuel j : Nat) (dst : List Nat),
      rle5Inner src srcLen dstLen (fuel + r) (r : Int) dl c i j dst =
        rle5Inner src srcLen dstLen fuel 0 dl c i (fillRun dstLen c r j dst).1
          (fillRun dstLen c r j dst).2 := by
  induction r with
  | zero => intro fuel j dst; rfl
  | succ r ih =>
    intro fuel j dst
    have e : fuel + (r + 1) = fuel + r + 1 := by omega
    rw [e, rle5Inner]
    simp only []
    rw [if_neg (by push_cast; omega)]
    have e2 : ((r + 1 : Nat) : Int) - 1 = (r : Int) := by push_cast; omega
    rw [e2, ih]
    simp only [fillRun]
    split <;> rfl

theorem write_clipPut (dstLen c j : Nat) (dst : List Nat) (hl : dst.length = dstLen)
    (hj : j ≤ dstLen) :
    (if j < dstLen then (j + 1, dst.set j c) else (j, dst)) = clipPut dstLen j dst [c] := by
  have h := fillRun_clipPut dstLen c 1 j dst hl hj
  rw [show List.replicate 1 c = [c] from rfl] at h
  rw [← h]
  by_cases hlt : j < dstLen <;> simp [fillRun, hlt]

theorem rle5Inner_data (dstLen : Nat) (post : List Nat) (ds : List Nat) :
    ∀ (pre : List Nat) (c i j : Nat) (dst : List Nat) (fuel : Nat),
      (ds ≠ [] ∨ post ≠ [] → i = pre.length) → 1 + 8 * ds.length ≤ fuel →
      (∀ d ∈ ds, d < 256) → dst.length = dstLen → j ≤ dstLen →
      ∃ i', rle5Inner (pre ++ ds ++ post) (pre ++ ds ++ post).length dstLen fuel 0
            (ds.length : Int) c i j dst
          = some (i', (clipPut dstLen j dst ([c] ++ (ds.map rle5Run).flatten)).1,
              (clipPut dstLen j dst ([c] ++ (ds.map rle5Run).flatten)).2) ∧
        (post ≠ [] → i' = pre.length + ds.length) := by
  induction ds with
  | nil =>
    intro pre c i j dst fuel hi hf hb hl hj
    obtain ⟨f, rfl⟩ : ∃ f, fuel = f + 1 := ⟨fuel - 1, by omega⟩
    rw [rle5Inner]
    simp only [List.length_nil, Int.ofNat_zero, Nat.cast_zero]
    rw [if_pos (by omega), if_pos (by omega)]
    refine ⟨i, ?_, fun hp => by rw [hi (Or.inr hp)]; simp⟩
    simp only [List.map_nil, List.flatten_nil, List.append_nil]
    rw [write_clipPut dstLen c j dst hl hj]
  | cons d ds ih =>
    intro pre c i j dst fuel hi hf hb hl hj
    obtain ⟨f, rfl⟩ : ∃ f, fuel = f + 1 := ⟨fuel - 1, by omega⟩
    have hipre : i = pre.length := hi (Or.inl (by simp))
    subst hipre
    have hd : d < 256 := hb d (by simp)
    have hr := shift5_le d hd
    rw [rle5Inner]
    simp only []
    rw [if_pos (by omega), if_neg (by simp only [List.length_cons]; push_cast; omega)]
    have hsrc : (pre ++ d :: ds ++ post).getD pre.length 0 = d := by
      rw [List.append_assoc]
      exact getD_append_mid pre d (ds ++ post)
    rw [hsrc]
    have e1 : ((d :: ds).length : Int) - 1 = (ds.length : Int) := by
      simp only [List.length_cons]; push_cast; omega
    rw [e1]
    rw [write_clipPut dstLen c j dst hl hj]
    obtain ⟨l1, l2, l3⟩ := clipPut_len dstLen j dst [c] hl hj
    have ef : f = (f - d >>> 5) + d >>> 5 := by
      simp only [List.length_cons] at hf; omega
    rw [ef, rle5Inner_run, fillRun_clipPut dstLen _ _ _ _ l1 l2, clipPut_append dstLen j dst _ _ hl hj]
    obtain ⟨m1, m2, m3⟩ := clipPut_len dstLen j dst ([c] ++ List.replicate (d >>> 5) (d &&& 0x1f)) hl hj
    have esrc : pre ++ d :: ds ++ post = (pre ++ [d]) ++ ds ++ post := by simp
    obtain ⟨i', h1, h2⟩ := ih (pre ++ [d]) (d &&& 0x1f)
      (adv (pre ++ d :: ds ++ post).length pre.length)
      (clipPut dstLen j dst ([c] ++ List.replicate (d >>> 5) (d &&& 0x1f))).1
      (clipPut dstLen j dst ([c] ++ List.replicate (d >>> 5) (d &&& 0x1f))).2
      (f - d >>> 5)
      (by
        intro hne
        have hlen : 0 < ds.length + post.length := by
          rcases hne with hne | hne
          · have := List.length_pos.2 hne; omega
          · have := List.length_pos.2 hne; omega
        rw [adv_lt _ _ (by simp only [List.length_append, List.length_cons]; omega)]
        simp)
      (by simp only [List.length_cons] at hf; omega)
      (fun x hx => hb x (by simp [hx])) m1 m2
    rw [← esrc] at h1
    refine ⟨i', ?_, fun hp => by rw [h2 hp]; simp; omega⟩
    rw [h1, clipPut_append dstLen j dst _ _ hl hj]
    have eo : [c] ++ List.replicate (d >>> 5) (d &&& 0x1f)
          ++ ([d &&& 0x1f] ++ (ds.map rle5Run).flatten)
        = [c] ++ ((d :: ds).map rle5Run).flatten := by
      simp only [List.map_cons, List.flatten_cons, rle5Run, List.replicate_succ',
        List.append_assoc]
    rw [eo]

theorem rle5Inner_body (dstLen : Nat) (pre ds post : List Nat) (r c i j : Nat) (dst : List Nat)
    (hi : ds ≠ [] ∨ post ≠ [] → i = pre.length) (hb : ∀ d ∈ ds, d < 256)
    (hl : dst.length = dstLen) (hj : j ≤ dstLen) :
    ∃ i', rle5Inner (pre ++ ds ++ post) (pre ++ ds ++ post).length dstLen
          (r + 8 * ds.length + 2) (r : Int) (ds.length : Int) c i j dst
        = some (i',
            (clipPut dstLen j dst (List.replicate (r + 1) c ++ (ds.map rle5Run).flatten)).1,
            (clipPut dstLen j dst (List.replicate (r + 1) c ++ (ds.map rle5Run).flatten)).2) ∧
      (post ≠ [] → i' = pre.length + ds.length) := by
  have ef : r + 8 * ds.length + 2 = (8 * ds.length + 2) + r := by omega
  rw [ef, rle5Inner_run, fillRun_clipPut dstLen c r j dst hl hj]
  obtain ⟨l1, l2, _⟩ := clipPut_len dstLen j dst (List.replicate r c) hl hj
  obtain ⟨i', h1, h2⟩ := rle5Inner_data dstLen post ds pre c i
    (clipPut dstLen j dst (List.replicate r c)).1 (clipPut dstLen j dst (List.replicate r c)).2
    (8 * ds.length + 2) hi (by omega) hb l1 l2
  refine ⟨i', ?_, h2⟩
  rw [h1, clipPut_append dstLen j dst _ _ hl hj]
  have eo : List.replicate r c ++ ([c] ++ (ds.map rle5Run).flatten)
      = List.replicate (r + 1) c ++ (ds.map rle5Run).flatten := by
    rw [List.replicate_succ', List.append_assoc]
  rw [eo]

set_option maxRecDepth 100000 in
theorem rle5_ctrl_bits : ∀ n, n < 128 →
    (0x80 + n) &&& 0x7f = n ∧ (0x80 + n) >>> 7 ≠ 0 ∧ (0 + n) &&& 0x7f = n ∧ (0 + n) >>> 7 = 0 := by
  decide

theorem getD_append_at (pre : List Nat) (xs : List Nat) (k : Nat) :
    (pre ++ xs).getD (pre.length + k) 0 = xs.getD k 0 := by
  rw [List.getD_eq_getElem?_getD, List.getD_eq_getElem?_getD,
    List.getElem?_append_right (by omega)]
  simp

theorem rle5Packet_pkt (dstLen : Nat) (p : Rle5Pkt) (hv : p.valid = true) (pre post : List Nat)
    (j : Nat) (dst : List Nat) (hl : dst.length = dstLen) (hj : j ≤ dstLen) :
    ∃ i', rle5Packet (pre ++ p.encode ++ post) (pre ++ p.encode ++ post).length dstLen
          pre.length j dst
        = some (i', (clipPut dstLen j dst p.pixels).1, (clipPut dstLen j dst p.pixels).2) ∧
      (post ≠ [] → i' = pre.length + p.encode.length) := by
  obtain ⟨r, v, ds⟩ := p
  simp only [Rle5Pkt.valid, Bool.and_eq_true, decide_eq_true_eq, List.all_eq_true] at hv
  obtain ⟨⟨⟨hr, _⟩, hn⟩, hds⟩ := hv
  obtain ⟨b1, b2, b3, b4⟩ := rle5_ctrl_bits ds.length hn
  cases v with
  | none =>
    have henc : (⟨r, none, ds⟩ : Rle5Pkt).encode = [r, 0 + ds.length] ++ ds := by
      simp [Rle5Pkt.encode]
    have hsrc : pre ++ (⟨r, none, ds⟩ : Rle5Pkt).encode ++ post
        = (pre ++ [r, 0 + ds.length]) ++ ds ++ post := by
      rw [henc]; simp
    have hlen : (pre ++ [r, 0 + ds.length] ++ ds ++ post).length
        = pre.length + 2 + ds.length + post.length := by simp; omega
    have g0 : (pre ++ [r, 0 + ds.length] ++ ds ++ post).getD pre.length 0 = r := by
      have := getD_append_at pre ([r, 0 + ds.length] ++ ds ++ post) 0
      simpa using this
    have g1 : (pre ++ [r, 0 + ds.length] ++ ds ++ post).getD (pre.length + 1) 0
        = 0 + ds.length := by
      have := getD_append_at pre ([r, 0 + ds.length] ++ ds ++ post) 1
      simpa using this
    rw [hsrc]
    unfold rle5Packet
    simp only [hlen, g0, adv_lt (pre.length + 2 + ds.length + post.length) pre.length (by omega),
      g1, b3, b4, ne_eq, not_true_eq_false, if_false, Int.toNat_ofNat]
    obtain ⟨i', h1, h2⟩ := rle5Inner_body dstLen (pre ++ [r, 0 + ds.length]) ds post r 0
      (adv (pre.length + 2 + ds.length + post.length) (pre.length + 1)) j dst
      (by
        intro hne
        have hpos : 0 < ds.length + post.length := by
          rcases hne with hne | hne
          · have := List.length_pos.2 hne; omega
          · have := List.length_pos.2 hne; omega
        rw [adv_lt _ _ (by omega)]
        simp)
      (fun d hd => by simpa using hds d hd) hl hj
    rw [hlen] at h1
    refine ⟨i', ?_, fun hp => by rw [h2 hp, henc]; simp; omega⟩
    rw [h1]
    simp [Rle5Pkt.pixels]
  | some x =>
    have henc : (⟨r, some x, ds⟩ : Rle5Pkt).encode = [r, 0x80 + ds.length, x] ++ ds := by
      simp [Rle5Pkt.encode]
    have hsrc : pre ++ (⟨r, some x, ds⟩ : Rle5Pkt).encode ++ post
        = (pre ++ [r, 0x80 + ds.length, x]) ++ ds ++ post := by
      rw [henc]; simp
    have hlen : (pre ++ [r, 0x80 + ds.length, x] ++ ds ++ post).length
        = pre.length + 3 + ds.length + post.length := by simp; omega
    have g0 : (pre ++ [r, 0x80 + ds.length, x] ++ ds ++ post).getD pre.length 0 = r := by
      have := getD_append_at pre ([r, 0x80 + ds.length, x] ++ ds ++ post) 0
      simpa using this
    have g1 : (pre ++ [r, 0x80 + ds.length, x] ++ ds ++ post).getD (pre.length + 1) 0
        = 0x80 + ds.length := by
      have := getD_append_at pre ([r, 0x80 + ds.length, x] ++ ds ++ post) 1
      simpa using this
    have g2 : (pre ++ [r, 0x80 + ds.length, x] ++ ds ++ post).getD (pre.length + 1 + 1) 0
        = x := by
      have := getD_append_at pre ([r, 0x80 + ds.length, x] ++ (ds ++ post)) 2
      rw [show pre.length + 1 + 1 = pre.length + 2 from rfl, List.append_assoc, List.append_assoc,
        this]
      simp
    rw [hsrc]
    unfold rle5Packet
    simp only [hlen, g0, adv_lt (pre.length + 3 + ds.length + post.length) pre.length (by omega),
      g1, b1, b2, ne_eq, not_false_eq_true, if_true,
      adv_lt (pre.length + 3 + ds.length + post.length) (pre.length + 1) (by omega), g2,
      Int.toNat_ofNat]
    obtain ⟨i', h1, h2⟩ := rle5Inner_body dstLen (pre ++ [r, 0x80 + ds.length, x]) ds post r x
      (adv (pre.length + 3 + ds.length + post.length) (pre.length + 1 + 1)) j dst
      (by
        intro hne
        have hpos : 0 < ds.length + post.length := by
          rcases hne with hne | hne
          · have := List.length_pos.2 hne; omega
          · have := List.length_pos.2 hne; omega
        rw [adv_lt _ _ (by omega)]
        simp)
      (fun d hd => by simpa using hds d hd) hl hj
    rw [hlen] at h1
    refine ⟨i', ?_, fun hp => by rw [h2 hp, henc]; simp; omega⟩
    rw [h1]
    simp [Rle5Pkt.pixels]

theorem clipPut_full (dstLen : Nat) (dst out : List Nat) (hl : dst.length = dstLen) :
    (clipPut dstLen dstLen dst out).2 = dst := by
  unfold clipPut
  simp only [Nat.sub_self, List.take_zero, List.append_nil]
  rw [List.take_of_length_le (by omega), List.drop_of_length_le (by omega)]
  simp

theorem rle5Encode_ne_nil (p : Rle5Pkt) (ps : List Rle5Pkt) : rle5Encode (p :: ps) ≠ [] := by
  simp [rle5Encode, Rle5Pkt.encode]

theorem rle5_pixels_pos (p : Rle5Pkt) : 1 ≤ p.pixels.length := by
  simp [Rle5Pkt.pixels]
  omega

theorem rle5Loop_pkts (dstLen : Nat) (tail : List Nat) (ps : List Rle5Pkt) :
    ∀ (pre : List Nat) (i j : Nat) (dst : List Nat) (fuel : Nat),
      (∀ p ∈ ps, p.valid = true) → (ps ≠ [] → i = pre.length) → dstLen ≤ j + fuel →
      dst.length = dstLen → j ≤ dstLen → dstLen ≤ j + (rle5Pixels ps).length →
      rle5Loop (pre ++ rle5Encode ps ++ tail) (pre ++ rle5Encode ps ++ tail).length dstLen
          fuel i j dst
        = some (clipPut dstLen j dst (rle5Pixels ps)).2 := by
  induction ps with
  | nil =>
    intro pre i j dst fuel _ _ _ hl hj hp
    simp only [rle5Pixels, List.length_nil, Nat.add_zero] at hp
    have hjd : j = dstLen := by omega
    subst hjd
    rw [clipPut_full j dst _ hl]
    cases fuel with
    | zero => simp [rle5Loop]
    | succ f => rw [rle5Loop_succ, if_neg (by omega)]
  | cons p ps ih =>
    intro pre i j dst fuel hv hi hf hl hj hp
    by_cases hjd : j < dstLen
    · obtain ⟨f, rfl⟩ : ∃ f, fuel = f + 1 := ⟨fuel - 1, by omega⟩
      have hipre : i = pre.length := hi (by simp)
      subst hipre
      have esrc : pre ++ rle5Encode (p :: ps) ++ tail
          = pre ++ p.encode ++ (rle5Encode ps ++ tail) := by
        simp [rle5Encode]
      rw [rle5Loop_succ, if_pos hjd, esrc]
      obtain ⟨i', h1, h2⟩ := rle5Packet_pkt dstLen p (hv p (by simp)) pre
        (rle5Encode ps ++ tail) j dst hl hj
      rw [h1]
      simp only []
      obtain ⟨l1, l2, l3⟩ := clipPut_len dstLen j dst p.pixels hl hj
      have hpos := rle5_pixels_pos p
      have hj1 : (clipPut dstLen j dst p.pixels).1 = min (j + p.pixels.length) dstLen := rfl
      have epre : pre ++ p.encode ++ (rle5Encode ps ++ tail)
          = (pre ++ p.encode) ++ rle5Encode ps ++ tail := by simp
      rw [epre]
      rw [ih (pre ++ p.encode) i' (clipPut dstLen j dst p.pixels).1
        (clipPut dstLen j dst p.pixels).2 f (fun q hq => hv q (by simp [hq]))
        (by
          intro hne
          cases ps with
          | nil => exact absurd rfl hne
          | cons q qs =>
            rw [h2 (by
              intro hc
              have := rle5Encode_ne_nil q qs
              simp only [List.append_eq_nil] at hc
              exact this hc.1)]
            simp)
        (by omega) l1 l2
        (by simp only [rle5Pixels, List.length_append] at hp; omega)]
      rw [clipPut_append dstLen j dst _ _ hl hj]
      rfl
    · have hjd' : j = dstLen := by omega
      subst hjd'
      rw [clipPut_full j dst _ hl]
      cases fuel with
      | zero => simp [rle5Loop]
      | succ f => rw [rle5Loop_succ, if_neg (by omega)]

theorem Rle5Decode_pkts (s : Sprite) (ps : List Rle5Pkt) (tail : List Nat)
    (hv : ∀ p ∈ ps, p.valid = true) (hne : ps ≠ []) (h2 : s.Size0 * s.Size1 < 2 ^ 31)
    (hlen : s.Size0 * s.Size1 ≤ (rle5Pixels ps).length) :
    Rle5Decode s (rle5Encode ps ++ tail) = .ok ((rle5Pixels ps).take (s.Size0 * s.Size1)) := by
  unfold Rle5Decode
  have hsrc : (rle5Encode ps ++ tail).length ≠ 0 := by
    cases ps with
    | nil => exact absurd rfl hne
    | cons q qs =>
      have := rle5Encode_ne_nil q qs
      intro hc
      have := List.eq_nil_of_length_eq_zero hc
      simp only [List.append_eq_nil] at this
      exact absurd this.1 (rle5Encode_ne_nil q qs)
  rw [if_neg hsrc, dstLenOf_eq s h2]
  simp only []
  have h := rle5Loop_pkts (s.Size0 * s.Size1) tail ps [] 0 0
    (List.replicate (s.Size0 * s.Size1) 0) (s.Size0 * s.Size1) hv (fun _ => rfl) (by omega)
    (List.length_replicate _ _) (Nat.zero_le _) (by omega)
  simp only [List.nil_append] at h
  rw [h]
  simp only []
  congr 1
  unfold clipPut
  simp only [List.take_zero, List.nil_append, Nat.sub_zero, Nat.zero_add]
  rw [List.drop_of_length_le (by simp only [List.length_replicate]; omega)]
  simp

/-- C28, as stated, fails.  At the start of the source 0x02 0x81 0x07 0x25 the
first byte of the packet is 2: its low 7 bits are 2 and its high bit is 0, but
`Rle5Decode` takes the data length 1 and the colour flag from the second byte,
reads the colour 7 from the third, and uses the first byte as the run length:
three pixels of colour 7, then the two pixels of the one data byte. -/
theorem rle5_first_byte_is_run :
    ([2, 0x81, 7, 0x25] : List Nat).getD 0 0 &&& 0x7f = 2 ∧
    ([2, 0x81, 7, 0x25] : List Nat).getD 0 0 >>> 7 = 0 ∧
    rle5Header [2, 0x81, 7, 0x25] 4 0 = (2, 1, 7, 3) ∧
    Rle5Decode sprite5x1 [2, 0x81, 7, 0x25] = .ok [7, 7, 7, 5, 5] := by
  decide

/-- C28 (amended): in `Rle5Decode`, with the cursor not clamped, the first byte
of a packet is the run length (all eight bits); the second byte carries in its
low 7 bits the number of data bytes and in its high bit the flag that the byte
after it supplies an explicit colour (colour 0 otherwise); the inner loop runs
on these values, and each data byte it reads carries a repeat count in its high
3 bits and the colour in its low 5 bits. -/
theorem rle5_packet_fields (src : List Nat) (srcLen i : Nat) (h : i + 3 < srcLen) :
    rle5Header src srcLen i =
      (((src.getD i 0 : Nat) : Int), ((src.getD (i + 1) 0 &&& 0x7f : Nat) : Int),
       (if src.getD (i + 1) 0 >>> 7 ≠ 0 then src.getD (i + 2) 0 else 0),
       (if src.getD (i + 1) 0 >>> 7 ≠ 0 then i + 3 else i + 2)) ∧
    (∀ (dstLen j : Nat) (dst : List Nat),
      rle5Packet src srcLen dstLen i j dst =
        rle5Inner src srcLen dstLen
          ((rle5Header src srcLen i).1.toNat + 8 * (rle5Header src srcLen i).2.1.toNat + 2)
          (rle5Header src srcLen i).1 (rle5Header src srcLen i).2.1
          (rle5Header src srcLen i).2.2.1 (rle5Header src srcLen i).2.2.2 j dst) ∧
    (∀ (dstLen fuel : Nat) (dl : Int) (c k j : Nat) (dst : List Nat), 0 ≤ dl - 1 →
      rle5Inner src srcLen dstLen (fuel + 1) 0 dl c k j dst =
        rle5Inner src srcLen dstLen fuel ((src.getD k 0 >>> 5 : Nat) : Int) (dl - 1)
          (src.getD k 0 &&& 0x1f) (adv srcLen k)
          (if j < dstLen then (j + 1, dst.set j c) else (j, dst)).1
          (if j < dstLen then (j + 1, dst.set j c) else (j, dst)).2) := by
  refine ⟨?_, fun dstLen j dst => rle5Packet_header src srcLen dstLen i j dst, ?_⟩
  · unfold rle5Header
    simp only [adv_lt srcLen i (by omega)]
    by_cases hc : src.getD (i + 1) 0 >>> 7 ≠ 0
    · rw [if_pos hc, if_pos hc, if_pos hc, if_pos hc]
      simp only [adv_lt srcLen (i + 1) (by omega), adv_lt srcLen (i + 1 + 1) (by omega)]
    · rw [if_neg hc, if_neg hc, if_neg hc, if_neg hc]
      simp only [adv_lt srcLen (i + 1) (by omega)]
  · intro dstLen fuel dl c k j dst hdl
    rw [rle5Inner]
    simp only []
    rw [if_pos (by omega), if_neg (by omega)]

/-- At the start of 0x02 0x81 0x07 0x25 0x00: run length 2, one data byte,
colour 7, cursor 3 after the header. -/
theorem rle5_packet_fields_witness :
    rle5Header [2, 0x81, 7, 0x25, 0] 5 0 = (2, 1, 7, 3) :=
  (rle5_packet_fields [2, 0x81, 7, 0x25, 0] 5 0 (by decide)).1.trans (by decide)

/-- C29: `Rle5Decode` on the bytes of a list of packets (run byte `r`, control
byte, colour byte `v` present exactly when the control byte is at least 0x80,
and as many data bytes as the low 7 bits of the control byte say), followed by
any bytes, returns the first width * height pixels of the concatenation of the
packets' pixels, where a packet stands for `r + 1` pixels of colour `v` (0 when
absent) followed, for each data byte `d` in order, by `(d >> 5) + 1` pixels of
colour `d & 0x1F`; this for width * height below 2^31 and not above the number
of pixels of the packets.  One packet, decoded at any output position of a
buffer of any length, writes its pixels clipped to the rest of the buffer. -/
theorem Rle5Decode_packets (s : Sprite) (ps : List Rle5Pkt) (tail : List Nat)
    (hv : ∀ p ∈ ps, p.valid = true) (hne : ps ≠ []) (h2 : s.Size0 * s.Size1 < 2 ^ 31)
    (hlen : s.Size0 * s.Size1 ≤ (rle5Pixels ps).length) :
    Rle5Decode s (rle5Encode ps ++ tail) = .ok ((rle5Pixels ps).take (s.Size0 * s.Size1)) ∧
    (∀ p ∈ ps, ∀ (dstLen : Nat) (pre post : List Nat) (j : Nat) (dst : List Nat),
      dst.length = dstLen → j ≤ dstLen →
      ∃ i', rle5Packet (pre ++ p.encode ++ post) (pre ++ p.encode ++ post).length dstLen
            pre.length j dst
          = some (i', min (j + p.pixels.length) dstLen,
              dst.take j ++ p.pixels.take (dstLen - j)
                ++ dst.drop (min (j + p.pixels.length) dstLen)) ∧
        (post ≠ [] → i' = pre.length + p.encode.length)) :=
  ⟨Rle5Decode_pkts s ps tail hv hne h2 hlen,
   fun p hp dstLen pre post j dst hl hj => rle5Packet_pkt dstLen p (hv p hp) pre post j dst hl hj⟩

/-- Two packets for a 5x1 sprite: run byte 2 with colour 7 and the data byte
0x25, then run byte 0 without colour; the five pixels 7 7 7 5 5 are returned
and the pixel of the second packet is clipped. -/
theorem Rle5Decode_packets_witness :
    rle5Encode [⟨2, some 7, [0x25]⟩, ⟨0, none, []⟩] = [2, 0x81, 7, 0x25, 0, 0] ∧
    rle5Pixels [⟨2, some 7, [0x25]⟩, ⟨0, none, []⟩] = [7, 7, 7, 5, 5, 0] ∧
    Rle5Decode sprite5x1 ([2, 0x81, 7, 0x25, 0, 0] ++ []) = .ok [7, 7, 7, 5, 5] :=
  ⟨by decide, by decide,
   (Rle5Decode_packets sprite5x1 [⟨2, some 7, [0x25]⟩, ⟨0, none, []⟩] []
      (by decide) (by decide) (by decide) (by decide)).1.trans (by decide)⟩

/-! ## Groups of short back-references in Lz5Decode (C27) -/

set_option maxRecDepth 100000 in
theorem top_bits : ∀ t, t < 256 →
    (t &&& 0xc0) >>> 0 = (t >>> 6) <<< 6 ∧ (t &&& 0xc0) >>> 2 = (t >>> 6) <<< 4 ∧
    (t &&& 0xc0) >>> 4 = (t >>> 6) <<< 2 ∧ (t &&& 0xc0) >>> 6 = t >>> 6 ∧
    (t >>> 6) <<< 6 < 256 ∧ (t >>> 6) <<< 4 < 256 ∧ (t >>> 6) <<< 2 < 256 ∧ t >>> 6 < 256 := by
  decide

theorem or_lt_256 (a b : Nat) (ha : a < 256) (hb : b < 256) : a ||| b < 256 :=
  Nat.or_lt_two_pow (n := 8) ha hb

theorem lz5Next_regs (src : List Nat) (srcLen : Nat) (st : Lz5State) :
    (lz5Next src srcLen st).rb = st.rb ∧ (lz5Next src srcLen st).rbc = st.rbc := by
  unfold lz5Next
  simp only []
  split <;> exact ⟨rfl, rfl⟩

theorem lz5IsShort_iff (src : List Nat) (st : Lz5State) :
    lz5IsShort src st = true ↔ st.ct &&& (1 <<< st.cts) ≠ 0 ∧ src.getD st.i 0 &&& 0x3f ≠ 0 := by
  simp [lz5IsShort]

theorem lz5Step_short (src : List Nat) (srcLen dstLen : Nat) (st : Lz5State)
    (h : lz5IsShort src st = true) :
    lz5Step src srcLen dstLen st = lz5Next src srcLen (lz5ShortRef src srcLen dstLen st) := by
  obtain ⟨h1, h2⟩ := (lz5IsShort_iff src st).1 h
  rw [lz5Step_forms, if_pos h1, if_neg h2]

theorem lz5Step_not_short (src : List Nat) (srcLen dstLen : Nat) (st : Lz5State)
    (h : lz5IsShort src st = false) :
    (lz5Step src srcLen dstLen st).rb = st.rb ∧ (lz5Step src srcLen dstLen st).rbc = st.rbc := by
  have hn : ¬ (st.ct &&& (1 <<< st.cts) ≠ 0 ∧ src.getD st.i 0 &&& 0x3f ≠ 0) := by
    rw [← lz5IsShort_iff, h]; simp
  rw [lz5Step_forms, (lz5Next_regs _ _ _).1, (lz5Next_regs _ _ _).2]
  by_cases h1 : st.ct &&& (1 <<< st.cts) ≠ 0
  · have h2 : src.getD st.i 0 &&& 0x3f = 0 := by
      by_contra hc
      exact hn ⟨h1, hc⟩
    rw [if_pos h1, if_pos h2]
    exact ⟨rfl, rfl⟩
  · rw [if_neg h1]
    split <;> exact ⟨rfl, rfl⟩

theorem lz5ShortRef_regs (src : List Nat) (srcLen dstLen : Nat) (st : Lz5State) (g : List Nat)
    (hinv : ShortInv g st) (ht : src.getD st.i 0 < 256) :
    (g.length < 3 →
      (lz5ShortRef src srcLen dstLen st).rb = packBits (g ++ [src.getD st.i 0]) ∧
      (lz5ShortRef src srcLen dstLen st).rbc = 2 * (g.length + 1)) ∧
    (g.length = 3 →
      (lz5ShortRef src srcLen dstLen st).rb = 0 ∧ (lz5ShortRef src srcLen dstLen st).rbc = 0) := by
  obtain ⟨h1, h2, h3, h4⟩ := hinv
  obtain ⟨b0, b2, b4, b6, c6, c4, c2, c0⟩ := top_bits _ ht
  unfold lz5ShortRef
  simp only [h2, h3]
  rcases g with _ | ⟨a, _ | ⟨b, _ | ⟨c, _ | ⟨d, g⟩⟩⟩⟩
  · refine ⟨fun _ => ?_, fun h => absurd h (by simp)⟩
    simp only [List.length_nil, Nat.mul_zero, Nat.zero_add, b0]
    rw [if_pos (by decide)]
    simp only [packBits, List.nil_append, List.getD_cons_zero, List.getD_cons_succ, List.getD_nil,
      Nat.zero_shiftRight, Nat.zero_shiftLeft, Nat.or_zero, Nat.zero_or]
    exact ⟨Nat.mod_eq_of_lt c6, trivial⟩
  · obtain ⟨_, _, _, _, a6, _, _, _⟩ := top_bits a (h4 a (by simp))
    refine ⟨fun _ => ?_, fun h => absurd h (by simp)⟩
    simp only [List.length_singleton, Nat.mul_one, b2]
    rw [if_pos (by decide)]
    simp only [packBits, List.singleton_append, List.getD_cons_zero, List.getD_cons_succ,
      List.getD_nil, Nat.zero_shiftRight, Nat.zero_shiftLeft, Nat.or_zero]
    exact ⟨Nat.mod_eq_of_lt (or_lt_256 _ _ a6 c4), trivial⟩
  · obtain ⟨_, _, _, _, a6, _, _, _⟩ := top_bits a (h4 a (by simp))
    obtain ⟨_, _, _, _, _, b4', _, _⟩ := top_bits b (h4 b (by simp))
    refine ⟨fun _ => ?_, fun h => absurd h (by simp)⟩
    simp only [List.length_cons, List.length_nil, b4]
    rw [if_pos (by decide)]
    simp only [packBits, List.cons_append, List.nil_append, List.getD_cons_zero,
      List.getD_cons_succ, List.getD_nil, Nat.zero_shiftRight, Nat.zero_shiftLeft, Nat.or_zero]
    exact ⟨Nat.mod_eq_of_lt (or_lt_256 _ _ (or_lt_256 _ _ a6 b4') c2), trivial⟩
  · refine ⟨fun h => absurd h (by simp), fun _ => ?_⟩
    simp only [List.length_cons, List.length_nil]
    rw [if_neg (by decide)]
    exact ⟨rfl, rfl⟩
  · simp only [List.length_cons] at h1
    omega

theorem lz5ShortRef_copy (src : List Nat) (srcLen dstLen : Nat) (st : Lz5State) (g : List Nat)
    (hinv : ShortInv g st) (ht : src.getD st.i 0 < 256) (hi : st.i + 2 < srcLen) :
    (g.length < 3 →
      lz5ShortRef src srcLen dstLen st =
        { lz5Ref dstLen (src.getD (st.i + 1) 0 + 1) ((src.getD st.i 0 &&& 0x3f) + 1) st with
          i := st.i + 2
          rb := packBits (g ++ [src.getD st.i 0])
          rbc := 2 * (g.length + 1) }) ∧
    (g.length = 3 →
      lz5ShortRef src srcLen dstLen st =
        { lz5Ref dstLen (1 + (packBits g ||| (src.getD st.i 0 >>> 6)))
            ((src.getD st.i 0 &&& 0x3f) + 1) st with
          i := st.i + 1
          rb := 0
          rbc := 0 }) := by
  obtain ⟨r1, r2⟩ := lz5ShortRef_regs src srcLen dstLen st g hinv ht
  obtain ⟨h1, h2, h3, h4⟩ := hinv
  obtain ⟨b0, b2, b4, b6, c6, c4, c2, c0⟩ := top_bits _ ht
  refine ⟨fun hg => ?_, fun hg => ?_⟩
  · obtain ⟨e1, e2⟩ := r1 hg
    have hlt : (st.rbc + 2) % 256 < 8 := by rw [h2]; omega
    unfold lz5ShortRef at e1 e2 ⊢
    simp only [] at e1 e2 ⊢
    rw [if_pos hlt] at e1 e2 ⊢
    simp only [] at e1 e2
    simp only [adv_lt srcLen st.i (by omega), adv_lt srcLen (st.i + 1) (by omega), e1, e2, lz5Ref]
  · have hge : ¬ (st.rbc + 2) % 256 < 8 := by rw [h2, hg]; decide
    have hrb : (st.rb ||| ((src.getD st.i 0 &&& 0xc0) >>> st.rbc)) % 256
        = packBits g ||| (src.getD st.i 0 >>> 6) := by
      rw [h2, hg, h3, b6]
      apply Nat.mod_eq_of_lt
      rcases g with _ | ⟨a, _ | ⟨b, _ | ⟨c, _ | ⟨d, g⟩⟩⟩⟩
      · simp at hg
      · simp at hg
      · simp at hg
      · obtain ⟨_, _, _, _, a6, _, _, _⟩ := top_bits a (h4 a (by simp))
        obtain ⟨_, _, _, _, _, b4', _, _⟩ := top_bits b (h4 b (by simp))
        obtain ⟨_, _, _, _, _, _, c2', _⟩ := top_bits c (h4 c (by simp))
        simp only [packBits, List.getD_cons_zero, List.getD_cons_succ]
        exact or_lt_256 _ _ (or_lt_256 _ _ (or_lt_256 _ _ a6 b4') c2') c0
      · simp at hg
    unfold lz5ShortRef
    simp only []
    rw [if_neg hge]
    simp only [adv_lt srcLen st.i (by omega), hrb, lz5Ref, Nat.add_comm 1]

theorem lz5Init_inv (src : List Nat) (dstLen : Nat) : ShortInv [] (lz5Init src dstLen) :=
  ⟨by simp, rfl, rfl, fun _ h => by simp at h⟩

theorem ShortInv_after (src : List Nat) (dstLen : Nat) (hb : ∀ b ∈ src, b < 256) (k : Nat) :
    ShortInv (shortGroup src dstLen k) (lz5After src dstLen k) ∧
    (shortGroup src dstLen k).length = shortCount src dstLen k % 4 := by
  induction k with
  | zero => exact ⟨lz5Init_inv src dstLen, rfl⟩
  | succ k ih =>
    obtain ⟨hinv, hcnt⟩ := ih
    have ht := getD_lt src hb (lz5After src dstLen k).i
    simp only [shortGroup, shortCount, lz5After]
    cases hs : lz5IsShort src (lz5After src dstLen k) with
    | true =>
      simp only [if_true]
      rw [lz5Step_short src src.length dstLen _ hs]
      obtain ⟨r1, r2⟩ := lz5ShortRef_regs src src.length dstLen _ _ hinv ht
      obtain ⟨n1, n2⟩ := lz5Next_regs src src.length
        (lz5ShortRef src src.length dstLen (lz5After src dstLen k))
      by_cases hg : (shortGroup src dstLen k).length = 3
      · rw [if_pos hg]
        obtain ⟨e1, e2⟩ := r2 hg
        refine ⟨⟨by simp, by rw [n2, e2]; rfl, by rw [n1, e1]; rfl, fun _ h => by simp at h⟩, ?_⟩
        simp only [List.length_nil]
        omega
      · rw [if_neg hg]
        have hlt : (shortGroup src dstLen k).length < 3 := by
          have := hinv.1; omega
        obtain ⟨e1, e2⟩ := r1 hlt
        refine ⟨⟨by simp only [List.length_append, List.length_singleton]; omega,
          by rw [n2, e2]; simp, by rw [n1, e1], ?_⟩, ?_⟩
        · intro t htm
          simp only [List.mem_append, List.mem_singleton] at htm
          rcases htm with htm | htm
          · exact hinv.2.2.2 t htm
          · rw [htm]; exact ht
        · simp only [List.length_append, List.length_singleton]
          omega
    | false =>
      simp only [Bool.false_eq_true, if_false, Nat.add_zero]
      obtain ⟨e1, e2⟩ := lz5Step_not_short src src.length dstLen _ hs
      exact ⟨⟨hinv.1, by rw [e2]; exact hinv.2.1, by rw [e1]; exact hinv.2.2.1, hinv.2.2.2⟩, hcnt⟩

/-- C27: in a run of `Lz5Decode` on a source of bytes, let iteration `k`
decode a short back-reference (control bit set, low 6 bits of the token `t`
not zero) with the cursor not clamped, and let `g` be the tokens of the short
back-references decoded before it in the open group of four (their number is
the count of short back-references so far modulo 4).  If `g` has fewer than 3
tokens, the offset is the next source byte plus 1, two source bytes are
consumed and `t` joins the group; if `g` has 3 tokens `t1, t2, t3`, no offset
byte is consumed, the offset is
`1 + ((t1>>6)<<6 | (t2>>6)<<4 | (t3>>6)<<2 | (t>>6))` and the accumulator is
reset.  In both cases the copy loop runs `(t & 0x3F) + 1` times. -/
theorem lz5_short_groups (src : List Nat) (dstLen : Nat) (hb : ∀ b ∈ src, b < 256) (k : Nat)
    (hs : lz5IsShort src (lz5After src dstLen k) = true)
    (hi : (lz5After src dstLen k).i + 2 < src.length) :
    (shortGroup src dstLen k).length = shortCount src dstLen k % 4 ∧
    ((shortGroup src dstLen k).length < 3 →
      lz5After src dstLen (k + 1) = lz5Next src src.length
        { lz5Ref dstLen (src.getD ((lz5After src dstLen k).i + 1) 0 + 1)
            ((src.getD (lz5After src dstLen k).i 0 &&& 0x3f) + 1) (lz5After src dstLen k) with
          i := (lz5After src dstLen k).i + 2
          rb := packBits (shortGroup src dstLen k ++ [src.getD (lz5After src dstLen k).i 0])
          rbc := 2 * ((shortGroup src dstLen k).length + 1) } ∧
      shortGroup src dstLen (k + 1)
        = shortGroup src dstLen k ++ [src.getD (lz5After src dstLen k).i 0]) ∧
    ((shortGroup src dstLen k).length = 3 →
      lz5After src dstLen (k + 1) = lz5Next src src.length
        { lz5Ref dstLen
            (1 + ((((shortGroup src dstLen k).getD 0 0 >>> 6) <<< 6) |||
              (((shortGroup src dstLen k).getD 1 0 >>> 6) <<< 4) |||
              (((shortGroup src dstLen k).getD 2 0 >>> 6) <<< 2) |||
              (src.getD (lz5After src dstLen k).i 0 >>> 6)))
            ((src.getD (lz5After src dstLen k).i 0 &&& 0x3f) + 1) (lz5After src dstLen k) with
          i := (lz5After src dstLen k).i + 1
          rb := 0
          rbc := 0 } ∧
      shortGroup src dstLen (k + 1) = []) := by
  obtain ⟨hinv, hcnt⟩ := ShortInv_after src dstLen hb k
  have ht := getD_lt src hb (lz5After src dstLen k).i
  obtain ⟨c1, c2⟩ := lz5ShortRef_copy src src.length dstLen _ _ hinv ht hi
  refine ⟨hcnt, fun hg => ?_, fun hg => ?_⟩
  · refine ⟨?_, ?_⟩
    · rw [← c1 hg]
      exact lz5Step_short src src.length dstLen _ hs
    · simp only [shortGroup, hs, if_true]
      rw [if_neg (by omega)]
  · refine ⟨?_, ?_⟩
    · have := c2 hg
      simp only [packBits] at this
      rw [← this]
      exact lz5Step_short src src.length dstLen _ hs
    · simp only [shortGroup, hs, if_true]
      rw [if_pos hg]

set_option maxRecDepth 100000 in
/-- On `sampleLz5Short` with 16 pixels: the first short back-reference takes
the offset 0 + 1 from the byte after its token; the fourth one, with the group
0x41, 0x81, 0xc1 open, consumes no offset byte and copies with the offset
1 + (0x40 | 0x20 | 0x0c | 0x01) = 110. -/
theorem lz5_short_groups_witness :
    (∀ b ∈ sampleLz5Short, b < 256) ∧
    (lz5After sampleLz5Short 16 1).trace = [⟨0, 1⟩, ⟨1, 1⟩] ∧
    shortGroup sampleLz5Short 16 3 = [0x41, 0x81, 0xc1] ∧
    (lz5After sampleLz5Short 16 4).trace.getLast? = some ⟨7, 110⟩ ∧
    (lz5After sampleLz5Short 16 4).i = 8 ∧ (lz5After sampleLz5Short 16 4).rb = 0 := by
  have h0 := ((lz5_short_groups sampleLz5Short 16 (by decide) 0 (by decide) (by decide)).2.1
    (by decide)).1
  have h3 := ((lz5_short_groups sampleLz5Short 16 (by decide) 3 (by decide) (by decide)).2.2
    (by decide)).1
  refine ⟨by decide, ?_, by decide, ?_, ?_, ?_⟩
  · rw [h0]; decide
  · rw [h3]; decide
  · rw [h3]; decide
  · rw [h3]; decide

/-! ## Reuse of the previous palette in a variant-1 load (C30) -/

theorem ReadPcxHeader_keeps (sprite s1 : Sprite) (f : FILE) (offset : Nat) (r : Res FILE)
    (h : ReadPcxHeader sprite f offset = (s1, r)) :
    s1.Group = sprite.Group ∧ s1.Number = sprite.Number ∧ s1.palidx = sprite.palidx := by
  unfold ReadPcxHeader at h
  simp only [] at h
  repeat' split at h
  all_goals (simp only [Prod.mk.injEq] at h; obtain ⟨rfl, _⟩ := h; exact ⟨rfl, rfl, rfl⟩)

set_option maxRecDepth 8000 in
theorem ReadSpriteDataV1_reuse (sprite s'' : Sprite) (palettes pals' : List Palette) (g g' : Gpu)
    (data : List Nat) (p offset datasize nextSubheader : Nat) (prev : Option Sprite)
    (px : List Nat)
    (h : ReadSpriteDataV1 sprite palettes g ⟨data, p⟩ offset datasize nextSubheader prev true
      = (s'', pals', g', .ok px)) :
    s''.Group = sprite.Group ∧ s''.Number = sprite.Number ∧
    (byteAt data p ≠ 0 → ∀ q, prev = some q → s''.palidx = q.palidx ∧ pals' = palettes) := by
  unfold ReadSpriteDataV1 at h
  generalize (if nextSubheader > offset then (nextSubheader - offset) % 2 ^ 32 else datasize)
    = ds at h
  simp only [] at h
  split at h
  · simp at h
  rename_i ps f1 heq
  obtain ⟨_, rfl, rfl⟩ := readU8_some heq
  clear heq
  simp only [Bool.true_or, if_true, Bool.true_and, decide_eq_true_eq] at h
  generalize (if ds < 128 + 0 then 128 + 0 else ds) = ds2 at h
  split at h
  · simp at h
  rename_i s1 f2 hpcx
  obtain ⟨k1, k2, k3⟩ := ReadPcxHeader_keeps _ _ _ _ _ hpcx
  split at h
  · simp at h
  by_cases hsame : byteAt data p ≠ 0 ∧ prev.isSome = true
  · have e : (decide (byteAt data p ≠ 0) && prev.isSome) = true := by
      simp only [Bool.and_eq_true, decide_eq_true_eq]
      exact hsame
    simp only [e, if_true] at h
    split at h
    · simp at h
    · simp only [Prod.mk.injEq] at h
      obtain ⟨hs, hp, _⟩ := h
      subst hs
      cases prev with
      | none => simp at hsame
      | some q0 =>
        refine ⟨k1, k2, fun _ q hq => ?_⟩
        simp only [Option.some.injEq] at hq
        subst hq
        exact ⟨rfl, hp.symm⟩
  · have e : (decide (byteAt data p ≠ 0) && prev.isSome) = false := by
      simp only [Bool.and_eq_false_iff, decide_eq_false_iff_not]
      by_cases hb : byteAt data p ≠ 0
      · right
        simpa using fun h' => hsame ⟨hb, h'⟩
      · left
        exact hb
    simp only [e, Bool.false_eq_true, if_false] at h
    split at h
    · simp at h
    split at h
    · simp at h
    · simp only [Prod.mk.injEq] at h
      obtain ⟨hs, _⟩ := h
      subst hs
      refine ⟨k1, k2, fun hb q hq => ?_⟩
      exact absurd ⟨hb, by rw [hq]; rfl⟩ hsame

theorem storeSprite_prev (i : Nat) (px : List Nat) (st : LoadState) :
    (storeSprite i px st).prev =
      if (st.sff.sprites_.getD i Sprite.init).Group = 9000 ∧
          (st.sff.sprites_.getD i Sprite.init).Number ≠ 0 then st.prev else some i := by
  unfold storeSprite
  simp only [rlLoadTexture, LoadState.setSprite]
  split_ifs <;> simp_all

theorem spriteStep_v1_prev (lodepng : Int → List Nat → Option (Nat × Nat × List Nat))
    (data : List Nat) (lofs tofs i : Nat) (st st' : LoadState)
    (hv : st.sff.header_.Ver0 = 1) (hi : i < st.sff.sprites_.length)
    (h : spriteStep lodepng data lofs tofs i st = (st', none)) :
    st'.prev = (if keepsPrev data st then some i else st.prev) ∧
    (le32At data (st.shofs + 4) ≠ 0 → byteAt data (st.shofs + 18) ≠ 0 →
      ∀ k, st.prev = some k → k ≠ i →
        st'.sff.palettes_ = st.sff.palettes_ ∧
        ∃ s, st'.sff.sprites_[i]? = some s ∧
          s.palidx = (st.sff.sprites_.getD k Sprite.init).palidx) := by
  have hv' : st.sff.header_.Ver0 = 1 ∨ st.sff.header_.Ver0 = 2 := Or.inl hv
  rcases hd : readEntry st.sff.header_.Ver0 (st.sff.sprites_.getD i Sprite.init)
    (fseek (fopen data) st.shofs) lofs tofs with ⟨s', r⟩
  cases r with
  | err e =>
    rw [spriteStep_entry_err _ _ _ _ _ _ _ _ hv' hd] at h
    simp at h
  | ok a =>
    obtain ⟨xofs, size, link, f'⟩ := a
    have hd' := hd
    unfold readEntry at hd'
    rw [if_pos hv] at hd'
    simp only [fseek, fopen] at hd'
    have hl := ReadSpriteHeaderV1_inv _ _ _ _ hd'
    simp only [] at hl
    rw [ReadSpriteHeaderV1_ok _ _ _ hl] at hd'
    simp only [Prod.mk.injEq, Res.ok.injEq] at hd'
    obtain ⟨hs', hxofs, hsz, hlink, hf'⟩ := hd'
    by_cases hz : size = 0
    · subst hz
      rw [spriteStep_link _ _ _ _ _ _ _ _ _ _ hv' hd] at h
      simp only [Prod.mk.injEq, and_true] at h
      have hk : keepsPrev data st = false := by
        simp [keepsPrev, hsz]
      rw [hk]
      refine ⟨?_, fun hc => absurd hsz hc⟩
      rw [← h]
      simp only [linkSprite_prev, setSprite_prev, Bool.false_eq_true, if_false]
    · rcases hr : readData lodepng st.sff.header_.Ver0 s' st.sff.palettes_ st.gpu f' st.shofs size
        xofs (st.prev.map (fun k => (st.sff.sprites_.set i s').getD k Sprite.init))
        with ⟨s'', pals2, gp2, res⟩
      cases res with
      | err e =>
        rw [spriteStep_data_err _ _ _ _ _ _ _ _ _ _ _ hv' hd hz _ _ _ _ hr] at h
        simp at h
      | ok px =>
        rw [spriteStep_data _ _ _ _ _ _ _ _ _ _ _ hv' hd hz _ _ _ _ hr] at h
        simp only [Prod.mk.injEq, and_true] at h
        unfold readData at hr
        rw [if_pos hv, ← hf'] at hr
        obtain ⟨r1, r2, r3⟩ := ReadSpriteDataV1_reuse _ _ _ _ _ _ _ _ _ _ _ _ _ hr
        have hget : ((st.sff.sprites_.set i s').set i s'').getD i Sprite.init = s'' := by
          simp only [List.getD_eq_getElem?_getD]
          rw [List.getElem?_set_self (by simp; omega)]
          rfl
        have hsp' : st'.sff.sprites_[i]? = some
            { s'' with texture := ⟨gp2.slots.length + 1, s''.Size0, s''.Size1, 1, uploadFormat s''⟩ } := by
          rw [← h]
          simp only [storeSprite_sprites, setSprite_sprites]
          rw [List.getElem?_set_self (by simp; omega)]
          simp only [List.getD_eq_getElem?_getD]
          rw [List.getElem?_set_self (by simp; omega)]
          simp only [Option.getD_some]
        have hg : s''.Group = le16At data (st.shofs + 12) := by
          rw [r1, ← hs']
          rfl
        have hn : s''.Number = le16At data (st.shofs + 14) := by
          rw [r2, ← hs']
          rfl
        constructor
        · rw [← h]
          simp only [storeSprite_prev, setSprite_sprites, setSprite_prev, hget, hg, hn]
          have hne : le32At data (st.shofs + 4) ≠ 0 := by rw [hsz]; exact hz
          by_cases hc : le16At data (st.shofs + 12) = 9000 ∧ le16At data (st.shofs + 14) ≠ 0
          · rw [if_pos hc]
            have hk : keepsPrev data st = false := by
              simp [keepsPrev, hc.1, hc.2]
            rw [hk]
            simp
          · rw [if_neg hc]
            have hk : keepsPrev data st = true := by
              simp only [keepsPrev, Bool.and_eq_true, decide_eq_true_eq, Bool.not_eq_true',
                Bool.and_eq_false_iff, decide_eq_false_iff_not]
              refine ⟨hne, ?_⟩
              by_cases hgg : le16At data (st.shofs + 12) = 9000
              · right
                intro hnn
                exact hc ⟨hgg, hnn⟩
              · left
                exact hgg
            rw [hk]
            simp
        · intro _ hfl k hk hki
          rw [hk] at r3
          obtain ⟨q1, q2⟩ := r3 hfl _ rfl
          refine ⟨?_, _, hsp', ?_⟩
          · rw [← h]
            simp only [storeSprite_palettes]
            exact q2
          · simp only [q1]
            simp only [List.getD_eq_getElem?_getD]
            rw [List.getElem?_set_ne (by omega)]

theorem prevAt_last (lodepng : Int → List Nat → Option (Nat × Nat × List Nat)) (data : List Nat)
    (lofs tofs : Nat) (st0 : LoadState) (n k : Nat)
    (h : prevAt lodepng data lofs tofs st0 n = some k) :
    k < n ∧ keepsPrev data (entryState lodepng data lofs tofs st0 k) = true ∧
    ∀ j, k < j → j < n → keepsPrev data (entryState lodepng data lofs tofs st0 j) = false := by
  induction n with
  | zero => simp [prevAt] at h
  | succ n ih =>
    simp only [prevAt] at h
    split_ifs at h with hc
    · simp only [Option.some.injEq] at h
      subst h
      exact ⟨by omega, hc, fun j h1 h2 => absurd h2 (by omega)⟩
    · obtain ⟨a, b, c⟩ := ih h
      refine ⟨by omega, b, fun j h1 h2 => ?_⟩
      by_cases hj : j = n
      · subst hj
        simpa using hc
      · exact c j h1 (by omega)

theorem spriteLoop_prev (lodepng : Int → List Nat → Option (Nat × Nat × List Nat))
    (data : List Nat) (lofs tofs : Nat) (st0 : LoadState) (hv : st0.sff.header_.Ver0 = 1)
    (hp : st0.prev = none) (m : Nat) :
    ∀ st, m ≤ st0.sff.sprites_.length →
      spriteLoop lodepng data lofs tofs m 0 st0 = (st, none) →
      st.prev = prevAt lodepng data lofs tofs st0 m := by
  induction m with
  | zero =>
    intro st _ h
    simp only [spriteLoop, Prod.mk.injEq, and_true] at h
    subst h
    exact hp
  | succ m ih =>
    intro st hm h
    obtain ⟨stm, e1, e2⟩ := spriteLoop_none_split _ _ _ _ _ _ _ _ _ h
    rw [spriteLoop_one, Nat.zero_add] at e2
    have ih1 := ih stm (by omega) e1
    have hfr := spriteLoop_frame lodepng data lofs tofs m 0 st0
    rw [e1] at hfr
    simp only [] at hfr
    have hstate : entryState lodepng data lofs tofs st0 m = stm := by
      unfold entryState
      rw [e1]
    obtain ⟨s1, _⟩ := spriteStep_v1_prev lodepng data lofs tofs m stm st
      (by rw [hfr.1]; exact hv) (by rw [hfr.2.1]; omega) e2
    rw [s1, ih1]
    simp only [prevAt, hstate]

theorem Load_v1_start (c : SffFile) (g : Gpu) (data : List Nat) (hdr : SffHeader)
    (lofs tofs : Nat) (f : FILE) (pals : List Palette) (gp : Gpu)
    (h1 : ReadHeader c.header_ (fopen data) = (hdr, some (lofs, tofs, f)))
    (hv : hdr.Ver0 = 1) (h2 : palettePhase c g data hdr lofs = (pals, gp, none)) :
    lofs = 0 ∧ tofs = 0 ∧ pals = c.palettes_ ∧ gp = g := by
  obtain ⟨hm, hcase⟩ := ReadHeader_some _ _ _ _ h1
  have hc1 : byteAt data 15 = 1 ∧ 28 ≤ data.length := by
    rcases hcase with hc2 | hc2
    · rw [ReadHeader_v2 _ _ hm hc2.1 hc2.2] at h1
      simp only [Prod.mk.injEq] at h1
      rw [← h1.1] at hv
      simp at hv
    · exact hc2
  rw [ReadHeader_v1 _ _ hm hc1.1 hc1.2] at h1
  simp only [Prod.mk.injEq, Option.some.injEq] at h1
  obtain ⟨_, hlofs, htofs, _⟩ := h1
  unfold palettePhase at h2
  rw [if_neg (by omega)] at h2
  simp only [Prod.mk.injEq, and_true] at h2
  exact ⟨hlofs.symm, htofs.symm, h2.1.symm, h2.2.symm⟩

/-- C30 (amended): in a successful variant-1 load, let entry `i` have a non-zero
data size and a non-zero reuse flag byte.  If `k` is the last of the entries
`0 .. i-1` that has data and is not in group 9000 with a number other than 0
(the entry `prev` points to, which need not be `i-1`), then the iteration for
`i` leaves the palette list as it was and sprite `i` ends with the palette
index of sprite `k`.  If no earlier entry is such, the flag is ignored: the
iteration appends one palette and sprite `i` gets its index. -/
theorem v1_reuse_palette (lodepng : Int → List Nat → Option (Nat × Nat × List Nat)) (c : SffFile)
    (g : Gpu) (data : List Nat) (h : (Load lodepng c g data).2.2 = .ok ())
    (hv : (Load lodepng c g data).1.header_.Ver0 = 1) (i : Nat)
    (hi : i < (Load lodepng c g data).1.header_.NumberOfSprites)
    (hsz : le32At data ((entryState lodepng data 0 0
      (loopStart c (ReadHeader c.header_ (fopen data)).1 c.palettes_ g) i).shofs + 4) ≠ 0)
    (hfl : byteAt data ((entryState lodepng data 0 0
      (loopStart c (ReadHeader c.header_ (fopen data)).1 c.palettes_ g) i).shofs + 18) ≠ 0) :
    (∀ k, prevAt lodepng data 0 0
        (loopStart c (ReadHeader c.header_ (fopen data)).1 c.palettes_ g) i = some k →
      (k < i ∧
       keepsPrev data (entryState lodepng data 0 0
        (loopStart c (ReadHeader c.header_ (fopen data)).1 c.palettes_ g) k) = true ∧
       ∀ j, k < j → j < i → keepsPrev data (entryState lodepng data 0 0
        (loopStart c (ReadHeader c.header_ (fopen data)).1 c.palettes_ g) j) = false) ∧
      (entryState lodepng data 0 0
        (loopStart c (ReadHeader c.header_ (fopen data)).1 c.palettes_ g) (i + 1)).sff.palettes_
        = (entryState lodepng data 0 0
        (loopStart c (ReadHeader c.header_ (fopen data)).1 c.palettes_ g) i).sff.palettes_ ∧
      ∃ s sk, (Load lodepng c g data).1.sprites_[i]? = some s ∧
        (Load lodepng c g data).1.sprites_[k]? = some sk ∧ s.palidx = sk.palidx) ∧
    (prevAt lodepng data 0 0
        (loopStart c (ReadHeader c.header_ (fopen data)).1 c.palettes_ g) i = none →
      (entryState lodepng data 0 0
        (loopStart c (ReadHeader c.header_ (fopen data)).1 c.palettes_ g)
          (i + 1)).sff.palettes_.length
        = (entryState lodepng data 0 0
        (loopStart c (ReadHeader c.header_ (fopen data)).1 c.palettes_ g) i).sff.palettes_.length
          + 1 ∧
      ∃ s, (Load lodepng c g data).1.sprites_[i]? = some s ∧
        s.palidx = (((entryState lodepng data 0 0
          (loopStart c (ReadHeader c.header_ (fopen data)).1 c.palettes_ g)
            i).sff.palettes_.length : Nat) : Int)) := by
  obtain ⟨hdr, lofs, tofs, f, pals, gp, st, st1, stF, h1, h2, e1, e2, e3, hh, hiN, hlen, _, hsp,
    _, hver, _⟩ := Load_ok_at lodepng c g data h i hi
  rw [hv] at hver
  obtain ⟨rfl, rfl, rfl, hg⟩ := Load_v1_start c g data hdr lofs tofs f pals gp h1 hver.symm h2
  have hg' := hg.symm
  subst hg'
  have hst0 : (ReadHeader c.header_ (fopen data)).1 = hdr := by rw [h1]
  rw [hst0] at hsz hfl ⊢
  have hstate : entryState lodepng data 0 0 (loopStart c hdr c.palettes_ g) i = st := by
    unfold entryState
    rw [e1]
  have hstate1 : entryState lodepng data 0 0 (loopStart c hdr c.palettes_ g) (i + 1) = st1 := by
    unfold entryState
    rw [spriteLoop_split, e1]
    simp only [Nat.zero_add]
    rw [spriteLoop_one, e2]
  rw [hstate] at hsz hfl
  rw [hstate, hstate1]
  have hv1 : st.sff.header_.Ver0 = 1 := by rw [hh]; exact hver.symm
  have hprev : st.prev = prevAt lodepng data 0 0 (loopStart c hdr c.palettes_ g) i :=
    spriteLoop_prev lodepng data 0 0 (loopStart c hdr c.palettes_ g) hver.symm rfl i st
      (by simp only [loopStart, List.length_replicate]; omega) e1
  have hfr := spriteLoop_frame lodepng data 0 0 (hdr.NumberOfSprites - (i + 1)) (i + 1) st1
  rw [e3] at hfr
  simp only [] at hfr
  have hsf := (spriteStep_frame lodepng data 0 0 i st).2.2.1
  rw [e2] at hsf
  simp only [] at hsf
  have hfin : stF.sff.sprites_[i]? = st1.sff.sprites_[i]? := hfr.2.2.1 i (by omega)
  constructor
  · intro k hk
    obtain ⟨a, b, d⟩ := prevAt_last _ _ _ _ _ _ _ hk
    obtain ⟨_, s2⟩ := spriteStep_v1_prev lodepng data 0 0 i st st1 hv1 (by omega) e2
    obtain ⟨p1, s, p2, p3⟩ := s2 hsz hfl k (by rw [hprev]; exact hk) (by omega)
    refine ⟨⟨a, b, d⟩, p1, s, st.sff.sprites_.getD k Sprite.init, ?_, ?_, p3⟩
    · rw [hsp, hfin]
      exact p2
    · rw [hsp, hfr.2.2.1 k (by omega), hsf k (by omega)]
      rw [List.getD_eq_getElem?_getD, List.getElem?_eq_getElem (by omega)]
      rfl
  · intro hk
    have hown : ownsPalette data st = true := by
      simp only [ownsPalette, hprev, hk]
      simpa using hsz
    obtain ⟨q1, s, q2, q3⟩ :=
      (spriteStep_v1_palette lodepng data 0 0 i st st1 hv1 (by omega) e2).1 hown
    exact ⟨q1, s, by rw [hsp, hfin]; exact q2, q3⟩

set_option maxRecDepth 100000 in
/-- C30 as stated fails on `sampleV1Prev`: the load succeeds, entry 2 (at offset
1892) has data size 129 and reuse flag byte 1, entry 1 is a sprite with data
and palette index 1, yet sprite 2 ends with palette index 0, that of sprite 0:
entry 1 is in group 9000 with number 1, so `prev` did not move to it. -/
theorem v1_reuse_not_preceding :
    (Load noPng SffFile.init Gpu.empty sampleV1Prev).2.2 = .ok () ∧
    (Load noPng SffFile.init Gpu.empty sampleV1Prev).1.header_.Ver0 = 1 ∧
    (entryState noPng sampleV1Prev 0 0
      (loopStart SffFile.init (ReadHeader SffFile.init.header_ (fopen sampleV1Prev)).1
        SffFile.init.palettes_ Gpu.empty) 2).shofs = 1892 ∧
    le32At sampleV1Prev (1892 + 4) = 129 ∧ byteAt sampleV1Prev (1892 + 18) = 1 ∧
    le32At sampleV1Prev (960 + 4) = 900 ∧
    (Load noPng SffFile.init Gpu.empty sampleV1Prev).1.sprites_.map (fun s => s.palidx)
      = [0, 1, 0] ∧
    ((Load noPng SffFile.init Gpu.empty sampleV1Prev).1.sprites_.getD 2 Sprite.init).palidx
      ≠ ((Load noPng SffFile.init Gpu.empty sampleV1Prev).1.sprites_.getD 1 Sprite.init).palidx := by
  decide

set_option maxRecDepth 100000 in
/-- On `sampleV1Prev`, `prev` points to entry 0 when the loop reaches entry 2,
and sprite 2 ends with the palette index of sprite 0. -/
theorem v1_reuse_palette_witness :
    prevAt noPng sampleV1Prev 0 0
      (loopStart SffFile.init (ReadHeader SffFile.init.header_ (fopen sampleV1Prev)).1
        SffFile.init.palettes_ Gpu.empty) 2 = some 0 ∧
    ∃ s sk, (Load noPng SffFile.init Gpu.empty sampleV1Prev).1.sprites_[2]? = some s ∧
      (Load noPng SffFile.init Gpu.empty sampleV1Prev).1.sprites_[0]? = some sk ∧
      s.palidx = sk.palidx :=
  ⟨by decide,
   ((v1_reuse_palette noPng SffFile.init Gpu.empty sampleV1Prev (by decide) (by decide) 2
      (by decide) (by decide) (by decide)).1 0 (by decide)).2.2⟩

/-! ## The chain of variant-1 directory entries (C31) -/

theorem ReadPcxHeader_inv (sprite s1 : Sprite) (f f2 : FILE) (offset : Nat)
    (h : ReadPcxHeader sprite f offset = (s1, .ok f2)) :
    f2.data = f.data ∧ s1.rle = -1 ∧ s1.coldepth = sprite.coldepth ∧ s1.Group = sprite.Group ∧
    s1.Number = sprite.Number ∧ s1.Offset0 = sprite.Offset0 ∧ s1.Offset1 = sprite.Offset1 := by
  unfold ReadPcxHeader at h
  simp only [] at h
  split at h
  · simp at h
  rename_i heq
  obtain ⟨_, rfl, rfl⟩ := ReadU16LE_some heq
  clear heq
  split at h
  · simp at h
  rename_i heq
  obtain ⟨_, rfl, rfl⟩ := readU8_some heq
  clear heq
  split at h
  · simp at h
  rename_i heq
  obtain ⟨_, rfl, rfl⟩ := readU8_some heq
  clear heq
  split at h
  · simp at h
  iterate 4
    split at h
    · simp at h
    rename_i heq
    obtain ⟨_, rfl, rfl⟩ := ReadU16LE_some heq
    clear heq
  split at h
  · simp at h
  rename_i heq
  obtain ⟨_, rfl, rfl⟩ := ReadU16LE_some heq
  clear heq
  simp only [Prod.mk.injEq, Res.ok.injEq] at h
  obtain ⟨rfl, rfl⟩ := h
  exact ⟨rfl, rfl, rfl, rfl, rfl, rfl, rfl⟩

set_option maxRecDepth 8000 in
theorem ReadSpriteDataV1_fields (sprite s'' : Sprite) (palettes pals' : List Palette) (g g' : Gpu)
    (f : FILE) (offset datasize nextSubheader : Nat) (prev : Option Sprite) (px : List Nat)
    (h : ReadSpriteDataV1 sprite palettes g f offset datasize nextSubheader prev true
      = (s'', pals', g', .ok px)) :
    s''.rle = -1 ∧ s''.coldepth = sprite.coldepth ∧ s''.Group = sprite.Group ∧
    s''.Number = sprite.Number ∧ s''.Offset0 = sprite.Offset0 ∧ s''.Offset1 = sprite.Offset1 := by
  unfold ReadSpriteDataV1 at h
  generalize (if nextSubheader > offset then (nextSubheader - offset) % 2 ^ 32 else datasize)
    = ds at h
  simp only [] at h
  split at h
  · simp at h
  rename_i ps f1 heq
  clear heq
  simp only [Bool.true_or, if_true, Bool.true_and, decide_eq_true_eq] at h
  generalize (if ds < 128 + 0 then 128 + 0 else ds) = ds2 at h
  split at h
  · simp at h
  rename_i s1 f2 hpcx
  obtain ⟨_, k1, k2, k3, k4, k5, k6⟩ := ReadPcxHeader_inv _ _ _ _ _ hpcx
  split at h
  · simp at h
  split at h
  · split at h
    · simp at h
    · simp only [Prod.mk.injEq] at h
      obtain ⟨hs, _⟩ := h
      subst hs
      cases prev <;> exact ⟨k1, k2, k3, k4, k5, k6⟩
  · split at h
    · simp at h
    split at h
    · simp at h
    · simp only [Prod.mk.injEq] at h
      obtain ⟨hs, _⟩ := h
      subst hs
      exact ⟨k1, k2, k3, k4, k5, k6⟩

theorem spriteStep_v1_chain (lodepng : Int → List Nat → Option (Nat × Nat × List Nat))
    (data : List Nat) (lofs tofs i : Nat) (st st' : LoadState)
    (hv : st.sff.header_.Ver0 = 1) (hi : i < st.sff.sprites_.length)
    (h : spriteStep lodepng data lofs tofs i st = (st', none)) :
    st.shofs + 18 ≤ data.length ∧ st'.shofs = le32At data st.shofs ∧
    (le32At data (st.shofs + 4) ≠ 0 →
      ∃ s, st'.sff.sprites_[i]? = some s ∧ s.rle = -1 ∧ s.coldepth = 8 ∧
        s.Group = le16At data (st.shofs + 12) ∧ s.Number = le16At data (st.shofs + 14) ∧
        s.Offset0 = toI16 (le16At data (st.shofs + 8)) ∧
        s.Offset1 = toI16 (le16At data (st.shofs + 10))) ∧
    ((∀ k, k < i → ∃ s, st.sff.sprites_[k]? = some s ∧ s.rle = -1 ∧ s.coldepth = 8) →
      ∃ s, st'.sff.sprites_[i]? = some s ∧ s.rle = -1 ∧ s.coldepth = 8) := by
  have hv' : st.sff.header_.Ver0 = 1 ∨ st.sff.header_.Ver0 = 2 := Or.inl hv
  rcases hd : readEntry st.sff.header_.Ver0 (st.sff.sprites_.getD i Sprite.init)
    (fseek (fopen data) st.shofs) lofs tofs with ⟨s', r⟩
  cases r with
  | err e =>
    rw [spriteStep_entry_err _ _ _ _ _ _ _ _ hv' hd] at h
    simp at h
  | ok a =>
    obtain ⟨xofs, size, link, f'⟩ := a
    have hd' := hd
    unfold readEntry at hd'
    rw [if_pos hv] at hd'
    simp only [fseek, fopen] at hd'
    have hl := ReadSpriteHeaderV1_inv _ _ _ _ hd'
    simp only [] at hl
    rw [ReadSpriteHeaderV1_ok _ _ _ hl] at hd'
    simp only [Prod.mk.injEq, Res.ok.injEq] at hd'
    obtain ⟨hs', hxofs, hsz, hlink, hf'⟩ := hd'
    refine ⟨hl, ?_, ?_⟩
    · by_cases hz : size = 0
      · subst hz
        rw [spriteStep_link _ _ _ _ _ _ _ _ _ _ hv' hd] at h
        simp only [Prod.mk.injEq, and_true] at h
        rw [← h]
        simp only [nextEntry, hv, if_true]
        exact hxofs.symm
      · rcases hr : readData lodepng st.sff.header_.Ver0 s' st.sff.palettes_ st.gpu f' st.shofs
          size xofs (st.prev.map (fun k => (st.sff.sprites_.set i s').getD k Sprite.init))
          with ⟨s'', pals2, gp2, res⟩
        cases res with
        | err e =>
          rw [spriteStep_data_err _ _ _ _ _ _ _ _ _ _ _ hv' hd hz _ _ _ _ hr] at h
          simp at h
        | ok px =>
          rw [spriteStep_data _ _ _ _ _ _ _ _ _ _ _ hv' hd hz _ _ _ _ hr] at h
          simp only [Prod.mk.injEq, and_true] at h
          rw [← h]
          simp only [nextEntry, hv, if_true]
          exact hxofs.symm
    · by_cases hz : size = 0
      · subst hz
        rw [spriteStep_link _ _ _ _ _ _ _ _ _ _ hv' hd] at h
        simp only [Prod.mk.injEq, and_true] at h
        refine ⟨fun hc => absurd hsz hc, fun hinv => ?_⟩
        rw [← h]
        simp only [linkSprite_sprites, setSprite_sprites]
        rw [List.getElem?_set_self (by simp; omega)]
        refine ⟨_, rfl, ?_⟩
        have hgi : (st.sff.sprites_.set i s').getD i Sprite.init = s' := by
          simp only [List.getD_eq_getElem?_getD]
          rw [List.getElem?_set_self (by omega)]
          rfl
        by_cases hk : link < i
        · rw [if_pos hk]
          obtain ⟨sk, hsk, e1, e2⟩ := hinv link hk
          have hgk : (st.sff.sprites_.set i s').getD link Sprite.init = sk := by
            simp only [List.getD_eq_getElem?_getD]
            rw [List.getElem?_set_ne (by omega), hsk]
            rfl
          rw [hgk]
          exact ⟨e1, e2⟩
        · rw [if_neg hk, hgi, ← hs']
          exact ⟨rfl, rfl⟩
      · rcases hr : readData lodepng st.sff.header_.Ver0 s' st.sff.palettes_ st.gpu f' st.shofs
          size xofs (st.prev.map (fun k => (st.sff.sprites_.set i s').getD k Sprite.init))
          with ⟨s'', pals2, gp2, res⟩
        cases res with
        | err e =>
          rw [spriteStep_data_err _ _ _ _ _ _ _ _ _ _ _ hv' hd hz _ _ _ _ hr] at h
          simp at h
        | ok px =>
          rw [spriteStep_data _ _ _ _ _ _ _ _ _ _ _ hv' hd hz _ _ _ _ hr] at h
          simp only [Prod.mk.injEq, and_true] at h
          unfold readData at hr
          rw [if_pos hv] at hr
          obtain ⟨r1, r2, r3, r4, r5, r6⟩ := ReadSpriteDataV1_fields _ _ _ _ _ _ _ _ _ _ _ _ hr
          have hsp' : st'.sff.sprites_[i]? = some
              { s'' with texture :=
                  ⟨gp2.slots.length + 1, s''.Size0, s''.Size1, 1, uploadFormat s''⟩ } := by
            rw [← h]
            simp only [storeSprite_sprites, setSprite_sprites]
            rw [List.getElem?_set_self (by simp; omega)]
            simp only [List.getD_eq_getElem?_getD]
            rw [List.getElem?_set_self (by simp; omega)]
            simp only [Option.getD_some]
          have hall : s''.rle = -1 ∧ s''.coldepth = 8 ∧
              s''.Group = le16At data (st.shofs + 12) ∧ s''.Number = le16At data (st.shofs + 14) ∧
              s''.Offset0 = toI16 (le16At data (st.shofs + 8)) ∧
              s''.Offset1 = toI16 (le16At data (st.shofs + 10)) := by
            rw [r2, r3, r4, r5, r6, ← hs']
            exact ⟨r1, rfl, rfl, rfl, rfl, rfl⟩
          exact ⟨fun _ => ⟨_, hsp', hall⟩, fun _ => ⟨_, hsp', hall.1, hall.2.1⟩⟩

theorem spriteLoop_v1_tags (lodepng : Int → List Nat → Option (Nat × Nat × List Nat))
    (data : List Nat) (lofs tofs : Nat) (st0 : LoadState) (hv : st0.sff.header_.Ver0 = 1)
    (m : Nat) :
    ∀ st, m ≤ st0.sff.sprites_.length →
      spriteLoop lodepng data lofs tofs m 0 st0 = (st, none) →
      ∀ k, k < m → ∃ s, st.sff.sprites_[k]? = some s ∧ s.rle = -1 ∧ s.coldepth = 8 := by
  induction m with
  | zero =>
    intro st _ _ k hk
    exact absurd hk (by omega)
  | succ m ih =>
    intro st hm h
    obtain ⟨stm, e1, e2⟩ := spriteLoop_none_split _ _ _ _ _ _ _ _ _ h
    rw [spriteLoop_one, Nat.zero_add] at e2
    have ih1 := ih stm (by omega) e1
    have hfr := spriteLoop_frame lodepng data lofs tofs m 0 st0
    rw [e1] at hfr
    simp only [] at hfr
    obtain ⟨_, _, _, s4⟩ := spriteStep_v1_chain lodepng data lofs tofs m stm st
      (by rw [hfr.1]; exact hv) (by rw [hfr.2.1]; omega) e2
    have hsf := (spriteStep_frame lodepng data lofs tofs m stm).2.2.1
    rw [e2] at hsf
    simp only [] at hsf
    intro k hk
    by_cases hkm : k = m
    · subst hkm
      exact s4 ih1
    · rw [hsf k hkm]
      exact ih1 k (by omega)

/-- C31: in a successful variant-1 load, the header of entry 0 is read at
`FirstSpriteHeaderOffset`, and the header of entry `i + 1` at the offset held
in the first 32-bit field of the header of entry `i`, for linked entries and
entries with data alike.  Every entry's header lies in the file at that
offset; every sprite ends with compression tag -1 and colour depth 8, and a
sprite with data carries the group, number and anchor fields found at that
offset.  `ReadSpriteHeaderV1` itself always leaves tag -1 and depth 8. -/
theorem v1_entry_chain (lodepng : Int → List Nat → Option (Nat × Nat × List Nat)) (c : SffFile)
    (g : Gpu) (data : List Nat) (h : (Load lodepng c g data).2.2 = .ok ())
    (hv : (Load lodepng c g data).1.header_.Ver0 = 1) :
    (entryState lodepng data 0 0
      (loopStart c (ReadHeader c.header_ (fopen data)).1 c.palettes_ g) 0).shofs
      = (Load lodepng c g data).1.header_.FirstSpriteHeaderOffset ∧
    (∀ i, i + 1 < (Load lodepng c g data).1.header_.NumberOfSprites →
      (entryState lodepng data 0 0
        (loopStart c (ReadHeader c.header_ (fopen data)).1 c.palettes_ g) (i + 1)).shofs
        = le32At data (entryState lodepng data 0 0
            (loopStart c (ReadHeader c.header_ (fopen data)).1 c.palettes_ g) i).shofs) ∧
    (∀ i, i < (Load lodepng c g data).1.header_.NumberOfSprites →
      (entryState lodepng data 0 0
        (loopStart c (ReadHeader c.header_ (fopen data)).1 c.palettes_ g) i).shofs + 18
        ≤ data.length ∧
      ∃ s, (Load lodepng c g data).1.sprites_[i]? = some s ∧ s.rle = -1 ∧ s.coldepth = 8 ∧
        (le32At data ((entryState lodepng data 0 0
            (loopStart c (ReadHeader c.header_ (fopen data)).1 c.palettes_ g) i).shofs + 4) ≠ 0 →
          s.Group = le16At data ((entryState lodepng data 0 0
            (loopStart c (ReadHeader c.header_ (fopen data)).1 c.palettes_ g) i).shofs + 12) ∧
          s.Number = le16At data ((entryState lodepng data 0 0
            (loopStart c (ReadHeader c.header_ (fopen data)).1 c.palettes_ g) i).shofs + 14) ∧
          s.Offset0 = toI16 (le16At data ((entryState lodepng data 0 0
            (loopStart c (ReadHeader c.header_ (fopen data)).1 c.palettes_ g) i).shofs + 8)) ∧
          s.Offset1 = toI16 (le16At data ((entryState lodepng data 0 0
            (loopStart c (ReadHeader c.header_ (fopen data)).1 c.palettes_ g) i).shofs + 10)))) ∧
    (∀ (s s' : Sprite) (f : FILE) (r : Nat × Nat × Nat × FILE),
      ReadSpriteHeaderV1 s f = (s', .ok r) → s'.rle = -1 ∧ s'.coldepth = 8) := by
  have key : ∀ i, i < (Load lodepng c g data).1.header_.NumberOfSprites →
      (Load lodepng c g data).1.header_.FirstSpriteHeaderOffset
        = (loopStart c (ReadHeader c.header_ (fopen data)).1 c.palettes_ g).shofs ∧
      (entryState lodepng data 0 0
        (loopStart c (ReadHeader c.header_ (fopen data)).1 c.palettes_ g) (i + 1)).shofs
        = le32At data (entryState lodepng data 0 0
            (loopStart c (ReadHeader c.header_ (fopen data)).1 c.palettes_ g) i).shofs ∧
      (entryState lodepng data 0 0
        (loopStart c (ReadHeader c.header_ (fopen data)).1 c.palettes_ g) i).shofs + 18
        ≤ data.length ∧
      ∃ s, (Load lodepng c g data).1.sprites_[i]? = some s ∧ s.rle = -1 ∧ s.coldepth = 8 ∧
        (le32At data ((entryState lodepng data 0 0
            (loopStart c (ReadHeader c.header_ (fopen data)).1 c.palettes_ g) i).shofs + 4) ≠ 0 →
          s.Group = le16At data ((entryState lodepng data 0 0
            (loopStart c (ReadHeader c.header_ (fopen data)).1 c.palettes_ g) i).shofs + 12) ∧
          s.Number = le16At data ((entryState lodepng data 0 0
            (loopStart c (ReadHeader c.header_ (fopen data)).1 c.palettes_ g) i).shofs + 14) ∧
          s.Offset0 = toI16 (le16At data ((entryState lodepng data 0 0
            (loopStart c (ReadHeader c.header_ (fopen data)).1 c.palettes_ g) i).shofs + 8)) ∧
          s.Offset1 = toI16 (le16At data ((entryState lodepng data 0 0
            (loopStart c (ReadHeader c.header_ (fopen data)).1 c.palettes_ g) i).shofs + 10))) := by
    intro i hi
    obtain ⟨hdr, lofs, tofs, f, pals, gp, st, st1, stF, h1, h2, e1, e2, e3, hh, hiN, hlen, _, hsp,
      _, hver, _⟩ := Load_ok_at lodepng c g data h i hi
    rw [hv] at hver
    obtain ⟨rfl, rfl, rfl, hg⟩ := Load_v1_start c g data hdr lofs tofs f pals gp h1 hver.symm h2
    have hg' := hg.symm
    subst hg'
    have hst0 : (ReadHeader c.header_ (fopen data)).1 = hdr := by rw [h1]
    rw [hst0]
    have hstate : entryState lodepng data 0 0 (loopStart c hdr c.palettes_ g) i = st := by
      unfold entryState
      rw [e1]
    have hstate1 : entryState lodepng data 0 0 (loopStart c hdr c.palettes_ g) (i + 1) = st1 := by
      unfold entryState
      rw [spriteLoop_split, e1]
      simp only [Nat.zero_add]
      rw [spriteLoop_one, e2]
    rw [hstate, hstate1]
    have hv1 : st.sff.header_.Ver0 = 1 := by rw [hh]; exact hver.symm
    obtain ⟨c1, c2, c3, c4⟩ := spriteStep_v1_chain lodepng data 0 0 i st st1 hv1 (by omega) e2
    have htags := spriteLoop_v1_tags lodepng data 0 0 (loopStart c hdr c.palettes_ g) hver.symm i st
      (by simp only [loopStart, List.length_replicate]; omega) e1
    have hfr := spriteLoop_frame lodepng data 0 0 (hdr.NumberOfSprites - (i + 1)) (i + 1) st1
    rw [e3] at hfr
    simp only [] at hfr
    have hfin : stF.sff.sprites_[i]? = st1.sff.sprites_[i]? := hfr.2.2.1 i (by omega)
    have hfso : (Load lodepng c g data).1.header_.FirstSpriteHeaderOffset
        = hdr.FirstSpriteHeaderOffset := by
      obtain ⟨hdr2, lofs2, tofs2, f2, pals2, gp2, stF2, k1, k2, k3, k4, k5⟩ :=
        Load_ok lodepng c g data h
      rw [h1] at k1
      simp only [Prod.mk.injEq, Option.some.injEq] at k1
      obtain ⟨rfl, _⟩ := k1
      have hfr2 := spriteLoop_frame lodepng data lofs2 tofs2 hdr.NumberOfSprites 0
        (loopStart c hdr pals2 gp2)
      rw [k3] at hfr2
      simp only [] at hfr2
      rw [k4]
      split_ifs <;> simp [hfr2.1, loopStart]
    refine ⟨hfso, c2, c1, ?_⟩
    obtain ⟨s, hs1, hs2, hs3⟩ := c4 htags
    refine ⟨s, by rw [hsp, hfin]; exact hs1, hs2, hs3, fun hsz => ?_⟩
    obtain ⟨s2, ht1, _, _, t4, t5, t6, t7⟩ := c3 hsz
    rw [hs1] at ht1
    simp only [Option.some.injEq] at ht1
    subst ht1
    exact ⟨t4, t5, t6, t7⟩
  refine ⟨?_, fun i hi => (key i (by omega)).2.1, fun i hi => (key i hi).2.2, ?_⟩
  · by_cases hN : 0 < (Load lodepng c g data).1.header_.NumberOfSprites
    · rw [(key 0 hN).1]
      rfl
    · obtain ⟨hdr, lofs, tofs, f, pals, gp, stF, k1, k2, k3, k4, k5⟩ := Load_ok lodepng c g data h
      have hfr2 := spriteLoop_frame lodepng data lofs tofs hdr.NumberOfSprites 0
        (loopStart c hdr pals gp)
      rw [k3] at hfr2
      simp only [] at hfr2
      have hst0 : (ReadHeader c.header_ (fopen data)).1 = hdr := by rw [k1]
      rw [hst0, k4]
      split_ifs <;> simp [hfr2.1, loopStart, entryState, spriteLoop]
  · intro s s' f r hr
    have hl := ReadSpriteHeaderV1_inv _ _ _ _ hr
    have hf : f = ⟨f.data, f.pos⟩ := rfl
    rw [hf, ReadSpriteHeaderV1_ok _ _ _ hl] at hr
    simp only [Prod.mk.injEq] at hr
    rw [← hr.1]
    exact ⟨rfl, rfl⟩

set_option maxRecDepth 100000 in
/-- On `sampleV1Link` the three headers are read at 28, 960 and 1000: the
offset after the linked entry 1 comes from its first field; sprite 2 carries
the fields of the header at offset 1000. -/
theorem v1_entry_chain_witness :
    ((entryState noPng sampleV1Link 0 0
      (loopStart SffFile.init (ReadHeader SffFile.init.header_ (fopen sampleV1Link)).1
        SffFile.init.palettes_ Gpu.empty) 0).shofs = 28 ∧
     (entryState noPng sampleV1Link 0 0
      (loopStart SffFile.init (ReadHeader SffFile.init.header_ (fopen sampleV1Link)).1
        SffFile.init.palettes_ Gpu.empty) 1).shofs = 960 ∧
     (entryState noPng sampleV1Link 0 0
      (loopStart SffFile.init (ReadHeader SffFile.init.header_ (fopen sampleV1Link)).1
        SffFile.init.palettes_ Gpu.empty) 2).shofs = 1000) ∧
    le32At sampleV1Link (960 + 4) = 0 ∧
    ∃ s, (Load noPng SffFile.init Gpu.empty sampleV1Link).1.sprites_[2]? = some s ∧
      s.rle = -1 ∧ s.coldepth = 8 ∧ s.Group = 5 ∧ s.Number = 2 ∧ s.Offset0 = 3 ∧ s.Offset1 = -1 := by
  obtain ⟨a, b, c, _⟩ := v1_entry_chain noPng SffFile.init Gpu.empty sampleV1Link (by decide)
    (by decide)
  have b0 := b 0 (by decide)
  have b1 := b 1 (by decide)
  have e0 : (entryState noPng sampleV1Link 0 0
      (loopStart SffFile.init (ReadHeader SffFile.init.header_ (fopen sampleV1Link)).1
        SffFile.init.palettes_ Gpu.empty) 0).shofs = 28 := a.trans (by decide)
  have e1 : (entryState noPng sampleV1Link 0 0
      (loopStart SffFile.init (ReadHeader SffFile.init.header_ (fopen sampleV1Link)).1
        SffFile.init.palettes_ Gpu.empty) 1).shofs = 960 := by
    rw [b0, e0]
    decide
  have e2 : (entryState noPng sampleV1Link 0 0
      (loopStart SffFile.init (ReadHeader SffFile.init.header_ (fopen sampleV1Link)).1
        SffFile.init.palettes_ Gpu.empty) 2).shofs = 1000 := by
    rw [b1, e1]
    decide
  obtain ⟨_, s, hs, h1, h2, h3⟩ := c 2 (by decide)
  rw [e2] at h3
  obtain ⟨g1, g2, g3, g4⟩ := h3 (by decide)
  exact ⟨⟨e0, e1, e2⟩, by decide, s, hs, h1, h2, g1.trans (by decide), g2.trans (by decide),
    g3.trans (by decide), g4.trans (by decide)⟩

/-! ## The PCX sub-header (C32) -/

/-- C32: given at least 68 bytes in the file from `offset` on, `ReadPcxHeader`
fails exactly when the byte at `offset + 3` (bits per pixel) is not 8; when it
succeeds it sets the width to `(xmax - xmin + 1) mod 2^16` and the height to
`(ymax - ymin + 1) mod 2^16`, with `xmin`, `ymin`, `xmax`, `ymax` the
little-endian 16-bit fields at `offset + 4`, `+ 6`, `+ 8`, `+ 10`, sets the
compression tag to -1, leaves the other fields, and leaves the stream after
the bytes-per-line field at `offset + 68`. -/
theorem ReadPcxHeader_spec (sprite : Sprite) (data : List Nat) (p offset : Nat)
    (h : offset + 68 ≤ data.length) :
    ((∃ e, (ReadPcxHeader sprite ⟨data, p⟩ offset).2 = .err e) ↔ byteAt data (offset + 3) ≠ 8) ∧
    (byteAt data (offset + 3) ≠ 8 →
      ReadPcxHeader sprite ⟨data, p⟩ offset = (sprite, .err .fail)) ∧
    (byteAt data (offset + 3) = 8 →
      ∃ w ht : Nat,
        ReadPcxHeader sprite ⟨data, p⟩ offset
          = ({ sprite with Size0 := w, Size1 := ht, rle := -1 }, .ok ⟨data, offset + 68⟩) ∧
        (w : Int) = ((le16At data (offset + 8) : Int) - le16At data (offset + 4) + 1) % 2 ^ 16 ∧
        (ht : Int) = ((le16At data (offset + 10) : Int) - le16At data (offset + 6) + 1) % 2 ^ 16) := by
  have hform : ReadPcxHeader sprite ⟨data, p⟩ offset =
      if byteAt data (offset + 3) ≠ 8 then (sprite, .err .fail) else
        ({ sprite with
            Size0 := (le16At data (offset + 8) + 65536 - le16At data (offset + 4) + 1) % 65536
            Size1 := (le16At data (offset + 10) + 65536 - le16At data (offset + 6) + 1) % 65536
            rle := -1 }, .ok ⟨data, offset + 68⟩) := by
    unfold ReadPcxHeader
    simp (disch := omega) [fseek, ReadU16LE_ok, readU8_ok]
  have hlt : ∀ q, le16At data q < 65536 := by
    intro q
    unfold le16At le16
    exact Nat.mod_lt _ (by decide)
  have hmod : ∀ a b : Nat, a < 65536 → b < 65536 →
      (((a + 65536 - b + 1) % 65536 : Nat) : Int) = ((a : Int) - b + 1) % 2 ^ 16 := by
    intro a b ha hb
    omega
  refine ⟨?_, ?_, ?_⟩
  · rw [hform]
    by_cases hb : byteAt data (offset + 3) = 8
    · simp [hb]
    · simp [hb]
  · intro hb
    rw [hform, if_pos hb]
  · intro hb
    rw [hform, if_neg (by simp [hb])]
    exact ⟨_, _, rfl, hmod _ _ (hlt _) (hlt _), hmod _ _ (hlt _) (hlt _)⟩

/-- On `samplePcxHeader` the width is 5 - 2 + 1 = 4 and the height is 7 - 1 + 1 = 7. -/
theorem ReadPcxHeader_spec_witness :
    0 + 68 ≤ samplePcxHeader.length ∧ byteAt samplePcxHeader (0 + 3) = 8 ∧
    ReadPcxHeader Sprite.init ⟨samplePcxHeader, 0⟩ 0
      = ({ Sprite.init with Size0 := 4, Size1 := 7, rle := -1 }, .ok ⟨samplePcxHeader, 68⟩) := by
  obtain ⟨w, ht, e, hw, hh⟩ :=
    (ReadPcxHeader_spec Sprite.init samplePcxHeader 0 0 (by decide)).2.2 (by decide)
  refine ⟨by decide, by decide, ?_⟩
  have e1 : le16At samplePcxHeader (0 + 8) = 5 := by decide
  have e2 : le16At samplePcxHeader (0 + 4) = 2 := by decide
  have e3 : le16At samplePcxHeader (0 + 10) = 7 := by decide
  have e4 : le16At samplePcxHeader (0 + 6) = 1 := by decide
  rw [e1, e2] at hw
  rw [e3, e4] at hh
  have hw' : w = 4 := by omega
  have hh' : ht = 7 := by omega
  rw [e, hw', hh']

/-! ## Colour order of the legacy palette texture (C33) -/

theorem rgbsOf_getD (k : Nat) : ∀ (t : List Nat), 3 * k + 2 < t.length →
    (rgbsOf t).getD k ⟨0, 0, 0⟩ = ⟨t.getD (3 * k) 0, t.getD (3 * k + 1) 0, t.getD (3 * k + 2) 0⟩ := by
  induction k with
  | zero =>
    intro t ht
    match t, ht with
    | r :: g :: b :: rest, _ => simp [rgbsOf]
  | succ k ih =>
    intro t ht
    match t, ht with
    | r :: g :: b :: rest, ht =>
      simp only [List.length_cons] at ht
      have e := ih rest (by omega)
      simp only [rgbsOf, List.getD_cons_succ]
      rw [e]
      have e1 : 3 * (k + 1) = 3 * k + 1 + 1 + 1 := by omega
      rw [e1]
      simp only [List.getD_cons_succ]

theorem getD_drop_take (data : List Nat) (q n j : Nat) (hj : j < n) :
    ((data.drop q).take n).getD j 0 = byteAt data (q + j) := by
  unfold byteAt
  simp only [List.getD_eq_getElem?_getD, List.getElem?_take, List.getElem?_drop, hj, if_true]

set_option maxRecDepth 8000 in
theorem ReadSpriteDataV1_own (sprite s'' : Sprite) (palettes pals' : List Palette) (g g' : Gpu)
    (data : List Nat) (p offset datasize nextSubheader : Nat) (prev : Option Sprite)
    (px : List Nat)
    (h : ReadSpriteDataV1 sprite palettes g ⟨data, p⟩ offset datasize nextSubheader prev true
      = (s'', pals', g', .ok px))
    (hns : ¬(byteAt data p ≠ 0 ∧ prev.isSome = true)) :
    768 ≤ offset + v1DataSize offset datasize nextSubheader ∧
    offset + v1DataSize offset datasize nextSubheader ≤ data.length ∧
    pals' = palettes ++ [⟨(GeneratePaletteTextureRGB g (rgbsOf
      ((data.drop (v1PalOfs offset datasize nextSubheader)).take 768))).2⟩] ∧
    g' = (GeneratePaletteTextureRGB g (rgbsOf
      ((data.drop (v1PalOfs offset datasize nextSubheader)).take 768))).1 := by
  unfold ReadSpriteDataV1 at h
  unfold v1PalOfs v1DataSize
  generalize (if nextSubheader > offset then (nextSubheader - offset) % 2 ^ 32 else datasize)
    = ds at h ⊢
  simp only [] at h
  split at h
  · simp at h
  rename_i ps f1 heq
  obtain ⟨_, rfl, rfl⟩ := readU8_some heq
  clear heq
  simp only [Bool.true_or, if_true, Bool.true_and, decide_eq_true_eq] at h
  generalize (if ds < 128 + 0 then 128 + 0 else ds) = ds2 at h ⊢
  split at h
  · simp at h
  rename_i s1 f2 hpcx
  have hdata : f2.data = data := (ReadPcxHeader_inv _ _ _ _ _ hpcx).1
  split at h
  · simp at h
  rename_i src f3 hsrc
  rw [fread1_eq] at hsrc
  split_ifs at hsrc with hc1
  simp only [fseek, Option.some.injEq, Prod.mk.injEq] at hsrc
  obtain ⟨_, hf3⟩ := hsrc
  have e : (decide (byteAt data p ≠ 0) && prev.isSome) = false := by
    simp only [Bool.and_eq_false_iff, decide_eq_false_iff_not]
    by_cases hb : byteAt data p ≠ 0
    · right
      simpa using fun h' => hns ⟨hb, h'⟩
    · left
      exact hb
  simp only [e, Bool.false_eq_true, if_false] at h
  split at h
  · simp at h
  rename_i hlow
  split at h
  · simp at h
  rename_i pal f4 hpal
  rw [freadN_eq _ _ _ (by decide)] at hpal
  split_ifs at hpal with hc2
  simp only [fseek, Option.some.injEq, Prod.mk.injEq] at hpal
  obtain ⟨hpal1, _⟩ := hpal
  rw [← hf3] at hpal1 hc2
  simp only [fseek, hdata] at hpal1 hc2
  simp only [Prod.mk.injEq] at h
  obtain ⟨_, hp, hg, _⟩ := h
  have hge : 768 ≤ offset + ds2 := by omega
  refine ⟨hge, by omega, ?_, ?_⟩
  · rw [← hp, ← hpal1]
  · rw [← hg, ← hpal1]

/-- C33: the legacy `GeneratePaletteTexture` stores a colour table in reversed
order: for every table and every `i` in 0..255, the R, G, B bytes of entry `i`
of the uploaded texture are those of entry `255 - i` of the table, and entry 0
(the colour of source entry 255) has alpha 0.  For the table `ReadSpriteDataV1`
reads from a legacy sprite block (the 768 bytes at `v1PalOfs`, when the sprite
does not reuse the previous palette): the call appends one palette whose
texture holds, in entry `i`, the three file bytes of colour `255 - i`. -/
theorem legacy_palette_reversed (sprite : Sprite) (palettes : List Palette) (g : Gpu)
    (data : List Nat) (p offset datasize nextSubheader : Nat) (prev : Option Sprite)
    (px : List Nat)
    (h : (ReadSpriteDataV1 sprite palettes g ⟨data, p⟩ offset datasize nextSubheader prev
      true).2.2.2 = .ok px)
    (hns : ¬(byteAt data p ≠ 0 ∧ prev.isSome = true)) :
    (∀ (g0 : Gpu) (pal_rgb : List RGB),
      (GeneratePaletteTextureRGB g0 pal_rgb).1.lookup (GeneratePaletteTextureRGB g0 pal_rgb).2.id
        = some ⟨palBytesRGB pal_rgb, 256, 1, PIXELFORMAT_UNCOMPRESSED_R8G8B8A8, 1⟩ ∧
      (palBytesRGB pal_rgb).getD 3 0 = 0 ∧
      ∀ i, i < 256 →
        (palBytesRGB pal_rgb).getD (4 * i) 0 = (pal_rgb.getD (255 - i) ⟨0, 0, 0⟩).r ∧
        (palBytesRGB pal_rgb).getD (4 * i + 1) 0 = (pal_rgb.getD (255 - i) ⟨0, 0, 0⟩).g ∧
        (palBytesRGB pal_rgb).getD (4 * i + 2) 0 = (pal_rgb.getD (255 - i) ⟨0, 0, 0⟩).b) ∧
    v1PalOfs offset datasize nextSubheader + 768 ≤ data.length ∧
    ∃ pal bytes,
      (ReadSpriteDataV1 sprite palettes g ⟨data, p⟩ offset datasize nextSubheader prev true).2.1
        = palettes ++ [pal] ∧
      (ReadSpriteDataV1 sprite palettes g ⟨data, p⟩ offset datasize nextSubheader prev
        true).2.2.1.lookup pal.texture.id
        = some ⟨bytes, 256, 1, PIXELFORMAT_UNCOMPRESSED_R8G8B8A8, 1⟩ ∧
      bytes.length = 1024 ∧
      ∀ i, i < 256 →
        bytes.getD (4 * i) 0
          = byteAt data (v1PalOfs offset datasize nextSubheader + 3 * (255 - i)) ∧
        bytes.getD (4 * i + 1) 0
          = byteAt data (v1PalOfs offset datasize nextSubheader + 3 * (255 - i) + 1) ∧
        bytes.getD (4 * i + 2) 0
          = byteAt data (v1PalOfs offset datasize nextSubheader + 3 * (255 - i) + 2) := by
  have hfun : ∀ (pal_rgb : List RGB) (i : Nat), i < 256 →
      (palBytesRGB pal_rgb).getD (4 * i) 0 = (pal_rgb.getD (255 - i) ⟨0, 0, 0⟩).r ∧
      (palBytesRGB pal_rgb).getD (4 * i + 1) 0 = (pal_rgb.getD (255 - i) ⟨0, 0, 0⟩).g ∧
      (palBytesRGB pal_rgb).getD (4 * i + 2) 0 = (pal_rgb.getD (255 - i) ⟨0, 0, 0⟩).b := by
    intro pal_rgb i hi
    have e0 := palBytesRGB_getD pal_rgb i 0 hi (by omega)
    have e1 := palBytesRGB_getD pal_rgb i 1 hi (by omega)
    have e2 := palBytesRGB_getD pal_rgb i 2 hi (by omega)
    simp only [Nat.add_zero, List.getD_cons_succ, List.getD_cons_zero] at e0 e1 e2
    exact ⟨e0, e1, e2⟩
  have hup : ∀ (g0 : Gpu) (pal_rgb : List RGB),
      (GeneratePaletteTextureRGB g0 pal_rgb).1.lookup (GeneratePaletteTextureRGB g0 pal_rgb).2.id
        = some ⟨palBytesRGB pal_rgb, 256, 1, PIXELFORMAT_UNCOMPRESSED_R8G8B8A8, 1⟩ := by
    intro g0 pal_rgb
    simp [GeneratePaletteTextureRGB, paletteTexture, rlLoadTexture, Gpu.lookup]
  refine ⟨fun g0 pal_rgb => ⟨hup g0 pal_rgb,
    palBytesRGB_getD pal_rgb 0 3 (by omega) (by omega), hfun pal_rgb⟩, ?_⟩
  rcases hr : ReadSpriteDataV1 sprite palettes g ⟨data, p⟩ offset datasize nextSubheader prev true
    with ⟨s'', pals', g', res⟩
  rw [hr] at h
  simp only [] at h
  subst h
  obtain ⟨h1, h2, h3, h4⟩ := ReadSpriteDataV1_own _ _ _ _ _ _ _ _ _ _ _ _ _ hr hns
  have hq : v1PalOfs offset datasize nextSubheader + 768 ≤ data.length := by
    unfold v1PalOfs
    omega
  refine ⟨hq, ⟨(GeneratePaletteTextureRGB g (rgbsOf
      ((data.drop (v1PalOfs offset datasize nextSubheader)).take 768))).2⟩,
    palBytesRGB (rgbsOf ((data.drop (v1PalOfs offset datasize nextSubheader)).take 768)),
    h3, ?_, palBytesRGB_length _, ?_⟩
  · rw [h4]
    exact hup g _
  · intro i hi
    have hlen : ((data.drop (v1PalOfs offset datasize nextSubheader)).take 768).length = 768 := by
      rw [List.length_take, List.length_drop]
      omega
    obtain ⟨a, b, c⟩ := hfun (rgbsOf ((data.drop (v1PalOfs offset datasize nextSubheader)).take 768))
      i hi
    rw [a, b, c, rgbsOf_getD (255 - i) _ (by omega)]
    simp only []
    rw [getD_drop_take _ _ _ _ (by omega), getD_drop_take _ _ _ _ (by omega),
      getD_drop_take _ _ _ _ (by omega)]
    simp only [Nat.add_assoc, and_self]

set_option maxRecDepth 100000 in
/-- On `sampleLegacyBlock` the table is at offset 164; entry 0 of the texture
holds the bytes 253, 254, 255 of colour 255, and entry 255 the bytes 0, 1, 2 of
colour 0. -/
theorem legacy_palette_reversed_witness :
    v1PalOfs 32 900 0 = 164 ∧
    ∃ pal bytes,
      (ReadSpriteDataV1 Sprite.init [] Gpu.empty ⟨sampleLegacyBlock, 18⟩ 32 900 0 none true).2.1
        = [] ++ [pal] ∧
      (ReadSpriteDataV1 Sprite.init [] Gpu.empty ⟨sampleLegacyBlock, 18⟩ 32 900 0 none
        true).2.2.1.lookup pal.texture.id
        = some ⟨bytes, 256, 1, PIXELFORMAT_UNCOMPRESSED_R8G8B8A8, 1⟩ ∧
      (bytes.getD (4 * 0) 0 = 253 ∧ bytes.getD (4 * 0 + 1) 0 = 254 ∧
        bytes.getD (4 * 0 + 2) 0 = 255) ∧
      (bytes.getD (4 * 255) 0 = 0 ∧ bytes.getD (4 * 255 + 1) 0 = 1 ∧
        bytes.getD (4 * 255 + 2) 0 = 2) := by
  obtain ⟨_, _, pal, bytes, h1, h2, _, h4⟩ :=
    legacy_palette_reversed Sprite.init [] Gpu.empty sampleLegacyBlock 18 32 900 0 none
      [1, 2, 3, 4] (by decide) (by simp)
  obtain ⟨a0, b0, c0⟩ := h4 0 (by decide)
  obtain ⟨a1, b1, c1⟩ := h4 255 (by decide)
  refine ⟨by decide, pal, bytes, h1, h2, ⟨?_, ?_, ?_⟩, ⟨?_, ?_, ?_⟩⟩
  · rw [a0]; decide
  · rw [b0]; decide
  · rw [c0]; decide
  · rw [a1]; decide
  · rw [b1]; decide
  · rw [c1]; decide

end Sff
